import Mathlib

/-!
# GlfSimpleShadowArray

A shallow embedding of `pxr/imaging/glf/simpleShadowArray.cpp` and the
properties of the shadow-map manager proved about it.

The manager is a record of its member variables.  Everything outside the
manager (the OpenGL context it talks to, the diagnostics channel, the debug
flags, the image writer) is gathered in a `World`; each member function is a
function from the manager and the world to the new manager and the new world.
GL unsigned handles and `size_t` indices are natural numbers, `int`
components are integers, and `double`/`float` values are exact rationals.

The definitions of all three embeddings come first: this one, the visibility
and purpose functions of `pxr/usd/usdGeom/imageable.cpp` (namespace
`UsdGeom`) and `UsdRiSplineAPI::Validate` of `pxr/usd/usdRi/splineAPI.cpp`
(namespace `UsdRi`).  The theorems follow in the same order.
-/

namespace Glf

/-! ## Value types -/

/-- The class `GfVec2i`: two `int` components. -/
structure GfVec2i where
  x : Int
  y : Int
deriving DecidableEq, Repr

/-- An array of four `GLint`, as used for a viewport rectangle. -/
structure GLint4 where
  v0 : Int
  v1 : Int
  v2 : Int
  v3 : Int
deriving DecidableEq, Repr

/-- Modelled from the spec: the class `GfVec3d` (pxr/base/gf/vec3d.h is not
among the sources), three components. -/
structure GfVec3d where
  x : ℚ
  y : ℚ
  z : ℚ
deriving DecidableEq

/-- Modelled from the spec: a homogeneous point `(x, y, z, w)`, the class
`GfVec4d` (pxr/base/gf/vec4d.h is not among the sources). -/
structure GfVec4d where
  x : ℚ
  y : ℚ
  z : ℚ
  w : ℚ
deriving DecidableEq

/-- Modelled from the spec: the class `GfMatrix4d` (pxr/base/gf/matrix4d.h is
not among the sources), a 4x4 transform; `m i j` is the entry of row `i` and
column `j`. -/
structure GfMatrix4d where
  m : Fin 4 → Fin 4 → ℚ

namespace GfMatrix4d

/-- Modelled from the spec: `GfMatrix4d(s)`, the diagonal matrix with `s` on
the diagonal; `GfMatrix4d(1.0)` is the identity. -/
def diagonal (s : ℚ) : GfMatrix4d :=
  ⟨fun i j => if i = j then s else 0⟩

/-- Modelled from the spec: `GfMatrix4d().SetIdentity()`. -/
def SetIdentity : GfMatrix4d := diagonal 1

/-- Modelled from the spec: `GfMatrix4d().SetScale(v)`, the matrix scaling the
three axes by the components of `v`. -/
def SetScale (v : GfVec3d) : GfMatrix4d :=
  ⟨fun i j =>
    if i = j then
      (if i = 0 then v.x else if i = 1 then v.y else if i = 2 then v.z else 1)
    else 0⟩

/-- Modelled from the spec: `GfMatrix4d().SetTranslate(v)`.  Points are row
vectors multiplied on the left (`p * M`), so the translation sits in the last
row. -/
def SetTranslate (v : GfVec3d) : GfMatrix4d :=
  ⟨fun i j =>
    if i = j then 1
    else if i = 3 then (if j = 0 then v.x else if j = 1 then v.y else v.z)
    else 0⟩

/-- Modelled from the spec: `operator*` of `GfMatrix4d`, the matrix product. -/
def mul (a b : GfMatrix4d) : GfMatrix4d :=
  ⟨fun i j => a.m i 0 * b.m 0 j + a.m i 1 * b.m 1 j + a.m i 2 * b.m 2 j + a.m i 3 * b.m 3 j⟩

instance : Mul GfMatrix4d := ⟨mul⟩

instance : DecidableEq GfMatrix4d := fun a b =>
  decidable_of_iff (a.m = b.m)
    ⟨fun h => by cases a; cases b; cases h; rfl, fun h => by rw [h]⟩

/-- Modelled from the spec: a row vector times a matrix, `p * M`. -/
def transform (p : GfVec4d) (a : GfMatrix4d) : GfVec4d :=
  ⟨p.x * a.m 0 0 + p.y * a.m 1 0 + p.z * a.m 2 0 + p.w * a.m 3 0,
   p.x * a.m 0 1 + p.y * a.m 1 1 + p.z * a.m 2 1 + p.w * a.m 3 1,
   p.x * a.m 0 2 + p.y * a.m 1 2 + p.z * a.m 2 2 + p.w * a.m 3 2,
   p.x * a.m 0 3 + p.y * a.m 1 3 + p.z * a.m 2 3 + p.w * a.m 3 3⟩

end GfMatrix4d

/-! ## The OpenGL context -/

/-- The OpenGL enumerants the manager passes to GL. -/
inductive GLenum where
  | GL_TEXTURE_MIN_FILTER
  | GL_TEXTURE_MAG_FILTER
  | GL_TEXTURE_WRAP_S
  | GL_TEXTURE_WRAP_T
  | GL_TEXTURE_BORDER_COLOR
  | GL_TEXTURE_COMPARE_MODE
  | GL_TEXTURE_COMPARE_FUNC
  | GL_LINEAR
  | GL_CLAMP_TO_BORDER
  | GL_COMPARE_REF_TO_TEXTURE
  | GL_LEQUAL
  | GL_TEXTURE_2D
  | GL_DEPTH_COMPONENT32F
  | GL_DEPTH_COMPONENT
  | GL_FLOAT
  | GL_FRAMEBUFFER
  | GL_DRAW_FRAMEBUFFER
  | GL_READ_FRAMEBUFFER
  | GL_DEPTH_ATTACHMENT
  | GL_DEPTH_BUFFER_BIT
  | GL_DEPTH_CLAMP
deriving DecidableEq, Repr

/-- A GL command as the manager issues it, with its arguments. -/
inductive GLCall where
  | glGenSamplers (sampler : Nat)
  | glSamplerParameteri (sampler : Nat) (pname : GLenum) (param : GLenum)
  | glSamplerParameterfv (sampler : Nat) (pname : GLenum) (params : List ℚ)
  | glGenTextures (texture : Nat)
  | glBindTexture (target : GLenum) (texture : Nat)
  | glTexImage2D (target : GLenum) (level : Int) (internalformat : GLenum)
      (width height : Int) (border : Int) (format type : GLenum)
  | glGenFramebuffers (framebuffer : Nat)
  | glDeleteTextures (texture : Nat)
  | glDeleteFramebuffers (framebuffer : Nat)
  | glDeleteSamplers (sampler : Nat)
  | glBindFramebuffer (target : GLenum) (framebuffer : Nat)
  | glFramebufferTexture (target attachment : GLenum) (texture : Nat) (level : Int)
  | glClear (mask : GLenum)
  | glViewport (x y width height : Int)
  | glDepthRange (n f : ℚ)
  | glEnable (cap : GLenum)
  | glDisable (cap : GLenum)
  | glReadPixels (x y width height : Int) (format type : GLenum)
deriving DecidableEq

/-- A command in the record of issued commands: the command and whether a
`GlfSharedGLContextScopeHolder` was alive when it was issued. -/
structure Issued where
  call : GLCall
  shared : Bool
deriving DecidableEq

/-- The part of the OpenGL state the manager reads or writes.  The caller's
own draw calls may change any of it between two calls of the manager. -/
structure GLState where
  /-- GL_DRAW_FRAMEBUFFER_BINDING -/
  drawFramebuffer : Nat
  /-- GL_READ_FRAMEBUFFER_BINDING -/
  readFramebuffer : Nat
  /-- GL_VIEWPORT -/
  viewport : GLint4
  /-- GL_DEPTH_RANGE -/
  depthRange : ℚ × ℚ
  /-- whether GL_DEPTH_CLAMP is enabled -/
  depthClamp : Bool
  /-- the depth attachment of each framebuffer object that has one,
  most recent first -/
  depthAttachment : List (Nat × Nat)
  /-- the number of object names handed out so far -/
  names : Nat
  /-- the depth values `glReadPixels` finds in the read framebuffer -/
  depthPixels : List ℚ
deriving DecidableEq

/-- A diagnostic posted through the `Tf` diagnostics or debug channel. -/
inductive Diag where
  | codingError (msg : String)
  | verifyFailed (cond : String)
  | codingWarning (msg : String)
  | debugMsg (msg : String)
  | createdShadowMapTexture (width height : Int) (id : Nat)
deriving DecidableEq

/-- The `HioImage::StorageSpec` handed to the image writer together with the
pixels behind `storage.data` and the file it was written to.  A pixel is
`none` when the float computed for it is not a finite number. -/
structure WrittenImage where
  file : String
  width : Int
  height : Int
  flipped : Bool
  data : List (Option ℚ)
deriving DecidableEq

/-- Everything outside the manager. -/
structure World where
  /-- the state of the current OpenGL context -/
  gl : GLState
  /-- the GL commands issued by the manager so far, oldest first -/
  calls : List Issued
  /-- the number of `GlfSharedGLContextScopeHolder`s alive -/
  sharedScope : Nat
  /-- the diagnostics posted so far, oldest first -/
  diagnostics : List Diag
  /-- the images written so far, oldest first -/
  images : List WrittenImage
  /-- the value of `TfDebug::IsEnabled(GLF_DEBUG_DUMP_SHADOW_TEXTURES)` -/
  dumpShadowTextures : Bool
  /-- the value of `TfDebug::IsEnabled(GLF_DEBUG_SHADOW_TEXTURES)` -/
  debugShadowTextures : Bool
  /-- the directory `ArchGetTmpDir()` -/
  tmpDir : String
  /-- whether `HioImage::Write` succeeds -/
  imageWriteOk : Bool
  /-- the exceptions that have left a member function of the manager so far,
  oldest first; a run goes on after one when the caller catches it -/
  exceptions : List String
deriving DecidableEq

/-! ## GL commands

Each command is appended to the record of issued commands and has its effect
on the tracked part of the context state. -/

/-- Record a command. -/
def issue (c : GLCall) (w : World) : World :=
  { w with calls := w.calls ++ [⟨c, decide (0 < w.sharedScope)⟩] }

/-- Post a diagnostic. -/
def post (d : Diag) (w : World) : World :=
  { w with diagnostics := w.diagnostics ++ [d] }

/-- An exception leaves the member function that is running. -/
def throwOut (what : String) (w : World) : World :=
  { w with exceptions := w.exceptions ++ [what] }

/-- Modelled from the spec: construction of a `GlfSharedGLContextScopeHolder`
(pxr/imaging/glf/glContext.h is not among the sources): the shared context
scope is entered. -/
def enterSharedScope (w : World) : World :=
  { w with sharedScope := w.sharedScope + 1 }

/-- Modelled from the spec: destruction of a `GlfSharedGLContextScopeHolder`:
the scope is exited and the context current before it is current again. -/
def exitSharedScope (w : World) : World :=
  { w with sharedScope := w.sharedScope - 1 }

/-- Modelled from the spec: the macro `TF_VERIFY(cond)` (pxr/base/tf/diagnostic.h
is not among the sources): it yields `cond` and reports a failed condition
through the diagnostics channel without aborting. -/
def TF_VERIFY (cond : Bool) (text : String) (w : World) : Bool × World :=
  if cond then (true, w) else (false, post (.verifyFailed text) w)

/-- A fresh object name.  OpenGL hands out names that are not zero and not
in use; the context counts the names it has handed out. -/
def genName (w : World) : Nat × World :=
  (w.gl.names + 1, { w with gl := { w.gl with names := w.gl.names + 1 } })

def glGenSamplers (w : World) : Nat × World :=
  let r := genName w
  (r.1, issue (.glGenSamplers r.1) r.2)

def glGenTextures (w : World) : Nat × World :=
  let r := genName w
  (r.1, issue (.glGenTextures r.1) r.2)

def glGenFramebuffers (w : World) : Nat × World :=
  let r := genName w
  (r.1, issue (.glGenFramebuffers r.1) r.2)

def glSamplerParameteri (sampler : Nat) (pname param : GLenum) (w : World) : World :=
  issue (.glSamplerParameteri sampler pname param) w

def glSamplerParameterfv (sampler : Nat) (pname : GLenum) (params : List ℚ)
    (w : World) : World :=
  issue (.glSamplerParameterfv sampler pname params) w

def glBindTexture (target : GLenum) (texture : Nat) (w : World) : World :=
  issue (.glBindTexture target texture) w

def glTexImage2D (target : GLenum) (level : Int) (internalformat : GLenum)
    (width height border : Int) (format type : GLenum) (w : World) : World :=
  issue (.glTexImage2D target level internalformat width height border format type) w

def glDeleteTextures (texture : Nat) (w : World) : World :=
  issue (.glDeleteTextures texture) w

def glDeleteFramebuffers (framebuffer : Nat) (w : World) : World :=
  issue (.glDeleteFramebuffers framebuffer) w

def glDeleteSamplers (sampler : Nat) (w : World) : World :=
  issue (.glDeleteSamplers sampler) w

/-- The command `glBindFramebuffer`: GL_FRAMEBUFFER sets both the draw and the
read binding. -/
def glBindFramebuffer (target : GLenum) (framebuffer : Nat) (w : World) : World :=
  let w := issue (.glBindFramebuffer target framebuffer) w
  match target with
  | .GL_FRAMEBUFFER =>
      { w with gl := { w.gl with drawFramebuffer := framebuffer,
                                 readFramebuffer := framebuffer } }
  | .GL_DRAW_FRAMEBUFFER => { w with gl := { w.gl with drawFramebuffer := framebuffer } }
  | .GL_READ_FRAMEBUFFER => { w with gl := { w.gl with readFramebuffer := framebuffer } }
  | _ => w

/-- The command `glFramebufferTexture` for the depth attachment: the texture
becomes the depth attachment of the framebuffer bound to the target
(GL_FRAMEBUFFER is the draw framebuffer). -/
def glFramebufferTexture (target attachment : GLenum) (texture : Nat) (level : Int)
    (w : World) : World :=
  let w := issue (.glFramebufferTexture target attachment texture level) w
  let fb := if target = .GL_READ_FRAMEBUFFER then w.gl.readFramebuffer
            else w.gl.drawFramebuffer
  if attachment = .GL_DEPTH_ATTACHMENT then
    { w with gl := { w.gl with depthAttachment := (fb, texture) :: w.gl.depthAttachment } }
  else w

def glClear (mask : GLenum) (w : World) : World :=
  issue (.glClear mask) w

def glViewport (x y width height : Int) (w : World) : World :=
  let w := issue (.glViewport x y width height) w
  { w with gl := { w.gl with viewport := ⟨x, y, width, height⟩ } }

def glDepthRange (n f : ℚ) (w : World) : World :=
  let w := issue (.glDepthRange n f) w
  { w with gl := { w.gl with depthRange := (n, f) } }

def glEnable (cap : GLenum) (w : World) : World :=
  let w := issue (.glEnable cap) w
  if cap = .GL_DEPTH_CLAMP then { w with gl := { w.gl with depthClamp := true } } else w

def glDisable (cap : GLenum) (w : World) : World :=
  let w := issue (.glDisable cap) w
  if cap = .GL_DEPTH_CLAMP then { w with gl := { w.gl with depthClamp := false } } else w

/-- The command `glReadPixels` of the depth component as floats: the values
of the first `count` pixels of the read framebuffer. -/
def glReadPixels (x y width height : Int) (count : Nat) (w : World) : List ℚ × World :=
  ((List.range count).map (fun i => w.gl.depthPixels.getD i 0),
   issue (.glReadPixels x y width height .GL_DEPTH_COMPONENT .GL_FLOAT) w)

/-- The depth texture attached to a framebuffer object, if any. -/
def GLState.attachedDepth (g : GLState) (framebuffer : Nat) : Option Nat :=
  (g.depthAttachment.find? (fun p => p.1 = framebuffer)).map Prod.snd

/-- Modelled from the spec: the macro `GLF_POST_PENDING_GL_ERRORS()`
(pxr/imaging/glf/diagnostic.h is not among the sources) surfaces the pending
GL errors as diagnostics; the commands of this model raise none. -/
def GLF_POST_PENDING_GL_ERRORS (w : World) : World := w

/-! ## The manager -/

/-- The member variables of `GlfSimpleShadowArray`. -/
structure GlfSimpleShadowArray where
  _resolutions : List GfVec2i
  _textures : List Nat
  _viewMatrix : List GfMatrix4d
  _projectionMatrix : List GfMatrix4d
  _framebuffer : Nat
  _shadowDepthSampler : Nat
  _shadowCompareSampler : Nat
  _unbindRestoreDrawFramebuffer : Nat
  _unbindRestoreReadFramebuffer : Nat
  _unbindRestoreViewport : GLint4
  _texturesAllocatedExternally : Bool
deriving DecidableEq

/-- The method `std::vector::resize(n, value)`: the first `n` elements are
kept and the vector is padded with `value` up to length `n`. -/
def vectorResize {α : Type} (v : List α) (n : Nat) (value : α) : List α :=
  v.take n ++ List.replicate (n - v.length) value

namespace GlfSimpleShadowArray

/-- The constructor. -/
def ctor : GlfSimpleShadowArray where
  _resolutions := []
  _textures := []
  _viewMatrix := []
  _projectionMatrix := []
  _framebuffer := 0
  _shadowDepthSampler := 0
  _shadowCompareSampler := 0
  _unbindRestoreDrawFramebuffer := 0
  _unbindRestoreReadFramebuffer := 0
  _unbindRestoreViewport := ⟨0, 0, 0, 0⟩
  _texturesAllocatedExternally := false

/-- The accessor `GetShadowMapTexture(int)`: `_textures[shadowIndex]` without
a bounds check; `none` stands for the undefined result of an index outside
the vector. -/
def GetShadowMapTexture (s : GlfSimpleShadowArray) (shadowIndex : Int) : Option Nat :=
  if 0 ≤ shadowIndex then s._textures[shadowIndex.toNat]? else none

def GetShadowMapDepthSampler (s : GlfSimpleShadowArray) (w : World) : Nat × World :=
  let w := if s._shadowDepthSampler = 0 then
      post (.codingError "Shadow depth sampler has not been allocated") w else w
  (s._shadowDepthSampler, w)

def GetShadowMapCompareSampler (s : GlfSimpleShadowArray) (w : World) : Nat × World :=
  let w := if s._shadowCompareSampler = 0 then
      post (.codingError "Shadow compare sampler has not been allocated") w else w
  (s._shadowCompareSampler, w)

def _ShadowMapExists (s : GlfSimpleShadowArray) : Bool :=
  !s._textures.isEmpty

/-- The loop of `_FreeTextures` over the texture ids. -/
def deleteTextureIds (ids : List Nat) (w : World) : World :=
  ids.foldl (fun w id => if id ≠ 0 then glDeleteTextures id w else w) w

def _FreeTextures (s : GlfSimpleShadowArray) (w : World) : GlfSimpleShadowArray × World :=
  if !s._textures.isEmpty then
    let w := enterSharedScope w
    let w := deleteTextureIds s._textures w
    let s := { s with _textures := [] }
    let w := GLF_POST_PENDING_GL_ERRORS w
    (s, exitSharedScope w)
  else (s, w)

def SetShadowMapResolutions (s : GlfSimpleShadowArray) (w : World)
    (resolutions : List GfVec2i) : GlfSimpleShadowArray × World :=
  if s._resolutions = resolutions then (s, w)
  else
    let s := { s with _resolutions := resolutions }
    let r := if !s._texturesAllocatedExternally then _FreeTextures s w else (s, w)
    let s := r.1
    let w := r.2
    let numShadowMaps := s._resolutions.length
    if s._viewMatrix.length ≠ numShadowMaps ∨ s._projectionMatrix.length ≠ numShadowMaps then
      ({ s with
          _viewMatrix := vectorResize s._viewMatrix numShadowMaps GfMatrix4d.SetIdentity,
          _projectionMatrix :=
            vectorResize s._projectionMatrix numShadowMaps GfMatrix4d.SetIdentity }, w)
    else (s, w)

def GetNumShadowMapPasses (s : GlfSimpleShadowArray) : Nat :=
  s._resolutions.length

def GetShadowMapSize (s : GlfSimpleShadowArray) (w : World) (index : Nat) :
    GfVec2i × World :=
  let shadowMapSize : GfVec2i := ⟨0, 0⟩
  let r := TF_VERIFY (decide (index < s._resolutions.length)) "index < _resolutions.size()" w
  if r.1 then (s._resolutions.getD index shadowMapSize, r.2) else (shadowMapSize, r.2)

def GetViewMatrix (s : GlfSimpleShadowArray) (w : World) (index : Nat) :
    GfMatrix4d × World :=
  let r := TF_VERIFY (decide (index < s._viewMatrix.length)) "index < _viewMatrix.size()" w
  if !r.1 then (GfMatrix4d.diagonal 1, r.2)
  else (s._viewMatrix.getD index (GfMatrix4d.diagonal 1), r.2)

def SetViewMatrix (s : GlfSimpleShadowArray) (w : World) (index : Nat)
    (matrix : GfMatrix4d) : GlfSimpleShadowArray × World :=
  let r := TF_VERIFY (decide (index < s._viewMatrix.length)) "index < _viewMatrix.size()" w
  if !r.1 then (s, r.2)
  else ({ s with _viewMatrix := s._viewMatrix.set index matrix }, r.2)

def GetProjectionMatrix (s : GlfSimpleShadowArray) (w : World) (index : Nat) :
    GfMatrix4d × World :=
  let r := TF_VERIFY (decide (index < s._projectionMatrix.length))
    "index < _projectionMatrix.size()" w
  if !r.1 then (GfMatrix4d.diagonal 1, r.2)
  else (s._projectionMatrix.getD index (GfMatrix4d.diagonal 1), r.2)

def SetProjectionMatrix (s : GlfSimpleShadowArray) (w : World) (index : Nat)
    (matrix : GfMatrix4d) : GlfSimpleShadowArray × World :=
  let r := TF_VERIFY (decide (index < s._projectionMatrix.length))
    "index < _projectionMatrix.size()" w
  if !r.1 then (s, r.2)
  else ({ s with _projectionMatrix := s._projectionMatrix.set index matrix }, r.2)

def GetWorldToShadowMatrix (s : GlfSimpleShadowArray) (w : World) (index : Nat) :
    GfMatrix4d × World :=
  let size := GfMatrix4d.SetScale ⟨1/2, 1/2, 1/2⟩
  let center := GfMatrix4d.SetTranslate ⟨1/2, 1/2, 1/2⟩
  let v := GetViewMatrix s w index
  let p := GetProjectionMatrix s v.2 index
  (v.1 * p.1 * size * center, p.2)

def AllocSamplers (s : GlfSimpleShadowArray) (w : World) : GlfSimpleShadowArray × World :=
  let border : List ℚ := [1, 1, 1, 1]
  let r : GlfSimpleShadowArray × World :=
    if s._shadowDepthSampler = 0 then
      let g := glGenSamplers w
      let s := { s with _shadowDepthSampler := g.1 }
      let w := glSamplerParameteri s._shadowDepthSampler .GL_TEXTURE_MIN_FILTER .GL_LINEAR g.2
      let w := glSamplerParameteri s._shadowDepthSampler .GL_TEXTURE_MAG_FILTER .GL_LINEAR w
      let w := glSamplerParameteri s._shadowDepthSampler .GL_TEXTURE_WRAP_S .GL_CLAMP_TO_BORDER w
      let w := glSamplerParameteri s._shadowDepthSampler .GL_TEXTURE_WRAP_T .GL_CLAMP_TO_BORDER w
      let w := glSamplerParameterfv s._shadowDepthSampler .GL_TEXTURE_BORDER_COLOR border w
      (s, w)
    else (s, w)
  let s := r.1
  let w := r.2
  if s._shadowCompareSampler = 0 then
    let g := glGenSamplers w
    let s := { s with _shadowCompareSampler := g.1 }
    let w := glSamplerParameteri s._shadowCompareSampler .GL_TEXTURE_MIN_FILTER .GL_LINEAR g.2
    let w := glSamplerParameteri s._shadowCompareSampler .GL_TEXTURE_MAG_FILTER .GL_LINEAR w
    let w := glSamplerParameteri s._shadowCompareSampler .GL_TEXTURE_WRAP_S .GL_CLAMP_TO_BORDER w
    let w := glSamplerParameteri s._shadowCompareSampler .GL_TEXTURE_WRAP_T .GL_CLAMP_TO_BORDER w
    let w := glSamplerParameterfv s._shadowCompareSampler .GL_TEXTURE_BORDER_COLOR border w
    let w := glSamplerParameteri s._shadowCompareSampler .GL_TEXTURE_COMPARE_MODE
      .GL_COMPARE_REF_TO_TEXTURE w
    let w := glSamplerParameteri s._shadowCompareSampler .GL_TEXTURE_COMPARE_FUNC .GL_LEQUAL w
    (s, w)
  else (s, w)

def SetTextures (s : GlfSimpleShadowArray) (w : World) (textureIds : List Nat) :
    GlfSimpleShadowArray × World :=
  ({ s with _textures := textureIds,
            _texturesAllocatedExternally := !textureIds.isEmpty }, w)

/-- The loop of `_AllocTextures` over `_resolutions`: one texture per size,
pushed to the back of `_textures`. -/
def allocTextureLoop : List GfVec2i → List Nat → World → List Nat × World
  | [], textures, w => (textures, w)
  | size :: rest, textures, w =>
      let g := glGenTextures w
      let id := g.1
      let w := glBindTexture .GL_TEXTURE_2D id g.2
      let w := glTexImage2D .GL_TEXTURE_2D 0 .GL_DEPTH_COMPONENT32F size.x size.y 0
        .GL_DEPTH_COMPONENT .GL_FLOAT w
      let textures := textures ++ [id]
      let w := if w.debugShadowTextures then
          post (.createdShadowMapTexture size.x size.y id) w else w
      allocTextureLoop rest textures w

def _AllocTextures (s : GlfSimpleShadowArray) (w : World) : GlfSimpleShadowArray × World :=
  let v1 := TF_VERIFY (decide (s._shadowDepthSampler ≠ 0)) "_shadowDepthSampler" w
  let v2 := if v1.1 then
      TF_VERIFY (decide (s._shadowCompareSampler ≠ 0)) "_shadowCompareSampler" v1.2 else v1
  let v3 := if v2.1 then TF_VERIFY s._textures.isEmpty "_textures.empty()" v2.2 else v2
  if !v3.1 then
    (s, post (.codingError "Unexpected entry state in _AllocTextures") v3.2)
  else
    let w := enterSharedScope v3.2
    let r := allocTextureLoop s._resolutions s._textures w
    let w := glBindTexture .GL_TEXTURE_2D 0 r.2
    let s := { s with _textures := r.1, _texturesAllocatedExternally := false }
    (s, exitSharedScope w)

def _AllocResources (s : GlfSimpleShadowArray) (w : World) : GlfSimpleShadowArray × World :=
  let r := AllocSamplers s w
  let r := if !r.1._texturesAllocatedExternally then _AllocTextures r.1 r.2 else r
  if r.1._framebuffer = 0 then
    let g := glGenFramebuffers r.2
    ({ r.1 with _framebuffer := g.1 }, g.2)
  else r

/-- The destructor runs `_FreeResources`. -/
def _FreeResources (s : GlfSimpleShadowArray) (w : World) : GlfSimpleShadowArray × World :=
  let w := enterSharedScope w
  let r := if !s._texturesAllocatedExternally then _FreeTextures s w else (s, w)
  let r : GlfSimpleShadowArray × World :=
    if r.1._framebuffer ≠ 0 then
      ({ r.1 with _framebuffer := 0 }, glDeleteFramebuffers r.1._framebuffer r.2)
    else r
  let r : GlfSimpleShadowArray × World :=
    if r.1._shadowDepthSampler ≠ 0 then
      ({ r.1 with _shadowDepthSampler := 0 }, glDeleteSamplers r.1._shadowDepthSampler r.2)
    else r
  let r : GlfSimpleShadowArray × World :=
    if r.1._shadowCompareSampler ≠ 0 then
      ({ r.1 with _shadowCompareSampler := 0 }, glDeleteSamplers r.1._shadowCompareSampler r.2)
    else r
  (r.1, exitSharedScope r.2)

def _BindFramebuffer (s : GlfSimpleShadowArray) (w : World) (index : Nat) :
    GlfSimpleShadowArray × World :=
  let s := { s with _unbindRestoreDrawFramebuffer := w.gl.drawFramebuffer }
  let s := { s with _unbindRestoreReadFramebuffer := w.gl.readFramebuffer }
  let r := if s._framebuffer = 0 ∨ !_ShadowMapExists s then _AllocResources s w else (s, w)
  let s := r.1
  let w := glBindFramebuffer .GL_FRAMEBUFFER s._framebuffer r.2
  let w := if index < s._textures.length then
      glFramebufferTexture .GL_FRAMEBUFFER .GL_DEPTH_ATTACHMENT (s._textures.getD index 0) 0 w
    else post (.codingWarning "Texture index is out of bounds") w
  (s, GLF_POST_PENDING_GL_ERRORS w)

def _UnbindFramebuffer (s : GlfSimpleShadowArray) (w : World) : World :=
  let w := glBindFramebuffer .GL_DRAW_FRAMEBUFFER s._unbindRestoreDrawFramebuffer w
  let w := glBindFramebuffer .GL_READ_FRAMEBUFFER s._unbindRestoreReadFramebuffer w
  GLF_POST_PENDING_GL_ERRORS w

def BeginCapture (s : GlfSimpleShadowArray) (w : World) (index : Nat) (clear : Bool) :
    GlfSimpleShadowArray × World :=
  let r := _BindFramebuffer s w index
  let s := r.1
  let w := if clear then glClear .GL_DEPTH_BUFFER_BIT r.2 else r.2
  let s := { s with _unbindRestoreViewport := w.gl.viewport }
  let resolution := GetShadowMapSize s w index
  let w := glViewport 0 0 resolution.1.x resolution.1.y resolution.2
  let w := glDepthRange 0 (99999 / 100000) w
  let w := glEnable .GL_DEPTH_CLAMP w
  (s, GLF_POST_PENDING_GL_ERRORS w)

/-- The constant `std::numeric_limits<float>::max()`. -/
def FLT_MAX : ℚ := 340282346638528859811704183484516925440

/-- The first loop of the debug dump: the running minimum and maximum. -/
def pixelMinMax (pixelData : List ℚ) : ℚ × ℚ :=
  pixelData.foldl
    (fun (mm : ℚ × ℚ) pixelValue =>
      let minValue := if pixelValue < mm.1 then pixelValue else mm.1
      let maxValue := if pixelValue > mm.2 then pixelValue else mm.2
      (minValue, maxValue))
    (FLT_MAX, -FLT_MAX)

/-- Division of two floats: dividing by zero yields no finite number. -/
def floatDiv (a b : ℚ) : Option ℚ :=
  if b = 0 then none else some (a / b)

/-- The second loop of the debug dump: every pixel becomes
`(pixel - minValue) / (maxValue - minValue)`. -/
def remapPixels (pixelData : List ℚ) : List (Option ℚ) :=
  let mm := pixelMinMax pixelData
  pixelData.map (fun v => floatDiv (v - mm.1) (mm.2 - mm.1))

/-- The value of an `int` expression, wrapped to 32 bits. -/
def wrapInt32 (z : Int) : Int :=
  (z + 2 ^ 31) % 2 ^ 32 - 2 ^ 31

/-- Modelled from the spec: `ArchNormPath` (pxr/base/arch/fileSystem.h is not
among the sources); the file name is kept as it is printed. -/
def ArchNormPath (path : String) : String := path

/-- The body of the `GLF_DEBUG_DUMP_SHADOW_TEXTURES` block of `EndCapture`:
the world it leaves and whether it is left by an exception.  The `int`
product `numPixels` is cast to `size_t` for the size of the pixel vector; for
a negative `numPixels` that size is beyond `max_size()` and the constructor
of `std::vector` throws `std::length_error`; a vector of a non-negative size
is taken to be allocated. -/
def dumpShadowTexture (s : GlfSimpleShadowArray) (w : World) (index : Nat) : World × Bool :=
  let resolution := GetShadowMapSize s w index
  let width := resolution.1.x
  let height := resolution.1.y
  let numPixels := wrapInt32 (width * height)
  if numPixels < 0 then
    (throwOut "std::length_error" resolution.2, true)
  else
    let r := glReadPixels 0 0 width height numPixels.toNat resolution.2
    let pixelData := remapPixels r.1
    let w := r.2
    let outputImageFile := ArchNormPath
      (w.tmpDir ++ "/GlfSimpleShadowArray.index_" ++ toString index ++ ".tif")
    if w.imageWriteOk then
      (post (.debugMsg ("Wrote shadow texture: " ++ outputImageFile))
        { w with images := w.images ++ [⟨outputImageFile, width, height, true, pixelData⟩] },
       false)
    else
      (post (.debugMsg ("Failed to write shadow texture: " ++ outputImageFile)) w, false)

/-- The method `EndCapture`.  When the dump block is left by an exception the
statements after it do not run: the bindings and the viewport are not
restored. -/
def EndCapture (s : GlfSimpleShadowArray) (w : World) (index : Nat) :
    GlfSimpleShadowArray × World :=
  let w := glDepthRange 0 1 w
  let w := glDisable .GL_DEPTH_CLAMP w
  let d := if w.dumpShadowTextures then dumpShadowTexture s w index else (w, false)
  if d.2 then (s, d.1)
  else
    let w := _UnbindFramebuffer s d.1
    let w := glViewport s._unbindRestoreViewport.v0 s._unbindRestoreViewport.v1
      s._unbindRestoreViewport.v2 s._unbindRestoreViewport.v3 w
    (s, GLF_POST_PENDING_GL_ERRORS w)

end GlfSimpleShadowArray

/-! ## Sequences of calls -/

/-- The public operations of the manager; `destroy` is the destructor. -/
inductive Op where
  | SetShadowMapResolutions (resolutions : List GfVec2i)
  | SetViewMatrix (index : Nat) (matrix : GfMatrix4d)
  | SetProjectionMatrix (index : Nat) (matrix : GfMatrix4d)
  | SetTextures (textureIds : List Nat)
  | AllocSamplers
  | BeginCapture (index : Nat) (clear : Bool)
  | EndCapture (index : Nat)
  | destroy

/-- Run one operation. -/
def Op.run (op : Op) (s : GlfSimpleShadowArray) (w : World) : GlfSimpleShadowArray × World :=
  match op with
  | .SetShadowMapResolutions resolutions => s.SetShadowMapResolutions w resolutions
  | .SetViewMatrix index matrix => s.SetViewMatrix w index matrix
  | .SetProjectionMatrix index matrix => s.SetProjectionMatrix w index matrix
  | .SetTextures textureIds => s.SetTextures w textureIds
  | .AllocSamplers => s.AllocSamplers w
  | .BeginCapture index clear => s.BeginCapture w index clear
  | .EndCapture index => s.EndCapture w index
  | .destroy => s._FreeResources w

/-- One step of a session: the manager runs an operation, or the caller
issues GL commands of its own that leave the context in the state `gl`. -/
inductive Step where
  | call (op : Op)
  | caller (gl : GLState)

def Step.run (st : Step) (s : GlfSimpleShadowArray) (w : World) :
    GlfSimpleShadowArray × World :=
  match st with
  | .call op => op.run s w
  | .caller gl => (s, { w with gl := gl })

/-- Run a sequence of steps, first to last. -/
def runSteps : List Step → GlfSimpleShadowArray → World → GlfSimpleShadowArray × World
  | [], s, w => (s, w)
  | st :: rest, s, w => runSteps rest (st.run s w).1 (st.run s w).2

/-- The manager states reachable from a freshly constructed manager by the
public operations, whatever the GL context looks like at each call. -/
inductive Reachable : GlfSimpleShadowArray → Prop where
  | ctor : Reachable GlfSimpleShadowArray.ctor
  | step (op : Op) (s : GlfSimpleShadowArray) (w : World) :
      Reachable s → Reachable (op.run s w).1

/-- The commands issued between two worlds, the second reached from the
first: what was appended to the record. -/
def issuedSince (w w' : World) : List Issued :=
  w'.calls.drop w.calls.length

/-- Whether a command creates a texture. -/
def GLCall.createsTexture : GLCall → Bool
  | .glGenTextures _ => true
  | .glTexImage2D .. => true
  | _ => false

/-- Whether a command deletes a texture. -/
def GLCall.deletesTexture : GLCall → Bool
  | .glDeleteTextures _ => true
  | _ => false

/-- Whether a command creates a GL object of any kind. -/
def GLCall.createsObject : GLCall → Bool
  | .glGenTextures _ => true
  | .glTexImage2D .. => true
  | .glGenSamplers _ => true
  | .glGenFramebuffers _ => true
  | _ => false

open GlfSimpleShadowArray

/-- The delete commands `_FreeTextures` issues for the ids `ids`. -/
def deleteCalls (shared : Bool) (ids : List Nat) : List Issued :=
  (ids.filter (fun id => id ≠ 0)).map (fun id => ⟨.glDeleteTextures id, shared⟩)

/-- The texture commands the allocation loop issues for the sizes `rs` when
`n` names have been handed out. -/
def allocCalls (shared : Bool) : Nat → List GfVec2i → List Issued
  | _, [] => []
  | n, r :: rs =>
      [⟨.glGenTextures (n + 1), shared⟩, ⟨.glBindTexture .GL_TEXTURE_2D (n + 1), shared⟩,
       ⟨.glTexImage2D .GL_TEXTURE_2D 0 .GL_DEPTH_COMPONENT32F r.x r.y 0
          .GL_DEPTH_COMPONENT .GL_FLOAT, shared⟩] ++ allocCalls shared (n + 1) rs

/-- The debug messages of the allocation loop. -/
def allocDiags : Nat → List GfVec2i → List Diag
  | _, [] => []
  | n, r :: rs => Diag.createdShadowMapTexture r.x r.y (n + 1) :: allocDiags (n + 1) rs

/-- The commands that create and configure the depth sampler `id`. -/
def depthSamplerCalls (shared : Bool) (id : Nat) : List Issued :=
  [⟨.glGenSamplers id, shared⟩,
   ⟨.glSamplerParameteri id .GL_TEXTURE_MIN_FILTER .GL_LINEAR, shared⟩,
   ⟨.glSamplerParameteri id .GL_TEXTURE_MAG_FILTER .GL_LINEAR, shared⟩,
   ⟨.glSamplerParameteri id .GL_TEXTURE_WRAP_S .GL_CLAMP_TO_BORDER, shared⟩,
   ⟨.glSamplerParameteri id .GL_TEXTURE_WRAP_T .GL_CLAMP_TO_BORDER, shared⟩,
   ⟨.glSamplerParameterfv id .GL_TEXTURE_BORDER_COLOR [1, 1, 1, 1], shared⟩]

/-- The commands that create and configure the compare sampler `id`. -/
def compareSamplerCalls (shared : Bool) (id : Nat) : List Issued :=
  [⟨.glGenSamplers id, shared⟩,
   ⟨.glSamplerParameteri id .GL_TEXTURE_MIN_FILTER .GL_LINEAR, shared⟩,
   ⟨.glSamplerParameteri id .GL_TEXTURE_MAG_FILTER .GL_LINEAR, shared⟩,
   ⟨.glSamplerParameteri id .GL_TEXTURE_WRAP_S .GL_CLAMP_TO_BORDER, shared⟩,
   ⟨.glSamplerParameteri id .GL_TEXTURE_WRAP_T .GL_CLAMP_TO_BORDER, shared⟩,
   ⟨.glSamplerParameterfv id .GL_TEXTURE_BORDER_COLOR [1, 1, 1, 1], shared⟩,
   ⟨.glSamplerParameteri id .GL_TEXTURE_COMPARE_MODE .GL_COMPARE_REF_TO_TEXTURE, shared⟩,
   ⟨.glSamplerParameteri id .GL_TEXTURE_COMPARE_FUNC .GL_LEQUAL, shared⟩]

/-- Whether a scope holder is alive in the world. -/
def World.inShared (w : World) : Bool := decide (0 < w.sharedScope)

/-- Two managers that differ at most in the GL objects they hold. -/
def GlfSimpleShadowArray.sameButObjects (s s' : GlfSimpleShadowArray) : Prop :=
  s' = { s with _textures := s'._textures,
                _texturesAllocatedExternally := s'._texturesAllocatedExternally,
                _framebuffer := s'._framebuffer,
                _shadowDepthSampler := s'._shadowDepthSampler,
                _shadowCompareSampler := s'._shadowCompareSampler }

/-- Two worlds that differ at most in the number of names handed out, the
record of issued commands and the diagnostics. -/
def World.sameContext (w w' : World) : Prop :=
  w' = { w with gl := { w.gl with names := w'.gl.names },
                calls := w'.calls,
                diagnostics := w'.diagnostics }

/-- The text of the first failing entry check of `_AllocTextures`. -/
def entryCheckText (s : GlfSimpleShadowArray) : String :=
  if s._shadowDepthSampler = 0 then "_shadowDepthSampler"
  else if s._shadowCompareSampler = 0 then "_shadowCompareSampler"
  else "_textures.empty()"

/-- A GL context in its initial state and nothing recorded yet. -/
def World.initial : World where
  gl := { drawFramebuffer := 0, readFramebuffer := 0, viewport := ⟨0, 0, 0, 0⟩,
          depthRange := (0, 1), depthClamp := false, depthAttachment := [],
          names := 0, depthPixels := [] }
  calls := []
  sharedScope := 0
  diagnostics := []
  images := []
  dumpShadowTextures := false
  debugShadowTextures := false
  tmpDir := "/tmp"
  imageWriteOk := true
  exceptions := []

/-- The vector `(1/2, 1/2, 1/2)` of `GetWorldToShadowMatrix`. -/
def half3 : GfVec3d := ⟨1 / 2, 1 / 2, 1 / 2⟩

/-- A manager with one slot whose view matrix doubles every axis. -/
def oneSlotManager : GlfSimpleShadowArray :=
  { GlfSimpleShadowArray.ctor with
    _resolutions := [⟨512, 512⟩],
    _viewMatrix := [GfMatrix4d.SetScale ⟨2, 2, 2⟩],
    _projectionMatrix := [GfMatrix4d.SetIdentity] }

/-- The first two statements of `_BindFramebuffer`: the bindings are saved. -/
def saveBindings (s : GlfSimpleShadowArray) (w : World) : GlfSimpleShadowArray :=
  { s with _unbindRestoreDrawFramebuffer := w.gl.drawFramebuffer,
           _unbindRestoreReadFramebuffer := w.gl.readFramebuffer }

/-- The allocation step of `_BindFramebuffer`. -/
def allocIfMissing (s : GlfSimpleShadowArray) (w : World) : GlfSimpleShadowArray × World :=
  if s._framebuffer = 0 ∨ !_ShadowMapExists s then _AllocResources s w else (s, w)

/-- The commands of a capture after the allocation step. -/
def captureCalls (shared : Bool) (framebuffer : Nat) (texture : Option Nat) (clear : Bool)
    (size : GfVec2i) : List Issued :=
  [⟨.glBindFramebuffer .GL_FRAMEBUFFER framebuffer, shared⟩] ++
  (match texture with
   | some t => [⟨.glFramebufferTexture .GL_FRAMEBUFFER .GL_DEPTH_ATTACHMENT t 0, shared⟩]
   | none => []) ++
  (if clear then [⟨.glClear .GL_DEPTH_BUFFER_BIT, shared⟩] else []) ++
  [⟨.glViewport 0 0 size.x size.y, shared⟩,
   ⟨.glDepthRange 0 (99999 / 100000), shared⟩,
   ⟨.glEnable .GL_DEPTH_CLAMP, shared⟩]

/-- The diagnostics of a capture after the allocation step. -/
def captureDiags (s : GlfSimpleShadowArray) (index : Nat) : List Diag :=
  (if index < s._textures.length then []
   else [Diag.codingWarning "Texture index is out of bounds"]) ++
  (if index < s._resolutions.length then []
   else [Diag.verifyFailed "index < _resolutions.size()"])

/-- Whether a command is one of the texture-object commands. -/
def GLCall.isTextureCall : GLCall → Bool
  | .glGenTextures _ => true
  | .glBindTexture .. => true
  | .glTexImage2D .. => true
  | .glDeleteTextures _ => true
  | _ => false

/-- The commands that create one depth texture per size: the `k`-th texture
is generated, bound and given a 32-bit float depth image of the `k`-th size. -/
def createTextureCalls : List Nat → List GfVec2i → List GLCall
  | id :: ids, size :: sizes =>
      [.glGenTextures id, .glBindTexture .GL_TEXTURE_2D id,
       .glTexImage2D .GL_TEXTURE_2D 0 .GL_DEPTH_COMPONENT32F size.x size.y 0
         .GL_DEPTH_COMPONENT .GL_FLOAT] ++ createTextureCalls ids sizes
  | _, _ => []

/-- A manager configured with the two resolutions (512,512) and (256,256). -/
def twoSlotManager : GlfSimpleShadowArray :=
  ((Op.SetShadowMapResolutions [⟨512, 512⟩, ⟨256, 256⟩]).run
    GlfSimpleShadowArray.ctor World.initial).1

/-- The manager `twoSlotManager` after its first capture, and the world then. -/
def twoSlotCaptured : GlfSimpleShadowArray × World :=
  (Op.BeginCapture 0 true).run twoSlotManager World.initial

/-- The steps that may come between two captures without giving the manager
a reason to allocate again: anything but a `SetShadowMapResolutions` that
changes the list `resolutions`, a `SetTextures` or the destructor. -/
def Step.keepsAllocation (resolutions : List GfVec2i) : Step → Bool
  | .call (.SetShadowMapResolutions r) => decide (r = resolutions)
  | .call (.SetTextures _) => false
  | .call .destroy => false
  | _ => true

/-- The manager holds everything a capture needs for the resolutions
`resolutions`: self-managed textures (none only when there is no
resolution), the framebuffer and both samplers. -/
def GlfSimpleShadowArray.allocatedFor (s : GlfSimpleShadowArray)
    (resolutions : List GfVec2i) : Prop :=
  s._texturesAllocatedExternally = false ∧ s._framebuffer ≠ 0 ∧
  s._shadowDepthSampler ≠ 0 ∧ s._shadowCompareSampler ≠ 0 ∧
  (s._textures = [] → resolutions = []) ∧ s._resolutions = resolutions

/-- Whether a command creates a sampler. -/
def GLCall.createsSampler : GLCall → Bool
  | .glGenSamplers _ => true
  | _ => false

/-- Whether a command deletes a sampler. -/
def GLCall.deletesSampler : GLCall → Bool
  | .glDeleteSamplers _ => true
  | _ => false

/-- Whether a command is a `glClear`. -/
def GLCall.isClear : GLCall → Bool
  | .glClear _ => true
  | _ => false

/-- Whether a command attaches something to a framebuffer. -/
def GLCall.attachesTexture : GLCall → Bool
  | .glFramebufferTexture .. => true
  | _ => false

/-- Whether a command deletes a GL object of any kind. -/
def GLCall.deletesObject : GLCall → Bool
  | .glDeleteTextures _ => true
  | .glDeleteFramebuffers _ => true
  | .glDeleteSamplers _ => true
  | _ => false

/-- The commands the manager issues under a `GlfSharedGLContextScopeHolder`
of its own: the texture commands of `_AllocTextures` and every delete. -/
def GLCall.underOwnScope : GLCall → Bool
  | .glGenTextures _ => true
  | .glBindTexture .. => true
  | .glTexImage2D .. => true
  | .glDeleteTextures _ => true
  | .glDeleteFramebuffers _ => true
  | .glDeleteSamplers _ => true
  | _ => false

/-- The manager `twoSlotManager` after a complete capture of slot 0, and the
world then. -/
def firstCaptureEnded : GlfSimpleShadowArray × World :=
  runSteps [.call (.BeginCapture 0 true), .call (.EndCapture 0)] twoSlotManager World.initial

/-- After the capture of slot 0, the start of a capture of the slot 5 that
does not exist. -/
def captureThenOutOfRange : GlfSimpleShadowArray × World :=
  firstCaptureEnded.1.BeginCapture firstCaptureEnded.2 5 true

/-- The number of sampler creations among the commands `l`. -/
def samplersCreated (l : List Issued) : Nat :=
  (l.filter (fun e => e.call.createsSampler)).length

/-- One when a handle was zero before and is not zero after, zero otherwise:
the number of times the handle was created in between. -/
def becameNonZero (before after : Nat) : Nat :=
  if before = 0 ∧ after ≠ 0 then 1 else 0

/-- Whether `EndCapture(index)` is left by the exception of its dump block:
the dump is enabled and the `int` product of the width and the height of the
slot is negative. -/
def EndCapture_throws (s : GlfSimpleShadowArray) (w : World) (index : Nat) : Bool :=
  w.dumpShadowTextures &&
    decide (wrapInt32 ((s.GetShadowMapSize w index).1.x * (s.GetShadowMapSize w index).1.y) < 0)

/-- A manager with one slot of resolution (46341,46341): the `int` product of
width and height wraps to a negative value. -/
def overflowManager : GlfSimpleShadowArray :=
  ((Op.SetShadowMapResolutions [⟨46341, 46341⟩]).run GlfSimpleShadowArray.ctor World.initial).1

/-- A world with the shadow-texture dump enabled in which the caller has the
framebuffers 7 and 9 bound for drawing and reading and the viewport
(1,2,3,4). -/
def World.dumping : World :=
  { World.initial with
    gl := { World.initial.gl with
            drawFramebuffer := 7, readFramebuffer := 9, viewport := ⟨1, 2, 3, 4⟩ }
    dumpShadowTextures := true }

/-- A manager with one slot of resolution (3,1). -/
def threeByOneManager : GlfSimpleShadowArray :=
  ((Op.SetShadowMapResolutions [⟨3, 1⟩]).run GlfSimpleShadowArray.ctor World.initial).1

/-- A world with the shadow-texture dump enabled whose read framebuffer holds
the three depth values 0.2, 0.5 and 0.8. -/
def World.threePixels : World :=
  { World.initial with
    gl := { World.initial.gl with depthPixels := [1 / 5, 1 / 2, 4 / 5] }
    dumpShadowTextures := true }

/-- The diagnostics posted between two worlds, the second reached from the
first: what was appended to the diagnostics. -/
def postedSince (w w' : World) : List Diag :=
  w'.diagnostics.drop w.diagnostics.length

/-- The coding error of the failed entry check of `_AllocTextures`. -/
def unexpectedEntryState : Diag :=
  .codingError "Unexpected entry state in _AllocTextures"

/-- The entry condition of `_AllocTextures`: what its three `TF_VERIFY`s
check. -/
def GlfSimpleShadowArray.entryStateOk (s : GlfSimpleShadowArray) : Prop :=
  s._shadowDepthSampler ≠ 0 ∧ s._shadowCompareSampler ≠ 0 ∧ s._textures = []

/-- Self-managed textures are only held together with a framebuffer. -/
def GlfSimpleShadowArray.texturesWithFramebuffer (s : GlfSimpleShadowArray) : Prop :=
  s._texturesAllocatedExternally = false → s._textures ≠ [] → s._framebuffer ≠ 0

/-- The four calls of two nested captures: slot `b` is captured inside the
capture of slot `a`. -/
def nestedCaptures (a : Nat) (c : Bool) (b : Nat) (c' : Bool) : List Step :=
  [.call (.BeginCapture a c), .call (.BeginCapture b c'), .call (.EndCapture b),
   .call (.EndCapture a)]

/-- A world with the shadow-texture dump enabled whose read framebuffer holds
the same depth value 0.5 in all three pixels. -/
def World.flatPixels : World :=
  { World.initial with
    gl := { World.initial.gl with depthPixels := [1 / 2, 1 / 2, 1 / 2] }
    dumpShadowTextures := true }

end Glf

/-!
# UsdGeomImageable: visibility

A shallow embedding of the visibility functions of
`pxr/usd/usdGeom/imageable.cpp`.  The scene the functions walk and edit is a
`UsdStage` value; a function that authors a value returns the edited stage.
-/

namespace UsdGeom

/-- Modelled from the spec: the class `TfToken` (pxr/base/tf/token.h is not
among the sources), an interned string; the default-constructed token is the
empty string. -/
abbrev TfToken := String

/-- Modelled from the spec: the token `UsdGeomTokens->invisible`
(pxr/usd/usdGeom/tokens.h is not among the sources). -/
def UsdGeomTokens.invisible : TfToken := "invisible"

/-- Modelled from the spec: the token `UsdGeomTokens->inherited`
(pxr/usd/usdGeom/tokens.h is not among the sources). -/
def UsdGeomTokens.inherited : TfToken := "inherited"

/-- Modelled from the spec: the token `UsdGeomTokens->visible`
(pxr/usd/usdGeom/tokens.h is not among the sources). -/
def UsdGeomTokens.visible : TfToken := "visible"

/-- Modelled from the spec: the token `UsdGeomTokens->default_`
(pxr/usd/usdGeom/tokens.h is not among the sources). -/
def UsdGeomTokens.default_ : TfToken := "default"

/-- Modelled from the spec: the token `UsdGeomTokens->render`
(pxr/usd/usdGeom/tokens.h is not among the sources). -/
def UsdGeomTokens.render : TfToken := "render"

/-- Modelled from the spec: the token `UsdGeomTokens->proxy`
(pxr/usd/usdGeom/tokens.h is not among the sources). -/
def UsdGeomTokens.proxy : TfToken := "proxy"

/-- Modelled from the spec: the token `UsdGeomTokens->guide`
(pxr/usd/usdGeom/tokens.h is not among the sources). -/
def UsdGeomTokens.guide : TfToken := "guide"

/-- Modelled from the spec: the class `UsdTimeCode` (pxr/usd/usd/timeCode.h is
not among the sources): `none` is `UsdTimeCode::Default()`, `some t` a numeric
time. -/
abbrev UsdTimeCode := Option ℚ

/-- Modelled from the spec: the path by which a `UsdPrim` is identified
(pxr/usd/usd/prim.h and pxr/usd/sdf/path.h are not among the sources), written
from the prim upwards: the name of the prim first, the name of its parent
next, and so on; the empty list is the pseudo-root.  `UsdPrim::GetParent`
yields the rest of the list, and no prim for the pseudo-root. -/
abbrev SdfPath := List String

/-- Modelled from the spec: what the functions see of a valid token-valued
`UsdAttribute` (pxr/usd/usd/attribute.h is not among the sources): the result
of `HasAuthoredValue()` and what `Get(&value, time)` yields at each time code
(`none` when `Get` returns false). -/
structure TokenAttr where
  hasAuthoredValue : Bool
  value : UsdTimeCode → Option TfToken

/-- Modelled from the spec: what the visibility and purpose functions see of a
`UsdStage` (pxr/usd/usd/stage.h, prim.h and attribute.h and
pxr/usd/usdGeom/visibilityAPI.h are not among the sources): the names of the
children of each prim in the order of `GetAllChildren`; whether
`UsdGeomImageable(prim)` is a valid schema object; what
`GetVisibilityAttr().Get(&value, time)` yields on each prim at each time code
(`none` when `Get` returns false) and whether the visibility attribute has an
authored value; whether the purpose attribute has an authored value and what
`GetPurposeAttr().Get(&purpose)` yields; whether `UsdGeomVisibilityAPI(prim)`
is a valid schema object and the attribute its `GetPurposeVisibilityAttr`
returns for a purpose (`none` for an invalid attribute). -/
structure UsdStage where
  childNames : SdfPath → List String
  isImageable : SdfPath → Bool
  visibility : SdfPath → UsdTimeCode → Option TfToken
  visibilityAuthored : SdfPath → Bool
  purposeAuthored : SdfPath → Bool
  purpose : SdfPath → Option TfToken
  hasVisibilityAPI : SdfPath → Bool
  purposeVisibilityAttr : SdfPath → TfToken → Option TokenAttr

/-- Modelled from the spec: `UsdPrim::GetAllChildren` (pxr/usd/usd/prim.h is
not among the sources). -/
def GetAllChildren (stage : UsdStage) (prim : SdfPath) : List SdfPath :=
  (stage.childNames prim).map (fun name => name :: prim)

/-- Modelled from the spec: `GetVisibilityAttr().Get(&value, time)`
(pxr/usd/usd/attribute.h is not among the sources). -/
def UsdAttribute.Get (stage : UsdStage) (prim : SdfPath) (time : UsdTimeCode) :
    Option TfToken :=
  stage.visibility prim time

/-- Modelled from the spec: `CreateVisibilityAttr().Set(value, time)`
(pxr/usd/usd/attribute.h is not among the sources): the value set at a time
code is the value `UsdAttribute.Get` yields on that prim at that time code
afterwards, the attribute of that prim has an authored value, and nothing else
on the stage changes. -/
def UsdAttribute.Set (stage : UsdStage) (prim : SdfPath) (value : TfToken)
    (time : UsdTimeCode) : UsdStage :=
  { stage with
    visibility := fun p t => if p = prim ∧ t = time then some value else stage.visibility p t
    visibilityAuthored := fun p => if p = prim then true else stage.visibilityAuthored p }

def _ComputeVisibility (stage : UsdStage) (prim : SdfPath) (time : UsdTimeCode) : TfToken :=
  let localVis : TfToken :=
    if stage.isImageable prim then (UsdAttribute.Get stage prim time).getD "" else ""
  if stage.isImageable prim ∧ localVis = UsdGeomTokens.invisible then
    UsdGeomTokens.invisible
  else
    match prim with
    | [] => UsdGeomTokens.inherited
    | _ :: parent => _ComputeVisibility stage parent time

def UsdGeomImageable.ComputeVisibility (stage : UsdStage) (prim : SdfPath)
    (time : UsdTimeCode) : TfToken :=
  _ComputeVisibility stage prim time

def _SetVisibility (stage : UsdStage) (imageable : SdfPath) (visState : TfToken)
    (time : UsdTimeCode) : UsdStage :=
  UsdAttribute.Set stage imageable visState time

/-- Returns true if the imageable has its visibility set to invisible at the
given time; it also sets the visibility to inherited before returning. -/
def _SetInheritedIfInvisible (stage : UsdStage) (imageable : SdfPath) (time : UsdTimeCode) :
    UsdStage × Bool :=
  match UsdAttribute.Get stage imageable time with
  | some vis =>
    if vis = UsdGeomTokens.invisible then
      (_SetVisibility stage imageable UsdGeomTokens.inherited time, true)
    else (stage, false)
  | none => (stage, false)

/-- The loop of `_MakeVisible` that makes all siblings of `prim` invisible. -/
def invisSiblings (stage : UsdStage) (parent prim : SdfPath) (time : UsdTimeCode) : UsdStage :=
  (GetAllChildren stage parent).foldl (fun stage childPrim =>
    if childPrim ≠ prim then
      if stage.isImageable childPrim then
        _SetVisibility stage childPrim UsdGeomTokens.invisible time
      else stage
    else stage) stage

/-- The function `_MakeVisible`; the flag behind the pointer
`hasInvisibleAncestor` is passed in and returned. -/
def _MakeVisible (stage : UsdStage) (prim : SdfPath) (time : UsdTimeCode)
    (hasInvisibleAncestor : Bool) : UsdStage × Bool :=
  match prim with
  | [] => (stage, hasInvisibleAncestor)
  | name :: parent =>
    let r := _MakeVisible stage parent time hasInvisibleAncestor
    if r.1.isImageable parent then
      let r2 := _SetInheritedIfInvisible r.1 parent time
      if r2.2 || r.2 then
        (invisSiblings r2.1 parent (name :: parent) time, true)
      else (r2.1, r.2)
    else r

def UsdGeomImageable.MakeVisible (stage : UsdStage) (prim : SdfPath) (time : UsdTimeCode) :
    UsdStage :=
  let hasInvisibleAncestor := false
  let stage := (_SetInheritedIfInvisible stage prim time).1
  (_MakeVisible stage prim time hasInvisibleAncestor).1

/-- The pair `UsdGeomImageable::PurposeInfo`. -/
structure PurposeInfo where
  purpose : TfToken
  isInheritable : Bool
deriving DecidableEq

/-- Helper for computing only the authored purpose token from a valid
imageable prim; the empty token otherwise. -/
def _ComputeAuthoredPurpose (stage : UsdStage) (ip : SdfPath) : TfToken :=
  if stage.isImageable ip then
    if stage.purposeAuthored ip then (stage.purpose ip).getD ""
    else ""
  else ""

/-- Helper for computing the fallback purpose: the default purpose for a prim
that is not imageable. -/
def _ComputeFallbackPurpose (stage : UsdStage) (ip : SdfPath) : TfToken :=
  let purpose := UsdGeomTokens.default_
  if stage.isImageable ip then (stage.purpose ip).getD purpose else purpose

/-- The loop of `_ComputeInheritableAncestorPurpose`, entered with a valid
`parent`. -/
def inheritableAncestorLoop (stage : UsdStage) (parent : SdfPath) : TfToken :=
  let purpose := _ComputeAuthoredPurpose stage parent
  if purpose ≠ "" then purpose
  else
    match parent with
    | [] => ""
    | _ :: grandparent => inheritableAncestorLoop stage grandparent

def _ComputeInheritableAncestorPurpose (stage : UsdStage) (prim : SdfPath) : TfToken :=
  match prim with
  | [] => ""
  | _ :: parent => inheritableAncestorLoop stage parent

/-- The overload `ComputePurposeInfo()`. -/
def UsdGeomImageable.ComputePurposeInfo (stage : UsdStage) (prim : SdfPath) : PurposeInfo :=
  let authoredPurpose := _ComputeAuthoredPurpose stage prim
  if authoredPurpose = "" then
    let inheritableParentPurpose := _ComputeInheritableAncestorPurpose stage prim
    if inheritableParentPurpose = "" then
      ⟨_ComputeFallbackPurpose stage prim, false⟩
    else
      ⟨inheritableParentPurpose, true⟩
  else ⟨authoredPurpose, true⟩

/-- The overload `ComputePurposeInfo(const PurposeInfo &parentPurposeInfo)`. -/
def UsdGeomImageable.ComputePurposeInfoFrom (stage : UsdStage) (prim : SdfPath)
    (parentPurposeInfo : PurposeInfo) : PurposeInfo :=
  let authoredPurpose := _ComputeAuthoredPurpose stage prim
  if authoredPurpose = "" then
    if parentPurposeInfo.isInheritable then parentPurposeInfo
    else ⟨_ComputeFallbackPurpose stage prim, false⟩
  else ⟨authoredPurpose, true⟩

def UsdGeomImageable.ComputePurpose (stage : UsdStage) (prim : SdfPath) : TfToken :=
  (UsdGeomImageable.ComputePurposeInfo stage prim).purpose

/-- The method `GetPurposeVisibilityAttr`; `none` is the invalid attribute. -/
def UsdGeomImageable.GetPurposeVisibilityAttr (stage : UsdStage) (prim : SdfPath)
    (purpose : TfToken) : Option TokenAttr :=
  if purpose = UsdGeomTokens.default_ then
    some ⟨stage.visibilityAuthored prim, stage.visibility prim⟩
  else if stage.hasVisibilityAPI prim then
    stage.purposeVisibilityAttr prim purpose
  else none

/-- The authored purpose visibility opinion `_ComputePurposeVisibility` finds
on a prim: the value of an imageable prim whose attribute is valid, has an
authored value and yields a value at the time code. -/
def authoredPurposeVisibility (stage : UsdStage) (prim : SdfPath) (purpose : TfToken)
    (time : UsdTimeCode) : Option TfToken :=
  if stage.isImageable prim then
    match UsdGeomImageable.GetPurposeVisibilityAttr stage prim purpose with
    | some attr => if attr.hasAuthoredValue then attr.value time else none
    | none => none
  else none

/-- The function `_ComputePurposeVisibility`: the token it returns and the
coding errors it posts.  The pseudo-root is the prim without a parent. -/
def _ComputePurposeVisibility (stage : UsdStage) (prim : SdfPath) (purpose : TfToken)
    (time : UsdTimeCode) : TfToken × List String :=
  match prim with
  | name :: parent =>
    match authoredPurposeVisibility stage (name :: parent) purpose time with
    | some localVis => (localVis, [])
    | none => _ComputePurposeVisibility stage parent purpose time
  | [] =>
    match authoredPurposeVisibility stage [] purpose time with
    | some localVis => (localVis, [])
    | none =>
      if purpose = UsdGeomTokens.guide then (UsdGeomTokens.invisible, [])
      else if purpose = UsdGeomTokens.proxy ∨ purpose = UsdGeomTokens.render then
        (UsdGeomTokens.inherited, [])
      else
        (UsdGeomTokens.invisible,
          ["Unexpected purpose '" ++ purpose ++ "' computing purpose visibility for </>."])

/-- The method `ComputeEffectiveVisibility`: the token it returns and the
coding errors posted on the way. -/
def UsdGeomImageable.ComputeEffectiveVisibility (stage : UsdStage) (prim : SdfPath)
    (purpose : TfToken) (time : UsdTimeCode) : TfToken × List String :=
  if UsdGeomImageable.ComputeVisibility stage prim time = UsdGeomTokens.invisible then
    (UsdGeomTokens.invisible, [])
  else if purpose = UsdGeomTokens.default_ then
    (UsdGeomTokens.visible, [])
  else _ComputePurposeVisibility stage prim purpose time

/-- A stage with the prims /World, /World/A, /World/B and /World/A/Mesh, all
imageable, where /World and /World/A/Mesh are invisible; /World has the
authored purpose render, and /World/A has an authored guide visibility. -/
def exampleStage : UsdStage where
  childNames := fun p =>
    if p = [] then ["World"]
    else if p = ["World"] then ["A", "B"]
    else if p = ["A", "World"] then ["Mesh"]
    else []
  isImageable := fun p => decide (p ≠ [])
  visibility := fun p _ =>
    if p = ["World"] ∨ p = ["Mesh", "A", "World"] then some UsdGeomTokens.invisible
    else some UsdGeomTokens.inherited
  visibilityAuthored := fun p => decide (p = ["World"] ∨ p = ["Mesh", "A", "World"])
  purposeAuthored := fun p => decide (p = ["World"])
  purpose := fun p =>
    if p = ["World"] then some UsdGeomTokens.render else some UsdGeomTokens.default_
  hasVisibilityAPI := fun p => decide (p = ["A", "World"])
  purposeVisibilityAttr := fun p purpose =>
    if purpose = UsdGeomTokens.guide then
      some ⟨decide (p = ["A", "World"]), fun _ => some UsdGeomTokens.visible⟩
    else if purpose = UsdGeomTokens.proxy ∨ purpose = UsdGeomTokens.render then
      some ⟨false, fun _ => some UsdGeomTokens.inherited⟩
    else none

/-- The authored purpose of a prim in the words of the purpose rule, read off
the stage alone: the token the purpose attribute of the prim holds, when the
prim is imageable, the attribute has an authored value and that value is not
the empty token; `none` when the prim has no authored purpose. -/
def specAuthoredPurpose (stage : UsdStage) (prim : SdfPath) : Option TfToken :=
  match stage.isImageable prim, stage.purposeAuthored prim, stage.purpose prim with
  | true, true, some t => if t = "" then none else some t
  | _, _, _ => none

/-- A stage for the purpose rule: /World (imageable, no authored purpose) has
the child G, which is not imageable and carries an authored attribute named
purpose with the value render; G has the imageable child P, whose purpose
attribute has no authored value and resolves to guide; P has the imageable
child M, whose purpose attribute has no authored value and resolves to
default. -/
def purposeStage : UsdStage where
  childNames := fun p =>
    if p = [] then ["World"]
    else if p = ["World"] then ["G"]
    else if p = ["G", "World"] then ["P"]
    else if p = ["P", "G", "World"] then ["M"]
    else []
  isImageable := fun p => decide (p ≠ [] ∧ p ≠ ["G", "World"])
  visibility := fun _ _ => some UsdGeomTokens.inherited
  visibilityAuthored := fun _ => false
  purposeAuthored := fun p => decide (p = ["G", "World"])
  purpose := fun p =>
    if p = ["G", "World"] then some UsdGeomTokens.render
    else if p = ["P", "G", "World"] then some UsdGeomTokens.guide
    else some UsdGeomTokens.default_
  hasVisibilityAPI := fun _ => false
  purposeVisibilityAttr := fun _ _ => none

/-- A stage in which the group /World/G is not imageable: /World (imageable,
invisible) has the child G, and G has the imageable children P and Q. -/
def groupStage : UsdStage where
  childNames := fun p =>
    if p = [] then ["World"]
    else if p = ["World"] then ["G"]
    else if p = ["G", "World"] then ["P", "Q"]
    else []
  isImageable := fun p => decide (p ≠ [] ∧ p ≠ ["G", "World"])
  visibility := fun p _ =>
    if p = ["World"] then some UsdGeomTokens.invisible else some UsdGeomTokens.inherited
  visibilityAuthored := fun p => decide (p = ["World"])
  purposeAuthored := fun _ => false
  purpose := fun _ => some UsdGeomTokens.default_
  hasVisibilityAPI := fun _ => false
  purposeVisibilityAttr := fun _ _ => none

end UsdGeom

/-!
# UsdRiSplineAPI: validation

A shallow embedding of `UsdRiSplineAPI::Validate` and the attribute accessors
it calls, from `pxr/usd/usdRi/splineAPI.cpp`.
-/

namespace UsdRi

/-- Modelled from the spec: the class `TfToken` (pxr/base/tf/token.h is not
among the sources), an interned string; the default-constructed token is the
empty string. -/
abbrev TfToken := String

/-- Modelled from the spec: the class `SdfValueTypeName`
(pxr/usd/sdf/valueTypeName.h is not among the sources), identified by the
token `GetAsToken()` yields; the empty name is the invalid type name. -/
abbrev SdfValueTypeName := String

/-- Modelled from the spec: `SdfValueTypeNames->FloatArray`
(pxr/usd/sdf/types.h is not among the sources). -/
def SdfValueTypeNames.FloatArray : SdfValueTypeName := "float[]"

/-- Modelled from the spec: `SdfValueTypeNames->Color3fArray`
(pxr/usd/sdf/types.h is not among the sources). -/
def SdfValueTypeNames.Color3fArray : SdfValueTypeName := "color3f[]"

/-- Modelled from the spec: the tokens of `UsdRiTokens`
(pxr/usd/usdRi/tokens.h is not among the sources). -/
def UsdRiTokens.spline : TfToken := "spline"

/-- Modelled from the spec: `UsdRiTokens->interpolation`. -/
def UsdRiTokens.interpolation : TfToken := "interpolation"

/-- Modelled from the spec: `UsdRiTokens->positions`. -/
def UsdRiTokens.positions : TfToken := "positions"

/-- Modelled from the spec: `UsdRiTokens->values`. -/
def UsdRiTokens.values : TfToken := "values"

/-- Modelled from the spec: `UsdRiTokens->constant`. -/
def UsdRiTokens.constant : TfToken := "constant"

/-- Modelled from the spec: `UsdRiTokens->linear`. -/
def UsdRiTokens.linear : TfToken := "linear"

/-- Modelled from the spec: `UsdRiTokens->catmullRom`. -/
def UsdRiTokens.catmullRom : TfToken := "catmull-rom"

/-- Modelled from the spec: `UsdRiTokens->bspline`. -/
def UsdRiTokens.bspline : TfToken := "bspline"

/-- Modelled from the spec: the values a `VtValue` holds that `Validate`
reads (pxr/base/vt/value.h is not among the sources): a token, a
`VtFloatArray`, a `VtVec3fArray`, or a value of another type.  Floats are
exact rationals. -/
inductive VtValue where
  | token (value : TfToken)
  | floatArray (value : List ℚ)
  | vec3fArray (value : List (ℚ × ℚ × ℚ))
  | other
deriving DecidableEq

/-- Modelled from the spec: what `Validate` sees of a valid `UsdAttribute`
(pxr/usd/usd/attribute.h is not among the sources): its type name and the
value it resolves to at the default time, if any. -/
structure UsdAttribute where
  typeName : SdfValueTypeName
  value : Option VtValue
deriving DecidableEq

/-- Modelled from the spec: `UsdAttribute::GetTypeName`; an invalid attribute
(`none`) has the empty type name. -/
def GetTypeName (attr : Option UsdAttribute) : SdfValueTypeName :=
  match attr with
  | some a => a.typeName
  | none => ""

/-- Modelled from the spec: `UsdAttribute::Get(TfToken *value)`: the variable
is overwritten when the attribute holds a token and left alone otherwise. -/
def GetToken (attr : Option UsdAttribute) (value : TfToken) : TfToken :=
  match attr with
  | some ⟨_, some (.token t)⟩ => t
  | _ => value

/-- Modelled from the spec: `UsdAttribute::Get(VtFloatArray *value)`. -/
def GetFloatArray (attr : Option UsdAttribute) (value : List ℚ) : List ℚ :=
  match attr with
  | some ⟨_, some (.floatArray a)⟩ => a
  | _ => value

/-- Modelled from the spec: `UsdAttribute::Get(VtVec3fArray *value)`. -/
def GetVec3fArray (attr : Option UsdAttribute) (value : List (ℚ × ℚ × ℚ)) :
    List (ℚ × ℚ × ℚ) :=
  match attr with
  | some ⟨_, some (.vec3fArray a)⟩ => a
  | _ => value

/-- Modelled from the spec: `SdfPath::JoinIdentifier(lhs, rhs)`
(pxr/usd/sdf/path.h is not among the sources): the two names joined by the
namespace delimiter, or the other name when one is empty. -/
def JoinIdentifier (lhs rhs : String) : String :=
  if lhs = "" then rhs
  else if rhs = "" then lhs
  else lhs ++ ":" ++ rhs

/-- The members of `UsdRiSplineAPI` and, for `GetPrim().GetAttribute(name)`,
the attribute of each name on the prim (`none` for an invalid attribute). -/
structure UsdRiSplineAPI where
  _splineName : TfToken
  _valuesTypeName : SdfValueTypeName
  GetAttribute : TfToken → Option UsdAttribute

namespace UsdRiSplineAPI

def _GetScopedPropertyName (api : UsdRiSplineAPI) (baseName : TfToken) : TfToken :=
  JoinIdentifier (JoinIdentifier api._splineName UsdRiTokens.spline) baseName

def GetInterpolationAttr (api : UsdRiSplineAPI) : Option UsdAttribute :=
  let name := api._GetScopedPropertyName UsdRiTokens.interpolation
  api.GetAttribute name

def GetPositionsAttr (api : UsdRiSplineAPI) : Option UsdAttribute :=
  let name := api._GetScopedPropertyName UsdRiTokens.positions
  api.GetAttribute name

def GetValuesAttr (api : UsdRiSplineAPI) : Option UsdAttribute :=
  let name := api._GetScopedPropertyName UsdRiTokens.values
  api.GetAttribute name

end UsdRiSplineAPI

/-- The algorithm `std::is_sorted` with `operator<`: no element is less than
the one before it. -/
def is_sorted : List ℚ → Bool
  | [] => true
  | [_] => true
  | a :: b :: rest => !(decide (b < a)) && is_sorted (b :: rest)

/-- The method `Validate(std::string *reason)`: the result and the string
behind `reason` afterwards. -/
def UsdRiSplineAPI.Validate (api : UsdRiSplineAPI) (reason : String) : Bool × String :=
  if api._splineName = "" then
    (false, reason ++ "SplineAPI is not correctly initialized")
  else
    let interpAttr := api.GetInterpolationAttr
    let posAttr := api.GetPositionsAttr
    let valAttr := api.GetValuesAttr
    if api._valuesTypeName ≠ SdfValueTypeNames.FloatArray ∧
        api._valuesTypeName ≠ SdfValueTypeNames.Color3fArray then
      (false, reason ++ ("SplineAPI is configured for an unsupported value type '" ++
        api._valuesTypeName ++ "'"))
    else if interpAttr.isNone then
      (false, reason ++ "Could not get the interpolation attribute.")
    else if posAttr.isNone then
      (false, reason ++ "Could not get the position attribute.")
    else
      let interp := GetToken interpAttr ""
      if interp ≠ UsdRiTokens.constant ∧ interp ≠ UsdRiTokens.linear ∧
          interp ≠ UsdRiTokens.catmullRom ∧ interp ≠ UsdRiTokens.bspline then
        (false, reason ++ ("Interpolation attribute has invalid value '" ++ interp ++ "'"))
      else if GetTypeName posAttr ≠ SdfValueTypeNames.FloatArray then
        (false, reason ++ ("Values attribute has incorrect type; found '" ++
          GetTypeName valAttr ++ "' but expected '" ++ SdfValueTypeNames.FloatArray ++ "'"))
      else
        let positions := GetFloatArray posAttr []
        if !is_sorted positions then
          (false, reason ++ "Positions attribute must be sorted in increasing order")
        else if GetTypeName valAttr ≠ api._valuesTypeName then
          (false, reason ++ ("Values attribute has incorrect type; found '" ++
            GetTypeName valAttr ++ "' but expected '" ++ api._valuesTypeName ++ "'"))
        else
          let numValues : Nat :=
            if api._valuesTypeName = SdfValueTypeNames.FloatArray then
              (GetFloatArray valAttr []).length
            else if api._valuesTypeName = SdfValueTypeNames.Color3fArray then
              (GetVec3fArray valAttr []).length
            else 0
          if positions.length ≠ numValues then
            (false, reason ++
              "Values attribute and positions attribute must have the same number of entries")
          else
            (true, reason)

/-- The number of entries `Validate` counts in the values attribute. -/
def UsdRiSplineAPI.numValues (api : UsdRiSplineAPI) : Nat :=
  if api._valuesTypeName = SdfValueTypeNames.FloatArray then
    (GetFloatArray api.GetValuesAttr []).length
  else if api._valuesTypeName = SdfValueTypeNames.Color3fArray then
    (GetVec3fArray api.GetValuesAttr []).length
  else 0

/-- The messages `Validate` can append to `reason`. -/
def UsdRiSplineAPI.validateMessages (api : UsdRiSplineAPI) : List String :=
  ["SplineAPI is not correctly initialized",
   "SplineAPI is configured for an unsupported value type '" ++ api._valuesTypeName ++ "'",
   "Could not get the interpolation attribute.",
   "Could not get the position attribute.",
   "Interpolation attribute has invalid value '" ++ GetToken api.GetInterpolationAttr "" ++ "'",
   "Values attribute has incorrect type; found '" ++ GetTypeName api.GetValuesAttr ++
     "' but expected '" ++ SdfValueTypeNames.FloatArray ++ "'",
   "Positions attribute must be sorted in increasing order",
   "Values attribute has incorrect type; found '" ++ GetTypeName api.GetValuesAttr ++
     "' but expected '" ++ api._valuesTypeName ++ "'",
   "Values attribute and positions attribute must have the same number of entries"]

/-- A spline named ramp with float values: three positions 0, 0.5, 0.5 and
three values, linear interpolation. -/
def rampSpline : UsdRiSplineAPI where
  _splineName := "ramp"
  _valuesTypeName := SdfValueTypeNames.FloatArray
  GetAttribute := fun name =>
    if name = "ramp:spline:interpolation" then
      some ⟨"token", some (.token UsdRiTokens.linear)⟩
    else if name = "ramp:spline:positions" then
      some ⟨SdfValueTypeNames.FloatArray, some (.floatArray [0, 1 / 2, 1 / 2])⟩
    else if name = "ramp:spline:values" then
      some ⟨SdfValueTypeNames.FloatArray, some (.floatArray [0, 1, 2])⟩
    else none

/-- The spline `rampSpline` with the positions 0, 0.5, 0.25, which are not
sorted. -/
def unsortedSpline : UsdRiSplineAPI :=
  { rampSpline with
    GetAttribute := fun name =>
      if name = "ramp:spline:positions" then
        some ⟨SdfValueTypeNames.FloatArray, some (.floatArray [0, 1 / 2, 1 / 4])⟩
      else rampSpline.GetAttribute name }

end UsdRi

namespace Glf

open GlfSimpleShadowArray

theorem TF_VERIFY_true (t : String) (w : World) : TF_VERIFY true t w = (true, w) := rfl

theorem TF_VERIFY_false (t : String) (w : World) :
    TF_VERIFY false t w = (false, post (.verifyFailed t) w) := rfl

theorem deleteTextureIds_eq (ids : List Nat) (w : World) :
    deleteTextureIds ids w =
      { w with calls := w.calls ++ deleteCalls w.inShared ids } := by
  unfold deleteCalls World.inShared
  induction ids generalizing w with
  | nil => simp [deleteTextureIds]
  | cons id ids ih =>
    unfold deleteTextureIds at ih ⊢
    rw [List.foldl_cons, ih]
    by_cases h : id = 0
    · simp [h]
    · simp [h, glDeleteTextures, issue, List.filter_cons]

theorem allocTextureLoop_eq (rs : List GfVec2i) (ts : List Nat) (w : World) :
    allocTextureLoop rs ts w =
      (ts ++ List.range' (w.gl.names + 1) rs.length,
       { w with
          gl := { w.gl with names := w.gl.names + rs.length },
          calls := w.calls ++ allocCalls w.inShared w.gl.names rs,
          diagnostics := w.diagnostics ++
            (if w.debugShadowTextures then allocDiags w.gl.names rs else []) }) := by
  unfold World.inShared
  induction rs generalizing ts w with
  | nil => simp [allocTextureLoop, allocCalls, allocDiags]
  | cons r rs ih =>
    unfold allocTextureLoop
    simp only [ih]
    cases hd : w.debugShadowTextures <;>
    simp [glGenTextures, genName, glBindTexture, glTexImage2D, issue, post, allocCalls,
      allocDiags, hd, List.range'_succ, Nat.add_assoc, Nat.add_comm 1]

theorem _FreeTextures_eq (s : GlfSimpleShadowArray) (w : World) :
    s._FreeTextures w =
      ({ s with _textures := [] },
       { w with calls := w.calls ++ deleteCalls true s._textures }) := by
  unfold _FreeTextures
  cases h : s._textures with
  | nil =>
    cases s; cases w
    simp_all [deleteCalls]
  | cons a l =>
    simp [deleteTextureIds_eq, enterSharedScope, exitSharedScope, GLF_POST_PENDING_GL_ERRORS,
      World.inShared, h]

theorem _AllocTextures_ok (s : GlfSimpleShadowArray) (w : World)
    (h1 : s._shadowDepthSampler ≠ 0) (h2 : s._shadowCompareSampler ≠ 0)
    (h3 : s._textures = []) :
    s._AllocTextures w =
      ({ s with _textures := List.range' (w.gl.names + 1) s._resolutions.length,
                _texturesAllocatedExternally := false },
       { w with
          gl := { w.gl with names := w.gl.names + s._resolutions.length },
          calls := w.calls ++ (allocCalls true w.gl.names s._resolutions ++
            [⟨.glBindTexture .GL_TEXTURE_2D 0, true⟩]),
          diagnostics := w.diagnostics ++
            (if w.debugShadowTextures then allocDiags w.gl.names s._resolutions else []) }) := by
  unfold _AllocTextures
  simp [h1, h2, h3, TF_VERIFY_true, allocTextureLoop_eq, enterSharedScope, exitSharedScope,
    glBindTexture, issue, World.inShared]

/-- The diagnostics of the failed entry check of `_AllocTextures`. -/
theorem _AllocTextures_bad (s : GlfSimpleShadowArray) (w : World)
    (h : ¬ (s._shadowDepthSampler ≠ 0 ∧ s._shadowCompareSampler ≠ 0 ∧ s._textures = [])) :
    ∃ t : String, s._AllocTextures w =
      (s, { w with diagnostics := w.diagnostics ++
          [.verifyFailed t, .codingError "Unexpected entry state in _AllocTextures"] }) := by
  unfold _AllocTextures
  by_cases h1 : s._shadowDepthSampler = 0
  · exact ⟨"_shadowDepthSampler", by simp [h1, TF_VERIFY_false, post]⟩
  · by_cases h2 : s._shadowCompareSampler = 0
    · exact ⟨"_shadowCompareSampler", by simp [h1, h2, TF_VERIFY_true, TF_VERIFY_false, post]⟩
    · have h3 : s._textures ≠ [] := fun h3 => h ⟨h1, h2, h3⟩
      have h4 : s._textures.isEmpty = false := by
        cases h5 : s._textures with
        | nil => exact absurd h5 h3
        | cons a l => rfl
      exact ⟨"_textures.empty()", by simp [h1, h2, h4, TF_VERIFY_true, TF_VERIFY_false, post]⟩

theorem AllocSamplers_eq (s : GlfSimpleShadowArray) (w : World) :
    s.AllocSamplers w =
      if s._shadowDepthSampler = 0 then
        if s._shadowCompareSampler = 0 then
          ({ s with _shadowDepthSampler := w.gl.names + 1,
                    _shadowCompareSampler := w.gl.names + 2 },
           { w with gl := { w.gl with names := w.gl.names + 2 },
                    calls := w.calls ++ (depthSamplerCalls w.inShared (w.gl.names + 1) ++
                      compareSamplerCalls w.inShared (w.gl.names + 2)) })
        else
          ({ s with _shadowDepthSampler := w.gl.names + 1 },
           { w with gl := { w.gl with names := w.gl.names + 1 },
                    calls := w.calls ++ depthSamplerCalls w.inShared (w.gl.names + 1) })
      else
        if s._shadowCompareSampler = 0 then
          ({ s with _shadowCompareSampler := w.gl.names + 1 },
           { w with gl := { w.gl with names := w.gl.names + 1 },
                    calls := w.calls ++ compareSamplerCalls w.inShared (w.gl.names + 1) })
        else (s, w) := by
  unfold AllocSamplers
  by_cases h1 : s._shadowDepthSampler = 0 <;> by_cases h2 : s._shadowCompareSampler = 0 <;>
    simp [h1, h2, glGenSamplers, genName, glSamplerParameteri, glSamplerParameterfv, issue,
      depthSamplerCalls, compareSamplerCalls, World.inShared]

theorem GlfSimpleShadowArray.sameButObjects_refl (s : GlfSimpleShadowArray) :
    s.sameButObjects s := by
  cases s; rfl

theorem GlfSimpleShadowArray.sameButObjects_trans {a b c : GlfSimpleShadowArray}
    (h1 : a.sameButObjects b) (h2 : b.sameButObjects c) : a.sameButObjects c := by
  unfold GlfSimpleShadowArray.sameButObjects at *
  rw [h2, h1]

theorem World.sameContext_refl (w : World) : w.sameContext w := by
  cases w; rfl

theorem World.sameContext_trans {a b c : World}
    (h1 : a.sameContext b) (h2 : b.sameContext c) : a.sameContext c := by
  unfold World.sameContext at *
  rw [h2, h1]

theorem _AllocTextures_eq (s : GlfSimpleShadowArray) (w : World) :
    s._AllocTextures w =
      if s._shadowDepthSampler ≠ 0 ∧ s._shadowCompareSampler ≠ 0 ∧ s._textures = [] then
        ({ s with _textures := List.range' (w.gl.names + 1) s._resolutions.length,
                  _texturesAllocatedExternally := false },
         { w with
            gl := { w.gl with names := w.gl.names + s._resolutions.length },
            calls := w.calls ++ (allocCalls true w.gl.names s._resolutions ++
              [⟨.glBindTexture .GL_TEXTURE_2D 0, true⟩]),
            diagnostics := w.diagnostics ++
              (if w.debugShadowTextures then allocDiags w.gl.names s._resolutions else []) })
      else
        (s, { w with diagnostics := w.diagnostics ++
          [.verifyFailed (entryCheckText s),
           .codingError "Unexpected entry state in _AllocTextures"] }) := by
  by_cases h : s._shadowDepthSampler ≠ 0 ∧ s._shadowCompareSampler ≠ 0 ∧ s._textures = []
  · rw [if_pos h]
    exact _AllocTextures_ok s w h.1 h.2.1 h.2.2
  · rw [if_neg h]
    unfold _AllocTextures entryCheckText
    by_cases h1 : s._shadowDepthSampler = 0
    · simp [h1, TF_VERIFY_false, post]
    · by_cases h2 : s._shadowCompareSampler = 0
      · simp [h1, h2, TF_VERIFY_true, TF_VERIFY_false, post]
      · have h3 : s._textures ≠ [] := fun h3 => h ⟨h1, h2, h3⟩
        have h4 : s._textures.isEmpty = false := by
          cases h5 : s._textures with
          | nil => exact absurd h5 h3
          | cons a l => rfl
        simp [h1, h2, h4, TF_VERIFY_true, TF_VERIFY_false, post]

theorem AllocSamplers_frame (s : GlfSimpleShadowArray) (w : World) :
    s.sameButObjects (s.AllocSamplers w).1 ∧ w.sameContext (s.AllocSamplers w).2 := by
  rw [AllocSamplers_eq]
  unfold GlfSimpleShadowArray.sameButObjects World.sameContext
  split_ifs
  · exact ⟨rfl, rfl⟩
  · exact ⟨rfl, rfl⟩
  · exact ⟨rfl, rfl⟩
  · exact ⟨by cases s; rfl, by cases w; rfl⟩

theorem _AllocTextures_frame (s : GlfSimpleShadowArray) (w : World) :
    s.sameButObjects (s._AllocTextures w).1 ∧ w.sameContext (s._AllocTextures w).2 := by
  rw [_AllocTextures_eq]
  unfold GlfSimpleShadowArray.sameButObjects World.sameContext
  by_cases h : s._shadowDepthSampler ≠ 0 ∧ s._shadowCompareSampler ≠ 0 ∧ s._textures = []
  · rw [if_pos h]
    exact ⟨rfl, rfl⟩
  · rw [if_neg h]
    exact ⟨by cases s; rfl, by cases w; rfl⟩

theorem _AllocResources_frame (s : GlfSimpleShadowArray) (w : World) :
    s.sameButObjects (s._AllocResources w).1 ∧ w.sameContext (s._AllocResources w).2 := by
  unfold _AllocResources
  have h1 := AllocSamplers_frame s w
  have h2 := _AllocTextures_frame (s.AllocSamplers w).1 (s.AllocSamplers w).2
  simp only []
  generalize s.AllocSamplers w = a at h1 h2 ⊢
  have h3 : s.sameButObjects
      (if (!a.1._texturesAllocatedExternally) = true then a.1._AllocTextures a.2 else a).1 ∧
      w.sameContext
      (if (!a.1._texturesAllocatedExternally) = true then a.1._AllocTextures a.2 else a).2 := by
    split_ifs
    · exact ⟨GlfSimpleShadowArray.sameButObjects_trans h1.1 h2.1,
        World.sameContext_trans h1.2 h2.2⟩
    · exact h1
  generalize (if (!a.1._texturesAllocatedExternally) = true then a.1._AllocTextures a.2
    else a) = t at h3 ⊢
  split_ifs
  · refine ⟨GlfSimpleShadowArray.sameButObjects_trans h3.1 ?_,
      World.sameContext_trans h3.2 ?_⟩
    · unfold GlfSimpleShadowArray.sameButObjects; rfl
    · unfold World.sameContext
      simp only [glGenFramebuffers, genName, issue]
  · exact h3

theorem World.sameContext_viewport {w w' : World} (h : w.sameContext w') :
    w'.gl.viewport = w.gl.viewport := by
  unfold World.sameContext at h; rw [h]

theorem GlfSimpleShadowArray.sameButObjects_restore {s s' : GlfSimpleShadowArray}
    (h : s.sameButObjects s') :
    s'._unbindRestoreDrawFramebuffer = s._unbindRestoreDrawFramebuffer ∧
    s'._unbindRestoreReadFramebuffer = s._unbindRestoreReadFramebuffer ∧
    s'._unbindRestoreViewport = s._unbindRestoreViewport := by
  unfold GlfSimpleShadowArray.sameButObjects at h
  refine ⟨?_, ?_, ?_⟩ <;> rw [h]

theorem GetShadowMapSize_snd (s : GlfSimpleShadowArray) (w : World) (i : Nat) :
    (s.GetShadowMapSize w i).2 =
      if i < s._resolutions.length then w
      else post (.verifyFailed "index < _resolutions.size()") w := by
  unfold GetShadowMapSize
  by_cases h : i < s._resolutions.length
  · simp [h, TF_VERIFY_true]
  · simp [h, TF_VERIFY_false]

theorem GetShadowMapSize_gl (s : GlfSimpleShadowArray) (w : World) (i : Nat) :
    (s.GetShadowMapSize w i).2.gl = w.gl := by
  rw [GetShadowMapSize_snd]; split_ifs <;> rfl

/-- What `_BindFramebuffer` saves, and that it leaves the viewport alone. -/
theorem _BindFramebuffer_saved (s : GlfSimpleShadowArray) (w : World) (index : Nat) :
    (s._BindFramebuffer w index).1._unbindRestoreDrawFramebuffer = w.gl.drawFramebuffer ∧
    (s._BindFramebuffer w index).1._unbindRestoreReadFramebuffer = w.gl.readFramebuffer ∧
    (s._BindFramebuffer w index).2.gl.viewport = w.gl.viewport := by
  have key : ∀ (s1 : GlfSimpleShadowArray) (r : GlfSimpleShadowArray × World),
      s1.sameButObjects r.1 → w.sameContext r.2 →
      r.1._unbindRestoreDrawFramebuffer = s1._unbindRestoreDrawFramebuffer ∧
      r.1._unbindRestoreReadFramebuffer = s1._unbindRestoreReadFramebuffer ∧
      (GLF_POST_PENDING_GL_ERRORS
        (if index < r.1._textures.length then
          glFramebufferTexture .GL_FRAMEBUFFER .GL_DEPTH_ATTACHMENT (r.1._textures.getD index 0) 0
            (glBindFramebuffer .GL_FRAMEBUFFER r.1._framebuffer r.2)
        else post (.codingWarning "Texture index is out of bounds")
            (glBindFramebuffer .GL_FRAMEBUFFER r.1._framebuffer r.2))).gl.viewport
        = w.gl.viewport := by
    intro s1 r h1 h2
    have := GlfSimpleShadowArray.sameButObjects_restore h1
    refine ⟨this.1, this.2.1, ?_⟩
    rw [← World.sameContext_viewport h2]
    unfold GLF_POST_PENDING_GL_ERRORS
    split_ifs <;> simp [glFramebufferTexture, glBindFramebuffer, issue, post]
  have hc : ∀ (s1 : GlfSimpleShadowArray) (c : Prop) [Decidable c],
      s1.sameButObjects (if c then s1._AllocResources w else (s1, w)).1 ∧
      w.sameContext (if c then s1._AllocResources w else (s1, w)).2 := by
    intro s1 c _
    split_ifs
    · exact _AllocResources_frame s1 w
    · exact ⟨GlfSimpleShadowArray.sameButObjects_refl _, World.sameContext_refl _⟩
  exact key _ _ (hc _ _).1 (hc _ _).2

theorem BeginCapture_saved (s : GlfSimpleShadowArray) (w : World) (index : Nat) (clear : Bool) :
    (s.BeginCapture w index clear).1._unbindRestoreDrawFramebuffer = w.gl.drawFramebuffer ∧
    (s.BeginCapture w index clear).1._unbindRestoreReadFramebuffer = w.gl.readFramebuffer ∧
    (s.BeginCapture w index clear).1._unbindRestoreViewport = w.gl.viewport := by
  have h := _BindFramebuffer_saved s w index
  unfold BeginCapture
  simp only []
  refine ⟨h.1, h.2.1, ?_⟩
  cases clear
  · simpa using h.2.2
  · simpa [glClear, issue] using h.2.2

theorem wrapInt32_zero : wrapInt32 0 = 0 := by decide

/-- The size `GetShadowMapSize` yields does not depend on the world. -/
theorem GetShadowMapSize_size (s : GlfSimpleShadowArray) (w w' : World) (i : Nat) :
    (s.GetShadowMapSize w i).1 = (s.GetShadowMapSize w' i).1 := by
  unfold GetShadowMapSize
  by_cases h : i < s._resolutions.length
  · simp [h, TF_VERIFY_true]
  · simp [h, TF_VERIFY_false]

/-- The size of a slot outside the resolution list has the pixel count zero. -/
theorem numPixels_of_out_of_range (s : GlfSimpleShadowArray) (w : World) (index : Nat)
    (h : ¬ index < s._resolutions.length) :
    wrapInt32 ((s.GetShadowMapSize w index).1.x * (s.GetShadowMapSize w index).1.y) = 0 := by
  unfold GetShadowMapSize
  simp [h, TF_VERIFY_false, wrapInt32_zero]

/-- The dump block left by the exception: nothing but the exception has
happened. -/
theorem dumpShadowTexture_throw (s : GlfSimpleShadowArray) (w : World) (index : Nat)
    (h : wrapInt32 ((s.GetShadowMapSize w index).1.x * (s.GetShadowMapSize w index).1.y) < 0) :
    dumpShadowTexture s w index = (throwOut "std::length_error" w, true) := by
  have hin : index < s._resolutions.length := by
    by_contra hc
    rw [numPixels_of_out_of_range s w index hc] at h
    exact absurd h (by decide)
  unfold dumpShadowTexture
  simp only [h, if_true]
  rw [GetShadowMapSize_snd, if_pos hin]

theorem dumpShadowTexture_snd (s : GlfSimpleShadowArray) (w : World) (index : Nat) :
    (dumpShadowTexture s w index).2 =
      decide (wrapInt32 ((s.GetShadowMapSize w index).1.x *
        (s.GetShadowMapSize w index).1.y) < 0) := by
  unfold dumpShadowTexture
  by_cases h : wrapInt32 ((s.GetShadowMapSize w index).1.x *
      (s.GetShadowMapSize w index).1.y) < 0
  · simp only [h, if_true, decide_True]
  · simp only [h, if_false, decide_False]
    split_ifs <;> rfl

theorem dumpShadowTexture_gl (s : GlfSimpleShadowArray) (w : World) (index : Nat) :
    (dumpShadowTexture s w index).1.gl = w.gl := by
  unfold dumpShadowTexture
  simp only [glReadPixels, issue, post, throwOut]
  split_ifs <;> simp [GetShadowMapSize_gl]

/-- Whether `EndCapture` is left by the exception, read off its dump block. -/
theorem EndCapture_throws_iff (s : GlfSimpleShadowArray) (w : World) (index : Nat) :
    (if (glDisable .GL_DEPTH_CLAMP (glDepthRange 0 1 w)).dumpShadowTextures then
        dumpShadowTexture s (glDisable .GL_DEPTH_CLAMP (glDepthRange 0 1 w)) index
      else (glDisable .GL_DEPTH_CLAMP (glDepthRange 0 1 w), false)).2 =
      EndCapture_throws s w index := by
  have hd : (glDisable .GL_DEPTH_CLAMP (glDepthRange 0 1 w)).dumpShadowTextures =
      w.dumpShadowTextures := by
    simp [glDisable, glDepthRange, issue]
  unfold EndCapture_throws
  rw [hd]
  cases hdump : w.dumpShadowTextures
  · simp
  · simp only [if_true, Bool.true_and]
    rw [dumpShadowTexture_snd, GetShadowMapSize_size s _ w index]

/-- The method `EndCapture` left by the exception: the depth range and the
depth clamp are reset and nothing is restored. -/
theorem EndCapture_of_throws (s : GlfSimpleShadowArray) (w : World) (index : Nat)
    (h : EndCapture_throws s w index = true) :
    s.EndCapture w index =
      (s, throwOut "std::length_error" (glDisable .GL_DEPTH_CLAMP (glDepthRange 0 1 w))) := by
  have hi := EndCapture_throws_iff s w index
  rw [h] at hi
  unfold EndCapture
  simp only [hi, if_true]
  unfold EndCapture_throws at h
  rw [Bool.and_eq_true, decide_eq_true_eq] at h
  have hd : (glDisable .GL_DEPTH_CLAMP (glDepthRange 0 1 w)).dumpShadowTextures = true := by
    simp [glDisable, glDepthRange, issue, h.1]
  rw [if_pos hd, dumpShadowTexture_throw]
  rw [GetShadowMapSize_size s _ w index]
  exact h.2

/-- The method `EndCapture` when it returns. -/
theorem EndCapture_of_returns (s : GlfSimpleShadowArray) (w : World) (index : Nat)
    (h : EndCapture_throws s w index = false) :
    s.EndCapture w index =
      (s, GLF_POST_PENDING_GL_ERRORS
        (glViewport s._unbindRestoreViewport.v0 s._unbindRestoreViewport.v1
          s._unbindRestoreViewport.v2 s._unbindRestoreViewport.v3
          (_UnbindFramebuffer s
            (if (glDisable .GL_DEPTH_CLAMP (glDepthRange 0 1 w)).dumpShadowTextures then
              dumpShadowTexture s (glDisable .GL_DEPTH_CLAMP (glDepthRange 0 1 w)) index
            else (glDisable .GL_DEPTH_CLAMP (glDepthRange 0 1 w), false)).1))) := by
  have hi := EndCapture_throws_iff s w index
  rw [h] at hi
  unfold EndCapture
  simp only [hi, Bool.false_eq_true, if_false]

/-- When `EndCapture` returns, the bindings and the viewport are the saved
ones. -/
theorem EndCapture_restores (s : GlfSimpleShadowArray) (w : World) (index : Nat)
    (h : EndCapture_throws s w index = false) :
    (s.EndCapture w index).2.gl.drawFramebuffer = s._unbindRestoreDrawFramebuffer ∧
    (s.EndCapture w index).2.gl.readFramebuffer = s._unbindRestoreReadFramebuffer ∧
    (s.EndCapture w index).2.gl.viewport = s._unbindRestoreViewport := by
  rw [EndCapture_of_returns s w index h]
  unfold _UnbindFramebuffer GLF_POST_PENDING_GL_ERRORS
  simp [glViewport, glBindFramebuffer, issue]

/-- When `EndCapture` is left by the exception, the bindings and the viewport
are the ones it found. -/
theorem EndCapture_not_restored (s : GlfSimpleShadowArray) (w : World) (index : Nat)
    (h : EndCapture_throws s w index = true) :
    (s.EndCapture w index).2.gl.drawFramebuffer = w.gl.drawFramebuffer ∧
    (s.EndCapture w index).2.gl.readFramebuffer = w.gl.readFramebuffer ∧
    (s.EndCapture w index).2.gl.viewport = w.gl.viewport ∧
    (s.EndCapture w index).2.exceptions = w.exceptions ++ ["std::length_error"] := by
  rw [EndCapture_of_throws s w index h]
  simp [throwOut, glDisable, glDepthRange, issue]

/-- The capture bracket when `EndCapture` returns: whatever the manager and
the context look like, after `BeginCapture(index, clear)`, any change of the
context by the caller, and `EndCapture(index)`, the draw binding, the read
binding and the viewport are the ones found when `BeginCapture` was called. -/
theorem capture_bracket_restores (s : GlfSimpleShadowArray) (w : World) (index : Nat)
    (clear : Bool) (gl : GLState)
    (hret : EndCapture_throws (s.BeginCapture w index clear).1
      { (s.BeginCapture w index clear).2 with gl := gl } index = false) :
    ((s.BeginCapture w index clear).1.EndCapture
        { (s.BeginCapture w index clear).2 with gl := gl } index).2.gl.drawFramebuffer
      = w.gl.drawFramebuffer ∧
    ((s.BeginCapture w index clear).1.EndCapture
        { (s.BeginCapture w index clear).2 with gl := gl } index).2.gl.readFramebuffer
      = w.gl.readFramebuffer ∧
    ((s.BeginCapture w index clear).1.EndCapture
        { (s.BeginCapture w index clear).2 with gl := gl } index).2.gl.viewport
      = w.gl.viewport := by
  have h1 := BeginCapture_saved s w index clear
  have h2 := EndCapture_restores (s.BeginCapture w index clear).1
    { (s.BeginCapture w index clear).2 with gl := gl } index hret
  exact ⟨h2.1.trans h1.1, h2.2.1.trans h1.2.1, h2.2.2.trans h1.2.2⟩

/-- The capture bracket when `EndCapture` is left by the exception: the
context stays as the caller left it inside the bracket. -/
theorem capture_bracket_thrown (s : GlfSimpleShadowArray) (w : World) (index : Nat)
    (clear : Bool) (gl : GLState)
    (hthrow : EndCapture_throws (s.BeginCapture w index clear).1
      { (s.BeginCapture w index clear).2 with gl := gl } index = true) :
    ((s.BeginCapture w index clear).1.EndCapture
        { (s.BeginCapture w index clear).2 with gl := gl } index).2.gl.drawFramebuffer
      = gl.drawFramebuffer ∧
    ((s.BeginCapture w index clear).1.EndCapture
        { (s.BeginCapture w index clear).2 with gl := gl } index).2.gl.readFramebuffer
      = gl.readFramebuffer ∧
    ((s.BeginCapture w index clear).1.EndCapture
        { (s.BeginCapture w index clear).2 with gl := gl } index).2.gl.viewport
      = gl.viewport := by
  have h2 := EndCapture_not_restored (s.BeginCapture w index clear).1
    { (s.BeginCapture w index clear).2 with gl := gl } index hthrow
  exact ⟨h2.1, h2.2.1, h2.2.2.1⟩

/-- C1 (where the code leaves the bracket open): with the shadow-texture dump
enabled and a slot of resolution (46341,46341), whose `int` pixel count is
negative, `BeginCapture(0, true)` followed by `EndCapture(0)` does not give
back the draw binding 7, the read binding 9 and the viewport (1,2,3,4) of
the caller: `EndCapture` is left by `std::length_error` before it restores
anything, with both bindings on the framebuffer 4 of the manager and the
viewport (0,0,46341,46341). -/
theorem C1_capture_bracket_left_open :
    World.dumping.gl.drawFramebuffer = 7 ∧
    World.dumping.gl.readFramebuffer = 9 ∧
    World.dumping.gl.viewport = ⟨1, 2, 3, 4⟩ ∧
    EndCapture_throws (overflowManager.BeginCapture World.dumping 0 true).1
      (overflowManager.BeginCapture World.dumping 0 true).2 0 = true ∧
    ((overflowManager.BeginCapture World.dumping 0 true).1.EndCapture
      (overflowManager.BeginCapture World.dumping 0 true).2 0).2.exceptions =
        ["std::length_error"] ∧
    ((overflowManager.BeginCapture World.dumping 0 true).1.EndCapture
      (overflowManager.BeginCapture World.dumping 0 true).2 0).2.gl.drawFramebuffer = 4 ∧
    ((overflowManager.BeginCapture World.dumping 0 true).1.EndCapture
      (overflowManager.BeginCapture World.dumping 0 true).2 0).2.gl.readFramebuffer = 4 ∧
    ((overflowManager.BeginCapture World.dumping 0 true).1.EndCapture
      (overflowManager.BeginCapture World.dumping 0 true).2 0).2.gl.viewport =
        ⟨0, 0, 46341, 46341⟩ := by
  decide

theorem GfMatrix4d.ext_m {a b : GfMatrix4d} (h : ∀ i j, a.m i j = b.m i j) : a = b := by
  cases a; cases b
  congr
  funext i j
  exact h i j

theorem GfMatrix4d.mul_m (a b : GfMatrix4d) (i j : Fin 4) :
    (a * b).m i j =
      a.m i 0 * b.m 0 j + a.m i 1 * b.m 1 j + a.m i 2 * b.m 2 j + a.m i 3 * b.m 3 j := rfl

theorem GfMatrix4d.identity_mul (a : GfMatrix4d) : GfMatrix4d.diagonal 1 * a = a := by
  apply GfMatrix4d.ext_m
  intro i j
  rw [GfMatrix4d.mul_m]
  fin_cases i <;> simp [GfMatrix4d.diagonal]

theorem GetViewMatrix_fst (s : GlfSimpleShadowArray) (w : World) (index : Nat) :
    (s.GetViewMatrix w index).1 =
      if index < s._viewMatrix.length then s._viewMatrix.getD index (GfMatrix4d.diagonal 1)
      else GfMatrix4d.diagonal 1 := by
  unfold GetViewMatrix
  by_cases h : index < s._viewMatrix.length
  · simp [h, TF_VERIFY_true]
  · simp [h, TF_VERIFY_false]

theorem GetProjectionMatrix_fst (s : GlfSimpleShadowArray) (w : World) (index : Nat) :
    (s.GetProjectionMatrix w index).1 =
      if index < s._projectionMatrix.length then
        s._projectionMatrix.getD index (GfMatrix4d.diagonal 1)
      else GfMatrix4d.diagonal 1 := by
  unfold GetProjectionMatrix
  by_cases h : index < s._projectionMatrix.length
  · simp [h, TF_VERIFY_true]
  · simp [h, TF_VERIFY_false]

theorem GetWorldToShadowMatrix_fst (s : GlfSimpleShadowArray) (w : World) (index : Nat) :
    (s.GetWorldToShadowMatrix w index).1 =
      (s.GetViewMatrix w index).1 * (s.GetProjectionMatrix w index).1 *
        GfMatrix4d.SetScale half3 * GfMatrix4d.SetTranslate half3 := by
  unfold GetWorldToShadowMatrix
  simp only [GetViewMatrix_fst, GetProjectionMatrix_fst, half3]

theorem scale_translate_m :
    (GfMatrix4d.SetScale half3 * GfMatrix4d.SetTranslate half3).m 3 0 = 1 / 2 := by
  rw [GfMatrix4d.mul_m]
  simp [GfMatrix4d.SetScale, GfMatrix4d.SetTranslate, half3]

/-- C2: `GetWorldToShadowMatrix(i)` is the product
`GetViewMatrix(i) * GetProjectionMatrix(i) * Scale(1/2) * Translate(1/2)` in this order;
a factor is the stored matrix of slot `i` when `i` is in range and the identity
otherwise, so that for an index out of range of both lists the result is
`Scale(1/2) * Translate(1/2)`, which is not the identity (and not the product
in the other order). -/
theorem C2_world_to_shadow_matrix (s : GlfSimpleShadowArray) (w : World) (index : Nat) :
    (s.GetWorldToShadowMatrix w index).1 =
        (s.GetViewMatrix w index).1 * (s.GetProjectionMatrix w index).1 *
          GfMatrix4d.SetScale half3 * GfMatrix4d.SetTranslate half3 ∧
    (∀ h : index < s._viewMatrix.length,
        (s.GetViewMatrix w index).1 = s._viewMatrix[index]) ∧
    (∀ h : index < s._projectionMatrix.length,
        (s.GetProjectionMatrix w index).1 = s._projectionMatrix[index]) ∧
    (s._viewMatrix.length ≤ index →
        (s.GetViewMatrix w index).1 = GfMatrix4d.SetIdentity) ∧
    (s._projectionMatrix.length ≤ index →
        (s.GetProjectionMatrix w index).1 = GfMatrix4d.SetIdentity) ∧
    (s._viewMatrix.length ≤ index → s._projectionMatrix.length ≤ index →
        (s.GetWorldToShadowMatrix w index).1 =
          GfMatrix4d.SetScale half3 * GfMatrix4d.SetTranslate half3) ∧
    GfMatrix4d.SetScale half3 * GfMatrix4d.SetTranslate half3 ≠ GfMatrix4d.SetIdentity ∧
    GfMatrix4d.SetScale half3 * GfMatrix4d.SetTranslate half3 ≠
      GfMatrix4d.SetTranslate half3 * GfMatrix4d.SetScale half3 := by
  refine ⟨GetWorldToShadowMatrix_fst s w index, ?_, ?_, ?_, ?_, ?_, ?_, ?_⟩
  · intro h
    rw [GetViewMatrix_fst, if_pos h, List.getD_eq_getElem _ _ h]
  · intro h
    rw [GetProjectionMatrix_fst, if_pos h, List.getD_eq_getElem _ _ h]
  · intro h
    rw [GetViewMatrix_fst, if_neg (Nat.not_lt.mpr h)]
    rfl
  · intro h
    rw [GetProjectionMatrix_fst, if_neg (Nat.not_lt.mpr h)]
    rfl
  · intro hv hp
    rw [GetWorldToShadowMatrix_fst, GetViewMatrix_fst, GetProjectionMatrix_fst,
      if_neg (Nat.not_lt.mpr hv), if_neg (Nat.not_lt.mpr hp), GfMatrix4d.identity_mul,
      GfMatrix4d.identity_mul]
  · intro h
    have h1 := congrArg (fun a => a.m 3 0) h
    simp only [scale_translate_m] at h1
    simp [GfMatrix4d.SetIdentity, GfMatrix4d.diagonal] at h1
  · intro h
    have h1 := congrArg (fun a => a.m 3 0) h
    simp only [scale_translate_m] at h1
    rw [GfMatrix4d.mul_m] at h1
    simp [GfMatrix4d.SetScale, GfMatrix4d.SetTranslate, half3] at h1

theorem C2_world_to_shadow_matrix_witness :
    (oneSlotManager.GetViewMatrix World.initial 0).1 = GfMatrix4d.SetScale ⟨2, 2, 2⟩ ∧
    (oneSlotManager.GetViewMatrix World.initial 1).1 = GfMatrix4d.SetIdentity ∧
    (oneSlotManager.GetWorldToShadowMatrix World.initial 1).1 =
      GfMatrix4d.SetScale half3 * GfMatrix4d.SetTranslate half3 :=
  ⟨(C2_world_to_shadow_matrix oneSlotManager World.initial 0).2.1 (by decide),
   (C2_world_to_shadow_matrix oneSlotManager World.initial 1).2.2.2.1 (by decide),
   (C2_world_to_shadow_matrix oneSlotManager World.initial 1).2.2.2.2.2.1
     (by decide) (by decide)⟩

theorem scale_translate_transform (p : GfVec4d) :
    GfMatrix4d.transform p (GfMatrix4d.SetScale half3 * GfMatrix4d.SetTranslate half3) =
      ⟨p.x / 2 + p.w / 2, p.y / 2 + p.w / 2, p.z / 2 + p.w / 2, p.w⟩ := by
  unfold GfMatrix4d.transform
  simp only [GfMatrix4d.mul_m]
  simp [GfMatrix4d.SetScale, GfMatrix4d.SetTranslate, half3]
  refine ⟨?_, ?_, ?_⟩ <;> ring

theorem half_range (x w : ℚ) (hw : 0 < w) (h1 : -1 ≤ x / w) (h2 : x / w ≤ 1) :
    0 ≤ (x / 2 + w / 2) / w ∧ (x / 2 + w / 2) / w ≤ 1 := by
  have hw' : w ≠ 0 := ne_of_gt hw
  have e : (x / 2 + w / 2) / w = (x / w + 1) / 2 := by
    rw [div_add_div_same, div_div, mul_comm 2 w, ← div_div, add_div, div_self hw']
  rw [e]
  constructor <;> linarith

/-- C3: with rational arithmetic and row vectors `p * M`, the point
`(x, y, z, w)` times `Scale(1/2) * Translate(1/2)` is
`(x/2 + w/2, y/2 + w/2, z/2 + w/2, w)`, whether the two matrices are applied
one after the other or as their product.  With identity view and projection
`GetWorldToShadowMatrix` therefore maps `(-1,-1,-1,1)` to `(0,0,0,1)` and
`(1,1,1,1)` to `(1,1,1,1)`, and for `w > 0` a point whose coordinates after
the divide by `w` lie in `[-1,1]` goes to one whose coordinates after the
divide lie in `[0,1]`. -/
theorem C3_clip_space_to_unit_cube (s : GlfSimpleShadowArray) (w : World) (index : Nat)
    (hv : (s.GetViewMatrix w index).1 = GfMatrix4d.SetIdentity)
    (hp : (s.GetProjectionMatrix w index).1 = GfMatrix4d.SetIdentity) :
    (∀ p : GfVec4d,
      GfMatrix4d.transform (GfMatrix4d.transform p (GfMatrix4d.SetScale half3))
          (GfMatrix4d.SetTranslate half3) =
        ⟨p.x / 2 + p.w / 2, p.y / 2 + p.w / 2, p.z / 2 + p.w / 2, p.w⟩) ∧
    (∀ p : GfVec4d,
      GfMatrix4d.transform p (s.GetWorldToShadowMatrix w index).1 =
        ⟨p.x / 2 + p.w / 2, p.y / 2 + p.w / 2, p.z / 2 + p.w / 2, p.w⟩) ∧
    GfMatrix4d.transform ⟨-1, -1, -1, 1⟩ (s.GetWorldToShadowMatrix w index).1 = ⟨0, 0, 0, 1⟩ ∧
    GfMatrix4d.transform ⟨1, 1, 1, 1⟩ (s.GetWorldToShadowMatrix w index).1 = ⟨1, 1, 1, 1⟩ ∧
    (∀ p : GfVec4d, 0 < p.w →
      -1 ≤ p.x / p.w → p.x / p.w ≤ 1 →
      -1 ≤ p.y / p.w → p.y / p.w ≤ 1 →
      -1 ≤ p.z / p.w → p.z / p.w ≤ 1 →
      0 < (GfMatrix4d.transform p (s.GetWorldToShadowMatrix w index).1).w ∧
      0 ≤ (GfMatrix4d.transform p (s.GetWorldToShadowMatrix w index).1).x /
          (GfMatrix4d.transform p (s.GetWorldToShadowMatrix w index).1).w ∧
      (GfMatrix4d.transform p (s.GetWorldToShadowMatrix w index).1).x /
          (GfMatrix4d.transform p (s.GetWorldToShadowMatrix w index).1).w ≤ 1 ∧
      0 ≤ (GfMatrix4d.transform p (s.GetWorldToShadowMatrix w index).1).y /
          (GfMatrix4d.transform p (s.GetWorldToShadowMatrix w index).1).w ∧
      (GfMatrix4d.transform p (s.GetWorldToShadowMatrix w index).1).y /
          (GfMatrix4d.transform p (s.GetWorldToShadowMatrix w index).1).w ≤ 1 ∧
      0 ≤ (GfMatrix4d.transform p (s.GetWorldToShadowMatrix w index).1).z /
          (GfMatrix4d.transform p (s.GetWorldToShadowMatrix w index).1).w ∧
      (GfMatrix4d.transform p (s.GetWorldToShadowMatrix w index).1).z /
          (GfMatrix4d.transform p (s.GetWorldToShadowMatrix w index).1).w ≤ 1) := by
  have hm : (s.GetWorldToShadowMatrix w index).1 =
      GfMatrix4d.SetScale half3 * GfMatrix4d.SetTranslate half3 := by
    rw [GetWorldToShadowMatrix_fst, hv, hp]
    unfold GfMatrix4d.SetIdentity
    rw [GfMatrix4d.identity_mul, GfMatrix4d.identity_mul]
  rw [hm]
  refine ⟨?_, scale_translate_transform, ?_, ?_, ?_⟩
  · intro p
    unfold GfMatrix4d.transform
    simp [GfMatrix4d.SetScale, GfMatrix4d.SetTranslate, half3]
    refine ⟨?_, ?_, ?_⟩ <;> ring
  · rw [scale_translate_transform]; norm_num
  · rw [scale_translate_transform]; norm_num
  · intro p hw hx1 hx2 hy1 hy2 hz1 hz2
    rw [scale_translate_transform]
    exact ⟨hw, (half_range _ _ hw hx1 hx2).1, (half_range _ _ hw hx1 hx2).2,
      (half_range _ _ hw hy1 hy2).1, (half_range _ _ hw hy1 hy2).2,
      (half_range _ _ hw hz1 hz2).1, (half_range _ _ hw hz1 hz2).2⟩

theorem C3_clip_space_to_unit_cube_witness :
    GfMatrix4d.transform ⟨-1, -1, -1, 1⟩
        (GlfSimpleShadowArray.ctor.GetWorldToShadowMatrix World.initial 0).1 = ⟨0, 0, 0, 1⟩ ∧
    GfMatrix4d.transform ⟨1, 1, 1, 1⟩
        (GlfSimpleShadowArray.ctor.GetWorldToShadowMatrix World.initial 0).1 = ⟨1, 1, 1, 1⟩ :=
  ⟨(C3_clip_space_to_unit_cube GlfSimpleShadowArray.ctor World.initial 0 rfl rfl).2.2.1,
   (C3_clip_space_to_unit_cube GlfSimpleShadowArray.ctor World.initial 0 rfl rfl).2.2.2.1⟩

theorem isEmpty_eq_false_of_ne {α : Type} {l : List α} (h : l ≠ []) : l.isEmpty = false := by
  cases l with
  | nil => exact absurd rfl h
  | cons a l => rfl

theorem _AllocResources_objects (s : GlfSimpleShadowArray) (w : World) :
    (s._AllocResources w).1._texturesAllocatedExternally = s._texturesAllocatedExternally ∧
    (s._AllocResources w).1._shadowDepthSampler ≠ 0 ∧
    (s._AllocResources w).1._shadowCompareSampler ≠ 0 ∧
    (s._AllocResources w).1._framebuffer ≠ 0 ∧
    (s._shadowDepthSampler ≠ 0 →
      (s._AllocResources w).1._shadowDepthSampler = s._shadowDepthSampler) ∧
    (s._shadowCompareSampler ≠ 0 →
      (s._AllocResources w).1._shadowCompareSampler = s._shadowCompareSampler) ∧
    (s._framebuffer ≠ 0 → (s._AllocResources w).1._framebuffer = s._framebuffer) ∧
    (s._texturesAllocatedExternally = true ∨ s._textures ≠ [] →
      (s._AllocResources w).1._textures = s._textures) ∧
    (s._texturesAllocatedExternally = false → s._textures = [] →
      (s._AllocResources w).1._textures =
        List.range' ((s.AllocSamplers w).2.gl.names + 1) s._resolutions.length) := by
  unfold _AllocResources
  rw [AllocSamplers_eq]
  by_cases hd : s._shadowDepthSampler = 0 <;> by_cases hc : s._shadowCompareSampler = 0 <;>
  cases hf : s._texturesAllocatedExternally <;> by_cases ht : s._textures = [] <;>
  by_cases hfb : s._framebuffer = 0 <;>
  simp [hd, hc, hf, ht, hfb, _AllocTextures_eq, glGenFramebuffers, genName, issue]

/-- The commands `_AllocResources` issues: the sampler commands for each
missing sampler, the texture commands when the textures are self-managed and
there is none, and the creation of the framebuffer when it is missing. -/
theorem _AllocResources_calls (s : GlfSimpleShadowArray) (w : World) :
    (s._AllocResources w).2.calls = w.calls ++
      ((if s._shadowDepthSampler = 0 then
          depthSamplerCalls w.inShared (s._AllocResources w).1._shadowDepthSampler else []) ++
       ((if s._shadowCompareSampler = 0 then
          compareSamplerCalls w.inShared (s._AllocResources w).1._shadowCompareSampler else []) ++
       ((if s._texturesAllocatedExternally = false ∧ s._textures = [] then
          allocCalls true (s.AllocSamplers w).2.gl.names s._resolutions ++
            [⟨.glBindTexture .GL_TEXTURE_2D 0, true⟩] else []) ++
        (if s._framebuffer = 0 then
          [⟨.glGenFramebuffers (s._AllocResources w).1._framebuffer, w.inShared⟩] else [])))) := by
  unfold _AllocResources
  rw [AllocSamplers_eq]
  by_cases hd : s._shadowDepthSampler = 0 <;> by_cases hc : s._shadowCompareSampler = 0 <;>
  cases hf : s._texturesAllocatedExternally <;> by_cases ht : s._textures = [] <;>
  by_cases hfb : s._framebuffer = 0 <;>
  simp [hd, hc, hf, ht, hfb, _AllocTextures_eq, glGenFramebuffers, genName, issue,
    World.inShared]

theorem GetShadowMapSize_fst (s : GlfSimpleShadowArray) (w : World) (i : Nat) :
    (s.GetShadowMapSize w i).1 = s._resolutions.getD i ⟨0, 0⟩ := by
  unfold GetShadowMapSize
  by_cases h : i < s._resolutions.length
  · simp [h, TF_VERIFY_true]
  · simp [h, TF_VERIFY_false, List.getElem?_eq_none (Nat.not_lt.mp h)]

/-- The closed form of `BeginCapture`: the allocation step followed by the
capture commands. -/
theorem BeginCapture_eq (s : GlfSimpleShadowArray) (w : World) (index : Nat) (clear : Bool) :
    s.BeginCapture w index clear =
      let a := allocIfMissing (saveBindings s w) w
      ({ a.1 with _unbindRestoreViewport := a.2.gl.viewport },
       { a.2 with
          gl := { a.2.gl with
            drawFramebuffer := a.1._framebuffer,
            readFramebuffer := a.1._framebuffer,
            viewport := ⟨0, 0, (a.1._resolutions.getD index ⟨0, 0⟩).x,
                         (a.1._resolutions.getD index ⟨0, 0⟩).y⟩,
            depthRange := (0, 99999 / 100000),
            depthClamp := true,
            depthAttachment :=
              if index < a.1._textures.length then
                (a.1._framebuffer, a.1._textures.getD index 0) :: a.2.gl.depthAttachment
              else a.2.gl.depthAttachment },
          calls := a.2.calls ++ captureCalls a.2.inShared a.1._framebuffer
            a.1._textures[index]? clear (a.1._resolutions.getD index ⟨0, 0⟩),
          diagnostics := a.2.diagnostics ++ captureDiags a.1 index }) := by
  have key : ∀ a : GlfSimpleShadowArray × World,
      s.BeginCapture w index clear =
        (let r := a
         let s := r.1
         let w := glBindFramebuffer .GL_FRAMEBUFFER s._framebuffer r.2
         let w := if index < s._textures.length then
             glFramebufferTexture .GL_FRAMEBUFFER .GL_DEPTH_ATTACHMENT
               (s._textures.getD index 0) 0 w
           else post (.codingWarning "Texture index is out of bounds") w
         let r : GlfSimpleShadowArray × World := (s, GLF_POST_PENDING_GL_ERRORS w)
         let s := r.1
         let w := if clear then glClear .GL_DEPTH_BUFFER_BIT r.2 else r.2
         let s := { s with _unbindRestoreViewport := w.gl.viewport }
         let resolution := GetShadowMapSize s w index
         let w := glViewport 0 0 resolution.1.x resolution.1.y resolution.2
         let w := glDepthRange 0 (99999 / 100000) w
         let w := glEnable .GL_DEPTH_CLAMP w
         (s, GLF_POST_PENDING_GL_ERRORS w)) →
      s.BeginCapture w index clear =
      ({ a.1 with _unbindRestoreViewport := a.2.gl.viewport },
       { a.2 with
          gl := { a.2.gl with
            drawFramebuffer := a.1._framebuffer,
            readFramebuffer := a.1._framebuffer,
            viewport := ⟨0, 0, (a.1._resolutions.getD index ⟨0, 0⟩).x,
                         (a.1._resolutions.getD index ⟨0, 0⟩).y⟩,
            depthRange := (0, 99999 / 100000),
            depthClamp := true,
            depthAttachment :=
              if index < a.1._textures.length then
                (a.1._framebuffer, a.1._textures.getD index 0) :: a.2.gl.depthAttachment
              else a.2.gl.depthAttachment },
          calls := a.2.calls ++ captureCalls a.2.inShared a.1._framebuffer
            a.1._textures[index]? clear (a.1._resolutions.getD index ⟨0, 0⟩),
          diagnostics := a.2.diagnostics ++ captureDiags a.1 index }) := by
    intro a h
    rw [h]
    have ht : a.1._textures[index]? =
        if index < a.1._textures.length then some (a.1._textures.getD index 0) else none := by
      split_ifs with h3
      · simp [List.getD, List.getElem?_eq_getElem h3]
      · simp [List.getElem?_eq_none (Nat.not_lt.mp h3)]
    rw [ht]
    by_cases h1 : index < a.1._textures.length <;>
    by_cases h2 : index < a.1._resolutions.length <;>
    cases clear <;>
    simp [h1, h2, GetShadowMapSize_fst, GetShadowMapSize_snd, glBindFramebuffer,
      glFramebufferTexture, glClear, glViewport, glDepthRange, glEnable, issue, post,
      GLF_POST_PENDING_GL_ERRORS, captureCalls, captureDiags, World.inShared]
  exact key _ rfl

theorem vectorResize_length {α : Type} (v : List α) (n : Nat) (x : α) :
    (vectorResize v n x).length = n := by
  unfold vectorResize
  simp only [List.length_append, List.length_take, List.length_replicate]
  omega

theorem vectorResize_self {α : Type} (v : List α) (n : Nat) (x : α) (h : v.length = n) :
    vectorResize v n x = v := by
  unfold vectorResize
  rw [← h]
  simp

theorem vectorResize_getElem?_lt {α : Type} (v : List α) (n : Nat) (x : α) (i : Nat)
    (h1 : i < n) (h2 : i < v.length) : (vectorResize v n x)[i]? = v[i]? := by
  unfold vectorResize
  rw [List.getElem?_append_left (by simp; omega)]
  rw [List.getElem?_take_of_lt h1]

theorem vectorResize_getElem?_ge {α : Type} (v : List α) (n : Nat) (x : α) (i : Nat)
    (h1 : i < n) (h2 : v.length ≤ i) : (vectorResize v n x)[i]? = some x := by
  unfold vectorResize
  have h3 : (List.take n v).length = v.length := by simp; omega
  rw [List.getElem?_append_right (by omega)]
  rw [List.getElem?_replicate]
  rw [if_pos (by omega)]

/-- The closed form of `SetShadowMapResolutions` for a list that differs from
the current one. -/
theorem SetShadowMapResolutions_ne (s : GlfSimpleShadowArray) (w : World)
    (resolutions : List GfVec2i) (h : s._resolutions ≠ resolutions) :
    s.SetShadowMapResolutions w resolutions =
      ({ s with
          _resolutions := resolutions,
          _textures := if s._texturesAllocatedExternally then s._textures else [],
          _viewMatrix := vectorResize s._viewMatrix resolutions.length GfMatrix4d.SetIdentity,
          _projectionMatrix :=
            vectorResize s._projectionMatrix resolutions.length GfMatrix4d.SetIdentity },
       { w with calls := w.calls ++
          (if s._texturesAllocatedExternally then [] else deleteCalls true s._textures) }) := by
  unfold SetShadowMapResolutions
  rw [if_neg h]
  cases hf : s._texturesAllocatedExternally <;>
  by_cases hl : s._viewMatrix.length = resolutions.length ∧
      s._projectionMatrix.length = resolutions.length
  · simp [hf, _FreeTextures_eq, hl.1, hl.2, vectorResize_self]
  · have hl' : s._viewMatrix.length ≠ resolutions.length ∨
        s._projectionMatrix.length ≠ resolutions.length := by
      by_contra hc
      push_neg at hc
      exact hl hc
    simp [hf, _FreeTextures_eq, hl']
  · cases w
    simp [hf, hl.1, hl.2, vectorResize_self]
  · have hl' : s._viewMatrix.length ≠ resolutions.length ∨
        s._projectionMatrix.length ≠ resolutions.length := by
      by_contra hc
      push_neg at hc
      exact hl hc
    cases w
    simp [hf, hl']

theorem SetShadowMapResolutions_same (s : GlfSimpleShadowArray) (w : World) :
    s.SetShadowMapResolutions w s._resolutions = (s, w) := by
  unfold SetShadowMapResolutions
  rw [if_pos rfl]

/-- The closed form of `_FreeResources`. -/
theorem _FreeResources_eq (s : GlfSimpleShadowArray) (w : World) :
    s._FreeResources w =
      ({ s with
          _textures := if s._texturesAllocatedExternally then s._textures else [],
          _framebuffer := 0,
          _shadowDepthSampler := 0,
          _shadowCompareSampler := 0 },
       { w with calls := w.calls ++
          ((if s._texturesAllocatedExternally then [] else deleteCalls true s._textures) ++
           ((if s._framebuffer ≠ 0 then [⟨.glDeleteFramebuffers s._framebuffer, true⟩] else []) ++
            ((if s._shadowDepthSampler ≠ 0 then
                [⟨.glDeleteSamplers s._shadowDepthSampler, true⟩] else []) ++
             (if s._shadowCompareSampler ≠ 0 then
                [⟨.glDeleteSamplers s._shadowCompareSampler, true⟩] else [])))) }) := by
  unfold _FreeResources
  cases s
  cases w
  rename_i res tex vm pm fb d c rd rr rv flag gl calls scope diag img f1 f2 tmp ok exc
  cases flag <;> by_cases h1 : fb = 0 <;> by_cases h2 : d = 0 <;> by_cases h3 : c = 0 <;>
  simp [_FreeTextures_eq, h1, h2, h3, enterSharedScope, exitSharedScope, glDeleteFramebuffers,
    glDeleteSamplers, issue]

theorem issuedSince_of_eq {w w' : World} {l : List Issued} (h : w'.calls = w.calls ++ l) :
    issuedSince w w' = l := by
  unfold issuedSince
  rw [h, List.drop_left]

theorem issuedSince_self (w : World) : issuedSince w w = [] := by
  unfold issuedSince
  simp

theorem dumpShadowTexture_frame (s : GlfSimpleShadowArray) (w : World) (index : Nat) :
    (dumpShadowTexture s w index).1.gl = w.gl ∧
    (dumpShadowTexture s w index).1.sharedScope = w.sharedScope ∧
    (dumpShadowTexture s w index).1.calls = w.calls ++
      (if wrapInt32 ((s.GetShadowMapSize w index).1.x * (s.GetShadowMapSize w index).1.y) < 0
       then []
       else [⟨.glReadPixels 0 0 (s._resolutions.getD index ⟨0, 0⟩).x
          (s._resolutions.getD index ⟨0, 0⟩).y .GL_DEPTH_COMPONENT .GL_FLOAT, w.inShared⟩]) := by
  by_cases hn : wrapInt32 ((s.GetShadowMapSize w index).1.x *
      (s.GetShadowMapSize w index).1.y) < 0
  · rw [dumpShadowTexture_throw s w index hn, if_pos hn]
    simp [throwOut]
  · rw [if_neg hn]
    unfold dumpShadowTexture
    simp only [hn, if_false]
    simp only [glReadPixels, issue, post, GetShadowMapSize_fst, GetShadowMapSize_snd,
      World.inShared]
    by_cases h : index < s._resolutions.length <;> simp only [h, if_true, if_false, post] <;>
      split_ifs <;> simp

theorem EndCapture_fst (s : GlfSimpleShadowArray) (w : World) (index : Nat) :
    (s.EndCapture w index).1 = s := by
  cases h : EndCapture_throws s w index
  · rw [EndCapture_of_returns s w index h]
  · rw [EndCapture_of_throws s w index h]

theorem Op.run_EndCapture_fst (s : GlfSimpleShadowArray) (w : World) (index : Nat) :
    ((Op.EndCapture index).run s w).1 = s :=
  EndCapture_fst s w index

/-- The commands `EndCapture` issues: when it is left by the exception, only
the first two. -/
theorem EndCapture_calls (s : GlfSimpleShadowArray) (w : World) (index : Nat) :
    (s.EndCapture w index).2.calls = w.calls ++
      ([⟨.glDepthRange 0 1, w.inShared⟩, ⟨.glDisable .GL_DEPTH_CLAMP, w.inShared⟩] ++
       (if EndCapture_throws s w index then []
        else
         ((if w.dumpShadowTextures then
            [⟨.glReadPixels 0 0 (s._resolutions.getD index ⟨0, 0⟩).x
                (s._resolutions.getD index ⟨0, 0⟩).y .GL_DEPTH_COMPONENT .GL_FLOAT, w.inShared⟩]
           else []) ++
          [⟨.glBindFramebuffer .GL_DRAW_FRAMEBUFFER s._unbindRestoreDrawFramebuffer, w.inShared⟩,
           ⟨.glBindFramebuffer .GL_READ_FRAMEBUFFER s._unbindRestoreReadFramebuffer, w.inShared⟩,
           ⟨.glViewport s._unbindRestoreViewport.v0 s._unbindRestoreViewport.v1
              s._unbindRestoreViewport.v2 s._unbindRestoreViewport.v3, w.inShared⟩]))) := by
  cases ht : EndCapture_throws s w index
  · rw [EndCapture_of_returns s w index ht]
    unfold _UnbindFramebuffer GLF_POST_PENDING_GL_ERRORS
    simp only [Bool.false_eq_true, if_false]
    cases hd : w.dumpShadowTextures
    · simp [hd, glViewport, glBindFramebuffer, glDepthRange, glDisable, issue, World.inShared]
    · have h := dumpShadowTexture_frame s
        (glDisable GLenum.GL_DEPTH_CLAMP (glDepthRange 0 1 w)) index
      have hn : ¬ wrapInt32 ((s.GetShadowMapSize (glDisable GLenum.GL_DEPTH_CLAMP
          (glDepthRange 0 1 w)) index).1.x * (s.GetShadowMapSize (glDisable GLenum.GL_DEPTH_CLAMP
          (glDepthRange 0 1 w)) index).1.y) < 0 := by
        rw [GetShadowMapSize_size s _ w index]
        unfold EndCapture_throws at ht
        rw [hd] at ht
        simpa using ht
      rw [if_neg hn] at h
      simp [hd, glViewport, glBindFramebuffer, glDepthRange, glDisable, issue, World.inShared,
        h.1, h.2.1, h.2.2] at h ⊢
      simp [h.1, h.2.1, h.2.2]
  · rw [EndCapture_of_throws s w index ht]
    simp [throwOut, glDepthRange, glDisable, issue, World.inShared]

theorem _AllocResources_saveBindings (s : GlfSimpleShadowArray) (w w0 : World) :
    (saveBindings s w0)._AllocResources w =
      (saveBindings (s._AllocResources w).1 w0, (s._AllocResources w).2) := by
  unfold _AllocResources
  rw [AllocSamplers_eq, AllocSamplers_eq]
  by_cases hd : s._shadowDepthSampler = 0 <;> by_cases hc : s._shadowCompareSampler = 0 <;>
  cases hf : s._texturesAllocatedExternally <;> by_cases ht : s._textures = [] <;>
  by_cases hfb : s._framebuffer = 0 <;>
  simp [hd, hc, hf, ht, hfb, _AllocTextures_eq, glGenFramebuffers, genName, issue,
    saveBindings, entryCheckText]

theorem allocIfMissing_saveBindings (s : GlfSimpleShadowArray) (w w0 : World) :
    allocIfMissing (saveBindings s w0) w =
      (saveBindings (allocIfMissing s w).1 w0, (allocIfMissing s w).2) := by
  unfold allocIfMissing
  rw [_AllocResources_saveBindings]
  have h1 : (saveBindings s w0)._framebuffer = s._framebuffer := rfl
  have h2 : _ShadowMapExists (saveBindings s w0) = _ShadowMapExists s := rfl
  rw [h1, h2]
  split_ifs <;> rfl

/-- C4: when the list handed to `SetShadowMapResolutions` is equal to the
current resolutions, the call returns the manager and the world as they
were: no field changes and no GL command is issued.  Calling it twice with
the same list is therefore the same as calling it once, and a second call
with the same list after a capture has allocated the textures leaves the
textures alone and issues nothing. -/
theorem C4_same_resolutions_no_op (s : GlfSimpleShadowArray) (w : World)
    (A : List GfVec2i) (h : s._resolutions = A) :
    s.SetShadowMapResolutions w A = (s, w) ∧
    (∀ (t : GlfSimpleShadowArray) (v : World),
      (t.SetShadowMapResolutions v A).1.SetShadowMapResolutions
          (t.SetShadowMapResolutions v A).2 A = t.SetShadowMapResolutions v A) ∧
    (∀ (index : Nat) (clear : Bool),
      (s.BeginCapture w index clear).1.SetShadowMapResolutions
          (s.BeginCapture w index clear).2 A = s.BeginCapture w index clear) := by
  refine ⟨?_, ?_, ?_⟩
  · rw [← h]; exact SetShadowMapResolutions_same s w
  · intro t v
    have ht : (t.SetShadowMapResolutions v A).1._resolutions = A := by
      by_cases hA : t._resolutions = A
      · rw [← hA, SetShadowMapResolutions_same]
      · rw [SetShadowMapResolutions_ne t v A hA]
    have := SetShadowMapResolutions_same (t.SetShadowMapResolutions v A).1
      (t.SetShadowMapResolutions v A).2
    rw [ht] at this
    exact this
  · intro index clear
    have hb : (s.BeginCapture w index clear).1._resolutions = A := by
      rw [BeginCapture_eq, allocIfMissing_saveBindings]
      have := (_AllocResources_frame s w).1
      unfold allocIfMissing
      split_ifs
      · show (s._AllocResources w).1._resolutions = A
        unfold GlfSimpleShadowArray.sameButObjects at this
        rw [this]; exact h
      · exact h
    have := SetShadowMapResolutions_same (s.BeginCapture w index clear).1
      (s.BeginCapture w index clear).2
    rw [hb] at this
    exact this

theorem C4_same_resolutions_no_op_witness :
    oneSlotManager.SetShadowMapResolutions World.initial [⟨512, 512⟩] =
      (oneSlotManager, World.initial) :=
  (C4_same_resolutions_no_op oneSlotManager World.initial [⟨512, 512⟩] rfl).1

theorem GlfSimpleShadowArray.sameButObjects_config {s s' : GlfSimpleShadowArray}
    (h : s.sameButObjects s') :
    s'._resolutions = s._resolutions ∧ s'._viewMatrix = s._viewMatrix ∧
    s'._projectionMatrix = s._projectionMatrix := by
  unfold GlfSimpleShadowArray.sameButObjects at h
  refine ⟨?_, ?_, ?_⟩ <;> rw [h]

theorem World.sameContext_fields {w w' : World} (h : w.sameContext w') :
    w'.sharedScope = w.sharedScope ∧ w'.images = w.images ∧
    w'.dumpShadowTextures = w.dumpShadowTextures ∧
    w'.debugShadowTextures = w.debugShadowTextures ∧
    w'.gl.drawFramebuffer = w.gl.drawFramebuffer ∧
    w'.gl.readFramebuffer = w.gl.readFramebuffer ∧
    w'.gl.depthAttachment = w.gl.depthAttachment ∧
    w'.inShared = w.inShared := by
  unfold World.sameContext at h
  refine ⟨?_, ?_, ?_, ?_, ?_, ?_, ?_, ?_⟩ <;> first | (rw [h]; done) | (rw [h]; rfl)

theorem allocIfMissing_frame (s : GlfSimpleShadowArray) (w : World) :
    s.sameButObjects (allocIfMissing s w).1 ∧ w.sameContext (allocIfMissing s w).2 := by
  unfold allocIfMissing
  split_ifs
  · exact _AllocResources_frame s w
  · exact ⟨GlfSimpleShadowArray.sameButObjects_refl _, World.sameContext_refl _⟩

theorem _ShadowMapExists_iff (s : GlfSimpleShadowArray) :
    (!_ShadowMapExists s) = true ↔ s._textures = [] := by
  unfold _ShadowMapExists
  cases s._textures <;> simp

theorem allocIfMissing_def (s : GlfSimpleShadowArray) (w : World) :
    allocIfMissing s w =
      if s._framebuffer = 0 ∨ s._textures = [] then s._AllocResources w else (s, w) := by
  unfold allocIfMissing
  by_cases hc : s._framebuffer = 0 ∨ s._textures = []
  · rw [if_pos hc, if_pos (by rw [_ShadowMapExists_iff]; exact hc)]
  · rw [if_neg hc, if_neg (by rw [_ShadowMapExists_iff]; exact hc)]

theorem allocIfMissing_objects (s : GlfSimpleShadowArray) (w : World) :
    (allocIfMissing s w).1._texturesAllocatedExternally = s._texturesAllocatedExternally ∧
    (allocIfMissing s w).1._framebuffer ≠ 0 ∧
    (s._framebuffer ≠ 0 → (allocIfMissing s w).1._framebuffer = s._framebuffer) ∧
    (s._shadowDepthSampler ≠ 0 →
      (allocIfMissing s w).1._shadowDepthSampler = s._shadowDepthSampler) ∧
    (s._shadowCompareSampler ≠ 0 →
      (allocIfMissing s w).1._shadowCompareSampler = s._shadowCompareSampler) ∧
    (s._framebuffer = 0 ∨ s._textures = [] →
      (allocIfMissing s w).1._shadowDepthSampler ≠ 0 ∧
      (allocIfMissing s w).1._shadowCompareSampler ≠ 0) ∧
    (s._texturesAllocatedExternally = true ∨ s._textures ≠ [] →
      (allocIfMissing s w).1._textures = s._textures) ∧
    (s._texturesAllocatedExternally = false → s._textures = [] →
      (allocIfMissing s w).1._textures =
        List.range' ((s.AllocSamplers w).2.gl.names + 1) s._resolutions.length) := by
  have h := _AllocResources_objects s w
  rw [allocIfMissing_def]
  by_cases hc : s._framebuffer = 0 ∨ s._textures = []
  · rw [if_pos hc]
    exact ⟨h.1, h.2.2.2.1, h.2.2.2.2.2.2.1, h.2.2.2.2.1, h.2.2.2.2.2.1,
      fun _ => ⟨h.2.1, h.2.2.1⟩, h.2.2.2.2.2.2.2.1, h.2.2.2.2.2.2.2.2⟩
  · rw [if_neg hc]
    push_neg at hc
    exact ⟨rfl, hc.1, fun _ => rfl, fun _ => rfl, fun _ => rfl,
      fun h' => (h'.elim (fun a => absurd a hc.1) (fun a => absurd a hc.2)),
      fun _ => rfl, fun _ h' => absurd h' hc.2⟩

/-- The commands the allocation step of a capture issues. -/
theorem allocIfMissing_calls (s : GlfSimpleShadowArray) (w : World) :
    (allocIfMissing s w).2.calls = w.calls ++
      (if s._framebuffer = 0 ∨ s._textures = [] then
        ((if s._shadowDepthSampler = 0 then
            depthSamplerCalls w.inShared (allocIfMissing s w).1._shadowDepthSampler else []) ++
         ((if s._shadowCompareSampler = 0 then
            compareSamplerCalls w.inShared (allocIfMissing s w).1._shadowCompareSampler
           else []) ++
         ((if s._texturesAllocatedExternally = false ∧ s._textures = [] then
            allocCalls true (s.AllocSamplers w).2.gl.names s._resolutions ++
              [⟨.glBindTexture .GL_TEXTURE_2D 0, true⟩] else []) ++
          (if s._framebuffer = 0 then
            [⟨.glGenFramebuffers (allocIfMissing s w).1._framebuffer, w.inShared⟩]
           else []))))
      else []) := by
  have h := _AllocResources_calls s w
  rw [allocIfMissing_def]
  by_cases hc : s._framebuffer = 0 ∨ s._textures = []
  · rw [if_pos hc, if_pos hc]
    exact h
  · rw [if_neg hc, if_neg hc]
    simp

/-- What a capture does to the fields of the manager. -/
theorem BeginCapture_fields (s : GlfSimpleShadowArray) (w : World) (index : Nat) (clear : Bool) :
    (s.BeginCapture w index clear).1._resolutions = s._resolutions ∧
    (s.BeginCapture w index clear).1._viewMatrix = s._viewMatrix ∧
    (s.BeginCapture w index clear).1._projectionMatrix = s._projectionMatrix ∧
    (s.BeginCapture w index clear).1._texturesAllocatedExternally =
      s._texturesAllocatedExternally ∧
    (s.BeginCapture w index clear).1._framebuffer ≠ 0 ∧
    (s._framebuffer ≠ 0 → (s.BeginCapture w index clear).1._framebuffer = s._framebuffer) ∧
    (s._shadowDepthSampler ≠ 0 →
      (s.BeginCapture w index clear).1._shadowDepthSampler = s._shadowDepthSampler) ∧
    (s._shadowCompareSampler ≠ 0 →
      (s.BeginCapture w index clear).1._shadowCompareSampler = s._shadowCompareSampler) ∧
    (s._framebuffer = 0 ∨ s._textures = [] →
      (s.BeginCapture w index clear).1._shadowDepthSampler ≠ 0 ∧
      (s.BeginCapture w index clear).1._shadowCompareSampler ≠ 0) ∧
    (s._texturesAllocatedExternally = true ∨ s._textures ≠ [] →
      (s.BeginCapture w index clear).1._textures = s._textures) ∧
    (s._texturesAllocatedExternally = false → s._textures = [] →
      (s.BeginCapture w index clear).1._textures =
        List.range' ((s.AllocSamplers w).2.gl.names + 1) s._resolutions.length) := by
  rw [BeginCapture_eq, allocIfMissing_saveBindings]
  have hf := GlfSimpleShadowArray.sameButObjects_config (allocIfMissing_frame s w).1
  have ho := allocIfMissing_objects s w
  exact ⟨hf.1, hf.2.1, hf.2.2, ho.1, ho.2.1, ho.2.2.1, ho.2.2.2.1, ho.2.2.2.2.1,
    ho.2.2.2.2.2.1, ho.2.2.2.2.2.2.1, ho.2.2.2.2.2.2.2⟩

/-- The commands a capture issues: those of the allocation step, then the
capture commands. -/
theorem BeginCapture_calls (s : GlfSimpleShadowArray) (w : World) (index : Nat) (clear : Bool) :
    (s.BeginCapture w index clear).2.calls =
      (allocIfMissing s w).2.calls ++
        captureCalls w.inShared (s.BeginCapture w index clear).1._framebuffer
          (s.BeginCapture w index clear).1._textures[index]? clear
          (s._resolutions.getD index ⟨0, 0⟩) := by
  have hf := allocIfMissing_frame s w
  rw [BeginCapture_eq, allocIfMissing_saveBindings]
  simp only [saveBindings, (World.sameContext_fields hf.2).2.2.2.2.2.2.2,
    (GlfSimpleShadowArray.sameButObjects_config hf.1).1]

theorem SetViewMatrix_fst (s : GlfSimpleShadowArray) (w : World) (index : Nat)
    (matrix : GfMatrix4d) :
    (s.SetViewMatrix w index matrix).1 =
      if index < s._viewMatrix.length then
        { s with _viewMatrix := s._viewMatrix.set index matrix } else s := by
  unfold SetViewMatrix
  by_cases h : index < s._viewMatrix.length
  · simp [h, TF_VERIFY_true]
  · simp [h, TF_VERIFY_false]

theorem SetProjectionMatrix_fst (s : GlfSimpleShadowArray) (w : World) (index : Nat)
    (matrix : GfMatrix4d) :
    (s.SetProjectionMatrix w index matrix).1 =
      if index < s._projectionMatrix.length then
        { s with _projectionMatrix := s._projectionMatrix.set index matrix } else s := by
  unfold SetProjectionMatrix
  by_cases h : index < s._projectionMatrix.length
  · simp [h, TF_VERIFY_true]
  · simp [h, TF_VERIFY_false]

theorem SetViewMatrix_snd (s : GlfSimpleShadowArray) (w : World) (index : Nat)
    (matrix : GfMatrix4d) :
    (s.SetViewMatrix w index matrix).2 =
      if index < s._viewMatrix.length then w
      else post (.verifyFailed "index < _viewMatrix.size()") w := by
  unfold SetViewMatrix
  by_cases h : index < s._viewMatrix.length
  · simp [h, TF_VERIFY_true]
  · simp [h, TF_VERIFY_false]

theorem SetProjectionMatrix_snd (s : GlfSimpleShadowArray) (w : World) (index : Nat)
    (matrix : GfMatrix4d) :
    (s.SetProjectionMatrix w index matrix).2 =
      if index < s._projectionMatrix.length then w
      else post (.verifyFailed "index < _projectionMatrix.size()") w := by
  unfold SetProjectionMatrix
  by_cases h : index < s._projectionMatrix.length
  · simp [h, TF_VERIFY_true]
  · simp [h, TF_VERIFY_false]

/-- The lengths of the three per-slot lists after one operation, in terms of
the lengths before it. -/
theorem Op.run_lengths (op : Op) (s : GlfSimpleShadowArray) (w : World)
    (h : s._viewMatrix.length = s._resolutions.length ∧
         s._projectionMatrix.length = s._resolutions.length) :
    (op.run s w).1._viewMatrix.length = (op.run s w).1._resolutions.length ∧
    (op.run s w).1._projectionMatrix.length = (op.run s w).1._resolutions.length := by
  cases op with
  | SetShadowMapResolutions resolutions =>
    simp only [Op.run]
    by_cases hr : s._resolutions = resolutions
    · rw [← hr, SetShadowMapResolutions_same]; exact h
    · rw [SetShadowMapResolutions_ne s w resolutions hr]
      exact ⟨vectorResize_length _ _ _, vectorResize_length _ _ _⟩
  | SetViewMatrix index matrix =>
    simp only [Op.run]
    rw [SetViewMatrix_fst]
    split_ifs
    · simpa using h
    · exact h
  | SetProjectionMatrix index matrix =>
    simp only [Op.run]
    rw [SetProjectionMatrix_fst]
    split_ifs
    · simpa using h
    · exact h
  | SetTextures textureIds => simp only [Op.run]; exact h
  | AllocSamplers =>
    have hc := GlfSimpleShadowArray.sameButObjects_config (AllocSamplers_frame s w).1
    simp only [Op.run]
    rw [hc.1, hc.2.1, hc.2.2]; exact h
  | BeginCapture index clear =>
    have hc := BeginCapture_fields s w index clear
    simp only [Op.run]
    rw [hc.1, hc.2.1, hc.2.2.1]; exact h
  | EndCapture index => simp only [Op.run, EndCapture_fst]; exact h
  | destroy =>
    simp only [Op.run]
    rw [_FreeResources_eq]; exact h

/-- C5: in every state reachable from a freshly constructed manager by the
public operations (the destructor included), whatever the GL context does in
between, the view-matrix list, the projection-matrix list and the resolution
list have the same length. -/
theorem C5_matrix_lists_track_resolutions (s : GlfSimpleShadowArray) (h : Reachable s) :
    s._viewMatrix.length = s._resolutions.length ∧
    s._projectionMatrix.length = s._resolutions.length := by
  induction h with
  | ctor => exact ⟨rfl, rfl⟩
  | step op s w _ ih => exact Op.run_lengths op s w ih

theorem C5_matrix_lists_track_resolutions_witness :
    Reachable ((Op.SetShadowMapResolutions [⟨512, 512⟩, ⟨256, 256⟩]).run
        GlfSimpleShadowArray.ctor World.initial).1 ∧
    ((Op.SetShadowMapResolutions [⟨512, 512⟩, ⟨256, 256⟩]).run
        GlfSimpleShadowArray.ctor World.initial).1._viewMatrix.length = 2 ∧
    ((Op.SetShadowMapResolutions [⟨512, 512⟩, ⟨256, 256⟩]).run
        GlfSimpleShadowArray.ctor World.initial).1._projectionMatrix.length = 2 :=
  ⟨Reachable.step _ _ _ Reachable.ctor,
   C5_matrix_lists_track_resolutions _ (Reachable.step _ _ _ Reachable.ctor)⟩

/-- C6: let the manager have `n` slots and let `SetShadowMapResolutions` be
called with a list of length `m`.  Afterwards the view and projection
matrices of every slot `i < min n m` are the ones it had before the call,
whether or not the resolution of the slot changed, and those of every slot
`i` with `n ≤ i < m` are the identity. -/
theorem C6_resize_keeps_and_pads (s : GlfSimpleShadowArray) (w : World)
    (resolutions : List GfVec2i) (n : Nat)
    (hr : s._resolutions.length = n) (hv : s._viewMatrix.length = n)
    (hp : s._projectionMatrix.length = n) :
    (∀ i, i < min n resolutions.length →
      (s.SetShadowMapResolutions w resolutions).1._viewMatrix[i]? = s._viewMatrix[i]? ∧
      (s.SetShadowMapResolutions w resolutions).1._projectionMatrix[i]? =
        s._projectionMatrix[i]?) ∧
    (∀ i, n ≤ i → i < resolutions.length →
      (s.SetShadowMapResolutions w resolutions).1._viewMatrix[i]? =
        some GfMatrix4d.SetIdentity ∧
      (s.SetShadowMapResolutions w resolutions).1._projectionMatrix[i]? =
        some GfMatrix4d.SetIdentity) := by
  by_cases h : s._resolutions = resolutions
  · rw [← h, SetShadowMapResolutions_same]
    exact ⟨fun i _ => ⟨rfl, rfl⟩, fun i h1 h2 => by omega⟩
  · rw [SetShadowMapResolutions_ne s w resolutions h]
    constructor
    · intro i hi
      have h1 : i < resolutions.length := lt_of_lt_of_le hi (min_le_right _ _)
      have h2 : i < n := lt_of_lt_of_le hi (min_le_left _ _)
      exact ⟨vectorResize_getElem?_lt _ _ _ _ h1 (by omega),
        vectorResize_getElem?_lt _ _ _ _ h1 (by omega)⟩
    · intro i h1 h2
      exact ⟨vectorResize_getElem?_ge _ _ _ _ h2 (by omega),
        vectorResize_getElem?_ge _ _ _ _ h2 (by omega)⟩

theorem C6_resize_keeps_and_pads_witness :
    (oneSlotManager.SetShadowMapResolutions World.initial
        [⟨256, 256⟩, ⟨128, 128⟩]).1._viewMatrix[0]? = oneSlotManager._viewMatrix[0]? ∧
    (oneSlotManager.SetShadowMapResolutions World.initial
        [⟨256, 256⟩, ⟨128, 128⟩]).1._viewMatrix[1]? = some GfMatrix4d.SetIdentity :=
  ⟨((C6_resize_keeps_and_pads oneSlotManager World.initial [⟨256, 256⟩, ⟨128, 128⟩] 1
      rfl rfl rfl).1 0 (by decide)).1,
   ((C6_resize_keeps_and_pads oneSlotManager World.initial [⟨256, 256⟩, ⟨128, 128⟩] 1
      rfl rfl rfl).2 1 (by decide) (by decide)).1⟩

theorem deleteCalls_forall (P : Issued → Prop) (shared : Bool) (ids : List Nat)
    (h : ∀ id, P ⟨.glDeleteTextures id, shared⟩) : ∀ e ∈ deleteCalls shared ids, P e := by
  intro e he
  unfold deleteCalls at he
  rw [List.mem_map] at he
  obtain ⟨id, _, rfl⟩ := he
  exact h id

theorem allocCalls_forall (P : Issued → Prop) (shared : Bool) (n : Nat) (rs : List GfVec2i)
    (h1 : ∀ id, P ⟨.glGenTextures id, shared⟩)
    (h2 : ∀ id, P ⟨.glBindTexture .GL_TEXTURE_2D id, shared⟩)
    (h3 : ∀ x y, P ⟨.glTexImage2D .GL_TEXTURE_2D 0 .GL_DEPTH_COMPONENT32F x y 0
      .GL_DEPTH_COMPONENT .GL_FLOAT, shared⟩) :
    ∀ e ∈ allocCalls shared n rs, P e := by
  induction rs generalizing n with
  | nil => intro e he; simp [allocCalls] at he
  | cons r rs ih =>
    intro e he
    simp only [allocCalls, List.mem_append, List.mem_cons, List.mem_singleton,
      List.not_mem_nil, or_false] at he
    rcases he with (rfl | rfl | rfl) | he
    · exact h1 _
    · exact h2 _
    · exact h3 _ _
    · exact ih _ e he

theorem samplerCalls_forall (P : Issued → Prop) (shared : Bool) (id : Nat)
    (h1 : P ⟨.glGenSamplers id, shared⟩)
    (h2 : ∀ pname param, P ⟨.glSamplerParameteri id pname param, shared⟩)
    (h3 : ∀ pname params, P ⟨.glSamplerParameterfv id pname params, shared⟩) :
    (∀ e ∈ depthSamplerCalls shared id, P e) ∧ (∀ e ∈ compareSamplerCalls shared id, P e) := by
  constructor <;> intro e he
  · simp only [depthSamplerCalls, List.mem_cons, List.mem_singleton, List.not_mem_nil,
      or_false] at he
    rcases he with rfl | rfl | rfl | rfl | rfl | rfl <;> first | exact h1 | exact h2 _ _ | exact h3 _ _
  · simp only [compareSamplerCalls, List.mem_cons, List.mem_singleton, List.not_mem_nil,
      or_false] at he
    rcases he with rfl | rfl | rfl | rfl | rfl | rfl | rfl | rfl <;>
      first | exact h1 | exact h2 _ _ | exact h3 _ _

theorem deleteCalls_map_call (shared : Bool) (ids : List Nat) :
    (deleteCalls shared ids).map Issued.call =
      (ids.filter (fun id => id ≠ 0)).map GLCall.glDeleteTextures := by
  unfold deleteCalls
  rw [List.map_map]
  rfl

theorem allocCalls_map_call (shared : Bool) (n : Nat) (rs : List GfVec2i) :
    (allocCalls shared n rs).map Issued.call =
      createTextureCalls (List.range' (n + 1) rs.length) rs := by
  induction rs generalizing n with
  | nil => rfl
  | cons r rs ih =>
    simp only [allocCalls, List.length_cons, List.range'_succ, createTextureCalls,
      List.map_append, List.map_cons, List.map_nil, ih]

theorem allocCalls_filter_texture (shared : Bool) (n : Nat) (rs : List GfVec2i) :
    (allocCalls shared n rs).filter (fun e => e.call.isTextureCall) = allocCalls shared n rs := by
  rw [List.filter_eq_self]
  exact allocCalls_forall _ shared n rs (fun _ => rfl) (fun _ => rfl) (fun _ _ => rfl)

/-- The commands issued by `BeginCapture`. -/
theorem BeginCapture_issued (s : GlfSimpleShadowArray) (w : World) (index : Nat)
    (clear : Bool) :
    issuedSince w (s.BeginCapture w index clear).2 =
      (if s._framebuffer = 0 ∨ s._textures = [] then
        ((if s._shadowDepthSampler = 0 then
            depthSamplerCalls w.inShared (allocIfMissing s w).1._shadowDepthSampler else []) ++
         ((if s._shadowCompareSampler = 0 then
            compareSamplerCalls w.inShared (allocIfMissing s w).1._shadowCompareSampler
           else []) ++
         ((if s._texturesAllocatedExternally = false ∧ s._textures = [] then
            allocCalls true (s.AllocSamplers w).2.gl.names s._resolutions ++
              [⟨.glBindTexture .GL_TEXTURE_2D 0, true⟩] else []) ++
          (if s._framebuffer = 0 then
            [⟨.glGenFramebuffers (allocIfMissing s w).1._framebuffer, w.inShared⟩]
           else []))))
      else []) ++
      captureCalls w.inShared (s.BeginCapture w index clear).1._framebuffer
          (s.BeginCapture w index clear).1._textures[index]? clear
          (s._resolutions.getD index ⟨0, 0⟩) := by
  apply issuedSince_of_eq
  rw [BeginCapture_calls, allocIfMissing_calls, List.append_assoc]

theorem SetShadowMapResolutions_issued (s : GlfSimpleShadowArray) (w : World)
    (resolutions : List GfVec2i) :
    issuedSince w (s.SetShadowMapResolutions w resolutions).2 =
      if s._resolutions = resolutions ∨ s._texturesAllocatedExternally = true then []
      else deleteCalls true s._textures := by
  by_cases h : s._resolutions = resolutions
  · rw [← h, SetShadowMapResolutions_same, issuedSince_self]
    simp
  · apply issuedSince_of_eq
    rw [SetShadowMapResolutions_ne s w resolutions h]
    cases hf : s._texturesAllocatedExternally <;> simp [h]

theorem AllocSamplers_issued (s : GlfSimpleShadowArray) (w : World) :
    issuedSince w (s.AllocSamplers w).2 =
      (if s._shadowDepthSampler = 0 then
        depthSamplerCalls w.inShared (s.AllocSamplers w).1._shadowDepthSampler else []) ++
      (if s._shadowCompareSampler = 0 then
        compareSamplerCalls w.inShared (s.AllocSamplers w).1._shadowCompareSampler else []) := by
  apply issuedSince_of_eq
  rw [AllocSamplers_eq]
  by_cases hd : s._shadowDepthSampler = 0 <;> by_cases hc : s._shadowCompareSampler = 0 <;>
    simp [hd, hc]

theorem EndCapture_issued (s : GlfSimpleShadowArray) (w : World) (index : Nat) :
    issuedSince w (s.EndCapture w index).2 =
      ([⟨.glDepthRange 0 1, w.inShared⟩, ⟨.glDisable .GL_DEPTH_CLAMP, w.inShared⟩] ++
       (if EndCapture_throws s w index then []
        else
         ((if w.dumpShadowTextures then
            [⟨.glReadPixels 0 0 (s._resolutions.getD index ⟨0, 0⟩).x
                (s._resolutions.getD index ⟨0, 0⟩).y .GL_DEPTH_COMPONENT .GL_FLOAT, w.inShared⟩]
           else []) ++
          [⟨.glBindFramebuffer .GL_DRAW_FRAMEBUFFER s._unbindRestoreDrawFramebuffer, w.inShared⟩,
           ⟨.glBindFramebuffer .GL_READ_FRAMEBUFFER s._unbindRestoreReadFramebuffer, w.inShared⟩,
           ⟨.glViewport s._unbindRestoreViewport.v0 s._unbindRestoreViewport.v1
              s._unbindRestoreViewport.v2 s._unbindRestoreViewport.v3, w.inShared⟩]))) :=
  issuedSince_of_eq (EndCapture_calls s w index)

/-- Every command `EndCapture` issues is one of the commands it issues when
it returns with the dump enabled. -/
theorem EndCapture_issued_mem (s : GlfSimpleShadowArray) (w : World) (index : Nat)
    (e : Issued) (he : e ∈ issuedSince w (s.EndCapture w index).2) :
    e ∈ ([⟨.glDepthRange 0 1, w.inShared⟩, ⟨.glDisable .GL_DEPTH_CLAMP, w.inShared⟩] ++
       ((if w.dumpShadowTextures then
          [⟨.glReadPixels 0 0 (s._resolutions.getD index ⟨0, 0⟩).x
              (s._resolutions.getD index ⟨0, 0⟩).y .GL_DEPTH_COMPONENT .GL_FLOAT, w.inShared⟩]
         else []) ++
        [⟨.glBindFramebuffer .GL_DRAW_FRAMEBUFFER s._unbindRestoreDrawFramebuffer, w.inShared⟩,
         ⟨.glBindFramebuffer .GL_READ_FRAMEBUFFER s._unbindRestoreReadFramebuffer, w.inShared⟩,
         ⟨.glViewport s._unbindRestoreViewport.v0 s._unbindRestoreViewport.v1
            s._unbindRestoreViewport.v2 s._unbindRestoreViewport.v3, w.inShared⟩]) :
        List Issued) := by
  rw [EndCapture_issued] at he
  rcases List.mem_append.mp he with h | h
  · exact List.mem_append_left _ h
  · cases ht : EndCapture_throws s w index
    · rw [ht] at h
      exact List.mem_append_right _ (by simpa using h)
    · rw [ht] at h
      simp at h

theorem _FreeResources_issued (s : GlfSimpleShadowArray) (w : World) :
    issuedSince w (s._FreeResources w).2 =
      ((if s._texturesAllocatedExternally then [] else deleteCalls true s._textures) ++
       ((if s._framebuffer ≠ 0 then [⟨.glDeleteFramebuffers s._framebuffer, true⟩] else []) ++
        ((if s._shadowDepthSampler ≠ 0 then
            [⟨.glDeleteSamplers s._shadowDepthSampler, true⟩] else []) ++
         (if s._shadowCompareSampler ≠ 0 then
            [⟨.glDeleteSamplers s._shadowCompareSampler, true⟩] else [])))) := by
  apply issuedSince_of_eq
  rw [_FreeResources_eq]

theorem SetViewMatrix_issued (s : GlfSimpleShadowArray) (w : World) (index : Nat)
    (matrix : GfMatrix4d) : issuedSince w (s.SetViewMatrix w index matrix).2 = [] := by
  rw [SetViewMatrix_snd]
  split_ifs
  · exact issuedSince_self w
  · exact issuedSince_of_eq (by simp [post])

theorem SetProjectionMatrix_issued (s : GlfSimpleShadowArray) (w : World) (index : Nat)
    (matrix : GfMatrix4d) : issuedSince w (s.SetProjectionMatrix w index matrix).2 = [] := by
  rw [SetProjectionMatrix_snd]
  split_ifs
  · exact issuedSince_self w
  · exact issuedSince_of_eq (by simp [post])

/-- The record of issued commands only grows: an operation appends what it
issues. -/
theorem Op.run_calls (op : Op) (s : GlfSimpleShadowArray) (w : World) :
    (op.run s w).2.calls = w.calls ++ issuedSince w (op.run s w).2 := by
  cases op with
  | SetShadowMapResolutions resolutions =>
    simp only [Op.run]
    by_cases h : s._resolutions = resolutions
    · rw [← h, SetShadowMapResolutions_same, issuedSince_self]; simp
    · rw [SetShadowMapResolutions_issued]
      rw [SetShadowMapResolutions_ne s w resolutions h]
      cases hf : s._texturesAllocatedExternally <;> simp [h]
  | SetViewMatrix index matrix =>
    simp only [Op.run]
    rw [SetViewMatrix_issued, SetViewMatrix_snd]
    split_ifs <;> simp [post]
  | SetProjectionMatrix index matrix =>
    simp only [Op.run]
    rw [SetProjectionMatrix_issued, SetProjectionMatrix_snd]
    split_ifs <;> simp [post]
  | SetTextures textureIds =>
    simp only [Op.run]
    show w.calls = w.calls ++ issuedSince w w
    rw [issuedSince_self, List.append_nil]
  | AllocSamplers =>
    simp only [Op.run]
    have h := AllocSamplers_issued s w
    unfold issuedSince at h ⊢
    rw [AllocSamplers_eq] at h ⊢
    by_cases hd : s._shadowDepthSampler = 0 <;> by_cases hc : s._shadowCompareSampler = 0 <;>
      simp [hd, hc]
  | BeginCapture index clear =>
    simp only [Op.run]
    rw [BeginCapture_issued, BeginCapture_calls, allocIfMissing_calls, List.append_assoc]
  | EndCapture index =>
    simp only [Op.run]
    rw [EndCapture_issued, EndCapture_calls]
  | destroy =>
    simp only [Op.run]
    rw [_FreeResources_issued, _FreeResources_eq]

theorem captureCalls_forall (P : Issued → Prop) (shared : Bool) (framebuffer : Nat)
    (texture : Option Nat) (clear : Bool) (size : GfVec2i)
    (h1 : P ⟨.glBindFramebuffer .GL_FRAMEBUFFER framebuffer, shared⟩)
    (h2 : ∀ t, texture = some t →
      P ⟨.glFramebufferTexture .GL_FRAMEBUFFER .GL_DEPTH_ATTACHMENT t 0, shared⟩)
    (h3 : clear = true → P ⟨.glClear .GL_DEPTH_BUFFER_BIT, shared⟩)
    (h4 : P ⟨.glViewport 0 0 size.x size.y, shared⟩)
    (h5 : P ⟨.glDepthRange 0 (99999 / 100000), shared⟩)
    (h6 : P ⟨.glEnable .GL_DEPTH_CLAMP, shared⟩) :
    ∀ e ∈ captureCalls shared framebuffer texture clear size, P e := by
  intro e he
  unfold captureCalls at he
  simp only [List.mem_append, List.mem_cons, List.mem_singleton, List.not_mem_nil,
    or_false] at he
  rcases he with ((rfl | he) | he) | rfl | rfl | rfl
  · exact h1
  · cases texture with
    | none => simp at he
    | some t =>
      simp only [List.mem_singleton] at he
      rw [he]; exact h2 t rfl
  · cases clear with
    | false => simp at he
    | true =>
      simp only [if_true, List.mem_singleton] at he
      rw [he]; exact h3 rfl
  · exact h4
  · exact h5
  · exact h6

/-- A property holds of every command a capture issues as soon as it holds
of the commands of each step that can run. -/
theorem BeginCapture_issued_forall (P : Issued → Prop) (s : GlfSimpleShadowArray)
    (w : World) (index : Nat) (clear : Bool)
    (hd : s._shadowDepthSampler = 0 → (s._framebuffer = 0 ∨ s._textures = []) →
      ∀ e ∈ depthSamplerCalls w.inShared (allocIfMissing s w).1._shadowDepthSampler, P e)
    (hc : s._shadowCompareSampler = 0 → (s._framebuffer = 0 ∨ s._textures = []) →
      ∀ e ∈ compareSamplerCalls w.inShared (allocIfMissing s w).1._shadowCompareSampler, P e)
    (ht : s._texturesAllocatedExternally = false → s._textures = [] →
      ∀ e ∈ allocCalls true (s.AllocSamplers w).2.gl.names s._resolutions ++
        [⟨.glBindTexture .GL_TEXTURE_2D 0, true⟩], P e)
    (hf : s._framebuffer = 0 →
      P ⟨.glGenFramebuffers (allocIfMissing s w).1._framebuffer, w.inShared⟩)
    (hcap : ∀ e ∈ captureCalls w.inShared (s.BeginCapture w index clear).1._framebuffer
          (s.BeginCapture w index clear).1._textures[index]? clear
          (s._resolutions.getD index ⟨0, 0⟩), P e) :
    ∀ e ∈ issuedSince w (s.BeginCapture w index clear).2, P e := by
  intro e he
  rw [BeginCapture_issued, List.mem_append] at he
  rcases he with he | he
  · by_cases hcond : s._framebuffer = 0 ∨ s._textures = []
    · rw [if_pos hcond] at he
      simp only [List.mem_append] at he
      rcases he with he | he | he | he
      · by_cases h1 : s._shadowDepthSampler = 0
        · rw [if_pos h1] at he; exact hd h1 hcond e he
        · rw [if_neg h1] at he; simp at he
      · by_cases h1 : s._shadowCompareSampler = 0
        · rw [if_pos h1] at he; exact hc h1 hcond e he
        · rw [if_neg h1] at he; simp at he
      · by_cases h1 : s._texturesAllocatedExternally = false ∧ s._textures = []
        · rw [if_pos h1] at he
          exact ht h1.1 h1.2 e (by simpa using he)
        · rw [if_neg h1] at he; simp at he
      · by_cases h1 : s._framebuffer = 0
        · rw [if_pos h1] at he
          simp only [List.mem_singleton] at he
          rw [he]; exact hf h1
        · rw [if_neg h1] at he; simp at he
    · rw [if_neg hcond] at he; simp at he
  · exact hcap e he

theorem not_mem_nil_forall {P : Issued → Prop} : ∀ e ∈ ([] : List Issued), P e := by
  intro e he
  simp at he

/-- Only `BeginCapture` creates textures. -/
theorem Op.run_createsTexture (op : Op) (s : GlfSimpleShadowArray) (w : World)
    (h : ∀ index clear, op ≠ .BeginCapture index clear) :
    ∀ e ∈ issuedSince w (op.run s w).2, e.call.createsTexture = false := by
  cases op with
  | SetShadowMapResolutions resolutions =>
    simp only [Op.run]
    rw [SetShadowMapResolutions_issued]
    split_ifs
    · exact not_mem_nil_forall
    · exact deleteCalls_forall (fun e : Issued => e.call.createsTexture = false) _ _ (fun _ => rfl)
  | SetViewMatrix index matrix =>
    simp only [Op.run]; rw [SetViewMatrix_issued]; exact not_mem_nil_forall
  | SetProjectionMatrix index matrix =>
    simp only [Op.run]; rw [SetProjectionMatrix_issued]; exact not_mem_nil_forall
  | SetTextures textureIds =>
    simp only [Op.run]
    show ∀ e ∈ issuedSince w w, _
    rw [issuedSince_self]; exact not_mem_nil_forall
  | AllocSamplers =>
    simp only [Op.run]
    rw [AllocSamplers_issued]
    intro e he
    rw [List.mem_append] at he
    rcases he with he | he
    · split_ifs at he
      · exact (samplerCalls_forall (fun e : Issued => e.call.createsTexture = false) _ _ rfl (fun _ _ => rfl) (fun _ _ => rfl)).1 e he
      · simp at he
    · split_ifs at he
      · exact (samplerCalls_forall (fun e : Issued => e.call.createsTexture = false) _ _ rfl (fun _ _ => rfl) (fun _ _ => rfl)).2 e he
      · simp at he
  | BeginCapture index clear => exact absurd rfl (h index clear)
  | EndCapture index =>
    simp only [Op.run]
    intro e he
    replace he := EndCapture_issued_mem s w index e he
    simp only [List.mem_append, List.mem_cons, List.mem_singleton, List.not_mem_nil,
      or_false] at he
    rcases he with (rfl | rfl) | he | rfl | rfl | rfl <;> try rfl
    split_ifs at he
    · simp only [List.mem_singleton] at he; rw [he]; rfl
    · simp at he
  | destroy =>
    simp only [Op.run]
    rw [_FreeResources_issued]
    intro e he
    simp only [List.mem_append] at he
    rcases he with he | he | he | he
    · split_ifs at he
      · simp at he
      · exact deleteCalls_forall (fun e : Issued => e.call.createsTexture = false) _ _ (fun _ => rfl) e he
    all_goals
      split_ifs at he
      · simp only [List.mem_singleton] at he; rw [he]; rfl
      · simp at he

/-- While the textures are externally owned, no operation other than
`SetTextures` touches the texture list or the flag, creates a texture or
deletes one. -/
theorem Op.run_external (op : Op) (s : GlfSimpleShadowArray) (w : World)
    (hf : s._texturesAllocatedExternally = true) (hop : ∀ ids, op ≠ .SetTextures ids) :
    (op.run s w).1._textures = s._textures ∧
    (op.run s w).1._texturesAllocatedExternally = true ∧
    ∀ e ∈ issuedSince w (op.run s w).2,
      e.call.createsTexture = false ∧ e.call.deletesTexture = false := by
  cases op with
  | SetShadowMapResolutions resolutions =>
    simp only [Op.run]
    rw [SetShadowMapResolutions_issued]
    refine ⟨?_, ?_, ?_⟩
    · by_cases h : s._resolutions = resolutions
      · rw [← h, SetShadowMapResolutions_same]
      · rw [SetShadowMapResolutions_ne s w resolutions h]; simp [hf]
    · by_cases h : s._resolutions = resolutions
      · rw [← h, SetShadowMapResolutions_same]; exact hf
      · rw [SetShadowMapResolutions_ne s w resolutions h]; exact hf
    · rw [if_pos (Or.inr hf)]; exact not_mem_nil_forall
  | SetViewMatrix index matrix =>
    simp only [Op.run]
    rw [SetViewMatrix_issued, SetViewMatrix_fst]
    refine ⟨?_, ?_, not_mem_nil_forall⟩ <;> split_ifs <;> first | rfl | exact hf
  | SetProjectionMatrix index matrix =>
    simp only [Op.run]
    rw [SetProjectionMatrix_issued, SetProjectionMatrix_fst]
    refine ⟨?_, ?_, not_mem_nil_forall⟩ <;> split_ifs <;> first | rfl | exact hf
  | SetTextures textureIds => exact absurd rfl (hop textureIds)
  | AllocSamplers =>
    simp only [Op.run]
    have h := (AllocSamplers_frame s w).1
    refine ⟨?_, ?_, ?_⟩
    · rw [AllocSamplers_eq]; split_ifs <;> rfl
    · rw [AllocSamplers_eq]; split_ifs <;> exact hf
    · rw [AllocSamplers_issued]
      intro e he
      rw [List.mem_append] at he
      rcases he with he | he
      · split_ifs at he
        · exact (samplerCalls_forall (fun e : Issued => e.call.createsTexture = false ∧ e.call.deletesTexture = false) _ _ ⟨rfl, rfl⟩ (fun _ _ => ⟨rfl, rfl⟩)
            (fun _ _ => ⟨rfl, rfl⟩)).1 e he
        · simp at he
      · split_ifs at he
        · exact (samplerCalls_forall (fun e : Issued => e.call.createsTexture = false ∧ e.call.deletesTexture = false) _ _ ⟨rfl, rfl⟩ (fun _ _ => ⟨rfl, rfl⟩)
            (fun _ _ => ⟨rfl, rfl⟩)).2 e he
        · simp at he
  | BeginCapture index clear =>
    simp only [Op.run]
    have h := BeginCapture_fields s w index clear
    refine ⟨h.2.2.2.2.2.2.2.2.2.1 (Or.inl hf), h.2.2.2.1.trans hf, ?_⟩
    apply BeginCapture_issued_forall (fun e : Issued => e.call.createsTexture = false ∧ e.call.deletesTexture = false)
    · intro _ _
      exact (samplerCalls_forall (fun e : Issued => e.call.createsTexture = false ∧ e.call.deletesTexture = false) _ _ ⟨rfl, rfl⟩ (fun _ _ => ⟨rfl, rfl⟩)
        (fun _ _ => ⟨rfl, rfl⟩)).1
    · intro _ _
      exact (samplerCalls_forall (fun e : Issued => e.call.createsTexture = false ∧ e.call.deletesTexture = false) _ _ ⟨rfl, rfl⟩ (fun _ _ => ⟨rfl, rfl⟩)
        (fun _ _ => ⟨rfl, rfl⟩)).2
    · intro h1; rw [hf] at h1; exact absurd h1 (by decide)
    · intro _; exact ⟨rfl, rfl⟩
    · exact captureCalls_forall (fun e : Issued => e.call.createsTexture = false ∧ e.call.deletesTexture = false) _ _ _ _ _ ⟨rfl, rfl⟩ (fun _ _ => ⟨rfl, rfl⟩)
        (fun _ => ⟨rfl, rfl⟩) ⟨rfl, rfl⟩ ⟨rfl, rfl⟩ ⟨rfl, rfl⟩
  | EndCapture index =>
    simp only [Op.run]
    refine ⟨by rw [EndCapture_fst], by rw [EndCapture_fst]; exact hf, ?_⟩
    intro e he
    replace he := EndCapture_issued_mem s w index e he
    simp only [List.mem_append, List.mem_cons, List.mem_singleton, List.not_mem_nil,
      or_false] at he
    rcases he with (rfl | rfl) | he | rfl | rfl | rfl <;> try exact ⟨rfl, rfl⟩
    split_ifs at he
    · simp only [List.mem_singleton] at he; rw [he]; exact ⟨rfl, rfl⟩
    · simp at he
  | destroy =>
    simp only [Op.run]
    rw [_FreeResources_issued, _FreeResources_eq]
    refine ⟨by simp [hf], hf, ?_⟩
    intro e he
    simp only [List.mem_append] at he
    rcases he with he | he | he | he
    · rw [hf] at he; simp at he
    all_goals
      split_ifs at he
      · simp only [List.mem_singleton] at he; rw [he]; exact ⟨rfl, rfl⟩
      · simp at he

theorem Step.step_calls (st : Step) (s : GlfSimpleShadowArray) (w : World) :
    (st.run s w).2.calls = w.calls ++ issuedSince w (st.run s w).2 := by
  cases st with
  | call op => exact Op.run_calls op s w
  | caller gl =>
    show w.calls = w.calls ++ issuedSince w { w with gl := gl }
    unfold issuedSince
    simp

theorem Step.caller_issued (gl : GLState) (s : GlfSimpleShadowArray) (w : World) :
    issuedSince w ((Step.caller gl).run s w).2 = [] := by
  show issuedSince w { w with gl := gl } = []
  unfold issuedSince
  simp

theorem runSteps_calls (steps : List Step) (s : GlfSimpleShadowArray) (w : World) :
    (runSteps steps s w).2.calls = w.calls ++ issuedSince w (runSteps steps s w).2 := by
  induction steps generalizing s w with
  | nil => simp [runSteps, issuedSince_self]
  | cons st steps ih =>
    have h1 := Step.step_calls st s w
    have h2 := ih (st.run s w).1 (st.run s w).2
    have h3 : (runSteps (st :: steps) s w).2.calls =
        w.calls ++ (issuedSince w (st.run s w).2 ++
          issuedSince (st.run s w).2 (runSteps steps (st.run s w).1 (st.run s w).2).2) := by
      show (runSteps steps (st.run s w).1 (st.run s w).2).2.calls = _
      rw [h2, ← List.append_assoc, ← h1]
    rw [issuedSince_of_eq h3]
    exact h3

theorem issuedSince_runSteps_cons (st : Step) (steps : List Step) (s : GlfSimpleShadowArray)
    (w : World) :
    issuedSince w (runSteps (st :: steps) s w).2 =
      issuedSince w (st.run s w).2 ++
        issuedSince (st.run s w).2 (runSteps steps (st.run s w).1 (st.run s w).2).2 := by
  have h1 := Step.step_calls st s w
  have h2 := runSteps_calls steps (st.run s w).1 (st.run s w).2
  apply issuedSince_of_eq
  show (runSteps steps (st.run s w).1 (st.run s w).2).2.calls = _
  rw [h2, ← List.append_assoc, ← h1]

/-- While the textures are externally owned, no sequence of steps without a
`SetTextures` touches the texture list or the flag, creates a texture or
deletes one. -/
theorem runSteps_external (steps : List Step) (s : GlfSimpleShadowArray) (w : World)
    (hf : s._texturesAllocatedExternally = true)
    (hop : ∀ ids, Step.call (.SetTextures ids) ∉ steps) :
    (runSteps steps s w).1._textures = s._textures ∧
    (runSteps steps s w).1._texturesAllocatedExternally = true ∧
    ∀ e ∈ issuedSince w (runSteps steps s w).2,
      e.call.createsTexture = false ∧ e.call.deletesTexture = false := by
  induction steps generalizing s w with
  | nil =>
    refine ⟨rfl, hf, ?_⟩
    show ∀ e ∈ issuedSince w w, _
    rw [issuedSince_self]; exact not_mem_nil_forall
  | cons st steps ih =>
    have hst : (st.run s w).1._textures = s._textures ∧
        (st.run s w).1._texturesAllocatedExternally = true ∧
        ∀ e ∈ issuedSince w (st.run s w).2,
          e.call.createsTexture = false ∧ e.call.deletesTexture = false := by
      cases st with
      | call op =>
        exact Op.run_external op s w hf (fun ids h => hop ids (by rw [h]; simp))
      | caller gl =>
        refine ⟨rfl, hf, ?_⟩
        rw [Step.caller_issued]; exact not_mem_nil_forall
    have hrest := ih (st.run s w).1 (st.run s w).2 hst.2.1
      (fun ids h => hop ids (List.mem_cons_of_mem _ h))
    refine ⟨hrest.1.trans hst.1, hrest.2.1, ?_⟩
    intro e he
    rw [issuedSince_runSteps_cons, List.mem_append] at he
    rcases he with he | he
    · exact hst.2.2 e he
    · exact hrest.2.2 e he

/-- Where the self-managed textures of the state after an operation come
from: there are none, or they were just allocated (fresh consecutive names,
one per resolution), or they are the self-managed textures from before with
the resolutions unchanged. -/
theorem Op.run_selfManaged (op : Op) (s : GlfSimpleShadowArray) (w : World)
    (hf : (op.run s w).1._texturesAllocatedExternally = false) :
    (op.run s w).1._textures = [] ∨
    (∃ n, (op.run s w).1._textures =
      List.range' (n + 1) (op.run s w).1._resolutions.length) ∨
    ((op.run s w).1._textures = s._textures ∧ s._texturesAllocatedExternally = false ∧
      (op.run s w).1._resolutions = s._resolutions) := by
  cases op with
  | SetShadowMapResolutions resolutions =>
    simp only [Op.run] at hf ⊢
    by_cases h : s._resolutions = resolutions
    · rw [← h, SetShadowMapResolutions_same] at hf ⊢
      exact Or.inr (Or.inr ⟨rfl, hf, rfl⟩)
    · rw [SetShadowMapResolutions_ne s w resolutions h] at hf ⊢
      left
      have hf' : s._texturesAllocatedExternally = false := hf
      simp [hf']
  | SetViewMatrix index matrix =>
    simp only [Op.run] at hf ⊢
    rw [SetViewMatrix_fst] at hf ⊢
    split_ifs at hf ⊢ <;> exact Or.inr (Or.inr ⟨rfl, hf, rfl⟩)
  | SetProjectionMatrix index matrix =>
    simp only [Op.run] at hf ⊢
    rw [SetProjectionMatrix_fst] at hf ⊢
    split_ifs at hf ⊢ <;> exact Or.inr (Or.inr ⟨rfl, hf, rfl⟩)
  | SetTextures textureIds =>
    left
    cases textureIds with
    | nil => rfl
    | cons a l => exact absurd (show true = false from hf) (by decide)
  | AllocSamplers =>
    simp only [Op.run] at hf ⊢
    rw [AllocSamplers_eq] at hf ⊢
    split_ifs at hf ⊢ <;> exact Or.inr (Or.inr ⟨rfl, hf, rfl⟩)
  | BeginCapture index clear =>
    simp only [Op.run] at hf ⊢
    have h := BeginCapture_fields s w index clear
    have hf' : s._texturesAllocatedExternally = false := h.2.2.2.1.symm.trans hf
    by_cases ht : s._textures = []
    · right; left
      exact ⟨_, by rw [h.2.2.2.2.2.2.2.2.2.2 hf' ht, h.1]⟩
    · exact Or.inr (Or.inr ⟨h.2.2.2.2.2.2.2.2.2.1 (Or.inr ht), hf', h.1⟩)
  | EndCapture index =>
    rw [Op.run_EndCapture_fst] at hf ⊢
    exact Or.inr (Or.inr ⟨rfl, hf, rfl⟩)
  | destroy =>
    simp only [Op.run] at hf ⊢
    rw [_FreeResources_eq] at hf ⊢
    left
    have hf' : s._texturesAllocatedExternally = false := hf
    simp [hf']

/-- The self-managed textures of a reachable state: one per resolution when
there are any, pairwise distinct and none of them zero. -/
theorem Reachable.selfManaged (s : GlfSimpleShadowArray) (h : Reachable s)
    (hf : s._texturesAllocatedExternally = false) :
    (s._textures ≠ [] → s._textures.length = s._resolutions.length) ∧
    s._textures.Nodup ∧ (∀ id ∈ s._textures, id ≠ 0) := by
  induction h with
  | ctor =>
    refine ⟨fun h => absurd rfl h, List.nodup_nil, ?_⟩
    intro id hid
    simp [GlfSimpleShadowArray.ctor] at hid
  | step op s w _ ih =>
    rcases Op.run_selfManaged op s w hf with h | ⟨n, h⟩ | ⟨h1, h2, h3⟩
    · rw [h]
      refine ⟨fun h => absurd rfl h, List.nodup_nil, ?_⟩
      intro id hid
      simp at hid
    · rw [h]
      refine ⟨fun _ => by simp, List.nodup_range' _ _, ?_⟩
      intro id hid
      rw [List.mem_range'_1] at hid
      omega
    · rw [h1, h3]
      exact ih h2

/-- C9: in every state reachable from a freshly constructed manager by the
public operations, if the textures are not externally owned and there are
some, there is exactly one per resolution. -/
theorem C9_self_managed_textures_match_resolutions (s : GlfSimpleShadowArray)
    (h : Reachable s) (hf : s._texturesAllocatedExternally = false)
    (hne : s._textures ≠ []) :
    s._textures.length = s._resolutions.length :=
  (Reachable.selfManaged s h hf).1 hne

theorem createTextureCalls_filter (ids : List Nat) (rs : List GfVec2i) :
    (createTextureCalls ids rs).filter GLCall.isTextureCall = createTextureCalls ids rs := by
  induction ids generalizing rs with
  | nil => simp [createTextureCalls]
  | cons id ids ih =>
    cases rs with
    | nil => simp [createTextureCalls]
    | cons r rs =>
      simp only [createTextureCalls, List.filter_append, ih]
      simp [GLCall.isTextureCall]

theorem samplerCalls_filter_texture (shared : Bool) (id : Nat) :
    ((depthSamplerCalls shared id).map Issued.call).filter GLCall.isTextureCall = [] ∧
    ((compareSamplerCalls shared id).map Issued.call).filter GLCall.isTextureCall = [] := by
  constructor <;> simp [depthSamplerCalls, compareSamplerCalls, GLCall.isTextureCall]

theorem captureCalls_filter_texture (shared : Bool) (framebuffer : Nat)
    (texture : Option Nat) (clear : Bool) (size : GfVec2i) :
    ((captureCalls shared framebuffer texture clear size).map Issued.call).filter
      GLCall.isTextureCall = [] := by
  cases texture <;> cases clear <;> simp [captureCalls, GLCall.isTextureCall]

/-- The texture commands of the first capture of a self-managed manager
without textures: one texture per resolution, each generated, bound and given
its depth image, and the binding reset at the end. -/
theorem BeginCapture_texture_calls (s : GlfSimpleShadowArray) (w : World) (index : Nat)
    (clear : Bool) (hself : s._texturesAllocatedExternally = false)
    (hempty : s._textures = []) :
    ((issuedSince w (s.BeginCapture w index clear).2).map Issued.call).filter
        GLCall.isTextureCall =
      createTextureCalls (s.BeginCapture w index clear).1._textures s._resolutions ++
        [.glBindTexture .GL_TEXTURE_2D 0] := by
  have h := BeginCapture_fields s w index clear
  rw [h.2.2.2.2.2.2.2.2.2.2 hself hempty, BeginCapture_issued,
    if_pos (show s._framebuffer = 0 ∨ s._textures = [] from Or.inr hempty),
    if_pos (show s._texturesAllocatedExternally = false ∧ s._textures = [] from
      ⟨hself, hempty⟩)]
  simp only [List.map_append, List.filter_append, captureCalls_filter_texture,
    List.append_nil, allocCalls_map_call, createTextureCalls_filter]
  have e1 : ∀ (c : Prop) [Decidable c] (id : Nat),
      (List.map Issued.call (if c then depthSamplerCalls w.inShared id else [])).filter
        GLCall.isTextureCall = [] := by
    intro c _ id
    split_ifs
    · exact (samplerCalls_filter_texture _ _).1
    · rfl
  have e2 : ∀ (c : Prop) [Decidable c] (id : Nat),
      (List.map Issued.call (if c then compareSamplerCalls w.inShared id else [])).filter
        GLCall.isTextureCall = [] := by
    intro c _ id
    split_ifs
    · exact (samplerCalls_filter_texture _ _).2
    · rfl
  have e3 : ∀ (c : Prop) [Decidable c] (id : Nat),
      (List.map Issued.call
        (if c then [(⟨.glGenFramebuffers id, w.inShared⟩ : Issued)] else [])).filter
        GLCall.isTextureCall = [] := by
    intro c _ id
    split_ifs <;> rfl
  rw [e1, e2, e3]
  simp [GLCall.isTextureCall]

theorem BeginCapture_allocatedFor_first (s : GlfSimpleShadowArray) (w : World) (index : Nat)
    (clear : Bool) (hself : s._texturesAllocatedExternally = false)
    (hempty : s._textures = []) :
    (s.BeginCapture w index clear).1.allocatedFor s._resolutions := by
  have h := BeginCapture_fields s w index clear
  refine ⟨h.2.2.2.1.trans hself, h.2.2.2.2.1, (h.2.2.2.2.2.2.2.2.1 (Or.inr hempty)).1,
    (h.2.2.2.2.2.2.2.2.1 (Or.inr hempty)).2, ?_, h.1⟩
  rw [h.2.2.2.2.2.2.2.2.2.2 hself hempty]
  intro h0
  have h1 := congrArg List.length h0
  simp only [List.length_range', List.length_nil] at h1
  exact List.length_eq_zero.mp h1

theorem BeginCapture_allocatedFor (s : GlfSimpleShadowArray) (w : World) (index : Nat)
    (clear : Bool) (R : List GfVec2i) (ha : s.allocatedFor R) :
    (s.BeginCapture w index clear).1.allocatedFor R := by
  obtain ⟨hf, hfb, hd, hc, ht, hr⟩ := ha
  have h := BeginCapture_fields s w index clear
  refine ⟨h.2.2.2.1.trans hf, h.2.2.2.2.1, (h.2.2.2.2.2.2.1 hd).symm ▸ hd,
    (h.2.2.2.2.2.2.2.1 hc).symm ▸ hc, ?_, h.1.trans hr⟩
  by_cases hte : s._textures = []
  · intro _; exact ht hte
  · rw [h.2.2.2.2.2.2.2.2.2.1 (Or.inr hte)]
    intro h0; exact absurd h0 hte

theorem Step.run_allocatedFor (st : Step) (s : GlfSimpleShadowArray) (w : World)
    (R : List GfVec2i) (ha : s.allocatedFor R) (hk : st.keepsAllocation R = true) :
    (st.run s w).1.allocatedFor R := by
  cases st with
  | caller gl => exact ha
  | call op =>
    cases op with
    | SetShadowMapResolutions resolutions =>
      simp only [Step.keepsAllocation, decide_eq_true_eq] at hk
      show (s.SetShadowMapResolutions w resolutions).1.allocatedFor R
      rw [hk, ← ha.2.2.2.2.2, SetShadowMapResolutions_same]
      rw [ha.2.2.2.2.2]; exact ha
    | SetViewMatrix index matrix =>
      show (s.SetViewMatrix w index matrix).1.allocatedFor R
      rw [SetViewMatrix_fst]
      split_ifs
      · exact ha
      · exact ha
    | SetProjectionMatrix index matrix =>
      show (s.SetProjectionMatrix w index matrix).1.allocatedFor R
      rw [SetProjectionMatrix_fst]
      split_ifs
      · exact ha
      · exact ha
    | SetTextures textureIds => exact absurd hk (by simp [Step.keepsAllocation])
    | AllocSamplers =>
      show (s.AllocSamplers w).1.allocatedFor R
      rw [AllocSamplers_eq, if_neg ha.2.2.1, if_neg ha.2.2.2.1]
      exact ha
    | BeginCapture index clear => exact BeginCapture_allocatedFor s w index clear R ha
    | EndCapture index =>
      show ((Op.EndCapture index).run s w).1.allocatedFor R
      rw [Op.run_EndCapture_fst]; exact ha
    | destroy => exact absurd hk (by simp [Step.keepsAllocation])

theorem runSteps_allocatedFor (steps : List Step) (s : GlfSimpleShadowArray) (w : World)
    (R : List GfVec2i) (ha : s.allocatedFor R)
    (hk : ∀ st ∈ steps, st.keepsAllocation R = true) :
    (runSteps steps s w).1.allocatedFor R := by
  induction steps generalizing s w with
  | nil => exact ha
  | cons st steps ih =>
    exact ih (st.run s w).1 (st.run s w).2
      (Step.run_allocatedFor st s w R ha (hk st (List.mem_cons_self _ _)))
      (fun st' h => hk st' (List.mem_cons_of_mem _ h))

/-- A capture on a manager that holds everything creates no GL object. -/
theorem BeginCapture_creates_nothing (s : GlfSimpleShadowArray) (w : World) (index : Nat)
    (clear : Bool) (R : List GfVec2i) (ha : s.allocatedFor R) :
    ∀ e ∈ issuedSince w (s.BeginCapture w index clear).2, e.call.createsObject = false := by
  obtain ⟨hf, hfb, hd, hc, ht, hr⟩ := ha
  apply BeginCapture_issued_forall (fun e : Issued => e.call.createsObject = false)
  · intro h; exact absurd h hd
  · intro h; exact absurd h hc
  · intro _ hte
    rw [hr, ht hte]
    intro e he
    simp only [allocCalls, List.nil_append, List.mem_singleton] at he
    rw [he]; rfl
  · intro h; exact absurd h hfb
  · exact captureCalls_forall (fun e : Issued => e.call.createsObject = false) _ _ _ _ _
      rfl (fun _ _ => rfl) (fun _ => rfl) rfl rfl rfl

theorem mem_createTextureCalls (ids : List Nat) (rs : List GfVec2i)
    (h : ids.length ≤ rs.length) (id : Nat) (hid : id ∈ ids) :
    GLCall.glGenTextures id ∈ createTextureCalls ids rs := by
  induction ids generalizing rs with
  | nil => simp at hid
  | cons a ids ih =>
    cases rs with
    | nil => simp at h
    | cons r rs =>
      simp only [createTextureCalls, List.mem_append, List.mem_cons]
      rcases List.mem_cons.mp hid with rfl | hid'
      · exact Or.inl (Or.inl rfl)
      · exact Or.inr (ih rs (by simpa using h) hid')

/-- A texture is deleted by an operation only if it is one of the
self-managed textures the manager held. -/
theorem Op.run_deletes (op : Op) (s : GlfSimpleShadowArray) (w : World) (id : Nat)
    (h : GLCall.glDeleteTextures id ∈ (issuedSince w (op.run s w).2).map Issued.call) :
    s._texturesAllocatedExternally = false ∧ id ∈ s._textures := by
  rw [List.mem_map] at h
  obtain ⟨e, he, hcall⟩ := h
  have hdel : e.call.deletesTexture = true := by rw [hcall]; rfl
  have key : ∀ l : List Issued, e ∈ l → (∀ e' ∈ l, e'.call.deletesTexture = false) → False := by
    intro l hl hall
    rw [hall e hl] at hdel
    exact absurd hdel (by decide)
  have hdc : e ∈ deleteCalls true s._textures → id ∈ s._textures := by
    intro hm
    unfold deleteCalls at hm
    rw [List.mem_map] at hm
    obtain ⟨id', hid', rfl⟩ := hm
    simp only at hcall
    injection hcall with hcall
    rw [← hcall]
    exact (List.mem_filter.mp hid').1
  cases op with
  | SetShadowMapResolutions resolutions =>
    simp only [Op.run] at he
    rw [SetShadowMapResolutions_issued] at he
    by_cases hc : s._resolutions = resolutions ∨ s._texturesAllocatedExternally = true
    · rw [if_pos hc] at he; simp at he
    · rw [if_neg hc] at he
      push_neg at hc
      exact ⟨by simpa using hc.2, hdc he⟩
  | SetViewMatrix index matrix =>
    simp only [Op.run] at he; rw [SetViewMatrix_issued] at he; simp at he
  | SetProjectionMatrix index matrix =>
    simp only [Op.run] at he; rw [SetProjectionMatrix_issued] at he; simp at he
  | SetTextures textureIds =>
    have he' : e ∈ issuedSince w w := he
    rw [issuedSince_self] at he'; simp at he'
  | AllocSamplers =>
    refine (key _ he ?_).elim
    simp only [Op.run]
    rw [AllocSamplers_issued]
    intro e' he'
    rw [List.mem_append] at he'
    rcases he' with he' | he'
    · split_ifs at he'
      · exact (samplerCalls_forall (fun e : Issued => e.call.deletesTexture = false) _ _
          rfl (fun _ _ => rfl) (fun _ _ => rfl)).1 e' he'
      · simp at he'
    · split_ifs at he'
      · exact (samplerCalls_forall (fun e : Issued => e.call.deletesTexture = false) _ _
          rfl (fun _ _ => rfl) (fun _ _ => rfl)).2 e' he'
      · simp at he'
  | BeginCapture index clear =>
    refine (key _ he ?_).elim
    simp only [Op.run]
    apply BeginCapture_issued_forall (fun e : Issued => e.call.deletesTexture = false)
    · intro _ _
      exact (samplerCalls_forall (fun e : Issued => e.call.deletesTexture = false) _ _
        rfl (fun _ _ => rfl) (fun _ _ => rfl)).1
    · intro _ _
      exact (samplerCalls_forall (fun e : Issued => e.call.deletesTexture = false) _ _
        rfl (fun _ _ => rfl) (fun _ _ => rfl)).2
    · intro _ _ e' he'
      rw [List.mem_append, List.mem_singleton] at he'
      rcases he' with he' | rfl
      · exact allocCalls_forall (fun e : Issued => e.call.deletesTexture = false) _ _ _
          (fun _ => rfl) (fun _ => rfl) (fun _ _ => rfl) e' he'
      · rfl
    · intro _; rfl
    · exact captureCalls_forall (fun e : Issued => e.call.deletesTexture = false) _ _ _ _ _
        rfl (fun _ _ => rfl) (fun _ => rfl) rfl rfl rfl
  | EndCapture index =>
    refine (key _ he ?_).elim
    simp only [Op.run]
    intro e' he'
    replace he' := EndCapture_issued_mem s w index e' he'
    simp only [List.mem_append, List.mem_cons, List.mem_singleton, List.not_mem_nil,
      or_false] at he'
    rcases he' with (rfl | rfl) | he' | rfl | rfl | rfl <;> try rfl
    split_ifs at he'
    · simp only [List.mem_singleton] at he'; rw [he']; rfl
    · simp at he'
  | destroy =>
    simp only [Op.run] at he
    rw [_FreeResources_issued] at he
    simp only [List.mem_append] at he
    rcases he with he | he | he | he
    · cases hf : s._texturesAllocatedExternally
      · rw [hf] at he
        exact ⟨rfl, hdc (by simpa using he)⟩
      · rw [hf] at he; simp at he
    all_goals
      split_ifs at he
      · simp only [List.mem_singleton] at he
        rw [he] at hdel
        simp [GLCall.deletesTexture] at hdel
      · simp at he

/-- A self-managed texture held after an operation was either a self-managed
texture before it or generated by it. -/
theorem Op.run_held (op : Op) (s : GlfSimpleShadowArray) (w : World)
    (hf : (op.run s w).1._texturesAllocatedExternally = false) (id : Nat)
    (hid : id ∈ (op.run s w).1._textures) :
    (s._texturesAllocatedExternally = false ∧ id ∈ s._textures) ∨
    GLCall.glGenTextures id ∈ (issuedSince w (op.run s w).2).map Issued.call := by
  cases op with
  | SetShadowMapResolutions resolutions =>
    simp only [Op.run] at hf hid ⊢
    by_cases h : s._resolutions = resolutions
    · rw [← h, SetShadowMapResolutions_same] at hf hid
      exact Or.inl ⟨hf, hid⟩
    · rw [SetShadowMapResolutions_ne s w resolutions h] at hf hid
      have hf' : s._texturesAllocatedExternally = false := hf
      simp [hf'] at hid
  | SetViewMatrix index matrix =>
    simp only [Op.run] at hf hid ⊢
    rw [SetViewMatrix_fst] at hf hid
    split_ifs at hf hid <;> exact Or.inl ⟨hf, hid⟩
  | SetProjectionMatrix index matrix =>
    simp only [Op.run] at hf hid ⊢
    rw [SetProjectionMatrix_fst] at hf hid
    split_ifs at hf hid <;> exact Or.inl ⟨hf, hid⟩
  | SetTextures textureIds =>
    cases textureIds with
    | nil => exact absurd (show id ∈ ([] : List Nat) from hid) (by simp)
    | cons a l => exact absurd (show true = false from hf) (by decide)
  | AllocSamplers =>
    simp only [Op.run] at hf hid ⊢
    rw [AllocSamplers_eq] at hf hid
    split_ifs at hf hid <;> exact Or.inl ⟨hf, hid⟩
  | BeginCapture index clear =>
    simp only [Op.run] at hf hid ⊢
    have h := BeginCapture_fields s w index clear
    have hf' : s._texturesAllocatedExternally = false := h.2.2.2.1.symm.trans hf
    by_cases ht : s._textures = []
    · right
      have hmem : GLCall.glGenTextures id ∈
          createTextureCalls (s.BeginCapture w index clear).1._textures s._resolutions ++
            [GLCall.glBindTexture .GL_TEXTURE_2D 0] := by
        apply List.mem_append_left
        apply mem_createTextureCalls _ _ _ id hid
        rw [h.2.2.2.2.2.2.2.2.2.2 hf' ht]
        simp
      rw [← BeginCapture_texture_calls s w index clear hf' ht] at hmem
      exact (List.mem_filter.mp hmem).1
    · rw [h.2.2.2.2.2.2.2.2.2.1 (Or.inr ht)] at hid
      exact Or.inl ⟨hf', hid⟩
  | EndCapture index =>
    rw [Op.run_EndCapture_fst] at hf hid
    exact Or.inl ⟨hf, hid⟩
  | destroy =>
    simp only [Op.run] at hf hid ⊢
    rw [_FreeResources_eq] at hf hid
    have hf' : s._texturesAllocatedExternally = false := hf
    simp [hf'] at hid

/-- Along any sequence of steps, a texture the manager deletes is one of the
self-managed textures it held at the start or one it generated on the way. -/
theorem runSteps_deleted_generated (steps : List Step) (s : GlfSimpleShadowArray)
    (w : World) (G : List GLCall)
    (hinv : s._texturesAllocatedExternally = false →
      ∀ id ∈ s._textures, GLCall.glGenTextures id ∈ G) (id : Nat)
    (hdel : GLCall.glDeleteTextures id ∈
      (issuedSince w (runSteps steps s w).2).map Issued.call) :
    GLCall.glGenTextures id ∈ G ++ (issuedSince w (runSteps steps s w).2).map Issued.call := by
  induction steps generalizing s w G with
  | nil =>
    have h : issuedSince w (runSteps [] s w).2 = [] := issuedSince_self w
    rw [h] at hdel
    simp at hdel
  | cons st steps ih =>
    rw [issuedSince_runSteps_cons, List.map_append] at hdel ⊢
    rw [← List.append_assoc]
    rcases List.mem_append.mp hdel with hd | hd
    · apply List.mem_append_left
      apply List.mem_append_left
      cases st with
      | call op =>
        have := Op.run_deletes op s w id hd
        exact hinv this.1 id this.2
      | caller gl =>
        rw [Step.caller_issued] at hd
        simp at hd
    · apply ih (st.run s w).1 (st.run s w).2 (G ++ (issuedSince w (st.run s w).2).map Issued.call)
      · intro hf id' hid'
        cases st with
        | call op =>
          rcases Op.run_held op s w hf id' hid' with h | h
          · exact List.mem_append_left _ (hinv h.1 id' h.2)
          · exact List.mem_append_right _ h
        | caller gl => exact List.mem_append_left _ (hinv hf id' hid')
      · exact hd

theorem count_delete_eq_one (ids : List Nat) (hnd : ids.Nodup) (id : Nat) (hid : id ∈ ids)
    (h0 : id ≠ 0) :
    ((ids.filter (fun id => id ≠ 0)).map GLCall.glDeleteTextures).count
      (GLCall.glDeleteTextures id) = 1 := by
  have hinj : Function.Injective GLCall.glDeleteTextures := by
    intro a b hab
    injection hab
  rw [List.count_map_of_injective _ _ hinj]
  apply List.count_eq_one_of_mem (hnd.filter _)
  rw [List.mem_filter]
  exact ⟨hid, by simpa using h0⟩

/-- C7: when the textures are self-managed and `SetShadowMapResolutions` is
called with a list that differs from the current one, the commands it issues
are exactly one `glDeleteTextures` for each non-zero handle of the texture
list, in order, and nothing else (in a reachable state the handles are
distinct and non-zero, so each is deleted exactly once); the texture list is
empty afterwards and the call creates no texture.  No operation other than
`BeginCapture` ever creates a texture, and the `BeginCapture` that follows
creates one texture per entry of the new list. -/
theorem C7_changed_resolutions_free_textures (s : GlfSimpleShadowArray) (w : World)
    (resolutions : List GfVec2i) (hself : s._texturesAllocatedExternally = false)
    (hne : s._resolutions ≠ resolutions) :
    (issuedSince w (s.SetShadowMapResolutions w resolutions).2).map Issued.call =
        (s._textures.filter (fun id => id ≠ 0)).map GLCall.glDeleteTextures ∧
    (Reachable s → ∀ id ∈ s._textures,
      ((issuedSince w (s.SetShadowMapResolutions w resolutions).2).map Issued.call).count
        (GLCall.glDeleteTextures id) = 1) ∧
    (s.SetShadowMapResolutions w resolutions).1._textures = [] ∧
    (∀ e ∈ issuedSince w (s.SetShadowMapResolutions w resolutions).2,
      e.call.createsTexture = false) ∧
    (∀ (op : Op) (t : GlfSimpleShadowArray) (v : World),
      (∀ index clear, op ≠ .BeginCapture index clear) →
      ∀ e ∈ issuedSince v (op.run t v).2, e.call.createsTexture = false) ∧
    (∀ (v : World) (index : Nat) (clear : Bool),
      ((issuedSince v ((s.SetShadowMapResolutions w resolutions).1.BeginCapture
          v index clear).2).map Issued.call).filter GLCall.isTextureCall =
        createTextureCalls
          ((s.SetShadowMapResolutions w resolutions).1.BeginCapture v index clear).1._textures
          resolutions ++ [.glBindTexture .GL_TEXTURE_2D 0] ∧
      ((s.SetShadowMapResolutions w resolutions).1.BeginCapture
          v index clear).1._textures.length = resolutions.length) := by
  have hi : issuedSince w (s.SetShadowMapResolutions w resolutions).2 =
      deleteCalls true s._textures := by
    rw [SetShadowMapResolutions_issued, if_neg]
    rw [hself]
    push_neg
    exact ⟨hne, by decide⟩
  have h1 : (s.SetShadowMapResolutions w resolutions).1._textures = [] := by
    rw [SetShadowMapResolutions_ne s w resolutions hne]
    simp [hself]
  have h2 : (s.SetShadowMapResolutions w resolutions).1._texturesAllocatedExternally = false := by
    rw [SetShadowMapResolutions_ne s w resolutions hne]
    exact hself
  have h3 : (s.SetShadowMapResolutions w resolutions).1._resolutions = resolutions := by
    rw [SetShadowMapResolutions_ne s w resolutions hne]
  refine ⟨?_, ?_, h1, ?_, Op.run_createsTexture, ?_⟩
  · rw [hi, deleteCalls_map_call]
  · intro hr id hid
    rw [hi, deleteCalls_map_call]
    have hs := Reachable.selfManaged s hr hself
    exact count_delete_eq_one _ hs.2.1 id hid (hs.2.2 id hid)
  · rw [hi]
    exact deleteCalls_forall (fun e : Issued => e.call.createsTexture = false) _ _
      (fun _ => rfl)
  · intro v index clear
    have hb := BeginCapture_texture_calls (s.SetShadowMapResolutions w resolutions).1
      v index clear h2 h1
    have hf := BeginCapture_fields (s.SetShadowMapResolutions w resolutions).1 v index clear
    rw [h3] at hb
    refine ⟨hb, ?_⟩
    rw [hf.2.2.2.2.2.2.2.2.2.2 h2 h1, h3]
    simp

/-- C8: while a non-empty list given to `SetTextures` is in force (no later
`SetTextures`), no sequence of operations and caller steps changes the
texture list or the externally-owned flag, deletes a texture or creates one;
this covers `SetShadowMapResolutions` with a changed list, `BeginCapture` and
the destructor.  `SetTextures` itself issues no GL command, and along any
sequence of steps from a freshly constructed manager every texture name
passed to `glDeleteTextures` is a name the manager obtained from
`glGenTextures` itself. -/
theorem C8_external_textures_never_deleted (s : GlfSimpleShadowArray) (w : World)
    (ids : List Nat) (hne : ids ≠ []) :
    (s.SetTextures w ids).2 = w ∧
    (∀ steps : List Step, (∀ ids', Step.call (.SetTextures ids') ∉ steps) →
      (runSteps steps (s.SetTextures w ids).1 (s.SetTextures w ids).2).1._textures = ids ∧
      (runSteps steps (s.SetTextures w ids).1
        (s.SetTextures w ids).2).1._texturesAllocatedExternally = true ∧
      ∀ e ∈ issuedSince w (runSteps steps (s.SetTextures w ids).1 (s.SetTextures w ids).2).2,
        e.call.createsTexture = false ∧ e.call.deletesTexture = false) ∧
    (∀ (steps : List Step) (w0 : World) (id : Nat),
      GLCall.glDeleteTextures id ∈
        (issuedSince w0 (runSteps steps GlfSimpleShadowArray.ctor w0).2).map Issued.call →
      GLCall.glGenTextures id ∈
        (issuedSince w0 (runSteps steps GlfSimpleShadowArray.ctor w0).2).map Issued.call) := by
  have hf : (s.SetTextures w ids).1._texturesAllocatedExternally = true := by
    cases ids with
    | nil => exact absurd rfl hne
    | cons a l => rfl
  refine ⟨rfl, ?_, ?_⟩
  · intro steps hsteps
    exact runSteps_external steps (s.SetTextures w ids).1 w hf hsteps
  · intro steps w0 id hdel
    have := runSteps_deleted_generated steps GlfSimpleShadowArray.ctor w0 []
      (fun _ id' hid' => absurd hid' (by simp [GlfSimpleShadowArray.ctor])) id hdel
    simpa using this

/-- C10: on a self-managed manager without textures, `BeginCapture` issues as
its texture commands exactly, for each resolution in order, the generation of
a texture, its binding and a 32-bit float depth image of that size (then the
reset of the binding); afterwards there is one texture per resolution and the
framebuffer and both samplers are non-zero.  After any steps that contain no
`SetShadowMapResolutions` with another list, no `SetTextures` and no
destructor, a further `BeginCapture` creates no texture, sampler or
framebuffer. -/
theorem C10_first_capture_allocates_once (s : GlfSimpleShadowArray) (w : World)
    (index : Nat) (clear : Bool) (hself : s._texturesAllocatedExternally = false)
    (hempty : s._textures = []) :
    ((issuedSince w (s.BeginCapture w index clear).2).map Issued.call).filter
        GLCall.isTextureCall =
      createTextureCalls (s.BeginCapture w index clear).1._textures s._resolutions ++
        [.glBindTexture .GL_TEXTURE_2D 0] ∧
    (s.BeginCapture w index clear).1._textures.length = s._resolutions.length ∧
    (s.BeginCapture w index clear).1._framebuffer ≠ 0 ∧
    (s.BeginCapture w index clear).1._shadowDepthSampler ≠ 0 ∧
    (s.BeginCapture w index clear).1._shadowCompareSampler ≠ 0 ∧
    (∀ steps : List Step, (∀ st ∈ steps, st.keepsAllocation s._resolutions = true) →
      ∀ (j : Nat) (clear' : Bool),
      ∀ e ∈ issuedSince
          (runSteps steps (s.BeginCapture w index clear).1 (s.BeginCapture w index clear).2).2
          ((runSteps steps (s.BeginCapture w index clear).1
              (s.BeginCapture w index clear).2).1.BeginCapture
            (runSteps steps (s.BeginCapture w index clear).1
              (s.BeginCapture w index clear).2).2 j clear').2,
        e.call.createsObject = false) := by
  have hf := BeginCapture_fields s w index clear
  have ha := BeginCapture_allocatedFor_first s w index clear hself hempty
  refine ⟨BeginCapture_texture_calls s w index clear hself hempty, ?_, ha.2.1, ha.2.2.1,
    ha.2.2.2.1, ?_⟩
  · rw [hf.2.2.2.2.2.2.2.2.2.2 hself hempty]
    simp
  · intro steps hk j clear'
    exact BeginCapture_creates_nothing _ _ j clear' s._resolutions
      (runSteps_allocatedFor steps _ _ s._resolutions ha hk)

theorem C7_changed_resolutions_free_textures_witness :
    (issuedSince twoSlotCaptured.2
        (twoSlotCaptured.1.SetShadowMapResolutions twoSlotCaptured.2
          [⟨1024, 1024⟩]).2).map Issued.call =
      [GLCall.glDeleteTextures 3, GLCall.glDeleteTextures 4] ∧
    (twoSlotCaptured.1.SetShadowMapResolutions twoSlotCaptured.2
        [⟨1024, 1024⟩]).1._textures = [] :=
  ⟨(C7_changed_resolutions_free_textures twoSlotCaptured.1 twoSlotCaptured.2
      [⟨1024, 1024⟩] (by decide) (by decide)).1,
   (C7_changed_resolutions_free_textures twoSlotCaptured.1 twoSlotCaptured.2
      [⟨1024, 1024⟩] (by decide) (by decide)).2.2.1⟩

theorem C8_external_textures_never_deleted_witness :
    (runSteps
      [Step.call (.SetShadowMapResolutions [⟨64, 64⟩]), Step.call (.BeginCapture 0 true),
       Step.call (.EndCapture 0), Step.call .destroy]
      (twoSlotManager.SetTextures World.initial [7, 8]).1
      (twoSlotManager.SetTextures World.initial [7, 8]).2).1._textures = [7, 8] :=
  ((C8_external_textures_never_deleted twoSlotManager World.initial [7, 8] (by decide)).2.1
    [Step.call (.SetShadowMapResolutions [⟨64, 64⟩]), Step.call (.BeginCapture 0 true),
     Step.call (.EndCapture 0), Step.call .destroy]
    (by
      intro ids' h
      simp at h)).1

theorem C9_self_managed_textures_match_resolutions_witness :
    Reachable twoSlotCaptured.1 ∧
    twoSlotCaptured.1._texturesAllocatedExternally = false ∧
    twoSlotCaptured.1._textures ≠ [] ∧
    twoSlotCaptured.1._textures.length = twoSlotCaptured.1._resolutions.length :=
  ⟨Reachable.step (.BeginCapture 0 true) twoSlotManager World.initial
      (Reachable.step _ _ _ Reachable.ctor),
   by decide, by decide,
   C9_self_managed_textures_match_resolutions twoSlotCaptured.1
     (Reachable.step (.BeginCapture 0 true) twoSlotManager World.initial
       (Reachable.step _ _ _ Reachable.ctor)) (by decide) (by decide)⟩

theorem C10_first_capture_allocates_once_witness :
    ((issuedSince World.initial (twoSlotManager.BeginCapture World.initial 0 true).2).map
        Issued.call).filter GLCall.isTextureCall =
      [.glGenTextures 3, .glBindTexture .GL_TEXTURE_2D 3,
       .glTexImage2D .GL_TEXTURE_2D 0 .GL_DEPTH_COMPONENT32F 512 512 0
         .GL_DEPTH_COMPONENT .GL_FLOAT,
       .glGenTextures 4, .glBindTexture .GL_TEXTURE_2D 4,
       .glTexImage2D .GL_TEXTURE_2D 0 .GL_DEPTH_COMPONENT32F 256 256 0
         .GL_DEPTH_COMPONENT .GL_FLOAT,
       .glBindTexture .GL_TEXTURE_2D 0] ∧
    (∀ e ∈ issuedSince (twoSlotManager.BeginCapture World.initial 0 true).2
        ((twoSlotManager.BeginCapture World.initial 0 true).1.BeginCapture
          (twoSlotManager.BeginCapture World.initial 0 true).2 1 true).2,
      e.call.createsObject = false) :=
  ⟨(C10_first_capture_allocates_once twoSlotManager World.initial 0 true
      (by decide) (by decide)).1,
   (C10_first_capture_allocates_once twoSlotManager World.initial 0 true
      (by decide) (by decide)).2.2.2.2.2 [] (by simp) 1 true⟩

theorem allocIfMissing_issued (s : GlfSimpleShadowArray) (w : World) :
    issuedSince w (allocIfMissing s w).2 =
      (if s._framebuffer = 0 ∨ s._textures = [] then
        ((if s._shadowDepthSampler = 0 then
            depthSamplerCalls w.inShared (allocIfMissing s w).1._shadowDepthSampler else []) ++
         ((if s._shadowCompareSampler = 0 then
            compareSamplerCalls w.inShared (allocIfMissing s w).1._shadowCompareSampler
           else []) ++
         ((if s._texturesAllocatedExternally = false ∧ s._textures = [] then
            allocCalls true (s.AllocSamplers w).2.gl.names s._resolutions ++
              [⟨.glBindTexture .GL_TEXTURE_2D 0, true⟩] else []) ++
          (if s._framebuffer = 0 then
            [⟨.glGenFramebuffers (allocIfMissing s w).1._framebuffer, w.inShared⟩]
           else []))))
      else []) :=
  issuedSince_of_eq (allocIfMissing_calls s w)

/-- A property holds of every command of the allocation step of a capture as
soon as it holds of the commands of each part that can run. -/
theorem allocIfMissing_issued_forall (P : Issued → Prop) (s : GlfSimpleShadowArray)
    (w : World)
    (hd : s._shadowDepthSampler = 0 → (s._framebuffer = 0 ∨ s._textures = []) →
      ∀ e ∈ depthSamplerCalls w.inShared (allocIfMissing s w).1._shadowDepthSampler, P e)
    (hc : s._shadowCompareSampler = 0 → (s._framebuffer = 0 ∨ s._textures = []) →
      ∀ e ∈ compareSamplerCalls w.inShared (allocIfMissing s w).1._shadowCompareSampler, P e)
    (ht : s._texturesAllocatedExternally = false → s._textures = [] →
      ∀ e ∈ allocCalls true (s.AllocSamplers w).2.gl.names s._resolutions ++
        [⟨.glBindTexture .GL_TEXTURE_2D 0, true⟩], P e)
    (hf : s._framebuffer = 0 →
      P ⟨.glGenFramebuffers (allocIfMissing s w).1._framebuffer, w.inShared⟩) :
    ∀ e ∈ issuedSince w (allocIfMissing s w).2, P e := by
  intro e he
  rw [allocIfMissing_issued] at he
  by_cases hcond : s._framebuffer = 0 ∨ s._textures = []
  · rw [if_pos hcond] at he
    simp only [List.mem_append] at he
    rcases he with he | he | he | he
    · by_cases h1 : s._shadowDepthSampler = 0
      · rw [if_pos h1] at he; exact hd h1 hcond e he
      · rw [if_neg h1] at he; simp at he
    · by_cases h1 : s._shadowCompareSampler = 0
      · rw [if_pos h1] at he; exact hc h1 hcond e he
      · rw [if_neg h1] at he; simp at he
    · by_cases h1 : s._texturesAllocatedExternally = false ∧ s._textures = []
      · rw [if_pos h1] at he
        exact ht h1.1 h1.2 e (by simpa using he)
      · rw [if_neg h1] at he; simp at he
    · by_cases h1 : s._framebuffer = 0
      · rw [if_pos h1] at he
        simp only [List.mem_singleton] at he
        rw [he]; exact hf h1
      · rw [if_neg h1] at he; simp at he
  · rw [if_neg hcond] at he; simp at he

theorem BeginCapture_issued_split (s : GlfSimpleShadowArray) (w : World) (index : Nat)
    (clear : Bool) :
    issuedSince w (s.BeginCapture w index clear).2 =
      issuedSince w (allocIfMissing s w).2 ++
        captureCalls w.inShared (s.BeginCapture w index clear).1._framebuffer
          (s.BeginCapture w index clear).1._textures[index]? clear
          (s._resolutions.getD index ⟨0, 0⟩) := by
  rw [BeginCapture_issued, allocIfMissing_issued]

/-- The state of the context after `BeginCapture`. -/
theorem BeginCapture_gl (s : GlfSimpleShadowArray) (w : World) (index : Nat) (clear : Bool) :
    (s.BeginCapture w index clear).2.gl.drawFramebuffer =
      (s.BeginCapture w index clear).1._framebuffer ∧
    (s.BeginCapture w index clear).2.gl.readFramebuffer =
      (s.BeginCapture w index clear).1._framebuffer ∧
    (s.BeginCapture w index clear).2.gl.viewport =
      ⟨0, 0, (s._resolutions.getD index ⟨0, 0⟩).x, (s._resolutions.getD index ⟨0, 0⟩).y⟩ ∧
    (s.BeginCapture w index clear).2.gl.depthRange = (0, 99999 / 100000) ∧
    (s.BeginCapture w index clear).2.gl.depthClamp = true ∧
    (s.BeginCapture w index clear).2.gl.depthAttachment =
      (if index < (s.BeginCapture w index clear).1._textures.length then
        ((s.BeginCapture w index clear).1._framebuffer,
          (s.BeginCapture w index clear).1._textures.getD index 0) :: w.gl.depthAttachment
       else w.gl.depthAttachment) ∧
    (s.BeginCapture w index clear).2.diagnostics =
      (allocIfMissing s w).2.diagnostics ++
        captureDiags (s.BeginCapture w index clear).1 index := by
  have hf := allocIfMissing_frame s w
  have hc := GlfSimpleShadowArray.sameButObjects_config hf.1
  have hw := World.sameContext_fields hf.2
  rw [BeginCapture_eq, allocIfMissing_saveBindings]
  refine ⟨rfl, rfl, ?_, rfl, rfl, ?_, ?_⟩
  · simp only [saveBindings, hc.1]
  · simp only [saveBindings, hw.2.2.2.2.2.2.1]
  · simp only [saveBindings, captureDiags]

theorem allocIfMissing_no_clear_attach (s : GlfSimpleShadowArray) (w : World) :
    ∀ e ∈ issuedSince w (allocIfMissing s w).2,
      e.call.isClear = false ∧ e.call.attachesTexture = false := by
  apply allocIfMissing_issued_forall
    (fun e : Issued => e.call.isClear = false ∧ e.call.attachesTexture = false)
  · intro _ _
    exact (samplerCalls_forall
      (fun e : Issued => e.call.isClear = false ∧ e.call.attachesTexture = false) _ _
      ⟨rfl, rfl⟩ (fun _ _ => ⟨rfl, rfl⟩) (fun _ _ => ⟨rfl, rfl⟩)).1
  · intro _ _
    exact (samplerCalls_forall
      (fun e : Issued => e.call.isClear = false ∧ e.call.attachesTexture = false) _ _
      ⟨rfl, rfl⟩ (fun _ _ => ⟨rfl, rfl⟩) (fun _ _ => ⟨rfl, rfl⟩)).2
  · intro _ _ e he
    rw [List.mem_append, List.mem_singleton] at he
    rcases he with he | rfl
    · exact allocCalls_forall
        (fun e : Issued => e.call.isClear = false ∧ e.call.attachesTexture = false) _ _ _
        (fun _ => ⟨rfl, rfl⟩) (fun _ => ⟨rfl, rfl⟩) (fun _ _ => ⟨rfl, rfl⟩) e he
    · exact ⟨rfl, rfl⟩
  · intro _; exact ⟨rfl, rfl⟩

/-- C11: after `BeginCapture(index, clear)` with `index` inside the texture
list (as it is once the allocation step has run) and inside the resolution
list, the draw and the read binding are the framebuffer of the manager, the
depth attachment of that framebuffer is `_textures[index]`, the viewport is
`(0, 0, width, height)` of `_resolutions[index]`, and the commands of the call
end with the attachment, then a `glClear(GL_DEPTH_BUFFER_BIT)` exactly when
`clear` is set, then viewport, depth range and depth clamp; nothing before the
attachment is a clear or an attachment. -/
theorem C11_capture_binds_slot (s : GlfSimpleShadowArray) (w : World) (index : Nat)
    (clear : Bool)
    (ht : index < (s.BeginCapture w index clear).1._textures.length)
    (hr : index < s._resolutions.length) :
    (s.BeginCapture w index clear).2.gl.drawFramebuffer =
      (s.BeginCapture w index clear).1._framebuffer ∧
    (s.BeginCapture w index clear).2.gl.readFramebuffer =
      (s.BeginCapture w index clear).1._framebuffer ∧
    (s.BeginCapture w index clear).2.gl.attachedDepth
        (s.BeginCapture w index clear).1._framebuffer =
      some (s.BeginCapture w index clear).1._textures[index] ∧
    (s.BeginCapture w index clear).2.gl.viewport =
      ⟨0, 0, s._resolutions[index].x, s._resolutions[index].y⟩ ∧
    ∃ pre : List GLCall,
      (issuedSince w (s.BeginCapture w index clear).2).map Issued.call =
        pre ++
          ([.glFramebufferTexture .GL_FRAMEBUFFER .GL_DEPTH_ATTACHMENT
              (s.BeginCapture w index clear).1._textures[index] 0] ++
           ((if clear then [GLCall.glClear .GL_DEPTH_BUFFER_BIT] else []) ++
            [.glViewport 0 0 s._resolutions[index].x s._resolutions[index].y,
             .glDepthRange 0 (99999 / 100000), .glEnable .GL_DEPTH_CLAMP])) ∧
      ∀ c ∈ pre, c.isClear = false ∧ c.attachesTexture = false := by
  have hg := BeginCapture_gl s w index clear
  have hres : s._resolutions.getD index ⟨0, 0⟩ = s._resolutions[index] :=
    List.getD_eq_getElem _ _ hr
  have htex : (s.BeginCapture w index clear).1._textures.getD index 0 =
      (s.BeginCapture w index clear).1._textures[index] := List.getD_eq_getElem _ _ ht
  refine ⟨hg.1, hg.2.1, ?_, ?_, ?_⟩
  · unfold GLState.attachedDepth
    rw [hg.2.2.2.2.2.1, if_pos ht, htex]
    simp
  · rw [hg.2.2.1, hres]
  · refine ⟨(issuedSince w (allocIfMissing s w).2).map Issued.call ++
      [.glBindFramebuffer .GL_FRAMEBUFFER (s.BeginCapture w index clear).1._framebuffer],
      ?_, ?_⟩
    · rw [BeginCapture_issued_split, hres, List.getElem?_eq_getElem ht]
      cases clear <;> simp [captureCalls]
    · intro c hc
      rw [List.mem_append, List.mem_singleton] at hc
      rcases hc with hc | rfl
      · rw [List.mem_map] at hc
        obtain ⟨e, he, rfl⟩ := hc
        exact allocIfMissing_no_clear_attach s w e he
      · exact ⟨rfl, rfl⟩

theorem C11_capture_binds_slot_witness :
    twoSlotCaptured.2.gl.drawFramebuffer = 5 ∧
    twoSlotCaptured.2.gl.attachedDepth 5 = some 3 ∧
    twoSlotCaptured.2.gl.viewport = ⟨0, 0, 512, 512⟩ :=
  ⟨(C11_capture_binds_slot twoSlotManager World.initial 0 true (by decide) (by decide)).1,
   (C11_capture_binds_slot twoSlotManager World.initial 0 true (by decide) (by decide)).2.2.1,
   (C11_capture_binds_slot twoSlotManager World.initial 0 true (by decide) (by decide)).2.2.2.1⟩

theorem EndCapture_gl (s : GlfSimpleShadowArray) (w : World) (index : Nat) :
    (s.EndCapture w index).2.gl.depthRange = (0, 1) ∧
    (s.EndCapture w index).2.gl.depthClamp = false ∧
    (s.EndCapture w index).2.gl.depthAttachment = w.gl.depthAttachment := by
  cases ht : EndCapture_throws s w index
  · rw [EndCapture_of_returns s w index ht]
    unfold _UnbindFramebuffer GLF_POST_PENDING_GL_ERRORS
    cases hd : w.dumpShadowTextures
    · simp [hd, glViewport, glBindFramebuffer, glDepthRange, glDisable, issue]
    · simp [hd, glViewport, glBindFramebuffer, glDepthRange, glDisable, issue,
        dumpShadowTexture_gl]
  · rw [EndCapture_of_throws s w index ht]
    simp [throwOut, glDepthRange, glDisable, issue]

/-- C12: whatever depth range and clamp state the context had, on return from
`BeginCapture` the depth range is `[0, 99999/100000]` and depth clamping is
enabled, and these are the last depth-range and clamp commands of the call;
on return from `EndCapture` the depth range is `[0, 1]` and depth clamping is
disabled, whatever the context looked like when it was called. -/
theorem C12_depth_range_in_bracket (s : GlfSimpleShadowArray) (w : World) (index : Nat)
    (clear : Bool) :
    (s.BeginCapture w index clear).2.gl.depthRange = (0, 99999 / 100000) ∧
    (s.BeginCapture w index clear).2.gl.depthClamp = true ∧
    (∃ pre : List GLCall,
      (issuedSince w (s.BeginCapture w index clear).2).map Issued.call =
        pre ++ [.glDepthRange 0 (99999 / 100000), .glEnable .GL_DEPTH_CLAMP]) ∧
    (∀ (t : GlfSimpleShadowArray) (v : World) (j : Nat),
      (t.EndCapture v j).2.gl.depthRange = (0, 1) ∧
      (t.EndCapture v j).2.gl.depthClamp = false ∧
      ∃ post : List GLCall,
        (issuedSince v (t.EndCapture v j).2).map Issued.call =
          [.glDepthRange 0 1, .glDisable .GL_DEPTH_CLAMP] ++ post ∧
        ∀ c ∈ post, c ≠ .glEnable .GL_DEPTH_CLAMP ∧ ∀ n f, c ≠ .glDepthRange n f) := by
  have hg := BeginCapture_gl s w index clear
  refine ⟨hg.2.2.2.1, hg.2.2.2.2.1, ?_, ?_⟩
  · rw [BeginCapture_issued_split]
    refine ⟨(issuedSince w (allocIfMissing s w).2).map Issued.call ++
      ((captureCalls w.inShared (s.BeginCapture w index clear).1._framebuffer
          (s.BeginCapture w index clear).1._textures[index]? clear
          (s._resolutions.getD index ⟨0, 0⟩)).map Issued.call).dropLast.dropLast, ?_⟩
    cases clear <;> cases (s.BeginCapture w index _).1._textures[index]? <;>
      simp [captureCalls]
  · intro t v j
    have he := EndCapture_gl t v j
    refine ⟨he.1, he.2.1, ?_⟩
    rw [EndCapture_issued, List.map_append]
    refine ⟨_, rfl, ?_⟩
    intro c hc
    rw [List.mem_map] at hc
    obtain ⟨e, he', rfl⟩ := hc
    cases ht : EndCapture_throws t v j
    · rw [ht] at he'
      simp only [Bool.false_eq_true, if_false] at he'
      rw [List.mem_append] at he'
      rcases he' with he' | he'
      · split_ifs at he'
        · simp only [List.mem_singleton] at he'
          rw [he']
          exact ⟨by simp, fun _ _ => by simp⟩
        · simp at he'
      · simp only [List.mem_cons, List.mem_singleton, List.not_mem_nil, or_false] at he'
        rcases he' with rfl | rfl | rfl <;> exact ⟨by simp, fun _ _ => by simp⟩
    · rw [ht] at he'
      simp at he'

theorem C12_depth_range_in_bracket_witness :
    twoSlotCaptured.2.gl.depthRange = (0, 99999 / 100000) ∧
    twoSlotCaptured.2.gl.depthClamp = true ∧
    firstCaptureEnded.2.gl.depthRange = (0, 1) ∧
    firstCaptureEnded.2.gl.depthClamp = false :=
  ⟨(C12_depth_range_in_bracket twoSlotManager World.initial 0 true).1,
   (C12_depth_range_in_bracket twoSlotManager World.initial 0 true).2.1,
   ((C12_depth_range_in_bracket twoSlotManager World.initial 0 true).2.2.2
      twoSlotCaptured.1 twoSlotCaptured.2 0).1,
   ((C12_depth_range_in_bracket twoSlotManager World.initial 0 true).2.2.2
      twoSlotCaptured.1 twoSlotCaptured.2 0).2.1⟩

/-- The diagnostics only grow in the allocation of resources. -/
theorem _AllocResources_diagnostics (s : GlfSimpleShadowArray) (w : World) :
    (s._AllocResources w).2.diagnostics =
      w.diagnostics ++ (s._AllocResources w).2.diagnostics.drop w.diagnostics.length := by
  unfold _AllocResources
  rw [AllocSamplers_eq]
  by_cases hd : s._shadowDepthSampler = 0 <;> by_cases hc : s._shadowCompareSampler = 0 <;>
  cases hf : s._texturesAllocatedExternally <;> by_cases ht : s._textures = [] <;>
  by_cases hfb : s._framebuffer = 0 <;>
  simp [hd, hc, hf, ht, hfb, _AllocTextures_eq, glGenFramebuffers, genName, issue]

theorem allocIfMissing_diagnostics (s : GlfSimpleShadowArray) (w : World) :
    (allocIfMissing s w).2.diagnostics =
      w.diagnostics ++ (allocIfMissing s w).2.diagnostics.drop w.diagnostics.length := by
  rw [allocIfMissing_def]
  split_ifs
  · exact _AllocResources_diagnostics s w
  · simp

/-- C13 (as the code has it): `BeginCapture(index, clear)` with `index`
outside the texture list reports the warning "Texture index is out of bounds"
and goes on: the framebuffer of the manager is bound, the viewport, depth
range and depth clamp are set and the depth buffer is cleared exactly when
`clear` is set.  The call issues no attachment command, so the depth
attachments are the ones the context had before the call: the framebuffer has
no depth attachment if it had none, and keeps the texture an earlier capture
attached otherwise. -/
theorem C13_out_of_range_slot_keeps_attachment (s : GlfSimpleShadowArray) (w : World)
    (index : Nat) (clear : Bool)
    (h : (s.BeginCapture w index clear).1._textures.length ≤ index) :
    (∃ d : List Diag,
      (s.BeginCapture w index clear).2.diagnostics =
        w.diagnostics ++ d ++ [Diag.codingWarning "Texture index is out of bounds"] ++
          (if index < s._resolutions.length then []
           else [Diag.verifyFailed "index < _resolutions.size()"])) ∧
    (∀ e ∈ issuedSince w (s.BeginCapture w index clear).2, e.call.attachesTexture = false) ∧
    (s.BeginCapture w index clear).2.gl.depthAttachment = w.gl.depthAttachment ∧
    (∀ framebuffer, (s.BeginCapture w index clear).2.gl.attachedDepth framebuffer =
      w.gl.attachedDepth framebuffer) ∧
    (s.BeginCapture w index clear).2.gl.drawFramebuffer =
      (s.BeginCapture w index clear).1._framebuffer ∧
    (s.BeginCapture w index clear).2.gl.readFramebuffer =
      (s.BeginCapture w index clear).1._framebuffer ∧
    (s.BeginCapture w index clear).2.gl.viewport =
      ⟨0, 0, (s._resolutions.getD index ⟨0, 0⟩).x, (s._resolutions.getD index ⟨0, 0⟩).y⟩ ∧
    (s.BeginCapture w index clear).2.gl.depthRange = (0, 99999 / 100000) ∧
    (s.BeginCapture w index clear).2.gl.depthClamp = true ∧
    ((issuedSince w (s.BeginCapture w index clear).2).map Issued.call).filter GLCall.isClear =
      (if clear then [GLCall.glClear .GL_DEPTH_BUFFER_BIT] else []) := by
  have hg := BeginCapture_gl s w index clear
  have hlt : ¬ index < (s.BeginCapture w index clear).1._textures.length := Nat.not_lt.mpr h
  have hnone : (s.BeginCapture w index clear).1._textures[index]? = none :=
    List.getElem?_eq_none h
  have hatt : (s.BeginCapture w index clear).2.gl.depthAttachment = w.gl.depthAttachment := by
    rw [hg.2.2.2.2.2.1, if_neg hlt]
  have hres : (s.BeginCapture w index clear).1._resolutions = s._resolutions :=
    (BeginCapture_fields s w index clear).1
  refine ⟨?_, ?_, hatt, ?_, hg.1, hg.2.1, hg.2.2.1, hg.2.2.2.1, hg.2.2.2.2.1, ?_⟩
  · refine ⟨(allocIfMissing s w).2.diagnostics.drop w.diagnostics.length, ?_⟩
    rw [hg.2.2.2.2.2.2, ← allocIfMissing_diagnostics]
    unfold captureDiags
    rw [if_neg hlt, hres, List.append_assoc]
  · intro e he
    rw [BeginCapture_issued_split, List.mem_append] at he
    rcases he with he | he
    · exact (allocIfMissing_no_clear_attach s w e he).2
    · rw [hnone] at he
      exact captureCalls_forall (fun e : Issued => e.call.attachesTexture = false) _ _ _ _ _
        rfl (fun t ht => by simp at ht) (fun _ => rfl) rfl rfl rfl e he
  · intro framebuffer
    unfold GLState.attachedDepth
    rw [hatt]
  · rw [BeginCapture_issued_split, List.map_append, List.filter_append, hnone]
    have h1 : ((issuedSince w (allocIfMissing s w).2).map Issued.call).filter GLCall.isClear
        = [] := by
      rw [List.filter_eq_nil_iff]
      intro c hc
      rw [List.mem_map] at hc
      obtain ⟨e, he, rfl⟩ := hc
      rw [(allocIfMissing_no_clear_attach s w e he).1]
      decide
    rw [h1]
    cases clear <;> simp [captureCalls, GLCall.isClear]

theorem C13_out_of_range_slot_keeps_attachment_witness :
    captureThenOutOfRange.2.gl.depthAttachment = firstCaptureEnded.2.gl.depthAttachment ∧
    captureThenOutOfRange.2.gl.depthRange = (0, 99999 / 100000) :=
  ⟨(C13_out_of_range_slot_keeps_attachment firstCaptureEnded.1 firstCaptureEnded.2 5 true
      (by decide)).2.2.1,
   (C13_out_of_range_slot_keeps_attachment firstCaptureEnded.1 firstCaptureEnded.2 5 true
      (by decide)).2.2.2.2.2.2.2.1⟩

/-- After a capture of slot 0, a capture of a slot outside the texture list
runs with the texture of slot 0, which the manager holds, still attached to
its framebuffer, and clears it. -/
theorem C13_counterexample :
    captureThenOutOfRange.1._textures.length ≤ 5 ∧
    captureThenOutOfRange.2.gl.drawFramebuffer = captureThenOutOfRange.1._framebuffer ∧
    captureThenOutOfRange.2.gl.attachedDepth captureThenOutOfRange.1._framebuffer = some 3 ∧
    3 ∈ captureThenOutOfRange.1._textures ∧
    (⟨.glClear .GL_DEPTH_BUFFER_BIT, false⟩ : Issued) ∈
      issuedSince firstCaptureEnded.2 captureThenOutOfRange.2 := by
  decide

theorem GetViewMatrix_snd (s : GlfSimpleShadowArray) (w : World) (index : Nat) :
    (s.GetViewMatrix w index).2 =
      if index < s._viewMatrix.length then w
      else post (.verifyFailed "index < _viewMatrix.size()") w := by
  unfold GetViewMatrix
  by_cases h : index < s._viewMatrix.length
  · simp [h, TF_VERIFY_true]
  · simp [h, TF_VERIFY_false]

theorem GetProjectionMatrix_snd (s : GlfSimpleShadowArray) (w : World) (index : Nat) :
    (s.GetProjectionMatrix w index).2 =
      if index < s._projectionMatrix.length then w
      else post (.verifyFailed "index < _projectionMatrix.size()") w := by
  unfold GetProjectionMatrix
  by_cases h : index < s._projectionMatrix.length
  · simp [h, TF_VERIFY_true]
  · simp [h, TF_VERIFY_false]

/-- C14: for an index outside the view-matrix list `GetViewMatrix` returns the
identity and reports a failed verification, and `SetViewMatrix` returns the
manager unchanged (and reports the same); for an index inside the list,
`SetViewMatrix(index, M)` makes `GetViewMatrix(index)` return `M`, silently,
leaves every other slot of the list as it was and changes no other field of
the manager.  The same holds of the projection matrices and their list, and in
a reachable state the two lists have the same length, so that an index outside
one is outside the other. -/
theorem C14_matrix_accessors (s : GlfSimpleShadowArray) (w : World) (index : Nat)
    (M : GfMatrix4d) :
    (s._viewMatrix.length ≤ index →
      s.GetViewMatrix w index =
        (GfMatrix4d.SetIdentity, post (.verifyFailed "index < _viewMatrix.size()") w) ∧
      s.SetViewMatrix w index M =
        (s, post (.verifyFailed "index < _viewMatrix.size()") w)) ∧
    (s._projectionMatrix.length ≤ index →
      s.GetProjectionMatrix w index =
        (GfMatrix4d.SetIdentity,
          post (.verifyFailed "index < _projectionMatrix.size()") w) ∧
      s.SetProjectionMatrix w index M =
        (s, post (.verifyFailed "index < _projectionMatrix.size()") w)) ∧
    (Reachable s → s._viewMatrix.length ≤ index →
      (s.GetProjectionMatrix w index).1 = GfMatrix4d.SetIdentity ∧
      (s.SetProjectionMatrix w index M).1 = s) ∧
    (index < s._viewMatrix.length →
      s.SetViewMatrix w index M = ({ s with _viewMatrix := s._viewMatrix.set index M }, w) ∧
      (∀ v : World, (s.SetViewMatrix w index M).1.GetViewMatrix v index = (M, v)) ∧
      (∀ j, j ≠ index →
        (s.SetViewMatrix w index M).1._viewMatrix[j]? = s._viewMatrix[j]?) ∧
      (s.SetViewMatrix w index M).1._projectionMatrix = s._projectionMatrix) ∧
    (index < s._projectionMatrix.length →
      s.SetProjectionMatrix w index M =
        ({ s with _projectionMatrix := s._projectionMatrix.set index M }, w) ∧
      (∀ v : World, (s.SetProjectionMatrix w index M).1.GetProjectionMatrix v index = (M, v)) ∧
      (∀ j, j ≠ index →
        (s.SetProjectionMatrix w index M).1._projectionMatrix[j]? =
          s._projectionMatrix[j]?) ∧
      (s.SetProjectionMatrix w index M).1._viewMatrix = s._viewMatrix) := by
  refine ⟨?_, ?_, ?_, ?_, ?_⟩
  · intro h
    have hn := Nat.not_lt.mpr h
    constructor
    · apply Prod.ext
      · rw [GetViewMatrix_fst, if_neg hn]; rfl
      · rw [GetViewMatrix_snd, if_neg hn]
    · apply Prod.ext
      · rw [SetViewMatrix_fst, if_neg hn]
      · rw [SetViewMatrix_snd, if_neg hn]
  · intro h
    have hn := Nat.not_lt.mpr h
    constructor
    · apply Prod.ext
      · rw [GetProjectionMatrix_fst, if_neg hn]; rfl
      · rw [GetProjectionMatrix_snd, if_neg hn]
    · apply Prod.ext
      · rw [SetProjectionMatrix_fst, if_neg hn]
      · rw [SetProjectionMatrix_snd, if_neg hn]
  · intro hr h
    have hl := Reachable.rec (motive := fun t _ =>
        t._viewMatrix.length = t._resolutions.length ∧
        t._projectionMatrix.length = t._resolutions.length)
      ⟨rfl, rfl⟩ (fun op t v _ ih => Op.run_lengths op t v ih) hr
    have hn : ¬ index < s._projectionMatrix.length := by
      rw [hl.2, ← hl.1]; exact Nat.not_lt.mpr h
    constructor
    · rw [GetProjectionMatrix_fst, if_neg hn]; rfl
    · rw [SetProjectionMatrix_fst, if_neg hn]
  · intro h
    have e1 : s.SetViewMatrix w index M =
        ({ s with _viewMatrix := s._viewMatrix.set index M }, w) := by
      apply Prod.ext
      · rw [SetViewMatrix_fst, if_pos h]
      · rw [SetViewMatrix_snd, if_pos h]
    refine ⟨e1, ?_, ?_, ?_⟩
    · intro v
      rw [e1]
      apply Prod.ext
      · rw [GetViewMatrix_fst]
        simp [h]
      · rw [GetViewMatrix_snd]
        simp [h]
    · intro j hj
      rw [e1]
      simp [List.getElem?_set, Ne.symm hj]
    · rw [e1]
  · intro h
    have e1 : s.SetProjectionMatrix w index M =
        ({ s with _projectionMatrix := s._projectionMatrix.set index M }, w) := by
      apply Prod.ext
      · rw [SetProjectionMatrix_fst, if_pos h]
      · rw [SetProjectionMatrix_snd, if_pos h]
    refine ⟨e1, ?_, ?_, ?_⟩
    · intro v
      rw [e1]
      apply Prod.ext
      · rw [GetProjectionMatrix_fst]
        simp [h]
      · rw [GetProjectionMatrix_snd]
        simp [h]
    · intro j hj
      rw [e1]
      simp [List.getElem?_set, Ne.symm hj]
    · rw [e1]

theorem C14_matrix_accessors_witness :
    (oneSlotManager.GetViewMatrix World.initial 3).1 = GfMatrix4d.SetIdentity ∧
    (oneSlotManager.SetViewMatrix World.initial 3 (GfMatrix4d.SetScale half3)).1 =
      oneSlotManager ∧
    ((oneSlotManager.SetViewMatrix World.initial 0 (GfMatrix4d.SetScale half3)).1.GetViewMatrix
      World.initial 0).1 = GfMatrix4d.SetScale half3 :=
  ⟨congrArg Prod.fst ((C14_matrix_accessors oneSlotManager World.initial 3
      (GfMatrix4d.SetScale half3)).1 (by decide)).1,
   congrArg Prod.fst ((C14_matrix_accessors oneSlotManager World.initial 3
      (GfMatrix4d.SetScale half3)).1 (by decide)).2,
   congrArg Prod.fst (((C14_matrix_accessors oneSlotManager World.initial 0
      (GfMatrix4d.SetScale half3)).2.2.2.1 (by decide)).2.1 World.initial)⟩

/-- C15: `SetTextures(ids)` makes `ids` the texture list and sets the
externally-owned flag exactly when `ids` is not empty; it changes no other
field of the manager and nothing in the world, so it issues no GL command:
textures the manager had allocated itself are dropped from the list without
being deleted. -/
theorem C15_set_textures_effect (s : GlfSimpleShadowArray) (w : World) (ids : List Nat) :
    s.SetTextures w ids =
      ({ s with _textures := ids,
                _texturesAllocatedExternally := decide (ids ≠ []) }, w) ∧
    ((s.SetTextures w ids).1._texturesAllocatedExternally = true ↔ ids ≠ []) ∧
    (s.SetTextures w ids).1._resolutions = s._resolutions ∧
    (s.SetTextures w ids).1._viewMatrix = s._viewMatrix ∧
    (s.SetTextures w ids).1._projectionMatrix = s._projectionMatrix ∧
    (s.SetTextures w ids).1._shadowDepthSampler = s._shadowDepthSampler ∧
    (s.SetTextures w ids).1._shadowCompareSampler = s._shadowCompareSampler ∧
    (s.SetTextures w ids).1._framebuffer = s._framebuffer ∧
    issuedSince w (s.SetTextures w ids).2 = [] := by
  have h : (!ids.isEmpty) = decide (ids ≠ []) := by
    cases ids <;> simp
  refine ⟨?_, ?_, rfl, rfl, rfl, rfl, rfl, rfl, issuedSince_self w⟩
  · unfold SetTextures
    rw [h]
  · show (!ids.isEmpty) = true ↔ ids ≠ []
    rw [h]
    simp

theorem C15_set_textures_effect_witness :
    (twoSlotCaptured.1.SetTextures twoSlotCaptured.2 [7]).1._textures = [7] ∧
    (twoSlotCaptured.1.SetTextures twoSlotCaptured.2 [7]).1._texturesAllocatedExternally = true ∧
    issuedSince twoSlotCaptured.2 (twoSlotCaptured.1.SetTextures twoSlotCaptured.2 [7]).2 = [] :=
  ⟨congrArg (fun r => r.1._textures)
      (C15_set_textures_effect twoSlotCaptured.1 twoSlotCaptured.2 [7]).1,
   (C15_set_textures_effect twoSlotCaptured.1 twoSlotCaptured.2 [7]).2.1.mpr (by decide),
   (C15_set_textures_effect twoSlotCaptured.1 twoSlotCaptured.2 [7]).2.2.2.2.2.2.2.2⟩

/-- C16: the destructor (`_FreeResources`) leaves the framebuffer handle and
both sampler handles zero.  The commands it issues are, in this order and
nothing else: when the textures are self-managed one `glDeleteTextures` for
each non-zero entry of the texture list (each handle once in a reachable
state, where the handles are distinct), then a delete of the framebuffer, of
the depth sampler and of the compare sampler, each only if the handle was not
zero.  Self-managed textures leave an empty list; externally owned textures
are left in the list and no texture is deleted.  A second run of the
destructor issues no command at all. -/
theorem C16_teardown (s : GlfSimpleShadowArray) (w : World) :
    (s._FreeResources w).1._framebuffer = 0 ∧
    (s._FreeResources w).1._shadowDepthSampler = 0 ∧
    (s._FreeResources w).1._shadowCompareSampler = 0 ∧
    (issuedSince w (s._FreeResources w).2).map Issued.call =
      (if s._texturesAllocatedExternally then []
       else (s._textures.filter (fun id => id ≠ 0)).map GLCall.glDeleteTextures) ++
      ((if s._framebuffer ≠ 0 then [GLCall.glDeleteFramebuffers s._framebuffer] else []) ++
       ((if s._shadowDepthSampler ≠ 0 then [GLCall.glDeleteSamplers s._shadowDepthSampler]
         else []) ++
        (if s._shadowCompareSampler ≠ 0 then [GLCall.glDeleteSamplers s._shadowCompareSampler]
         else []))) ∧
    (s._texturesAllocatedExternally = false → (s._FreeResources w).1._textures = []) ∧
    (s._texturesAllocatedExternally = false → Reachable s → ∀ id ∈ s._textures,
      ((issuedSince w (s._FreeResources w).2).map Issued.call).count
        (GLCall.glDeleteTextures id) = 1) ∧
    (s._texturesAllocatedExternally = true →
      (s._FreeResources w).1._textures = s._textures ∧
      (s._FreeResources w).1._texturesAllocatedExternally = true ∧
      ∀ e ∈ issuedSince w (s._FreeResources w).2, e.call.deletesTexture = false) ∧
    (∀ v : World, issuedSince v ((s._FreeResources w).1._FreeResources v).2 = []) := by
  have hcalls : (issuedSince w (s._FreeResources w).2).map Issued.call =
      (if s._texturesAllocatedExternally then []
       else (s._textures.filter (fun id => id ≠ 0)).map GLCall.glDeleteTextures) ++
      ((if s._framebuffer ≠ 0 then [GLCall.glDeleteFramebuffers s._framebuffer] else []) ++
       ((if s._shadowDepthSampler ≠ 0 then [GLCall.glDeleteSamplers s._shadowDepthSampler]
         else []) ++
        (if s._shadowCompareSampler ≠ 0 then [GLCall.glDeleteSamplers s._shadowCompareSampler]
         else []))) := by
    rw [_FreeResources_issued]
    cases hf : s._texturesAllocatedExternally <;> by_cases h1 : s._framebuffer = 0 <;>
      by_cases h2 : s._shadowDepthSampler = 0 <;> by_cases h3 : s._shadowCompareSampler = 0 <;>
      simp [h1, h2, h3, deleteCalls_map_call]
  refine ⟨?_, ?_, ?_, hcalls, ?_, ?_, ?_, ?_⟩
  · rw [_FreeResources_eq]
  · rw [_FreeResources_eq]
  · rw [_FreeResources_eq]
  · intro hf
    rw [_FreeResources_eq]
    simp [hf]
  · intro hf hr id hid
    have hs := Reachable.selfManaged s hr hf
    rw [hcalls, hf]
    simp only [Bool.false_eq_true, if_false, List.count_append]
    rw [count_delete_eq_one _ hs.2.1 id hid (hs.2.2 id hid)]
    have z : ∀ (c : Prop) [Decidable c] (x : GLCall), x ≠ GLCall.glDeleteTextures id →
        (if c then [x] else []).count (GLCall.glDeleteTextures id) = 0 := by
      intro c _ x hx
      split_ifs
      · simp [List.count_cons, hx]
      · rfl
    rw [z _ _ (by simp), z _ _ (by simp), z _ _ (by simp)]
  · intro hf
    rw [_FreeResources_issued, _FreeResources_eq]
    refine ⟨by simp [hf], hf, ?_⟩
    intro e he
    simp only [List.mem_append] at he
    rcases he with he | he | he | he
    · rw [hf] at he; simp at he
    all_goals
      split_ifs at he
      · simp only [List.mem_singleton] at he; rw [he]; rfl
      · simp at he
  · intro v
    rw [_FreeResources_issued, _FreeResources_eq]
    cases hf : s._texturesAllocatedExternally <;> simp [hf, deleteCalls]

theorem C16_teardown_witness :
    (issuedSince firstCaptureEnded.2
        (firstCaptureEnded.1._FreeResources firstCaptureEnded.2).2).map Issued.call =
      [.glDeleteTextures 3, .glDeleteTextures 4, .glDeleteFramebuffers 5,
       .glDeleteSamplers 1, .glDeleteSamplers 2] ∧
    (firstCaptureEnded.1._FreeResources firstCaptureEnded.2).1._textures = [] :=
  ⟨(C16_teardown firstCaptureEnded.1 firstCaptureEnded.2).2.2.2.1,
   (C16_teardown firstCaptureEnded.1 firstCaptureEnded.2).2.2.2.2.1 (by decide)⟩

theorem samplersCreated_append (l1 l2 : List Issued) :
    samplersCreated (l1 ++ l2) = samplersCreated l1 + samplersCreated l2 := by
  unfold samplersCreated
  rw [List.filter_append, List.length_append]

theorem samplersCreated_nil : samplersCreated [] = 0 := rfl

theorem samplersCreated_of_forall (l : List Issued)
    (h : ∀ e ∈ l, e.call.createsSampler = false) : samplersCreated l = 0 := by
  unfold samplersCreated
  rw [List.length_eq_zero, List.filter_eq_nil_iff]
  intro e he
  rw [h e he]
  decide

theorem samplersCreated_samplerCalls (shared : Bool) (id : Nat) :
    samplersCreated (depthSamplerCalls shared id) = 1 ∧
    samplersCreated (compareSamplerCalls shared id) = 1 := by
  constructor <;> rfl

theorem samplersCreated_ite (c : Prop) [Decidable c] (l : List Issued) :
    samplersCreated (if c then l else []) = if c then samplersCreated l else 0 := by
  split_ifs <;> rfl

theorem samplersCreated_allocIfMissing (s : GlfSimpleShadowArray) (w : World) :
    samplersCreated (issuedSince w (allocIfMissing s w).2) =
      if s._framebuffer = 0 ∨ s._textures = [] then
        (if s._shadowDepthSampler = 0 then 1 else 0) +
        (if s._shadowCompareSampler = 0 then 1 else 0)
      else 0 := by
  rw [allocIfMissing_issued, samplersCreated_ite]
  by_cases hcond : s._framebuffer = 0 ∨ s._textures = []
  · rw [if_pos hcond, if_pos hcond]
    simp only [samplersCreated_append, samplersCreated_ite,
      (samplersCreated_samplerCalls _ _).1, (samplersCreated_samplerCalls _ _).2]
    have h1 : samplersCreated (allocCalls true (s.AllocSamplers w).2.gl.names s._resolutions)
        = 0 :=
      samplersCreated_of_forall _
        (allocCalls_forall (fun e : Issued => e.call.createsSampler = false) _ _ _
          (fun _ => rfl) (fun _ => rfl) (fun _ _ => rfl))
    have h2 : samplersCreated [(⟨.glBindTexture .GL_TEXTURE_2D 0, true⟩ : Issued)] = 0 := rfl
    have h3 : ∀ id sh, samplersCreated [(⟨.glGenFramebuffers id, sh⟩ : Issued)] = 0 :=
      fun _ _ => rfl
    rw [h1, h2, h3]
    simp
  · rw [if_neg hcond, if_neg hcond]

theorem BeginCapture_samplers (s : GlfSimpleShadowArray) (w : World) (index : Nat)
    (clear : Bool) :
    (s.BeginCapture w index clear).1._shadowDepthSampler =
      (allocIfMissing s w).1._shadowDepthSampler ∧
    (s.BeginCapture w index clear).1._shadowCompareSampler =
      (allocIfMissing s w).1._shadowCompareSampler := by
  rw [BeginCapture_eq, allocIfMissing_saveBindings]
  exact ⟨rfl, rfl⟩

theorem becameNonZero_self (a : Nat) : becameNonZero a a = 0 := by
  unfold becameNonZero
  rw [if_neg (fun h => h.2 h.1)]

theorem becameNonZero_zero (a : Nat) : becameNonZero a 0 = 0 := by
  unfold becameNonZero
  rw [if_neg (fun h => h.2 rfl)]

theorem becameNonZero_of_ne (a b : Nat) (h : b ≠ 0) :
    becameNonZero a b = if a = 0 then 1 else 0 := by
  unfold becameNonZero
  by_cases ha : a = 0
  · rw [if_pos ⟨ha, h⟩, if_pos ha]
  · rw [if_neg (fun h' => ha h'.1), if_neg ha]

/-- The sampler creations of one operation: one for each sampler handle that
was zero before it and is not zero after it. -/
theorem Op.run_samplers (op : Op) (s : GlfSimpleShadowArray) (w : World) :
    samplersCreated (issuedSince w (op.run s w).2) =
      becameNonZero s._shadowDepthSampler (op.run s w).1._shadowDepthSampler +
      becameNonZero s._shadowCompareSampler (op.run s w).1._shadowCompareSampler := by
  cases op with
  | SetShadowMapResolutions resolutions =>
    simp only [Op.run]
    rw [SetShadowMapResolutions_issued]
    have hs : (s.SetShadowMapResolutions w resolutions).1._shadowDepthSampler =
        s._shadowDepthSampler ∧
        (s.SetShadowMapResolutions w resolutions).1._shadowCompareSampler =
        s._shadowCompareSampler := by
      by_cases h : s._resolutions = resolutions
      · rw [← h, SetShadowMapResolutions_same]; exact ⟨rfl, rfl⟩
      · rw [SetShadowMapResolutions_ne s w resolutions h]; exact ⟨rfl, rfl⟩
    rw [hs.1, hs.2, becameNonZero_self, becameNonZero_self]
    split_ifs
    · rfl
    · exact samplersCreated_of_forall _
        (deleteCalls_forall (fun e : Issued => e.call.createsSampler = false) _ _
          (fun _ => rfl))
  | SetViewMatrix index matrix =>
    simp only [Op.run]
    rw [SetViewMatrix_issued, SetViewMatrix_fst]
    split_ifs <;> simp only [becameNonZero_self] <;> rfl
  | SetProjectionMatrix index matrix =>
    simp only [Op.run]
    rw [SetProjectionMatrix_issued, SetProjectionMatrix_fst]
    split_ifs <;> simp only [becameNonZero_self] <;> rfl
  | SetTextures textureIds =>
    simp only [Op.run]
    rw [show issuedSince w (s.SetTextures w textureIds).2 = [] from issuedSince_self w]
    show 0 = becameNonZero s._shadowDepthSampler s._shadowDepthSampler +
      becameNonZero s._shadowCompareSampler s._shadowCompareSampler
    rw [becameNonZero_self, becameNonZero_self]
  | AllocSamplers =>
    simp only [Op.run]
    rw [AllocSamplers_issued, AllocSamplers_eq]
    by_cases hd : s._shadowDepthSampler = 0 <;> by_cases hc : s._shadowCompareSampler = 0 <;>
      simp [hd, hc, samplersCreated_append, (samplersCreated_samplerCalls _ _).1,
        (samplersCreated_samplerCalls _ _).2, samplersCreated_nil, becameNonZero]
  | BeginCapture index clear =>
    simp only [Op.run]
    have hb := BeginCapture_samplers s w index clear
    have ho := allocIfMissing_objects s w
    rw [BeginCapture_issued_split, samplersCreated_append, samplersCreated_allocIfMissing,
      hb.1, hb.2]
    have hcap : samplersCreated (captureCalls w.inShared
        (s.BeginCapture w index clear).1._framebuffer
        (s.BeginCapture w index clear).1._textures[index]? clear
        (s._resolutions.getD index ⟨0, 0⟩)) = 0 :=
      samplersCreated_of_forall _
        (captureCalls_forall (fun e : Issued => e.call.createsSampler = false) _ _ _ _ _
          rfl (fun _ _ => rfl) (fun _ => rfl) rfl rfl rfl)
    rw [hcap, Nat.add_zero]
    by_cases hcond : s._framebuffer = 0 ∨ s._textures = []
    · have hn := ho.2.2.2.2.2.1 hcond
      rw [if_pos hcond, becameNonZero_of_ne _ _ hn.1, becameNonZero_of_ne _ _ hn.2]
    · rw [if_neg hcond]
      have hs : (allocIfMissing s w).1 = s := by
        rw [allocIfMissing_def, if_neg hcond]
      rw [hs, becameNonZero_self, becameNonZero_self]
  | EndCapture index =>
    simp only [Op.run]
    rw [EndCapture_fst, becameNonZero_self, becameNonZero_self]
    apply samplersCreated_of_forall
    intro e he
    replace he := EndCapture_issued_mem s w index e he
    simp only [List.mem_append, List.mem_cons, List.mem_singleton, List.not_mem_nil,
      or_false] at he
    rcases he with (rfl | rfl) | he | rfl | rfl | rfl <;> try rfl
    split_ifs at he
    · simp only [List.mem_singleton] at he; rw [he]; rfl
    · simp at he
  | destroy =>
    simp only [Op.run]
    rw [_FreeResources_issued, _FreeResources_eq]
    show _ = becameNonZero s._shadowDepthSampler 0 + becameNonZero s._shadowCompareSampler 0
    rw [becameNonZero_zero, becameNonZero_zero]
    apply samplersCreated_of_forall
    intro e he
    simp only [List.mem_append] at he
    rcases he with he | he | he | he
    · split_ifs at he
      · simp at he
      · exact deleteCalls_forall (fun e : Issued => e.call.createsSampler = false) _ _
          (fun _ => rfl) e he
    all_goals
      split_ifs at he
      · simp only [List.mem_singleton] at he; rw [he]; rfl
      · simp at he

/-- No operation other than the destructor changes a sampler handle that is
not zero. -/
theorem Op.run_samplers_kept (op : Op) (s : GlfSimpleShadowArray) (w : World)
    (hop : op ≠ .destroy) :
    (s._shadowDepthSampler ≠ 0 →
      (op.run s w).1._shadowDepthSampler = s._shadowDepthSampler) ∧
    (s._shadowCompareSampler ≠ 0 →
      (op.run s w).1._shadowCompareSampler = s._shadowCompareSampler) := by
  cases op with
  | SetShadowMapResolutions resolutions =>
    simp only [Op.run]
    by_cases h : s._resolutions = resolutions
    · rw [← h, SetShadowMapResolutions_same]; exact ⟨fun _ => rfl, fun _ => rfl⟩
    · rw [SetShadowMapResolutions_ne s w resolutions h]; exact ⟨fun _ => rfl, fun _ => rfl⟩
  | SetViewMatrix index matrix =>
    simp only [Op.run]
    rw [SetViewMatrix_fst]
    split_ifs <;> exact ⟨fun _ => rfl, fun _ => rfl⟩
  | SetProjectionMatrix index matrix =>
    simp only [Op.run]
    rw [SetProjectionMatrix_fst]
    split_ifs <;> exact ⟨fun _ => rfl, fun _ => rfl⟩
  | SetTextures textureIds => exact ⟨fun _ => rfl, fun _ => rfl⟩
  | AllocSamplers =>
    simp only [Op.run]
    rw [AllocSamplers_eq]
    by_cases hd : s._shadowDepthSampler = 0 <;> by_cases hc : s._shadowCompareSampler = 0 <;>
      simp [hd, hc]
  | BeginCapture index clear =>
    have h := BeginCapture_fields s w index clear
    exact ⟨h.2.2.2.2.2.2.1, h.2.2.2.2.2.2.2.1⟩
  | EndCapture index =>
    rw [Op.run_EndCapture_fst]
    exact ⟨fun _ => rfl, fun _ => rfl⟩
  | destroy => exact absurd rfl hop

theorem becameNonZero_trans (a b c : Nat) (h1 : a ≠ 0 → b = a) (h2 : b ≠ 0 → c = b) :
    becameNonZero a b + becameNonZero b c = becameNonZero a c := by
  unfold becameNonZero
  by_cases ha : a = 0
  · by_cases hb : b = 0
    · subst ha; subst hb; simp
    · have hc : c = b := h2 hb
      subst hc; subst ha; simp [hb]
  · have hb : b = a := h1 ha
    have hc : c = b := h2 (hb ▸ ha)
    subst hc; subst hb; simp [ha]

theorem becameNonZero_le_one (a b : Nat) : becameNonZero a b ≤ 1 := by
  unfold becameNonZero
  split_ifs <;> simp

/-- Along steps without the destructor, the sampler handles that are not zero
stay as they are, and the number of sampler creations is the number of
handles that went from zero to non-zero. -/
theorem runSteps_samplers (steps : List Step) (s : GlfSimpleShadowArray) (w : World)
    (hlive : Step.call .destroy ∉ steps) :
    (s._shadowDepthSampler ≠ 0 →
      (runSteps steps s w).1._shadowDepthSampler = s._shadowDepthSampler) ∧
    (s._shadowCompareSampler ≠ 0 →
      (runSteps steps s w).1._shadowCompareSampler = s._shadowCompareSampler) ∧
    samplersCreated (issuedSince w (runSteps steps s w).2) =
      becameNonZero s._shadowDepthSampler (runSteps steps s w).1._shadowDepthSampler +
      becameNonZero s._shadowCompareSampler (runSteps steps s w).1._shadowCompareSampler := by
  induction steps generalizing s w with
  | nil =>
    refine ⟨fun _ => rfl, fun _ => rfl, ?_⟩
    show samplersCreated (issuedSince w w) = becameNonZero s._shadowDepthSampler
      s._shadowDepthSampler + becameNonZero s._shadowCompareSampler s._shadowCompareSampler
    rw [issuedSince_self, becameNonZero_self, becameNonZero_self]
    rfl
  | cons st steps ih =>
    have hst : (s._shadowDepthSampler ≠ 0 →
          (st.run s w).1._shadowDepthSampler = s._shadowDepthSampler) ∧
        (s._shadowCompareSampler ≠ 0 →
          (st.run s w).1._shadowCompareSampler = s._shadowCompareSampler) ∧
        samplersCreated (issuedSince w (st.run s w).2) =
          becameNonZero s._shadowDepthSampler (st.run s w).1._shadowDepthSampler +
          becameNonZero s._shadowCompareSampler (st.run s w).1._shadowCompareSampler := by
      cases st with
      | call op =>
        have hop : op ≠ .destroy := fun h => hlive (by rw [h]; simp)
        exact ⟨(Op.run_samplers_kept op s w hop).1, (Op.run_samplers_kept op s w hop).2,
          Op.run_samplers op s w⟩
      | caller gl =>
        refine ⟨fun _ => rfl, fun _ => rfl, ?_⟩
        rw [Step.caller_issued]
        show 0 = becameNonZero s._shadowDepthSampler s._shadowDepthSampler +
          becameNonZero s._shadowCompareSampler s._shadowCompareSampler
        rw [becameNonZero_self, becameNonZero_self]
    have hrest := ih (st.run s w).1 (st.run s w).2
      (fun h => hlive (List.mem_cons_of_mem _ h))
    have hd : s._shadowDepthSampler ≠ 0 →
        (runSteps (st :: steps) s w).1._shadowDepthSampler = s._shadowDepthSampler := by
      intro h
      have h1 := hst.1 h
      exact (hrest.1 (h1 ▸ h)).trans h1
    have hc : s._shadowCompareSampler ≠ 0 →
        (runSteps (st :: steps) s w).1._shadowCompareSampler = s._shadowCompareSampler := by
      intro h
      have h1 := hst.2.1 h
      exact (hrest.2.1 (h1 ▸ h)).trans h1
    refine ⟨hd, hc, ?_⟩
    rw [issuedSince_runSteps_cons, samplersCreated_append, hst.2.2, hrest.2.2]
    have t1 := becameNonZero_trans s._shadowDepthSampler (st.run s w).1._shadowDepthSampler
      (runSteps steps (st.run s w).1 (st.run s w).2).1._shadowDepthSampler hst.1 hrest.1
    have t2 := becameNonZero_trans s._shadowCompareSampler
      (st.run s w).1._shadowCompareSampler
      (runSteps steps (st.run s w).1 (st.run s w).2).1._shadowCompareSampler hst.2.1 hrest.2.1
    show _ = becameNonZero s._shadowDepthSampler
        (runSteps steps (st.run s w).1 (st.run s w).2).1._shadowDepthSampler +
      becameNonZero s._shadowCompareSampler
        (runSteps steps (st.run s w).1 (st.run s w).2).1._shadowCompareSampler
    omega

/-- C17: along any sequence of operations and caller steps without the
destructor, a sampler handle that is not zero keeps its value, and the number
of sampler creations issued is one for each of the two handles that went from
zero to non-zero: none once both handles are non-zero, and never more than
two.  The destructor then issues, as its sampler deletes, one delete for the
depth sampler and one for the compare sampler, each only if the handle is not
zero, and leaves both handles zero. -/
theorem C17_samplers_created_at_most_once (steps : List Step) (s : GlfSimpleShadowArray)
    (w : World) (hlive : Step.call .destroy ∉ steps) :
    (s._shadowDepthSampler ≠ 0 →
      (runSteps steps s w).1._shadowDepthSampler = s._shadowDepthSampler) ∧
    (s._shadowCompareSampler ≠ 0 →
      (runSteps steps s w).1._shadowCompareSampler = s._shadowCompareSampler) ∧
    samplersCreated (issuedSince w (runSteps steps s w).2) =
      becameNonZero s._shadowDepthSampler (runSteps steps s w).1._shadowDepthSampler +
      becameNonZero s._shadowCompareSampler (runSteps steps s w).1._shadowCompareSampler ∧
    (s._shadowDepthSampler ≠ 0 → s._shadowCompareSampler ≠ 0 →
      samplersCreated (issuedSince w (runSteps steps s w).2) = 0) ∧
    samplersCreated (issuedSince w (runSteps steps s w).2) ≤ 2 ∧
    (∀ v : World,
      ((issuedSince v ((runSteps steps s w).1._FreeResources v).2).map Issued.call).filter
          GLCall.deletesSampler =
        (if (runSteps steps s w).1._shadowDepthSampler ≠ 0 then
          [GLCall.glDeleteSamplers (runSteps steps s w).1._shadowDepthSampler] else []) ++
        (if (runSteps steps s w).1._shadowCompareSampler ≠ 0 then
          [GLCall.glDeleteSamplers (runSteps steps s w).1._shadowCompareSampler] else []) ∧
      ((runSteps steps s w).1._FreeResources v).1._shadowDepthSampler = 0 ∧
      ((runSteps steps s w).1._FreeResources v).1._shadowCompareSampler = 0) := by
  have h := runSteps_samplers steps s w hlive
  refine ⟨h.1, h.2.1, h.2.2, ?_, ?_, ?_⟩
  · intro hd hc
    rw [h.2.2, h.1 hd, h.2.1 hc, becameNonZero_self, becameNonZero_self]
  · rw [h.2.2]
    have a := becameNonZero_le_one s._shadowDepthSampler
      (runSteps steps s w).1._shadowDepthSampler
    have b := becameNonZero_le_one s._shadowCompareSampler
      (runSteps steps s w).1._shadowCompareSampler
    omega
  · intro v
    generalize (runSteps steps s w).1 = t
    refine ⟨?_, ?_, ?_⟩
    · rw [_FreeResources_issued]
      cases hf : t._texturesAllocatedExternally <;> by_cases h1 : t._framebuffer = 0 <;>
        by_cases h2 : t._shadowDepthSampler = 0 <;>
        by_cases h3 : t._shadowCompareSampler = 0 <;>
        simp [h1, h2, h3, deleteCalls_map_call, GLCall.deletesSampler, List.filter_map,
          Function.comp_def]
    · rw [_FreeResources_eq]
    · rw [_FreeResources_eq]

theorem C17_samplers_created_at_most_once_witness :
    samplersCreated (issuedSince World.initial
      (runSteps [.call .AllocSamplers, .call (.BeginCapture 0 true), .call (.EndCapture 0),
          .call (.SetShadowMapResolutions [⟨64, 64⟩]), .call (.BeginCapture 0 false),
          .call .AllocSamplers]
        twoSlotManager World.initial).2) = 2 :=
  (C17_samplers_created_at_most_once
    [.call .AllocSamplers, .call (.BeginCapture 0 true), .call (.EndCapture 0),
     .call (.SetShadowMapResolutions [⟨64, 64⟩]), .call (.BeginCapture 0 false),
     .call .AllocSamplers]
    twoSlotManager World.initial (by simp)).2.2.1

theorem EndCapture_sharedScope (s : GlfSimpleShadowArray) (w : World) (index : Nat) :
    (s.EndCapture w index).2.sharedScope = w.sharedScope := by
  cases ht : EndCapture_throws s w index
  · rw [EndCapture_of_returns s w index ht]
    unfold _UnbindFramebuffer GLF_POST_PENDING_GL_ERRORS
    cases hd : w.dumpShadowTextures
    · simp [hd, glViewport, glBindFramebuffer, glDepthRange, glDisable, issue]
    · simp [hd, glViewport, glBindFramebuffer, glDepthRange, glDisable, issue,
        (dumpShadowTexture_frame _ _ _).2.1]
  · rw [EndCapture_of_throws s w index ht]
    simp [throwOut, glDepthRange, glDisable, issue]

/-- Every operation leaves as many scope holders alive as it found. -/
theorem Op.run_sharedScope (op : Op) (s : GlfSimpleShadowArray) (w : World) :
    (op.run s w).2.sharedScope = w.sharedScope := by
  cases op with
  | SetShadowMapResolutions resolutions =>
    simp only [Op.run]
    by_cases h : s._resolutions = resolutions
    · rw [← h, SetShadowMapResolutions_same]
    · rw [SetShadowMapResolutions_ne s w resolutions h]
  | SetViewMatrix index matrix =>
    simp only [Op.run]
    rw [SetViewMatrix_snd]
    split_ifs <;> rfl
  | SetProjectionMatrix index matrix =>
    simp only [Op.run]
    rw [SetProjectionMatrix_snd]
    split_ifs <;> rfl
  | SetTextures textureIds => rfl
  | AllocSamplers => exact (World.sameContext_fields (AllocSamplers_frame s w).2).1
  | BeginCapture index clear =>
    simp only [Op.run]
    rw [BeginCapture_eq, allocIfMissing_saveBindings]
    exact (World.sameContext_fields (allocIfMissing_frame s w).2).1
  | EndCapture index => exact EndCapture_sharedScope s w index
  | destroy =>
    simp only [Op.run]
    rw [_FreeResources_eq]

/-- The scope in which each command of an operation is issued: the texture
commands of `_AllocTextures` and the deletes under a scope holder of the
manager, every other command in the context of the caller. -/
theorem Op.run_scope (op : Op) (s : GlfSimpleShadowArray) (w : World) :
    ∀ e ∈ issuedSince w (op.run s w).2, e.shared = (e.call.underOwnScope || w.inShared) := by
  cases op with
  | SetShadowMapResolutions resolutions =>
    simp only [Op.run]
    rw [SetShadowMapResolutions_issued]
    split_ifs
    · exact not_mem_nil_forall
    · exact deleteCalls_forall
        (fun e : Issued => e.shared = (e.call.underOwnScope || w.inShared)) _ _ (fun _ => rfl)
  | SetViewMatrix index matrix =>
    simp only [Op.run]; rw [SetViewMatrix_issued]; exact not_mem_nil_forall
  | SetProjectionMatrix index matrix =>
    simp only [Op.run]; rw [SetProjectionMatrix_issued]; exact not_mem_nil_forall
  | SetTextures textureIds =>
    simp only [Op.run]
    show ∀ e ∈ issuedSince w w, _
    rw [issuedSince_self]; exact not_mem_nil_forall
  | AllocSamplers =>
    simp only [Op.run]
    rw [AllocSamplers_issued]
    intro e he
    rw [List.mem_append] at he
    rcases he with he | he
    · split_ifs at he
      · exact (samplerCalls_forall
          (fun e : Issued => e.shared = (e.call.underOwnScope || w.inShared)) _ _
          rfl (fun _ _ => rfl) (fun _ _ => rfl)).1 e he
      · simp at he
    · split_ifs at he
      · exact (samplerCalls_forall
          (fun e : Issued => e.shared = (e.call.underOwnScope || w.inShared)) _ _
          rfl (fun _ _ => rfl) (fun _ _ => rfl)).2 e he
      · simp at he
  | BeginCapture index clear =>
    simp only [Op.run]
    apply BeginCapture_issued_forall
      (fun e : Issued => e.shared = (e.call.underOwnScope || w.inShared))
    · intro _ _
      exact (samplerCalls_forall
        (fun e : Issued => e.shared = (e.call.underOwnScope || w.inShared)) _ _
        rfl (fun _ _ => rfl) (fun _ _ => rfl)).1
    · intro _ _
      exact (samplerCalls_forall
        (fun e : Issued => e.shared = (e.call.underOwnScope || w.inShared)) _ _
        rfl (fun _ _ => rfl) (fun _ _ => rfl)).2
    · intro _ _ e he
      rw [List.mem_append, List.mem_singleton] at he
      rcases he with he | rfl
      · exact allocCalls_forall
          (fun e : Issued => e.shared = (e.call.underOwnScope || w.inShared)) _ _ _
          (fun _ => rfl) (fun _ => rfl) (fun _ _ => rfl) e he
      · rfl
    · intro _; rfl
    · exact captureCalls_forall
        (fun e : Issued => e.shared = (e.call.underOwnScope || w.inShared)) _ _ _ _ _
        rfl (fun _ _ => rfl) (fun _ => rfl) rfl rfl rfl
  | EndCapture index =>
    simp only [Op.run]
    intro e he
    replace he := EndCapture_issued_mem s w index e he
    simp only [List.mem_append, List.mem_cons, List.mem_singleton, List.not_mem_nil,
      or_false] at he
    rcases he with (rfl | rfl) | he | rfl | rfl | rfl <;> try rfl
    split_ifs at he
    · simp only [List.mem_singleton] at he; rw [he]; rfl
    · simp at he
  | destroy =>
    simp only [Op.run]
    rw [_FreeResources_issued]
    intro e he
    simp only [List.mem_append] at he
    rcases he with he | he | he | he
    · split_ifs at he
      · simp at he
      · exact deleteCalls_forall
          (fun e : Issued => e.shared = (e.call.underOwnScope || w.inShared)) _ _
          (fun _ => rfl) e he
    all_goals
      split_ifs at he
      · simp only [List.mem_singleton] at he; rw [he]; rfl
      · simp at he

/-- C18 (as the code has it): of the commands an operation issues, the
texture creations of `_AllocTextures` and every delete (of textures on a
resolution change or in the destructor, of the framebuffer and of the
samplers in the destructor) are issued while a scope holder of the manager is
alive; the creations of the two samplers and of the framebuffer, like every
other command, are issued in the context of the caller, inside a shared
scope only if the caller holds one.  Every operation leaves as many scope
holders alive as it found. -/
theorem C18_scope_of_creates_and_deletes (op : Op) (s : GlfSimpleShadowArray) (w : World) :
    (∀ e ∈ issuedSince w (op.run s w).2,
      e.shared = (e.call.underOwnScope || w.inShared)) ∧
    (∀ e ∈ issuedSince w (op.run s w).2,
      e.call.createsTexture = true ∨ e.call.deletesObject = true → e.shared = true) ∧
    (∀ e ∈ issuedSince w (op.run s w).2,
      (e.call.createsSampler = true ∨ ∃ id, e.call = .glGenFramebuffers id) →
        e.shared = w.inShared) ∧
    (op.run s w).2.sharedScope = w.sharedScope := by
  have h := Op.run_scope op s w
  refine ⟨h, ?_, ?_, Op.run_sharedScope op s w⟩
  · intro e he hk
    rw [h e he]
    cases hc : e.call <;> rw [hc] at hk <;>
      simp [GLCall.createsTexture, GLCall.deletesObject, GLCall.underOwnScope] at hk ⊢
  · intro e he hk
    rw [h e he]
    rcases hk with hk | ⟨id, hk⟩
    · cases hc : e.call <;> rw [hc] at hk <;>
        simp [GLCall.createsSampler, GLCall.underOwnScope] at hk ⊢
    · rw [hk]; rfl

theorem C18_scope_of_creates_and_deletes_witness :
    ∀ e ∈ issuedSince firstCaptureEnded.2
        ((Op.SetShadowMapResolutions [⟨64, 64⟩]).run firstCaptureEnded.1
          firstCaptureEnded.2).2,
      e.call.createsTexture = true ∨ e.call.deletesObject = true → e.shared = true :=
  (C18_scope_of_creates_and_deletes (.SetShadowMapResolutions [⟨64, 64⟩])
    firstCaptureEnded.1 firstCaptureEnded.2).2.1

/-- The first capture of a fresh manager, called outside any shared scope,
creates both samplers and the framebuffer outside the scope. -/
theorem C18_counterexample :
    World.initial.sharedScope = 0 ∧
    (⟨.glGenSamplers 1, false⟩ : Issued) ∈ issuedSince World.initial
      (GlfSimpleShadowArray.ctor.BeginCapture World.initial 0 true).2 ∧
    (⟨.glGenSamplers 2, false⟩ : Issued) ∈ issuedSince World.initial
      (GlfSimpleShadowArray.ctor.BeginCapture World.initial 0 true).2 ∧
    (⟨.glGenFramebuffers 3, false⟩ : Issued) ∈ issuedSince World.initial
      (GlfSimpleShadowArray.ctor.BeginCapture World.initial 0 true).2 := by
  decide

/-- The running minimum and maximum of the scan of `pixelMinMax`, started
from any pair: each is a lower (upper) bound of its start value and of every
pixel, and is the start value or one of the pixels. -/
theorem minMax_foldl (l : List ℚ) (a b : ℚ) :
    let r := l.foldl (fun (mm : ℚ × ℚ) pixelValue =>
        let minValue := if pixelValue < mm.1 then pixelValue else mm.1
        let maxValue := if pixelValue > mm.2 then pixelValue else mm.2
        (minValue, maxValue)) (a, b)
    (r.1 ≤ a ∧ (∀ v ∈ l, r.1 ≤ v) ∧ (r.1 = a ∨ r.1 ∈ l)) ∧
    (b ≤ r.2 ∧ (∀ v ∈ l, v ≤ r.2) ∧ (r.2 = b ∨ r.2 ∈ l)) := by
  induction l generalizing a b with
  | nil => simp
  | cons x xs ih =>
    simp only [List.foldl_cons]
    have ha1 : (if x < a then x else a) ≤ a := by
      split_ifs with hx
      · exact le_of_lt hx
      · exact le_refl _
    have ha2 : (if x < a then x else a) ≤ x := by
      split_ifs with hx
      · exact le_refl _
      · exact not_lt.mp hx
    have ha3 : (if x < a then x else a) = a ∨ (if x < a then x else a) = x := by
      split_ifs <;> simp
    have hb1 : b ≤ (if x > b then x else b) := by
      split_ifs with hx
      · exact le_of_lt hx
      · exact le_refl _
    have hb2 : x ≤ (if x > b then x else b) := by
      split_ifs with hx
      · exact le_refl _
      · exact not_lt.mp hx
    have hb3 : (if x > b then x else b) = b ∨ (if x > b then x else b) = x := by
      split_ifs <;> simp
    have h := ih (if x < a then x else a) (if x > b then x else b)
    simp only at h ⊢
    generalize (if x < a then x else a) = a' at h ha1 ha2 ha3 ⊢
    generalize (if x > b then x else b) = b' at h hb1 hb2 hb3 ⊢
    obtain ⟨⟨h1, h2, h3⟩, h4, h5, h6⟩ := h
    refine ⟨⟨le_trans h1 ha1, ?_, ?_⟩, le_trans hb1 h4, ?_, ?_⟩
    · intro v hv
      rcases List.mem_cons.mp hv with rfl | hv
      · exact le_trans h1 ha2
      · exact h2 v hv
    · rcases h3 with h3 | h3
      · rcases ha3 with ha3 | ha3
        · left; rw [h3, ha3]
        · right; rw [h3, ha3]; exact List.mem_cons_self _ _
      · right; exact List.mem_cons_of_mem _ h3
    · intro v hv
      rcases List.mem_cons.mp hv with rfl | hv
      · exact le_trans hb2 h4
      · exact h5 v hv
    · rcases h6 with h6 | h6
      · rcases hb3 with hb3 | hb3
        · left; rw [h6, hb3]
        · right; rw [h6, hb3]; exact List.mem_cons_self _ _
      · right; exact List.mem_cons_of_mem _ h6

/-- The scan finds the least and the greatest pixel of a buffer of finite
floats. -/
theorem pixelMinMax_eq (pixels : List ℚ) (m M : ℚ)
    (hfloat : ∀ v ∈ pixels, -FLT_MAX ≤ v ∧ v ≤ FLT_MAX)
    (hm : m ∈ pixels) (hmin : ∀ v ∈ pixels, m ≤ v)
    (hM : M ∈ pixels) (hmax : ∀ v ∈ pixels, v ≤ M) :
    pixelMinMax pixels = (m, M) := by
  have h := minMax_foldl pixels FLT_MAX (-FLT_MAX)
  simp only at h
  obtain ⟨⟨_, h2, h3⟩, _, h5, h6⟩ := h
  unfold pixelMinMax
  apply Prod.ext
  · apply le_antisymm (h2 m hm)
    rcases h3 with h3 | h3
    · rw [h3]; exact (hfloat m hm).2
    · exact hmin _ h3
  · apply le_antisymm _ (h5 M hM)
    rcases h6 with h6 | h6
    · rw [h6]; exact (hfloat M hM).1
    · exact hmax _ h6

/-- The image the debug dump of `EndCapture` writes when the pixel count is not
negative. -/
theorem EndCapture_images (s : GlfSimpleShadowArray) (w : World) (index : Nat)
    (hd : w.dumpShadowTextures = true) (hw : w.imageWriteOk = true)
    (hn : ¬ wrapInt32 ((s.GetShadowMapSize w index).1.x *
      (s.GetShadowMapSize w index).1.y) < 0) :
    (s.EndCapture w index).2.images = w.images ++
      [⟨ArchNormPath (w.tmpDir ++ "/GlfSimpleShadowArray.index_" ++ toString index ++ ".tif"),
        (s.GetShadowMapSize w index).1.x, (s.GetShadowMapSize w index).1.y, true,
        remapPixels (glReadPixels 0 0 (s.GetShadowMapSize w index).1.x
          (s.GetShadowMapSize w index).1.y
          (wrapInt32 ((s.GetShadowMapSize w index).1.x *
            (s.GetShadowMapSize w index).1.y)).toNat w).1⟩] := by
  have ht : EndCapture_throws s w index = false := by
    unfold EndCapture_throws
    simp [hd, hn]
  rw [EndCapture_of_returns s w index ht]
  unfold _UnbindFramebuffer GLF_POST_PENDING_GL_ERRORS dumpShadowTexture
  simp only [GetShadowMapSize_fst] at hn ⊢
  simp only [hn, if_false]
  unfold GetShadowMapSize TF_VERIFY
  by_cases h : index < s._resolutions.length <;>
    simp [h, hd, hw, glViewport, glBindFramebuffer, glDepthRange, glDisable, issue, post,
      glReadPixels]

/-- A read-back that yields pixels has a positive pixel count. -/
theorem readPixels_count (x y width height : Int) (count : Int) (w : World)
    (h : (glReadPixels x y width height count.toNat w).1 ≠ []) : ¬ count < 0 := by
  intro hc
  apply h
  have : count.toNat = 0 := Int.toNat_eq_zero.mpr (le_of_lt hc)
  rw [this]
  rfl

/-- C19: with exact arithmetic, for a non-empty buffer of finite floats whose
least pixel `m` is below its greatest pixel `M`, the scan of the debug dump
finds `m` and `M`, the remap replaces each pixel `v` by `(v - m) / (M - m)`
(no division fails), every output lies in `[0,1]`, `m` becomes 0, `M` becomes
1, the order of pixel values is preserved, and the image `EndCapture` writes
when the dump is enabled holds exactly these values. -/
theorem C19_debug_remap (pixels : List ℚ) (m M : ℚ)
    (hfloat : ∀ v ∈ pixels, -FLT_MAX ≤ v ∧ v ≤ FLT_MAX)
    (hm : m ∈ pixels) (hmin : ∀ v ∈ pixels, m ≤ v)
    (hM : M ∈ pixels) (hmax : ∀ v ∈ pixels, v ≤ M) (hlt : m < M) :
    pixelMinMax pixels = (m, M) ∧
    remapPixels pixels = pixels.map (fun v => some ((v - m) / (M - m))) ∧
    (∀ v ∈ pixels, 0 ≤ (v - m) / (M - m) ∧ (v - m) / (M - m) ≤ 1) ∧
    (m - m) / (M - m) = 0 ∧
    (M - m) / (M - m) = 1 ∧
    (∀ u v : ℚ, u ≤ v ↔ (u - m) / (M - m) ≤ (v - m) / (M - m)) ∧
    (∀ u v : ℚ, u < v ↔ (u - m) / (M - m) < (v - m) / (M - m)) ∧
    (∀ (s : GlfSimpleShadowArray) (w : World) (index : Nat),
      w.dumpShadowTextures = true → w.imageWriteOk = true →
      (glReadPixels 0 0 (s.GetShadowMapSize w index).1.x (s.GetShadowMapSize w index).1.y
        (wrapInt32 ((s.GetShadowMapSize w index).1.x *
          (s.GetShadowMapSize w index).1.y)).toNat w).1 = pixels →
      (s.EndCapture w index).2.images.getLast?.map (fun i => i.data) =
        some (pixels.map (fun v => some ((v - m) / (M - m))))) := by
  have hpos : 0 < M - m := sub_pos.mpr hlt
  have hne : M - m ≠ 0 := ne_of_gt hpos
  have hmm := pixelMinMax_eq pixels m M hfloat hm hmin hM hmax
  have hre : remapPixels pixels = pixels.map (fun v => some ((v - m) / (M - m))) := by
    unfold remapPixels
    simp only [hmm, floatDiv, if_neg hne]
  refine ⟨hmm, hre, ?_, ?_, div_self hne, ?_, ?_, ?_⟩
  · intro v hv
    constructor
    · exact div_nonneg (sub_nonneg.mpr (hmin v hv)) (le_of_lt hpos)
    · rw [div_le_one hpos]
      exact sub_le_sub_right (hmax v hv) m
  · simp
  · intro u v
    rw [div_le_div_iff_of_pos_right hpos, sub_le_sub_iff_right]
  · intro u v
    rw [div_lt_div_iff_of_pos_right hpos, sub_lt_sub_iff_right]
  · intro s w index hd hw hp
    have hn := readPixels_count 0 0 _ _ _ w
      (by rw [hp]; exact List.ne_nil_of_mem hm)
    rw [EndCapture_images s w index hd hw hn, hp, hre]
    simp

theorem C19_debug_remap_witness :
    remapPixels [1 / 5, 1 / 2, 4 / 5] = [some 0, some (1 / 2), some 1] ∧
    (threeByOneManager.EndCapture World.threePixels 0).2.images.getLast?.map
      (fun i => i.data) = some [some 0, some (1 / 2), some 1] := by
  have h := C19_debug_remap [1 / 5, 1 / 2, 4 / 5] (1 / 5) (4 / 5)
    (by unfold FLT_MAX; intro v hv; simp at hv; rcases hv with rfl | rfl | rfl <;> norm_num)
    (by simp)
    (by intro v hv; simp at hv; rcases hv with rfl | rfl | rfl <;> norm_num)
    (by simp)
    (by intro v hv; simp at hv; rcases hv with rfl | rfl | rfl <;> norm_num)
    (by norm_num)
  have hmap : List.map (fun v : ℚ => some ((v - 1 / 5) / (4 / 5 - 1 / 5))) [1 / 5, 1 / 2, 4 / 5]
      = [some 0, some (1 / 2), some 1] := by
    norm_num
  refine ⟨by rw [h.2.1, hmap], ?_⟩
  rw [h.2.2.2.2.2.2.2 threeByOneManager World.threePixels 0 rfl rfl rfl, hmap]

/-- A diagnostic that is neither the error of the entry check of
`_AllocTextures` nor one of its failed `TF_VERIFY`s. -/
theorem allocDiags_forall (n : Nat) (rs : List GfVec2i) :
    ∀ d ∈ allocDiags n rs, d ≠ unexpectedEntryState := by
  induction rs generalizing n with
  | nil => simp [allocDiags]
  | cons r rs ih =>
    intro d hd
    simp only [allocDiags, List.mem_cons] at hd
    rcases hd with rfl | hd
    · simp [unexpectedEntryState]
    · exact ih _ d hd

theorem postedSince_of_eq {w w' : World} {l : List Diag}
    (h : w'.diagnostics = w.diagnostics ++ l) : postedSince w w' = l := by
  unfold postedSince
  rw [h, List.drop_left]

/-- The diagnostics of `_AllocResources` on a manager that holds external
textures or no textures: debug messages of the allocation loop only. -/
theorem _AllocResources_posted (s : GlfSimpleShadowArray) (w : World)
    (h : s._texturesAllocatedExternally = true ∨ s._textures = []) :
    (s._AllocResources w).2.diagnostics = w.diagnostics ++
      (if s._texturesAllocatedExternally = false ∧ w.debugShadowTextures = true then
        allocDiags (s.AllocSamplers w).2.gl.names s._resolutions else []) := by
  unfold _AllocResources
  rw [AllocSamplers_eq]
  by_cases hd : s._shadowDepthSampler = 0 <;> by_cases hc : s._shadowCompareSampler = 0 <;>
  cases hf : s._texturesAllocatedExternally <;> by_cases ht : s._textures = [] <;>
  by_cases hfb : s._framebuffer = 0 <;> cases hdb : w.debugShadowTextures <;>
  simp [hd, hc, hf, ht, hfb, hdb, _AllocTextures_eq, glGenFramebuffers, genName, issue] <;>
  simp [hf, ht] at h

/-- The diagnostics of the allocation step of `_BindFramebuffer` on a manager
that holds self-managed textures only together with a framebuffer. -/
theorem allocIfMissing_posted (s : GlfSimpleShadowArray) (w : World)
    (hinv : s.texturesWithFramebuffer) :
    ∃ l, (allocIfMissing s w).2.diagnostics = w.diagnostics ++ l ∧
      ∀ d ∈ l, d ≠ unexpectedEntryState := by
  rw [allocIfMissing_def]
  by_cases hc : s._framebuffer = 0 ∨ s._textures = []
  · rw [if_pos hc]
    have h : s._texturesAllocatedExternally = true ∨ s._textures = [] := by
      cases hf : s._texturesAllocatedExternally
      · right
        by_contra ht
        rcases hc with hc | hc
        · exact hinv hf ht hc
        · exact ht hc
      · left; rfl
    refine ⟨_, _AllocResources_posted s w h, ?_⟩
    split_ifs
    · exact allocDiags_forall _ _
    · exact fun d hd => absurd hd (List.not_mem_nil d)
  · rw [if_neg hc]
    exact ⟨[], by simp, fun d hd => absurd hd (List.not_mem_nil d)⟩

theorem EndCapture_posted (s : GlfSimpleShadowArray) (w : World) (index : Nat) :
    ∃ l, (s.EndCapture w index).2.diagnostics = w.diagnostics ++ l ∧
      ∀ d ∈ l, d ≠ unexpectedEntryState := by
  cases ht : EndCapture_throws s w index
  · rw [EndCapture_of_returns s w index ht]
    unfold _UnbindFramebuffer GLF_POST_PENDING_GL_ERRORS
    cases hd : w.dumpShadowTextures
    · exact ⟨[], by simp [hd, glViewport, glBindFramebuffer, glDepthRange, glDisable, issue],
        fun d hd => absurd hd (List.not_mem_nil d)⟩
    · have hn : ¬ wrapInt32 ((s._resolutions.getD index ⟨0, 0⟩).x *
          (s._resolutions.getD index ⟨0, 0⟩).y) < 0 := by
        unfold EndCapture_throws at ht
        rw [hd] at ht
        simpa [GetShadowMapSize_fst] using ht
      unfold dumpShadowTexture
      simp only [GetShadowMapSize_fst, GetShadowMapSize_snd, hn, if_false]
      cases hw : w.imageWriteOk <;> by_cases h : index < s._resolutions.length <;>
      simp [hd, hw, h, glViewport, glBindFramebuffer, glDepthRange, glDisable, issue, post,
        glReadPixels, unexpectedEntryState]
  · rw [EndCapture_of_throws s w index ht]
    exact ⟨[], by simp [throwOut, glDepthRange, glDisable, issue],
      fun d hd => absurd hd (List.not_mem_nil d)⟩

/-- No operation posts the error of the entry check of `_AllocTextures` on a
manager that holds self-managed textures only together with a framebuffer. -/
theorem Op.run_posted (op : Op) (s : GlfSimpleShadowArray) (w : World)
    (hinv : s.texturesWithFramebuffer) :
    ∃ l, (op.run s w).2.diagnostics = w.diagnostics ++ l ∧
      ∀ d ∈ l, d ≠ unexpectedEntryState := by
  cases op with
  | SetShadowMapResolutions resolutions =>
    refine ⟨[], ?_, fun d hd => absurd hd (List.not_mem_nil d)⟩
    simp only [Op.run]
    by_cases h : s._resolutions = resolutions
    · rw [← h, SetShadowMapResolutions_same]; simp
    · rw [SetShadowMapResolutions_ne s w resolutions h]; simp
  | SetViewMatrix index matrix =>
    simp only [Op.run]
    rw [SetViewMatrix_snd]
    split_ifs
    · exact ⟨[], by simp, fun d hd => absurd hd (List.not_mem_nil d)⟩
    · exact ⟨[_], rfl, by simp [unexpectedEntryState]⟩
  | SetProjectionMatrix index matrix =>
    simp only [Op.run]
    rw [SetProjectionMatrix_snd]
    split_ifs
    · exact ⟨[], by simp, fun d hd => absurd hd (List.not_mem_nil d)⟩
    · exact ⟨[_], rfl, by simp [unexpectedEntryState]⟩
  | SetTextures textureIds =>
    exact ⟨[], (List.append_nil _).symm, fun d hd => absurd hd (List.not_mem_nil d)⟩
  | AllocSamplers =>
    refine ⟨[], ?_, fun d hd => absurd hd (List.not_mem_nil d)⟩
    simp only [Op.run]
    rw [AllocSamplers_eq]
    split_ifs <;> simp
  | BeginCapture index clear =>
    simp only [Op.run]
    obtain ⟨l, hl, hl2⟩ := allocIfMissing_posted s w hinv
    refine ⟨l ++ captureDiags (s.BeginCapture w index clear).1 index, ?_, ?_⟩
    · rw [(BeginCapture_gl s w index clear).2.2.2.2.2.2, hl, List.append_assoc]
    · intro d hd
      rcases List.mem_append.mp hd with hd | hd
      · exact hl2 d hd
      · unfold captureDiags at hd
        rcases List.mem_append.mp hd with hd | hd <;> split_ifs at hd <;>
          simp [unexpectedEntryState] at hd ⊢ <;> rw [hd] <;> simp
  | EndCapture index => exact EndCapture_posted s w index
  | destroy =>
    refine ⟨[], ?_, fun d hd => absurd hd (List.not_mem_nil d)⟩
    simp only [Op.run]
    rw [_FreeResources_eq]; simp

/-- Every operation keeps the invariant that self-managed textures are held
only together with a framebuffer. -/
theorem Op.run_texturesWithFramebuffer (op : Op) (s : GlfSimpleShadowArray) (w : World)
    (hinv : s.texturesWithFramebuffer) : (op.run s w).1.texturesWithFramebuffer := by
  unfold GlfSimpleShadowArray.texturesWithFramebuffer at hinv ⊢
  cases op with
  | SetShadowMapResolutions resolutions =>
    simp only [Op.run]
    by_cases h : s._resolutions = resolutions
    · rw [← h, SetShadowMapResolutions_same]; exact hinv
    · rw [SetShadowMapResolutions_ne s w resolutions h]
      intro hf ht
      simp only at hf ht
      rw [hf] at ht
      exact absurd rfl ht
  | SetViewMatrix index matrix =>
    simp only [Op.run]
    have h := SetViewMatrix_fst s w index matrix
    rw [h]; split_ifs <;> exact hinv
  | SetProjectionMatrix index matrix =>
    simp only [Op.run]
    have h := SetProjectionMatrix_fst s w index matrix
    rw [h]; split_ifs <;> exact hinv
  | SetTextures textureIds =>
    intro hf ht
    cases textureIds with
    | nil => exact absurd rfl ht
    | cons a l => exact absurd (show true = false from hf) (by decide)
  | AllocSamplers =>
    simp only [Op.run]
    rw [AllocSamplers_eq]
    split_ifs <;> exact hinv
  | BeginCapture index clear =>
    simp only [Op.run]
    intro _ _
    exact (BeginCapture_fields s w index clear).2.2.2.2.1
  | EndCapture index =>
    rw [Op.run_EndCapture_fst]
    exact hinv
  | destroy =>
    simp only [Op.run]
    rw [_FreeResources_eq]
    intro hf ht
    simp only at hf ht
    rw [hf] at ht
    exact absurd rfl ht

/-- Over any run, on a manager that holds self-managed textures only together
with a framebuffer, the diagnostics only grow, the error of the entry check of
`_AllocTextures` is not among the new ones, and the invariant is kept. -/
theorem runSteps_posted (steps : List Step) (s : GlfSimpleShadowArray) (w : World)
    (hinv : s.texturesWithFramebuffer) :
    (runSteps steps s w).1.texturesWithFramebuffer ∧
    ∃ l, (runSteps steps s w).2.diagnostics = w.diagnostics ++ l ∧
      ∀ d ∈ l, d ≠ unexpectedEntryState := by
  induction steps generalizing s w with
  | nil => exact ⟨hinv, [], (List.append_nil _).symm, fun d hd => absurd hd (List.not_mem_nil d)⟩
  | cons st steps ih =>
    cases st with
    | call op =>
      obtain ⟨l1, h1, h1'⟩ := Op.run_posted op s w hinv
      obtain ⟨hi, l2, h2, h2'⟩ := ih (op.run s w).1 (op.run s w).2
        (Op.run_texturesWithFramebuffer op s w hinv)
      refine ⟨hi, l1 ++ l2, ?_, ?_⟩
      · show (runSteps steps (op.run s w).1 (op.run s w).2).2.diagnostics = _
        rw [h2, h1, List.append_assoc]
      · intro d hd
        rcases List.mem_append.mp hd with hd | hd
        · exact h1' d hd
        · exact h2' d hd
    | caller gl => exact ih s { w with gl := gl } hinv

theorem ctor_texturesWithFramebuffer : GlfSimpleShadowArray.ctor.texturesWithFramebuffer :=
  fun _ ht => absurd rfl ht

/-- C26: handle generation yields non-zero handles, and then the error branch
of `_AllocTextures` is never taken: over every sequence of public operations
and caller interference on a freshly constructed manager, the error
"Unexpected entry state" is not among the diagnostics posted; whenever the
allocation step of `BeginCapture` runs on a self-managed manager of such a
run, both samplers exist and the texture list is empty when `_AllocTextures`
is entered.  On an entry state that fails the check, `_AllocTextures` returns
the manager unchanged, issues no GL command and posts the failed check and
the error. -/
theorem C26_entry_check_unreachable (steps : List Step) (w : World) :
    ((runSteps steps GlfSimpleShadowArray.ctor w).2.diagnostics =
        w.diagnostics ++ postedSince w (runSteps steps GlfSimpleShadowArray.ctor w).2 ∧
      unexpectedEntryState ∉ postedSince w (runSteps steps GlfSimpleShadowArray.ctor w).2) ∧
    (∀ v : World,
      ((runSteps steps GlfSimpleShadowArray.ctor w).1._framebuffer = 0 ∨
        (runSteps steps GlfSimpleShadowArray.ctor w).1._ShadowMapExists = false) →
      (runSteps steps GlfSimpleShadowArray.ctor w).1._texturesAllocatedExternally = false →
      ((saveBindings (runSteps steps GlfSimpleShadowArray.ctor w).1 v).AllocSamplers v).1.entryStateOk) ∧
    (∀ (t : GlfSimpleShadowArray) (v : World), ¬ t.entryStateOk →
      (t._AllocTextures v).1 = t ∧
      issuedSince v (t._AllocTextures v).2 = [] ∧
      (t._AllocTextures v).2.gl = v.gl ∧
      postedSince v (t._AllocTextures v).2 =
        [.verifyFailed (entryCheckText t), unexpectedEntryState]) := by
  obtain ⟨hinv, l, hl, hl'⟩ :=
    runSteps_posted steps GlfSimpleShadowArray.ctor w ctor_texturesWithFramebuffer
  refine ⟨⟨?_, ?_⟩, ?_, ?_⟩
  · rw [postedSince_of_eq hl, hl]
  · rw [postedSince_of_eq hl]
    exact fun hm => hl' _ hm rfl
  · intro v hc hf
    generalize runSteps steps GlfSimpleShadowArray.ctor w = r at hinv hc hf
    have ht : r.1._textures = [] := by
      by_contra ht
      rcases hc with hc | hc
      · exact hinv hf ht hc
      · unfold _ShadowMapExists at hc
        cases h : r.1._textures with
        | nil => exact ht h
        | cons a l => simp [h] at hc
    unfold GlfSimpleShadowArray.entryStateOk
    rw [AllocSamplers_eq]
    by_cases hd : r.1._shadowDepthSampler = 0 <;> by_cases hcs : r.1._shadowCompareSampler = 0 <;>
      simp [saveBindings, hd, hcs, ht]
  · intro t v hbad
    unfold GlfSimpleShadowArray.entryStateOk at hbad
    rw [_AllocTextures_eq, if_neg hbad]
    refine ⟨rfl, ?_, rfl, ?_⟩
    · unfold issuedSince; simp
    · unfold postedSince unexpectedEntryState; simp

theorem C26_entry_check_unreachable_witness :
    unexpectedEntryState ∉ postedSince World.initial
      (runSteps [.call (.SetShadowMapResolutions [⟨512, 512⟩, ⟨256, 256⟩]),
        .call (.BeginCapture 0 true), .call (.EndCapture 0),
        .call (.SetShadowMapResolutions [⟨64, 64⟩]), .call (.BeginCapture 0 true)]
        GlfSimpleShadowArray.ctor World.initial).2 ∧
    (twoSlotCaptured.1._AllocTextures twoSlotCaptured.2).1 = twoSlotCaptured.1 ∧
    postedSince twoSlotCaptured.2 (twoSlotCaptured.1._AllocTextures twoSlotCaptured.2).2 =
      [.verifyFailed "_textures.empty()", unexpectedEntryState] :=
  ⟨(C26_entry_check_unreachable _ World.initial).1.2,
   ((C26_entry_check_unreachable [] World.initial).2.2 twoSlotCaptured.1 twoSlotCaptured.2
      (by unfold GlfSimpleShadowArray.entryStateOk; decide)).1,
   ((C26_entry_check_unreachable [] World.initial).2.2 twoSlotCaptured.1 twoSlotCaptured.2
      (by unfold GlfSimpleShadowArray.entryStateOk; decide)).2.2.2⟩

/-- An operation other than `SetTextures` does not set the externally-owned
flag. -/
theorem Op.run_external_from (op : Op) (s : GlfSimpleShadowArray) (w : World)
    (hop : ∀ ids, op ≠ .SetTextures ids) :
    (op.run s w).1._texturesAllocatedExternally = s._texturesAllocatedExternally := by
  cases op with
  | SetShadowMapResolutions resolutions =>
    simp only [Op.run]
    by_cases h : s._resolutions = resolutions
    · rw [← h, SetShadowMapResolutions_same]
    · rw [SetShadowMapResolutions_ne s w resolutions h]
  | SetViewMatrix index matrix =>
    simp only [Op.run]
    rw [SetViewMatrix_fst]; split_ifs <;> rfl
  | SetProjectionMatrix index matrix =>
    simp only [Op.run]
    rw [SetProjectionMatrix_fst]; split_ifs <;> rfl
  | SetTextures textureIds => exact absurd rfl (hop textureIds)
  | AllocSamplers =>
    simp only [Op.run]
    rw [AllocSamplers_eq]; split_ifs <;> rfl
  | BeginCapture index clear => exact (BeginCapture_fields s w index clear).2.2.2.1
  | EndCapture index => rw [Op.run_EndCapture_fst]
  | destroy =>
    simp only [Op.run]
    rw [_FreeResources_eq]

/-- C27: in every state reachable from a freshly constructed manager by the
public operations, the destructor included, the externally-owned flag is set
only when the texture list is not empty. -/
theorem C27_external_flag_implies_textures (s : GlfSimpleShadowArray) (h : Reachable s)
    (hf : s._texturesAllocatedExternally = true) : s._textures ≠ [] := by
  induction h with
  | ctor => exact absurd hf (by decide)
  | step op s w _ ih =>
    by_cases hop : ∀ ids, op ≠ .SetTextures ids
    · rw [Op.run_external_from op s w hop] at hf
      rw [(Op.run_external op s w hf hop).1]
      exact ih hf
    · push_neg at hop
      obtain ⟨ids, rfl⟩ := hop
      cases ids with
      | nil => exact absurd (show false = true from hf) (by decide)
      | cons a l => exact fun hc => List.noConfusion (show a :: l = [] from hc)

theorem C27_external_flag_implies_textures_witness :
    ((Op.SetTextures [7]).run twoSlotCaptured.1 twoSlotCaptured.2).1._texturesAllocatedExternally
      = true ∧
    ((Op.SetTextures [7]).run twoSlotCaptured.1 twoSlotCaptured.2).1._textures ≠ [] :=
  ⟨by decide,
   C27_external_flag_implies_textures _
     (Reachable.step (.SetTextures [7]) _ _
       (Reachable.step (.BeginCapture 0 true) _ World.initial
         (Reachable.step (.SetShadowMapResolutions [⟨512, 512⟩, ⟨256, 256⟩]) _ World.initial
           Reachable.ctor)))
     (by decide)⟩

/-- Nested captures when the last `EndCapture` returns: for every manager,
every starting context and all slots `a`, `b`, the nested sequence
`BeginCapture(a, c); BeginCapture(b, c'); EndCapture(b); EndCapture(a)` ends
with the draw and read bindings on the framebuffer of the manager and with
the viewport `(0, 0, resolution of slot a)`: the second `BeginCapture` saved
the state the first one had set, and both `EndCapture`s restore that.  So the
bindings of the caller come back only if the caller had the framebuffer of
the manager bound, and its viewport only if it was that of slot `a`. -/
theorem nested_captures_not_restored (s : GlfSimpleShadowArray) (w : World)
    (a b : Nat) (c c' : Bool)
    (ha : EndCapture_throws
      (runSteps [.call (.BeginCapture a c), .call (.BeginCapture b c'),
        .call (.EndCapture b)] s w).1
      (runSteps [.call (.BeginCapture a c), .call (.BeginCapture b c'),
        .call (.EndCapture b)] s w).2 a = false) :
    (runSteps (nestedCaptures a c b c') s w).2.gl.drawFramebuffer =
      (runSteps (nestedCaptures a c b c') s w).1._framebuffer ∧
    (runSteps (nestedCaptures a c b c') s w).2.gl.readFramebuffer =
      (runSteps (nestedCaptures a c b c') s w).1._framebuffer ∧
    (runSteps (nestedCaptures a c b c') s w).1._framebuffer ≠ 0 ∧
    (runSteps (nestedCaptures a c b c') s w).2.gl.viewport =
      ⟨0, 0, (s.GetShadowMapSize w a).1.x, (s.GetShadowMapSize w a).1.y⟩ ∧
    ((runSteps (nestedCaptures a c b c') s w).2.gl.drawFramebuffer = w.gl.drawFramebuffer ↔
      w.gl.drawFramebuffer = (runSteps (nestedCaptures a c b c') s w).1._framebuffer) ∧
    ((runSteps (nestedCaptures a c b c') s w).2.gl.readFramebuffer = w.gl.readFramebuffer ↔
      w.gl.readFramebuffer = (runSteps (nestedCaptures a c b c') s w).1._framebuffer) ∧
    ((runSteps (nestedCaptures a c b c') s w).2.gl.viewport = w.gl.viewport ↔
      w.gl.viewport =
        ⟨0, 0, (s.GetShadowMapSize w a).1.x, (s.GetShadowMapSize w a).1.y⟩) := by
  have key : (runSteps (nestedCaptures a c b c') s w).2.gl.drawFramebuffer =
        (runSteps (nestedCaptures a c b c') s w).1._framebuffer ∧
      (runSteps (nestedCaptures a c b c') s w).2.gl.readFramebuffer =
        (runSteps (nestedCaptures a c b c') s w).1._framebuffer ∧
      (runSteps (nestedCaptures a c b c') s w).1._framebuffer ≠ 0 ∧
      (runSteps (nestedCaptures a c b c') s w).2.gl.viewport =
        ⟨0, 0, (s.GetShadowMapSize w a).1.x, (s.GetShadowMapSize w a).1.y⟩ := by
    have h3run : runSteps [.call (.BeginCapture a c), .call (.BeginCapture b c'),
          .call (.EndCapture b)] s w =
        ((s.BeginCapture w a c).1.BeginCapture (s.BeginCapture w a c).2 b c').1.EndCapture
          ((s.BeginCapture w a c).1.BeginCapture (s.BeginCapture w a c).2 b c').2 b := rfl
    have hrun : runSteps (nestedCaptures a c b c') s w =
        (((s.BeginCapture w a c).1.BeginCapture (s.BeginCapture w a c).2 b c').1.EndCapture
          ((s.BeginCapture w a c).1.BeginCapture (s.BeginCapture w a c).2 b c').2 b).1.EndCapture
        (((s.BeginCapture w a c).1.BeginCapture (s.BeginCapture w a c).2 b c').1.EndCapture
          ((s.BeginCapture w a c).1.BeginCapture (s.BeginCapture w a c).2 b c').2 b).2 a :=
      rfl
    rw [h3run] at ha
    rw [hrun]
    have h1 := BeginCapture_gl s w a c
    have f1 := BeginCapture_fields s w a c
    generalize s.BeginCapture w a c = r1 at h1 f1 ha
    have h2 := BeginCapture_saved r1.1 r1.2 b c'
    have f2 := BeginCapture_fields r1.1 r1.2 b c'
    generalize r1.1.BeginCapture r1.2 b c' = r2 at h2 f2 ha
    rw [EndCapture_fst] at ha ⊢
    have h4 := EndCapture_restores r2.1 (r2.1.EndCapture r2.2 b).2 a ha
    have hfb : r2.1._framebuffer = r1.1._framebuffer := f2.2.2.2.2.2.1 f1.2.2.2.2.1
    rw [EndCapture_fst, h4.1, h4.2.1, h4.2.2, h2.1, h2.2.1, h2.2.2, h1.1, h1.2.1, h1.2.2.1,
      hfb, GetShadowMapSize_fst]
    exact ⟨rfl, rfl, f1.2.2.2.2.1, rfl⟩
  obtain ⟨k1, k2, k3, k4⟩ := key
  refine ⟨k1, k2, k3, k4, ?_, ?_, ?_⟩
  · rw [k1]; exact eq_comm
  · rw [k2]; exact eq_comm
  · rw [k4]; exact eq_comm

/-- The nested captures of the two slots of `twoSlotManager` with the dump
disabled: both `EndCapture` calls return, and the run ends on the framebuffer
5 of the manager with the viewport of slot 0, not with the binding 0 and the
empty viewport of the caller. -/
theorem nested_captures_not_restored_example :
    World.initial.gl.drawFramebuffer = 0 ∧
    World.initial.gl.viewport = ⟨0, 0, 0, 0⟩ ∧
    (runSteps (nestedCaptures 0 true 1 true) twoSlotManager World.initial).2.gl.drawFramebuffer
      = 5 ∧
    (runSteps (nestedCaptures 0 true 1 true) twoSlotManager World.initial).2.gl.viewport
      = ⟨0, 0, 512, 512⟩ :=
  ⟨rfl, rfl,
   (nested_captures_not_restored twoSlotManager World.initial 0 1 true true
     (by decide)).1.trans (by decide),
   (nested_captures_not_restored twoSlotManager World.initial 0 1 true true
     (by decide)).2.2.2.1.trans (by decide)⟩

/-- The scan of a buffer in which every pixel has the same finite value. -/
theorem pixelMinMax_flat (pixels : List ℚ) (v : ℚ) (hne : pixels ≠ [])
    (hall : ∀ x ∈ pixels, x = v) (hfloat : -FLT_MAX ≤ v ∧ v ≤ FLT_MAX) :
    pixelMinMax pixels = (v, v) := by
  have hv : v ∈ pixels := by
    cases pixels with
    | nil => exact absurd rfl hne
    | cons x xs => rw [← hall x (List.mem_cons_self _ _)]; exact List.mem_cons_self _ _
  exact pixelMinMax_eq pixels v v (fun x hx => by rw [hall x hx]; exact hfloat) hv
    (fun x hx => by rw [hall x hx]) hv (fun x hx => by rw [hall x hx])

/-- C29: for every non-empty buffer in which all pixels have the same finite
value `v`, the scan of the debug dump finds minimum and maximum `v`, so the
remap divides `v - v = 0` by `max - min = 0` for every pixel: no written
pixel has a value, in particular none has a value in `[0,1]`, and the image
`EndCapture` writes for such a buffer holds these undefined pixels. -/
theorem C29_flat_buffer_divides_by_zero (pixels : List ℚ) (v : ℚ) (hne : pixels ≠ [])
    (hall : ∀ x ∈ pixels, x = v) (hfloat : -FLT_MAX ≤ v ∧ v ≤ FLT_MAX) :
    pixelMinMax pixels = (v, v) ∧
    (pixelMinMax pixels).2 - (pixelMinMax pixels).1 = 0 ∧
    (∀ x ∈ pixels, x - (pixelMinMax pixels).1 = 0) ∧
    remapPixels pixels = pixels.map (fun _ => none) ∧
    (∀ p ∈ remapPixels pixels, p = floatDiv 0 0 ∧ p = none) ∧
    (∀ p ∈ remapPixels pixels, ¬ ∃ y : ℚ, p = some y ∧ 0 ≤ y ∧ y ≤ 1) ∧
    (∀ (s : GlfSimpleShadowArray) (w : World) (index : Nat),
      w.dumpShadowTextures = true → w.imageWriteOk = true →
      (glReadPixels 0 0 (s.GetShadowMapSize w index).1.x (s.GetShadowMapSize w index).1.y
        (wrapInt32 ((s.GetShadowMapSize w index).1.x *
          (s.GetShadowMapSize w index).1.y)).toNat w).1 = pixels →
      (s.EndCapture w index).2.images.getLast?.map (fun i => i.data) =
        some (pixels.map (fun _ => none))) := by
  have hmm := pixelMinMax_flat pixels v hne hall hfloat
  have hre : remapPixels pixels = pixels.map (fun _ => none) := by
    unfold remapPixels
    simp only [hmm, floatDiv, sub_self, if_true]
  refine ⟨hmm, by rw [hmm]; exact sub_self v, ?_, hre, ?_, ?_, ?_⟩
  · intro x hx
    rw [hmm, hall x hx]; exact sub_self v
  · intro p hp
    rw [hre, List.mem_map] at hp
    obtain ⟨_, _, rfl⟩ := hp
    exact ⟨by simp [floatDiv], rfl⟩
  · intro p hp
    rw [hre, List.mem_map] at hp
    obtain ⟨_, _, rfl⟩ := hp
    rintro ⟨y, hy, _⟩
    exact Option.noConfusion hy
  · intro s w index hd hw hp
    have hn := readPixels_count 0 0 _ _ _ w (by rw [hp]; exact hne)
    rw [EndCapture_images s w index hd hw hn, hp, hre]
    simp

theorem C29_flat_buffer_divides_by_zero_witness :
    remapPixels [1 / 2, 1 / 2, 1 / 2] = [none, none, none] ∧
    (threeByOneManager.EndCapture World.flatPixels 0).2.images.getLast?.map
      (fun i => i.data) = some [none, none, none] := by
  have h := C29_flat_buffer_divides_by_zero [1 / 2, 1 / 2, 1 / 2] (1 / 2) (by simp)
    (by intro x hx; simpa using hx)
    (by unfold FLT_MAX; norm_num)
  refine ⟨by rw [h.2.2.2.1]; rfl, ?_⟩
  rw [h.2.2.2.2.2.2 threeByOneManager World.flatPixels 0 rfl rfl rfl]
  rfl

/-- C30: `GetShadowMapTexture(i)` yields `textures[i]` for every index inside
the texture list; it posts no diagnostic and takes no fallback value (it is a
function of the manager alone), and for a negative index or an index at or
past the end of the list no handle is defined.  A freshly constructed manager
has an empty list, so no index is defined on it; the matrix and size
accessors yield the identity and the zero size there. -/
theorem C30_texture_accessor_unchecked (s : GlfSimpleShadowArray) (i : Int) :
    (∀ h : 0 ≤ i ∧ i.toNat < s._textures.length,
      s.GetShadowMapTexture i = some (s._textures.get ⟨i.toNat, h.2⟩)) ∧
    (i < 0 ∨ (s._textures.length : Int) ≤ i → s.GetShadowMapTexture i = none) ∧
    (s.GetShadowMapTexture i ≠ none ↔ 0 ≤ i ∧ i < (s._textures.length : Int)) ∧
    GlfSimpleShadowArray.ctor.GetShadowMapTexture i = none ∧
    (∀ w : World, (GlfSimpleShadowArray.ctor.GetShadowMapSize w i.toNat).1 = ⟨0, 0⟩ ∧
      (GlfSimpleShadowArray.ctor.GetViewMatrix w i.toNat).1 = GfMatrix4d.diagonal 1) := by
  refine ⟨?_, ?_, ?_, ?_, ?_⟩
  · rintro ⟨h0, hlt⟩
    unfold GetShadowMapTexture
    rw [if_pos h0, List.getElem?_eq_getElem hlt]
    rfl
  · intro h
    unfold GetShadowMapTexture
    by_cases h0 : 0 ≤ i
    · rw [if_pos h0, List.getElem?_eq_none]
      omega
    · rw [if_neg h0]
  · unfold GetShadowMapTexture
    by_cases h0 : 0 ≤ i
    · rw [if_pos h0]
      by_cases hlt : i.toNat < s._textures.length
      · rw [List.getElem?_eq_getElem hlt]
        simp only [ne_eq, reduceCtorEq, not_false_eq_true, true_iff]
        exact ⟨h0, by omega⟩
      · rw [List.getElem?_eq_none (by omega)]
        simp only [ne_eq, not_true_eq_false, false_iff]
        omega
    · rw [if_neg h0]
      simp only [ne_eq, not_true_eq_false, false_iff]
      omega
  · unfold GetShadowMapTexture GlfSimpleShadowArray.ctor
    split_ifs <;> simp
  · intro w
    rw [GetShadowMapSize_fst, GetViewMatrix_fst]
    simp [GlfSimpleShadowArray.ctor]

theorem C30_texture_accessor_unchecked_witness :
    twoSlotCaptured.1.GetShadowMapTexture 1 = some 4 ∧
    twoSlotCaptured.1.GetShadowMapTexture 2 = none ∧
    twoSlotCaptured.1.GetShadowMapTexture (-1) = none :=
  ⟨((C30_texture_accessor_unchecked twoSlotCaptured.1 1).1 (by decide)).trans (by decide),
   (C30_texture_accessor_unchecked twoSlotCaptured.1 2).2.1 (by decide),
   (C30_texture_accessor_unchecked twoSlotCaptured.1 (-1)).2.1 (by decide)⟩

end Glf

namespace UsdGeom

theorem Set_visibility (stage : UsdStage) (prim : SdfPath) (value : TfToken)
    (time : UsdTimeCode) (q : SdfPath) (t : UsdTimeCode) :
    UsdAttribute.Get (UsdAttribute.Set stage prim value time) q t =
      if q = prim ∧ t = time then some value else UsdAttribute.Get stage q t := rfl

theorem Set_isImageable (stage : UsdStage) (prim : SdfPath) (value : TfToken)
    (time : UsdTimeCode) :
    (UsdAttribute.Set stage prim value time).isImageable = stage.isImageable := rfl

theorem Set_childNames (stage : UsdStage) (prim : SdfPath) (value : TfToken)
    (time : UsdTimeCode) :
    (UsdAttribute.Set stage prim value time).childNames = stage.childNames := rfl

/-- What `_SetInheritedIfInvisible` leaves on the stage. -/
theorem _SetInheritedIfInvisible_visibility (stage : UsdStage) (prim : SdfPath)
    (time : UsdTimeCode) (q : SdfPath) (t : UsdTimeCode) :
    UsdAttribute.Get (_SetInheritedIfInvisible stage prim time).1 q t =
      if q = prim ∧ t = time ∧ UsdAttribute.Get stage prim time = some UsdGeomTokens.invisible
      then some UsdGeomTokens.inherited else UsdAttribute.Get stage q t := by
  unfold _SetInheritedIfInvisible _SetVisibility
  cases h : UsdAttribute.Get stage prim time with
  | none => simp
  | some vis =>
    by_cases hv : vis = UsdGeomTokens.invisible
    · simp only [hv, if_true, Set_visibility, and_true]
    · have hne : ¬ (some vis = some UsdGeomTokens.invisible) := fun hc => hv (Option.some.inj hc)
      simp only [hv, if_false, hne, and_false]

theorem _SetInheritedIfInvisible_frame (stage : UsdStage) (prim : SdfPath)
    (time : UsdTimeCode) :
    (_SetInheritedIfInvisible stage prim time).1.isImageable = stage.isImageable ∧
    (_SetInheritedIfInvisible stage prim time).1.childNames = stage.childNames := by
  unfold _SetInheritedIfInvisible _SetVisibility
  cases h : UsdAttribute.Get stage prim time with
  | none => simp
  | some vis => by_cases hv : vis = UsdGeomTokens.invisible <;> simp [hv, UsdAttribute.Set]

/-- After `_SetInheritedIfInvisible` the prim is not invisible. -/
theorem _SetInheritedIfInvisible_not_invisible (stage : UsdStage) (prim : SdfPath)
    (time : UsdTimeCode) :
    UsdAttribute.Get (_SetInheritedIfInvisible stage prim time).1 prim time ≠
      some UsdGeomTokens.invisible := by
  rw [_SetInheritedIfInvisible_visibility]
  by_cases h : UsdAttribute.Get stage prim time = some UsdGeomTokens.invisible
  · simp [h, UsdGeomTokens.inherited, UsdGeomTokens.invisible]
  · simp [h]

/-- The sibling loop, over any list of children: it writes only on listed
children other than `prim`. -/
theorem siblingLoop_frame (children : List SdfPath) (prim : SdfPath) (time : UsdTimeCode)
    (stage : UsdStage) :
    let r := children.foldl (fun stage childPrim =>
      if childPrim ≠ prim then
        if stage.isImageable childPrim then
          _SetVisibility stage childPrim UsdGeomTokens.invisible time
        else stage
      else stage) stage
    r.isImageable = stage.isImageable ∧ r.childNames = stage.childNames ∧
    ∀ q t, (q ∉ children ∨ q = prim) → UsdAttribute.Get r q t = UsdAttribute.Get stage q t := by
  induction children generalizing stage with
  | nil => simp
  | cons c cs ih =>
    simp only [List.foldl_cons]
    by_cases hc : c ≠ prim
    · rw [if_pos hc]
      by_cases hi : stage.isImageable c = true
      · rw [if_pos hi]
        have h := ih (_SetVisibility stage c UsdGeomTokens.invisible time)
        simp only at h
        refine ⟨h.1, h.2.1, fun q t hq => ?_⟩
        rw [h.2.2 q t]
        · unfold _SetVisibility
          rw [Set_visibility]
          have hqc : q ≠ c := by
            rcases hq with hq | hq
            · exact fun he => hq (he ▸ List.mem_cons_self _ _)
            · rw [hq]; exact fun he => hc he.symm
          simp [hqc]
        · rcases hq with hq | hq
          · left; exact fun hm => hq (List.mem_cons_of_mem _ hm)
          · right; exact hq
      · rw [if_neg hi]
        have h := ih stage
        simp only at h
        refine ⟨h.1, h.2.1, fun q t hq => h.2.2 q t ?_⟩
        rcases hq with hq | hq
        · left; exact fun hm => hq (List.mem_cons_of_mem _ hm)
        · right; exact hq
    · rw [if_neg hc]
      have h := ih stage
      simp only at h
      refine ⟨h.1, h.2.1, fun q t hq => h.2.2 q t ?_⟩
      rcases hq with hq | hq
      · left; exact fun hm => hq (List.mem_cons_of_mem _ hm)
      · right; exact hq

/-- The sibling loop of `_MakeVisible` writes only on prims one level below
`parent` that are not `prim`. -/
theorem invisSiblings_frame (stage : UsdStage) (parent prim : SdfPath) (time : UsdTimeCode) :
    (invisSiblings stage parent prim time).isImageable = stage.isImageable ∧
    (invisSiblings stage parent prim time).childNames = stage.childNames ∧
    ∀ q t, (q.length ≠ parent.length + 1 ∨ q = prim) →
      UsdAttribute.Get (invisSiblings stage parent prim time) q t = UsdAttribute.Get stage q t := by
  have h := siblingLoop_frame (GetAllChildren stage parent) prim time stage
  simp only at h
  refine ⟨h.1, h.2.1, fun q t hq => h.2.2 q t ?_⟩
  rcases hq with hq | hq
  · left
    intro hm
    unfold GetAllChildren at hm
    rw [List.mem_map] at hm
    obtain ⟨name, _, rfl⟩ := hm
    exact hq (List.length_cons _ _)
  · right; exact hq

/-- The function `_MakeVisible` keeps the hierarchy and writes no visibility
on a prim deeper than `prim`. -/
theorem _MakeVisible_frame (stage : UsdStage) (prim : SdfPath) (time : UsdTimeCode)
    (flag : Bool) :
    (_MakeVisible stage prim time flag).1.isImageable = stage.isImageable ∧
    (_MakeVisible stage prim time flag).1.childNames = stage.childNames ∧
    ∀ q t, prim.length < q.length →
      UsdAttribute.Get (_MakeVisible stage prim time flag).1 q t = UsdAttribute.Get stage q t := by
  induction prim with
  | nil => exact ⟨rfl, rfl, fun _ _ _ => rfl⟩
  | cons name parent ih =>
    obtain ⟨h1, h2, h3⟩ := ih
    unfold _MakeVisible
    simp only
    generalize _MakeVisible stage parent time flag = r at h1 h2 h3
    have hq : ∀ q : SdfPath, (name :: parent).length < q.length → parent.length < q.length :=
      fun q hq => Nat.lt_of_succ_lt (by simpa using hq)
    by_cases hi : r.1.isImageable parent = true
    · rw [if_pos hi]
      have hs := _SetInheritedIfInvisible_frame r.1 parent time
      have hv := _SetInheritedIfInvisible_visibility r.1 parent time
      generalize _SetInheritedIfInvisible r.1 parent time = r2 at hs hv
      have hv2 : ∀ q t, parent.length < q.length →
          UsdAttribute.Get r2.1 q t = UsdAttribute.Get stage q t := by
        intro q t hl
        rw [hv q t, if_neg, h3 q t hl]
        rintro ⟨rfl, _⟩
        exact Nat.lt_irrefl _ hl
      by_cases hf : (r2.2 || r.2) = true
      · rw [if_pos hf]
        have hl := invisSiblings_frame r2.1 parent (name :: parent) time
        refine ⟨hl.1.trans (hs.1.trans h1), hl.2.1.trans (hs.2.trans h2), fun q t hlen => ?_⟩
        rw [hl.2.2 q t, hv2 q t (hq q hlen)]
        left
        have : (name :: parent).length = parent.length + 1 := List.length_cons _ _
        omega
      · rw [if_neg hf]
        exact ⟨hs.1.trans h1, hs.2.trans h2, fun q t hlen => hv2 q t (hq q hlen)⟩
    · rw [if_neg hi]
      exact ⟨h1, h2, fun q t hlen => h3 q t (hq q hlen)⟩

/-- After `_MakeVisible` no imageable ancestor of `prim` is invisible, and
`prim` itself is invisible only if it was before. -/
theorem _MakeVisible_chain (stage : UsdStage) (prim : SdfPath) (time : UsdTimeCode)
    (flag : Bool) (q : SdfPath) (hq : q <:+ prim)
    (hi : (_MakeVisible stage prim time flag).1.isImageable q = true)
    (hv : UsdAttribute.Get (_MakeVisible stage prim time flag).1 q time =
      some UsdGeomTokens.invisible) :
    q = prim ∧ UsdAttribute.Get stage prim time = some UsdGeomTokens.invisible := by
  induction prim generalizing q with
  | nil =>
    have : q = [] := List.suffix_nil.mp hq
    subst this
    exact ⟨rfl, hv⟩
  | cons name parent ih =>
    have hfr := _MakeVisible_frame stage parent time flag
    unfold _MakeVisible at hi hv
    simp only at hi hv
    generalize _MakeVisible stage parent time flag = r at hi hv ih hfr
    have hlen : (name :: parent).length = parent.length + 1 := List.length_cons _ _
    rcases List.suffix_cons_iff.mp hq with rfl | hq
    · refine ⟨rfl, ?_⟩
      rw [← hfr.2.2 (name :: parent) time (by omega)]
      by_cases hip : r.1.isImageable parent = true
      · rw [if_pos hip] at hv
        have hsv := _SetInheritedIfInvisible_visibility r.1 parent time
        generalize _SetInheritedIfInvisible r.1 parent time = r2 at hv hsv
        have hne : name :: parent ≠ parent := fun he => by
          have := congrArg List.length he
          omega
        by_cases hf : (r2.2 || r.2) = true
        · rw [if_pos hf] at hv
          rw [(invisSiblings_frame r2.1 parent (name :: parent) time).2.2 _ _ (Or.inr rfl),
            hsv, if_neg (fun hc => hne hc.1)] at hv
          exact hv
        · rw [if_neg hf, hsv, if_neg (fun hc => hne hc.1)] at hv
          exact hv
      · rw [if_neg hip] at hv
        exact hv
    · exfalso
      have hql : q.length ≤ parent.length := hq.length_le
      by_cases hip : r.1.isImageable parent = true
      · rw [if_pos hip] at hv hi
        have hsv := _SetInheritedIfInvisible_visibility r.1 parent time
        have hsf := _SetInheritedIfInvisible_frame r.1 parent time
        generalize _SetInheritedIfInvisible r.1 parent time = r2 at hv hi hsv hsf
        have key : r.1.isImageable q = true →
            UsdAttribute.Get r2.1 q time = some UsdGeomTokens.invisible → False := by
          intro hiq hvq
          rw [hsv] at hvq
          by_cases hc : q = parent ∧ time = time ∧
              UsdAttribute.Get r.1 parent time = some UsdGeomTokens.invisible
          · rw [if_pos hc] at hvq
            exact absurd (Option.some.inj hvq) (by decide)
          · rw [if_neg hc] at hvq
            have h := ih q hq hiq hvq
            apply hc
            refine ⟨h.1, rfl, ?_⟩
            rw [← h.1]; exact hvq
        by_cases hf : (r2.2 || r.2) = true
        · rw [if_pos hf] at hv hi
          have hl := invisSiblings_frame r2.1 parent (name :: parent) time
          rw [hl.2.2 _ _ (Or.inl (by omega))] at hv
          rw [hl.1, hsf.1] at hi
          exact key hi hv
        · rw [if_neg hf] at hv hi
          rw [hsf.1] at hi
          exact key hi hv
      · rw [if_neg hip] at hv hi
        have h := ih q hq hi hv
        rw [h.1] at hi
        exact hip hi

/-- When neither the prim nor an ancestor is an invisible imageable,
`_ComputeVisibility` yields inherited. -/
theorem _ComputeVisibility_inherited (stage : UsdStage) (prim : SdfPath) (time : UsdTimeCode)
    (h : ∀ q, q <:+ prim → stage.isImageable q = true →
      UsdAttribute.Get stage q time ≠ some UsdGeomTokens.invisible) :
    _ComputeVisibility stage prim time = UsdGeomTokens.inherited := by
  induction prim with
  | nil =>
    unfold _ComputeVisibility
    have h0 := h [] (List.suffix_refl _)
    cases hi : stage.isImageable []
    · simp
    · have hv := h0 hi
      cases hg : UsdAttribute.Get stage [] time with
      | none => simp [hi, UsdGeomTokens.invisible]
      | some v =>
        have : v ≠ UsdGeomTokens.invisible := fun he => hv (by rw [hg, he])
        simp [hi, this]
  | cons name parent ih =>
    unfold _ComputeVisibility
    have h0 := h (name :: parent) (List.suffix_refl _)
    have ih2 := ih (fun q hq => h q (hq.trans (List.suffix_cons _ _)))
    cases hi : stage.isImageable (name :: parent)
    · simp [ih2]
    · have hv := h0 hi
      cases hg : UsdAttribute.Get stage (name :: parent) time with
      | none => simp [hi, UsdGeomTokens.invisible, ih2]
      | some v =>
        have : v ≠ UsdGeomTokens.invisible := fun he => hv (by rw [hg, he])
        simp [hi, this, ih2]

/-- C20: for every stage, every imageable prim `p` and every time code, after
`MakeVisible` on `p` the function `ComputeVisibility` on `p` yields inherited,
and neither `p` nor any imageable ancestor of `p` has the visibility value
invisible at that time code. -/
theorem C20_make_visible_computes_inherited (stage : UsdStage) (p : SdfPath)
    (time : UsdTimeCode) (hp : stage.isImageable p = true) :
    UsdGeomImageable.ComputeVisibility (UsdGeomImageable.MakeVisible stage p time) p time =
      UsdGeomTokens.inherited ∧
    (UsdGeomImageable.MakeVisible stage p time).isImageable p = true ∧
    ∀ q, q <:+ p → (UsdGeomImageable.MakeVisible stage p time).isImageable q = true →
      UsdAttribute.Get (UsdGeomImageable.MakeVisible stage p time) q time ≠
        some UsdGeomTokens.invisible := by
  have hchain : ∀ q, q <:+ p →
      (UsdGeomImageable.MakeVisible stage p time).isImageable q = true →
      UsdAttribute.Get (UsdGeomImageable.MakeVisible stage p time) q time ≠
        some UsdGeomTokens.invisible := by
    intro q hq hi hv
    unfold UsdGeomImageable.MakeVisible at hi hv
    simp only at hi hv
    have h := _MakeVisible_chain _ p time false q hq hi hv
    exact _SetInheritedIfInvisible_not_invisible stage p time h.2
  refine ⟨_ComputeVisibility_inherited _ p time hchain, ?_, hchain⟩
  unfold UsdGeomImageable.MakeVisible
  simp only
  rw [(_MakeVisible_frame _ p time false).1, (_SetInheritedIfInvisible_frame stage p time).1]
  exact hp

theorem C20_make_visible_computes_inherited_witness :
    UsdGeomImageable.ComputeVisibility exampleStage ["Mesh", "A", "World"] none =
      UsdGeomTokens.invisible ∧
    UsdGeomImageable.ComputeVisibility
      (UsdGeomImageable.MakeVisible exampleStage ["Mesh", "A", "World"] none)
      ["Mesh", "A", "World"] none = UsdGeomTokens.inherited :=
  ⟨by decide,
   (C20_make_visible_computes_inherited exampleStage ["Mesh", "A", "World"] none
     (by decide)).1⟩

/-- When the prim or an ancestor is an invisible imageable,
`_ComputeVisibility` yields invisible. -/
theorem _ComputeVisibility_invisible (stage : UsdStage) (prim : SdfPath) (time : UsdTimeCode)
    (q : SdfPath) (hq : q <:+ prim) (hi : stage.isImageable q = true)
    (hv : UsdAttribute.Get stage q time = some UsdGeomTokens.invisible) :
    _ComputeVisibility stage prim time = UsdGeomTokens.invisible := by
  induction prim with
  | nil =>
    have : q = [] := List.suffix_nil.mp hq
    subst this
    unfold _ComputeVisibility
    simp [hi, hv]
  | cons name parent ih =>
    unfold _ComputeVisibility
    rcases List.suffix_cons_iff.mp hq with rfl | hq
    · simp [hi, hv]
    · have h := ih hq
      simp only [h]
      split_ifs <;> rfl

/-- C23: for every stage, prim and time code `ComputeVisibility` is defined
(it is a total function: the walk up the path ends at the pseudo-root) and it
yields invisible exactly when the prim itself, if imageable, or an imageable
ancestor of it has the visibility value invisible at that time code;
otherwise it yields inherited, and it yields no other token. -/
theorem C23_compute_visibility (stage : UsdStage) (p : SdfPath) (time : UsdTimeCode) :
    (UsdGeomImageable.ComputeVisibility stage p time = UsdGeomTokens.invisible ↔
      ∃ q, q <:+ p ∧ stage.isImageable q = true ∧
        UsdAttribute.Get stage q time = some UsdGeomTokens.invisible) ∧
    (UsdGeomImageable.ComputeVisibility stage p time = UsdGeomTokens.inherited ↔
      ¬ ∃ q, q <:+ p ∧ stage.isImageable q = true ∧
        UsdAttribute.Get stage q time = some UsdGeomTokens.invisible) ∧
    (UsdGeomImageable.ComputeVisibility stage p time = UsdGeomTokens.invisible ∨
      UsdGeomImageable.ComputeVisibility stage p time = UsdGeomTokens.inherited) := by
  unfold UsdGeomImageable.ComputeVisibility
  have hne : UsdGeomTokens.inherited ≠ UsdGeomTokens.invisible := by decide
  by_cases h : ∃ q, q <:+ p ∧ stage.isImageable q = true ∧
      UsdAttribute.Get stage q time = some UsdGeomTokens.invisible
  · obtain ⟨q, hq, hi, hv⟩ := h
    have hr := _ComputeVisibility_invisible stage p time q hq hi hv
    rw [hr]
    exact ⟨⟨fun _ => ⟨q, hq, hi, hv⟩, fun _ => rfl⟩,
      ⟨fun he => absurd he.symm hne, fun hn => absurd ⟨q, hq, hi, hv⟩ hn⟩, Or.inl rfl⟩
  · have hr := _ComputeVisibility_inherited stage p time
      (fun q hq hi hv => h ⟨q, hq, hi, hv⟩)
    rw [hr]
    exact ⟨⟨fun he => absurd he hne, fun hx => absurd hx h⟩, ⟨fun _ => h, fun _ => rfl⟩,
      Or.inr rfl⟩

theorem C23_compute_visibility_witness :
    UsdGeomImageable.ComputeVisibility exampleStage ["B", "World"] none =
      UsdGeomTokens.invisible ∧
    UsdGeomImageable.ComputeVisibility groupStage ["G"] none = UsdGeomTokens.inherited :=
  ⟨(C23_compute_visibility exampleStage ["B", "World"] none).1.mpr
     ⟨["World"], by decide, by decide, by decide⟩,
   (C23_compute_visibility groupStage ["G"] none).2.2.resolve_left (by decide)⟩

theorem _MakeVisible_cons (stage : UsdStage) (name : String) (parent : SdfPath)
    (time : UsdTimeCode) (flag : Bool) :
    _MakeVisible stage (name :: parent) time flag =
      if (_MakeVisible stage parent time flag).1.isImageable parent = true then
        if ((_SetInheritedIfInvisible (_MakeVisible stage parent time flag).1 parent time).2 ||
            (_MakeVisible stage parent time flag).2) = true then
          (invisSiblings (_SetInheritedIfInvisible (_MakeVisible stage parent time flag).1
            parent time).1 parent (name :: parent) time, true)
        else ((_SetInheritedIfInvisible (_MakeVisible stage parent time flag).1 parent time).1,
          (_MakeVisible stage parent time flag).2)
      else _MakeVisible stage parent time flag := rfl

/-- The result of `_SetInheritedIfInvisible`: whether the prim was invisible. -/
theorem _SetInheritedIfInvisible_snd (stage : UsdStage) (prim : SdfPath) (time : UsdTimeCode) :
    (_SetInheritedIfInvisible stage prim time).2 = true ↔
      UsdAttribute.Get stage prim time = some UsdGeomTokens.invisible := by
  unfold _SetInheritedIfInvisible
  cases h : UsdAttribute.Get stage prim time with
  | none => simp
  | some vis =>
    by_cases hv : vis = UsdGeomTokens.invisible
    · simp [hv]
    · simp [hv]

/-- The sibling loop, over any list of children: an imageable listed child
other than `prim` ends invisible, and so does a prim that was invisible. -/
theorem siblingLoop_written (children : List SdfPath) (prim : SdfPath) (time : UsdTimeCode)
    (stage : UsdStage) (q : SdfPath)
    (h : (q ∈ children ∧ q ≠ prim ∧ stage.isImageable q = true) ∨
      UsdAttribute.Get stage q time = some UsdGeomTokens.invisible) :
    UsdAttribute.Get (children.foldl (fun stage childPrim =>
      if childPrim ≠ prim then
        if stage.isImageable childPrim then
          _SetVisibility stage childPrim UsdGeomTokens.invisible time
        else stage
      else stage) stage) q time = some UsdGeomTokens.invisible := by
  induction children generalizing stage with
  | nil =>
    rcases h with ⟨hm, _⟩ | h
    · exact absurd hm (List.not_mem_nil q)
    · exact h
  | cons c cs ih =>
    simp only [List.foldl_cons]
    apply ih
    by_cases hc : c ≠ prim
    · rw [if_pos hc]
      by_cases hi : stage.isImageable c = true
      · rw [if_pos hi]
        by_cases hqc : q = c
        · right
          unfold _SetVisibility
          rw [Set_visibility, if_pos ⟨hqc, rfl⟩]
        · rcases h with ⟨hm, hne, hiq⟩ | h
          · left
            exact ⟨(List.mem_cons.mp hm).resolve_left hqc, hne, hiq⟩
          · right
            unfold _SetVisibility
            rw [Set_visibility, if_neg (fun hx => hqc hx.1)]
            exact h
      · rw [if_neg hi]
        rcases h with ⟨hm, hne, hiq⟩ | h
        · left
          refine ⟨(List.mem_cons.mp hm).resolve_left ?_, hne, hiq⟩
          rintro rfl
          exact hi hiq
        · right; exact h
    · rw [if_neg hc]
      rcases h with ⟨hm, hne, hiq⟩ | h
      · left
        refine ⟨(List.mem_cons.mp hm).resolve_left ?_, hne, hiq⟩
        rintro rfl
        exact hc hne
      · right; exact h

/-- The sibling loop of `_MakeVisible` leaves every imageable child of
`parent` other than `prim` invisible. -/
theorem invisSiblings_written (stage : UsdStage) (parent prim : SdfPath) (time : UsdTimeCode)
    (n : String) (hn : n ∈ stage.childNames parent) (hne : n :: parent ≠ prim)
    (hi : stage.isImageable (n :: parent) = true) :
    UsdAttribute.Get (invisSiblings stage parent prim time) (n :: parent) time =
      some UsdGeomTokens.invisible := by
  unfold invisSiblings
  apply siblingLoop_written
  left
  refine ⟨?_, hne, hi⟩
  unfold GetAllChildren
  exact List.mem_map.mpr ⟨n, hn, rfl⟩

/-- The sibling loop of `_MakeVisible` writes only on children of `parent`. -/
theorem invisSiblings_children (stage : UsdStage) (parent prim : SdfPath) (time : UsdTimeCode)
    (q : SdfPath) (t : UsdTimeCode) (hq : (∀ n, q ≠ n :: parent) ∨ q = prim) :
    UsdAttribute.Get (invisSiblings stage parent prim time) q t = UsdAttribute.Get stage q t := by
  have h := siblingLoop_frame (GetAllChildren stage parent) prim time stage
  simp only at h
  apply h.2.2 q t
  rcases hq with hq | hq
  · left
    intro hm
    unfold GetAllChildren at hm
    obtain ⟨n, _, hn⟩ := List.mem_map.mp hm
    exact hq n hn.symm
  · right; exact hq

/-- The sibling loop of `_MakeVisible` writes only on imageable listed
children of `parent` other than `prim`. -/
theorem invisSiblings_unwritten (stage : UsdStage) (parent prim : SdfPath) (time : UsdTimeCode)
    (q : SdfPath)
    (h : ¬ ((∃ n, n ∈ stage.childNames parent ∧ q = n :: parent) ∧ q ≠ prim ∧
      stage.isImageable q = true)) :
    UsdAttribute.Get (invisSiblings stage parent prim time) q time =
      UsdAttribute.Get stage q time := by
  unfold invisSiblings
  have key : ∀ (children : List SdfPath) (st : UsdStage),
      st.isImageable = stage.isImageable →
      (∀ x ∈ children, ∃ n, n ∈ stage.childNames parent ∧ x = n :: parent) →
      UsdAttribute.Get (children.foldl (fun stage childPrim =>
        if childPrim ≠ prim then
          if stage.isImageable childPrim then
            _SetVisibility stage childPrim UsdGeomTokens.invisible time
          else stage
        else stage) st) q time = UsdAttribute.Get st q time := by
    intro children
    induction children with
    | nil => intro st _ _; rfl
    | cons x xs ih =>
      intro st hst hall
      simp only [List.foldl_cons]
      have hxs : ∀ y ∈ xs, ∃ n, n ∈ stage.childNames parent ∧ y = n :: parent :=
        fun y hy => hall y (List.mem_cons_of_mem _ hy)
      by_cases hc : x ≠ prim
      · rw [if_pos hc]
        by_cases hi : st.isImageable x = true
        · rw [if_pos hi, ih _ (by unfold _SetVisibility; rw [Set_isImageable]; exact hst) hxs]
          unfold _SetVisibility
          rw [Set_visibility, if_neg]
          rintro ⟨rfl, _⟩
          exact h ⟨hall _ (List.mem_cons_self _ _), hc, by rw [← hst]; exact hi⟩
        · rw [if_neg hi, ih st hst hxs]
      · rw [if_neg hc, ih st hst hxs]
  apply key _ stage rfl
  intro x hx
  unfold GetAllChildren at hx
  obtain ⟨n, hn, rfl⟩ := List.mem_map.mp hx
  exact ⟨n, hn, rfl⟩

/-- The function `_MakeVisible` writes no visibility on `prim` itself. -/
theorem _MakeVisible_self (stage : UsdStage) (prim : SdfPath) (time : UsdTimeCode)
    (flag : Bool) (t : UsdTimeCode) :
    UsdAttribute.Get (_MakeVisible stage prim time flag).1 prim t =
      UsdAttribute.Get stage prim t := by
  cases prim with
  | nil => rfl
  | cons name parent =>
    have hfr := _MakeVisible_frame stage parent time flag
    rw [_MakeVisible_cons]
    have hlen : parent.length < (name :: parent).length := by simp
    have hne : name :: parent ≠ parent := fun he => by
      have := congrArg List.length he
      simp at this
    by_cases hi : (_MakeVisible stage parent time flag).1.isImageable parent = true
    · rw [if_pos hi]
      by_cases hf : ((_SetInheritedIfInvisible (_MakeVisible stage parent time flag).1
          parent time).2 || (_MakeVisible stage parent time flag).2) = true
      · rw [if_pos hf, invisSiblings_children _ _ _ _ _ _ (Or.inr rfl),
          _SetInheritedIfInvisible_visibility, if_neg (fun hc => hne hc.1), hfr.2.2 _ _ hlen]
      · rw [if_neg hf, _SetInheritedIfInvisible_visibility, if_neg (fun hc => hne hc.1),
          hfr.2.2 _ _ hlen]
    · rw [if_neg hi, hfr.2.2 _ _ hlen]

/-- The flag `_MakeVisible` returns: it was set on entry, or a proper
ancestor of `prim` is an invisible imageable. -/
theorem _MakeVisible_flag (stage : UsdStage) (prim : SdfPath) (time : UsdTimeCode)
    (flag : Bool) :
    (_MakeVisible stage prim time flag).2 = true ↔
      flag = true ∨ ∃ r, r <:+ prim ∧ r ≠ prim ∧ stage.isImageable r = true ∧
        UsdAttribute.Get stage r time = some UsdGeomTokens.invisible := by
  induction prim with
  | nil =>
    constructor
    · intro h; exact Or.inl h
    · rintro (h | ⟨r, hr, hne, _⟩)
      · exact h
      · exact absurd (List.suffix_nil.mp hr) hne
  | cons name parent ih =>
    have hfr := _MakeVisible_frame stage parent time flag
    have hself := _MakeVisible_self stage parent time flag time
    have hsnd := _SetInheritedIfInvisible_snd (_MakeVisible stage parent time flag).1 parent time
    rw [hself] at hsnd
    have hproper : ∀ r : SdfPath, (r <:+ name :: parent ∧ r ≠ name :: parent) ↔ r <:+ parent := by
      intro r
      constructor
      · rintro ⟨hr, hne⟩
        exact (List.suffix_cons_iff.mp hr).resolve_left hne
      · intro hr
        refine ⟨hr.trans (List.suffix_cons _ _), ?_⟩
        rintro rfl
        have := hr.length_le
        simp at this
    rw [_MakeVisible_cons]
    constructor
    · intro h
      by_cases hi : (_MakeVisible stage parent time flag).1.isImageable parent = true
      · rw [if_pos hi] at h
        by_cases hf : ((_SetInheritedIfInvisible (_MakeVisible stage parent time flag).1
            parent time).2 || (_MakeVisible stage parent time flag).2) = true
        · rw [Bool.or_eq_true] at hf
          rcases hf with hf | hf
          · right
            refine ⟨parent, List.suffix_cons _ _, ?_, ?_, hsnd.mp hf⟩
            · exact ((hproper parent).mpr (List.suffix_refl _)).2
            · rw [← hfr.1]; exact hi
          · rcases ih.mp hf with h1 | ⟨r, hr, hne, hir, hvr⟩
            · exact Or.inl h1
            · exact Or.inr ⟨r, hr.trans (List.suffix_cons _ _),
                ((hproper r).mpr hr).2, hir, hvr⟩
        · rw [if_neg hf] at h
          exact absurd (by rw [Bool.or_eq_true]; exact Or.inr h) hf
      · rw [if_neg hi] at h
        rcases ih.mp h with h1 | ⟨r, hr, hne, hir, hvr⟩
        · exact Or.inl h1
        · exact Or.inr ⟨r, hr.trans (List.suffix_cons _ _), ((hproper r).mpr hr).2, hir, hvr⟩
    · intro h
      have hprev : (_MakeVisible stage parent time flag).2 = true ∨
          (stage.isImageable parent = true ∧
            UsdAttribute.Get stage parent time = some UsdGeomTokens.invisible) := by
        rcases h with h | ⟨r, hr, hne, hir, hvr⟩
        · exact Or.inl (ih.mpr (Or.inl h))
        · have hrp := (hproper r).mp ⟨hr, hne⟩
          by_cases he : r = parent
          · subst he
            exact Or.inr ⟨hir, hvr⟩
          · exact Or.inl (ih.mpr (Or.inr ⟨r, hrp, he, hir, hvr⟩))
      by_cases hi : (_MakeVisible stage parent time flag).1.isImageable parent = true
      · rw [if_pos hi]
        have hf : ((_SetInheritedIfInvisible (_MakeVisible stage parent time flag).1
            parent time).2 || (_MakeVisible stage parent time flag).2) = true := by
          rw [Bool.or_eq_true]
          rcases hprev with hp | ⟨_, hp⟩
          · exact Or.inr hp
          · exact Or.inl (hsnd.mpr hp)
        rw [if_pos hf]
      · rw [if_neg hi]
        rcases hprev with hp | ⟨hp, _⟩
        · exact hp
        · rw [hfr.1] at hi
          exact absurd hp hi

/-- One level of `_MakeVisible` writes only on `parent` and on children of
`parent` other than `prim`. -/
theorem _MakeVisible_step_get (stage : UsdStage) (name : String) (parent : SdfPath)
    (time : UsdTimeCode) (flag : Bool) (x : SdfPath) (t : UsdTimeCode)
    (hx : x ≠ parent) (hc : (∀ n, x ≠ n :: parent) ∨ x = name :: parent) :
    UsdAttribute.Get (_MakeVisible stage (name :: parent) time flag).1 x t =
      UsdAttribute.Get (_MakeVisible stage parent time flag).1 x t := by
  rw [_MakeVisible_cons]
  by_cases hi : (_MakeVisible stage parent time flag).1.isImageable parent = true
  · rw [if_pos hi]
    by_cases hf : ((_SetInheritedIfInvisible (_MakeVisible stage parent time flag).1
        parent time).2 || (_MakeVisible stage parent time flag).2) = true
    · rw [if_pos hf, invisSiblings_children _ _ _ _ _ _ hc,
        _SetInheritedIfInvisible_visibility, if_neg (fun h => hx h.1)]
    · rw [if_neg hf, _SetInheritedIfInvisible_visibility, if_neg (fun h => hx h.1)]
  · rw [if_neg hi]

/-- Two paths that leave a common ancestor through different children
differ. -/
theorem branch_ne (a l m : SdfPath) (c c' : String) (hc : c ≠ c') :
    l ++ c' :: a ≠ m ++ c :: a := by
  intro h
  have h2 := List.append_inj' h (by simp)
  exact hc (List.cons.inj h2.2).1.symm

/-- The levels of `_MakeVisible` below the branch point write nothing on the
other branch. -/
theorem _MakeVisible_lower (stage : UsdStage) (time : UsdTimeCode) (flag : Bool)
    (a l m : SdfPath) (c c' : String) (hc : c ≠ c') (t : UsdTimeCode) :
    UsdAttribute.Get (_MakeVisible stage (m ++ c :: a) time flag).1 (l ++ c' :: a) t =
      UsdAttribute.Get (_MakeVisible stage (c :: a) time flag).1 (l ++ c' :: a) t := by
  induction m with
  | nil => rfl
  | cons n m ih =>
    rw [List.cons_append, _MakeVisible_step_get _ _ _ _ _ _ _ (branch_ne a l m c c' hc), ih]
    left
    intro k hk
    have : l ++ c' :: a = (k :: m) ++ c :: a := hk
    exact branch_ne a l (k :: m) c c' hc this

/-- The ancestors-or-self of a prim below the branch point `a`: ancestors of
`a`, or prims on the branch through the child `c'` of `a`. -/
theorem suffix_branch (r a l : SdfPath) (c' : String) (h : r <:+ l ++ c' :: a) :
    r <:+ a ∨ ∃ l', r = l' ++ c' :: a := by
  obtain ⟨pre, hpre⟩ := h
  rcases List.append_eq_append_iff.mp hpre with ⟨a', _, hr⟩ | ⟨c'', _, hr⟩
  · exact Or.inr ⟨a', hr⟩
  · cases c'' with
    | nil => exact Or.inr ⟨[], by simpa using hr.symm⟩
    | cons x xs =>
      left
      rw [List.cons_append] at hr
      exact ⟨xs, (List.cons.inj hr).2.symm⟩

/-- The level of `_MakeVisible` at the branch point and the levels above it
write nothing deeper than the children of the branch point. -/
theorem _MakeVisible_deep (stage : UsdStage) (time : UsdTimeCode) (flag : Bool)
    (a : SdfPath) (c : String) (x : SdfPath) (t : UsdTimeCode)
    (hx : a.length + 1 < x.length) :
    UsdAttribute.Get (_MakeVisible stage (c :: a) time flag).1 x t =
      UsdAttribute.Get stage x t := by
  rw [_MakeVisible_step_get, (_MakeVisible_frame stage a time flag).2.2 x t (by omega)]
  · rintro rfl; omega
  · left
    rintro n rfl
    simp at hx

/-- The sibling of the chain at the branch point is left as it was unless the
branch point is imageable, the flag is or becomes set there, and the sibling
is a listed imageable child. -/
theorem _MakeVisible_sibling_kept (stage : UsdStage) (time : UsdTimeCode) (flag : Bool)
    (a : SdfPath) (c c' : String)
    (h : ¬ (stage.isImageable a = true ∧
      (flag = true ∨ ∃ r, r <:+ a ∧ stage.isImageable r = true ∧
        UsdAttribute.Get stage r time = some UsdGeomTokens.invisible) ∧
      c' ∈ stage.childNames a ∧ stage.isImageable (c' :: a) = true)) :
    UsdAttribute.Get (_MakeVisible stage (c :: a) time flag).1 (c' :: a) time =
      UsdAttribute.Get stage (c' :: a) time := by
  have hfr := _MakeVisible_frame stage a time flag
  have hself := _MakeVisible_self stage a time flag time
  have hflag := _MakeVisible_flag stage a time flag
  have hsnd := _SetInheritedIfInvisible_snd (_MakeVisible stage a time flag).1 a time
  have hsf := _SetInheritedIfInvisible_frame (_MakeVisible stage a time flag).1 a time
  rw [hself] at hsnd
  have hne : c' :: a ≠ a := fun he => by
    have := congrArg List.length he
    simp at this
  have hbase : UsdAttribute.Get (_SetInheritedIfInvisible (_MakeVisible stage a time flag).1
      a time).1 (c' :: a) time = UsdAttribute.Get stage (c' :: a) time := by
    rw [_SetInheritedIfInvisible_visibility, if_neg (fun hx => hne hx.1),
      hfr.2.2 _ _ (by simp)]
  rw [_MakeVisible_cons]
  by_cases hi : (_MakeVisible stage a time flag).1.isImageable a = true
  · rw [if_pos hi]
    by_cases hf : ((_SetInheritedIfInvisible (_MakeVisible stage a time flag).1
        a time).2 || (_MakeVisible stage a time flag).2) = true
    · rw [if_pos hf, invisSiblings_unwritten, hbase]
      rintro ⟨⟨n, hn, hnq⟩, _, hiq⟩
      rw [hsf.2, hfr.2.1] at hn
      rw [hsf.1, hfr.1] at hiq
      rw [hfr.1] at hi
      apply h
      refine ⟨hi, ?_, ?_, hiq⟩
      · rw [Bool.or_eq_true] at hf
        rcases hf with hf | hf
        · exact Or.inr ⟨a, List.suffix_refl _, hi, hsnd.mp hf⟩
        · rcases hflag.mp hf with h1 | ⟨r, hr, _, hir, hvr⟩
          · exact Or.inl h1
          · exact Or.inr ⟨r, hr, hir, hvr⟩
      · rw [(List.cons.inj hnq).1]; exact hn
    · rw [if_neg hf, hbase]
  · rw [if_neg hi, hfr.2.2 _ _ (by simp)]

/-- The sibling of the chain at the branch point ends invisible when the
branch point is imageable, the flag is or becomes set there, and the sibling
is a listed imageable child. -/
theorem _MakeVisible_sibling_written (stage : UsdStage) (time : UsdTimeCode) (flag : Bool)
    (a : SdfPath) (c c' : String) (hc : c ≠ c')
    (hia : stage.isImageable a = true)
    (hfl : flag = true ∨ ∃ r, r <:+ a ∧ stage.isImageable r = true ∧
      UsdAttribute.Get stage r time = some UsdGeomTokens.invisible)
    (hn : c' ∈ stage.childNames a) (hiq : stage.isImageable (c' :: a) = true) :
    UsdAttribute.Get (_MakeVisible stage (c :: a) time flag).1 (c' :: a) time =
      some UsdGeomTokens.invisible := by
  have hfr := _MakeVisible_frame stage a time flag
  have hself := _MakeVisible_self stage a time flag time
  have hflag := _MakeVisible_flag stage a time flag
  have hsnd := _SetInheritedIfInvisible_snd (_MakeVisible stage a time flag).1 a time
  have hsf := _SetInheritedIfInvisible_frame (_MakeVisible stage a time flag).1 a time
  rw [hself] at hsnd
  rw [_MakeVisible_cons, if_pos (by rw [hfr.1]; exact hia)]
  have hf : ((_SetInheritedIfInvisible (_MakeVisible stage a time flag).1
      a time).2 || (_MakeVisible stage a time flag).2) = true := by
    rw [Bool.or_eq_true]
    rcases hfl with h1 | ⟨r, hr, hir, hvr⟩
    · exact Or.inr (hflag.mpr (Or.inl h1))
    · by_cases he : r = a
      · subst he
        exact Or.inl (hsnd.mpr hvr)
      · exact Or.inr (hflag.mpr (Or.inr ⟨r, hr, he, hir, hvr⟩))
  rw [if_pos hf]
  apply invisSiblings_written
  · rw [hsf.2, hfr.2.1]; exact hn
  · exact fun he => hc (List.cons.inj he).1.symm
  · rw [hsf.1, hfr.1]; exact hiq

/-- Two prims of which neither is the other, an ancestor or a descendant of
the other hang below a deepest common ancestor `a` through different
children of `a`. -/
theorem branch_point_exists (p q : SdfPath) (h1 : ¬ q <:+ p) (h2 : ¬ p <:+ q) :
    ∃ (a l m : SdfPath) (c c' : String), c ≠ c' ∧ p = m ++ c :: a ∧ q = l ++ c' :: a := by
  have key : ∀ (P Q : List String), ¬ Q <+: P → ¬ P <+: Q →
      ∃ (A L M : List String) (c c' : String), c ≠ c' ∧ P = A ++ c :: M ∧ Q = A ++ c' :: L := by
    intro P
    induction P with
    | nil => intro Q _ h; exact absurd (List.nil_prefix) h
    | cons x P ih =>
      intro Q hq hp
      cases Q with
      | nil => exact absurd (List.nil_prefix) hq
      | cons y Q =>
        by_cases hxy : x = y
        · subst hxy
          obtain ⟨A, L, M, c, c', hc, hP, hQ⟩ := ih Q
            (fun h => hq ((List.prefix_cons_inj x).mpr h))
            (fun h => hp ((List.prefix_cons_inj x).mpr h))
          exact ⟨x :: A, L, M, c, c', hc, by rw [hP]; rfl, by rw [hQ]; rfl⟩
        · exact ⟨[], Q, P, x, y, hxy, rfl, rfl⟩
  obtain ⟨A, L, M, c, c', hc, hP, hQ⟩ := key p.reverse q.reverse
    (fun h => h1 (List.reverse_prefix.mp h)) (fun h => h2 (List.reverse_prefix.mp h))
  refine ⟨A.reverse, L.reverse, M.reverse, c, c', hc, ?_, ?_⟩
  · have := congrArg List.reverse hP
    simpa using this
  · have := congrArg List.reverse hQ
    simpa using this

/-- The two results of `_ComputeVisibility`. -/
theorem _ComputeVisibility_cases (stage : UsdStage) (prim : SdfPath) (time : UsdTimeCode) :
    (_ComputeVisibility stage prim time = UsdGeomTokens.invisible ∧
      ∃ q, q <:+ prim ∧ stage.isImageable q = true ∧
        UsdAttribute.Get stage q time = some UsdGeomTokens.invisible) ∨
    (_ComputeVisibility stage prim time = UsdGeomTokens.inherited ∧
      ∀ q, q <:+ prim → stage.isImageable q = true →
        UsdAttribute.Get stage q time ≠ some UsdGeomTokens.invisible) := by
  by_cases h : ∃ q, q <:+ prim ∧ stage.isImageable q = true ∧
      UsdAttribute.Get stage q time = some UsdGeomTokens.invisible
  · obtain ⟨q, hq, hi, hv⟩ := h
    exact Or.inl ⟨_ComputeVisibility_invisible stage prim time q hq hi hv, q, hq, hi, hv⟩
  · have h' : ∀ q, q <:+ prim → stage.isImageable q = true →
        UsdAttribute.Get stage q time ≠ some UsdGeomTokens.invisible :=
      fun q hq hi hv => h ⟨q, hq, hi, hv⟩
    exact Or.inr ⟨_ComputeVisibility_inherited stage prim time h', h'⟩

/-- What `MakeVisible` leaves on the stage, read off the branch of a prim
that hangs below the branch point `a` through another child than `p`. -/
theorem MakeVisible_branch (stage : UsdStage) (time : UsdTimeCode) (a l m : SdfPath)
    (c c' : String) (hc : c ≠ c') :
    (UsdGeomImageable.MakeVisible stage (m ++ c :: a) time).isImageable = stage.isImageable ∧
    (∀ r, r <:+ a → stage.isImageable r = true →
      UsdAttribute.Get (UsdGeomImageable.MakeVisible stage (m ++ c :: a) time) r time ≠
        some UsdGeomTokens.invisible) ∧
    (l ≠ [] →
      UsdAttribute.Get (UsdGeomImageable.MakeVisible stage (m ++ c :: a) time) (l ++ c' :: a) time
        = UsdAttribute.Get stage (l ++ c' :: a) time) ∧
    (¬ (stage.isImageable a = true ∧
        (∃ r, r <:+ a ∧ stage.isImageable r = true ∧
          UsdAttribute.Get stage r time = some UsdGeomTokens.invisible) ∧
        c' ∈ stage.childNames a ∧ stage.isImageable (c' :: a) = true) →
      UsdAttribute.Get (UsdGeomImageable.MakeVisible stage (m ++ c :: a) time) (c' :: a) time
        = UsdAttribute.Get stage (c' :: a) time) ∧
    (stage.isImageable a = true →
      (∃ r, r <:+ a ∧ stage.isImageable r = true ∧
        UsdAttribute.Get stage r time = some UsdGeomTokens.invisible) →
      c' ∈ stage.childNames a → stage.isImageable (c' :: a) = true →
      UsdAttribute.Get (UsdGeomImageable.MakeVisible stage (m ++ c :: a) time) (c' :: a) time
        = some UsdGeomTokens.invisible) := by
  have hs0 := _SetInheritedIfInvisible_frame stage (m ++ c :: a) time
  have hv0 : ∀ x, x ≠ m ++ c :: a →
      UsdAttribute.Get (_SetInheritedIfInvisible stage (m ++ c :: a) time).1 x time =
        UsdAttribute.Get stage x time := by
    intro x hx
    rw [_SetInheritedIfInvisible_visibility, if_neg (fun h => hx h.1)]
  have hnot := _SetInheritedIfInvisible_not_invisible stage (m ++ c :: a) time
  have hanc : ∀ r : SdfPath, r <:+ a → r ≠ m ++ c :: a := by
    rintro r hr rfl
    have := hr.length_le
    simp at this
    omega
  unfold UsdGeomImageable.MakeVisible
  simp only
  generalize (_SetInheritedIfInvisible stage (m ++ c :: a) time).1 = s0 at hs0 hv0 hnot
  have hfr := _MakeVisible_frame s0 (m ++ c :: a) time false
  have hex : (∃ r, r <:+ a ∧ s0.isImageable r = true ∧
        UsdAttribute.Get s0 r time = some UsdGeomTokens.invisible) ↔
      (∃ r, r <:+ a ∧ stage.isImageable r = true ∧
        UsdAttribute.Get stage r time = some UsdGeomTokens.invisible) := by
    constructor
    · rintro ⟨r, hr, hi, hv⟩
      exact ⟨r, hr, by rw [← hs0.1]; exact hi, by rw [← hv0 r (hanc r hr)]; exact hv⟩
    · rintro ⟨r, hr, hi, hv⟩
      exact ⟨r, hr, by rw [hs0.1]; exact hi, by rw [hv0 r (hanc r hr)]; exact hv⟩
  have hsib : UsdAttribute.Get (_MakeVisible s0 (m ++ c :: a) time false).1 (c' :: a) time =
      UsdAttribute.Get (_MakeVisible s0 (c :: a) time false).1 (c' :: a) time :=
    _MakeVisible_lower s0 time false a [] m c c' hc time
  refine ⟨hfr.1.trans hs0.1, ?_, ?_, ?_, ?_⟩
  · intro r hr hi hv
    have hrp : r <:+ m ++ c :: a :=
      hr.trans ((List.suffix_cons c a).trans (List.suffix_append m (c :: a)))
    have h := _MakeVisible_chain s0 (m ++ c :: a) time false r hrp
      (by rw [hfr.1, hs0.1]; exact hi) hv
    exact hnot h.2
  · intro hl
    rw [_MakeVisible_lower s0 time false a l m c c' hc time, _MakeVisible_deep, hv0]
    · exact branch_ne a l m c c' hc
    · cases l with
      | nil => exact absurd rfl hl
      | cons x xs => simp; omega
  · intro hnk
    rw [hsib, _MakeVisible_sibling_kept, hv0 (c' :: a) (branch_ne a [] m c c' hc)]
    rintro ⟨h1, h2, h3, h4⟩
    apply hnk
    rw [hs0.1] at h1 h4
    rw [hs0.2] at h3
    refine ⟨h1, ?_, h3, h4⟩
    rcases h2 with h2 | h2
    · exact absurd h2 (by decide)
    · exact hex.mp h2
  · intro hia hr hn hiq
    rw [hsib]
    apply _MakeVisible_sibling_written s0 time false a c c' hc
    · rw [hs0.1]; exact hia
    · exact Or.inr (hex.mpr hr)
    · rw [hs0.2]; exact hn
    · rw [hs0.1]; exact hiq

/-- C21 (as the code has it): let the imageable prim `p = m ++ c :: a` and the
prim `q = l ++ c' :: a` hang below their deepest common ancestor `a` through
different children `c`, `c'` of `a`, so that `q` is neither `p`, an
ancestor of `p`, nor a descendant of `p`.  A `q` that `ComputeVisibility`
reported inherited before `MakeVisible` on `p` is reported inherited
afterwards.  The computed visibility of `q` is preserved altogether when `a`
and its listed child `c' :: a` on the way to `q` are imageable, or when no
imageable common ancestor was invisible; in the first case the sibling
`c' :: a` of the ancestor chain of `p` has invisible authored whenever an
imageable common ancestor was invisible. -/
theorem C21_make_visible_keeps_other_prims (stage : UsdStage) (time : UsdTimeCode)
    (a l m : SdfPath) (c c' : String) (hc : c ≠ c')
    (_hp : stage.isImageable (m ++ c :: a) = true) :
    (UsdGeomImageable.ComputeVisibility stage (l ++ c' :: a) time = UsdGeomTokens.inherited →
      UsdGeomImageable.ComputeVisibility
        (UsdGeomImageable.MakeVisible stage (m ++ c :: a) time) (l ++ c' :: a) time =
          UsdGeomTokens.inherited) ∧
    ((stage.isImageable a = true ∧ c' ∈ stage.childNames a ∧
        stage.isImageable (c' :: a) = true) ∨
      (∀ r, r <:+ a → stage.isImageable r = true →
        UsdAttribute.Get stage r time ≠ some UsdGeomTokens.invisible) →
      UsdGeomImageable.ComputeVisibility
        (UsdGeomImageable.MakeVisible stage (m ++ c :: a) time) (l ++ c' :: a) time =
          UsdGeomImageable.ComputeVisibility stage (l ++ c' :: a) time) ∧
    (stage.isImageable a = true → c' ∈ stage.childNames a →
      stage.isImageable (c' :: a) = true →
      (∃ r, r <:+ a ∧ stage.isImageable r = true ∧
        UsdAttribute.Get stage r time = some UsdGeomTokens.invisible) →
      UsdAttribute.Get (UsdGeomImageable.MakeVisible stage (m ++ c :: a) time) (c' :: a) time =
        some UsdGeomTokens.invisible) := by
  obtain ⟨himg, hanc, hdeep, hkept, hwritten⟩ := MakeVisible_branch stage time a l m c c' hc
  have hdeep' : ∀ l' : SdfPath, l' ≠ [] →
      UsdAttribute.Get (UsdGeomImageable.MakeVisible stage (m ++ c :: a) time) (l' ++ c' :: a)
        time = UsdAttribute.Get stage (l' ++ c' :: a) time :=
    fun l' hl' => (MakeVisible_branch stage time a l' m c c' hc).2.2.1 hl'
  have hsa : a <:+ l ++ c' :: a :=
    (List.suffix_cons c' a).trans (List.suffix_append l (c' :: a))
  have hsc : c' :: a <:+ l ++ c' :: a := List.suffix_append l (c' :: a)
  unfold UsdGeomImageable.ComputeVisibility
  have part1 : _ComputeVisibility stage (l ++ c' :: a) time = UsdGeomTokens.inherited →
      _ComputeVisibility (UsdGeomImageable.MakeVisible stage (m ++ c :: a) time)
        (l ++ c' :: a) time = UsdGeomTokens.inherited := by
    intro hbefore
    have hb : ∀ r, r <:+ l ++ c' :: a → stage.isImageable r = true →
        UsdAttribute.Get stage r time ≠ some UsdGeomTokens.invisible := by
      rcases _ComputeVisibility_cases stage (l ++ c' :: a) time with ⟨h, _⟩ | ⟨_, h⟩
      · rw [h] at hbefore
        exact absurd hbefore (by decide)
      · exact h
    apply _ComputeVisibility_inherited
    intro r hr hi
    rw [himg] at hi
    rcases suffix_branch r a l c' hr with hra | ⟨l', rfl⟩
    · exact hanc r hra hi
    · by_cases hl' : l' = []
      · subst hl'
        rw [List.nil_append] at hi hr ⊢
        rw [hkept]
        · exact hb _ hr hi
        · rintro ⟨_, ⟨r', hr', hi', hv'⟩, _, _⟩
          exact hb r' (hr'.trans hsa) hi' hv'
      · rw [hdeep' l' hl']
        exact hb _ hr hi
  have part2 : _ComputeVisibility stage (l ++ c' :: a) time = UsdGeomTokens.invisible →
      ((stage.isImageable a = true ∧ c' ∈ stage.childNames a ∧
          stage.isImageable (c' :: a) = true) ∨
        (∀ r, r <:+ a → stage.isImageable r = true →
          UsdAttribute.Get stage r time ≠ some UsdGeomTokens.invisible)) →
      _ComputeVisibility (UsdGeomImageable.MakeVisible stage (m ++ c :: a) time)
        (l ++ c' :: a) time = UsdGeomTokens.invisible := by
    intro hbefore hcond
    have hb : ∃ r, r <:+ l ++ c' :: a ∧ stage.isImageable r = true ∧
        UsdAttribute.Get stage r time = some UsdGeomTokens.invisible := by
      rcases _ComputeVisibility_cases stage (l ++ c' :: a) time with ⟨_, h⟩ | ⟨h, _⟩
      · exact h
      · rw [h] at hbefore
        exact absurd hbefore (by decide)
    obtain ⟨r, hr, hi, hv⟩ := hb
    rcases suffix_branch r a l c' hr with hra | ⟨l', rfl⟩
    · rcases hcond with ⟨hia, hn, hiq⟩ | hnone
      · exact _ComputeVisibility_invisible _ _ time (c' :: a) hsc (by rw [himg]; exact hiq)
          (hwritten hia ⟨r, hra, hi, hv⟩ hn hiq)
      · exact absurd hv (hnone r hra hi)
    · by_cases hl' : l' = []
      · subst hl'
        rw [List.nil_append] at hi hr hv
        apply _ComputeVisibility_invisible _ _ time (c' :: a) hsc (by rw [himg]; exact hi)
        by_cases hk : stage.isImageable a = true ∧
            (∃ r, r <:+ a ∧ stage.isImageable r = true ∧
              UsdAttribute.Get stage r time = some UsdGeomTokens.invisible) ∧
            c' ∈ stage.childNames a ∧ stage.isImageable (c' :: a) = true
        · exact hwritten hk.1 hk.2.1 hk.2.2.1 hk.2.2.2
        · rw [hkept hk]; exact hv
      · exact _ComputeVisibility_invisible _ _ time (l' ++ c' :: a) hr (by rw [himg]; exact hi)
          (by rw [hdeep' l' hl']; exact hv)
  refine ⟨part1, ?_, fun hia hn hiq hr => hwritten hia hr hn hiq⟩
  intro hcond
  rcases _ComputeVisibility_cases stage (l ++ c' :: a) time with ⟨h, _⟩ | ⟨h, _⟩
  · rw [h]; exact part2 h hcond
  · rw [h]; exact part1 h

theorem C21_make_visible_keeps_other_prims_witness :
    UsdGeomImageable.ComputeVisibility exampleStage ["B", "World"] none =
      UsdGeomTokens.invisible ∧
    UsdGeomImageable.ComputeVisibility
      (UsdGeomImageable.MakeVisible exampleStage ["Mesh", "A", "World"] none)
      ["B", "World"] none = UsdGeomTokens.invisible ∧
    UsdAttribute.Get (UsdGeomImageable.MakeVisible exampleStage ["Mesh", "A", "World"] none)
      ["B", "World"] none = some UsdGeomTokens.invisible :=
  ⟨by decide,
   ((C21_make_visible_keeps_other_prims exampleStage none ["World"] [] ["Mesh"] "A" "B"
      (by decide) (by decide)).2.1 (Or.inl (by decide))).trans (by decide),
   (C21_make_visible_keeps_other_prims exampleStage none ["World"] [] ["Mesh"] "A" "B"
      (by decide) (by decide)).2.2 (by decide) (by decide) (by decide)
      ⟨["World"], by decide, by decide, by decide⟩⟩

/-- In `groupStage` the group /World/G is not imageable, so `MakeVisible` on
/World/G/P makes /World inherited without making the sibling /World/G/Q
invisible: Q, neither P, an ancestor nor a descendant of P, was computed
invisible before the call and is computed inherited after it. -/
theorem C21_counterexample :
    groupStage.isImageable ["P", "G", "World"] = true ∧
    ¬ (["Q", "G", "World"] <:+ ["P", "G", "World"]) ∧
    ¬ (["P", "G", "World"] <:+ ["Q", "G", "World"]) ∧
    UsdGeomImageable.ComputeVisibility groupStage ["Q", "G", "World"] none =
      UsdGeomTokens.invisible ∧
    UsdGeomImageable.ComputeVisibility
      (UsdGeomImageable.MakeVisible groupStage ["P", "G", "World"] none)
      ["Q", "G", "World"] none = UsdGeomTokens.inherited := by
  decide

/-- The loop of `_ComputeInheritableAncestorPurpose` entered at a prim: the
authored purpose of the prim, or what the prim can inherit. -/
theorem inheritableAncestorLoop_eq (stage : UsdStage) (prim : SdfPath) :
    inheritableAncestorLoop stage prim =
      if _ComputeAuthoredPurpose stage prim ≠ "" then _ComputeAuthoredPurpose stage prim
      else _ComputeInheritableAncestorPurpose stage prim := by
  cases prim with
  | nil => unfold inheritableAncestorLoop _ComputeInheritableAncestorPurpose; rfl
  | cons name parent =>
    rw [inheritableAncestorLoop]
    rfl

/-- The loop yields the authored purpose of the nearest prim that has one. -/
theorem inheritableAncestorLoop_nearest (stage : UsdStage) (prim r : SdfPath)
    (hr : r <:+ prim) (ha : _ComputeAuthoredPurpose stage r ≠ "")
    (hnear : ∀ r', r' <:+ prim → r.length < r'.length → _ComputeAuthoredPurpose stage r' = "") :
    inheritableAncestorLoop stage prim = _ComputeAuthoredPurpose stage r := by
  induction prim with
  | nil =>
    have : r = [] := List.suffix_nil.mp hr
    subst this
    rw [inheritableAncestorLoop_eq, if_pos ha]
  | cons name parent ih =>
    rcases List.suffix_cons_iff.mp hr with rfl | hr'
    · rw [inheritableAncestorLoop_eq, if_pos ha]
    · have hlt : r.length < (name :: parent).length := by
        have := hr'.length_le
        simp; omega
      have hzero := hnear (name :: parent) (List.suffix_refl _) hlt
      rw [inheritableAncestorLoop_eq, if_neg (by rw [hzero]; exact fun h => h rfl)]
      exact ih hr' (fun r' h1 h2 => hnear r' (h1.trans (List.suffix_cons _ _)) h2)

/-- The loop yields the empty token when no prim on the way up has an
authored purpose. -/
theorem inheritableAncestorLoop_none (stage : UsdStage) (prim : SdfPath)
    (h : ∀ r, r <:+ prim → _ComputeAuthoredPurpose stage r = "") :
    inheritableAncestorLoop stage prim = "" := by
  induction prim with
  | nil =>
    rw [inheritableAncestorLoop_eq, if_neg (by rw [h [] (List.suffix_refl _)]; exact fun h => h rfl)]
    rfl
  | cons name parent ih =>
    rw [inheritableAncestorLoop_eq,
      if_neg (by rw [h _ (List.suffix_refl _)]; exact fun h => h rfl)]
    exact ih (fun r hr => h r (hr.trans (List.suffix_cons _ _)))

/-- The overload `ComputePurposeInfo()` in terms of the loop entered at the
prim itself. -/
theorem ComputePurposeInfo_eq (stage : UsdStage) (prim : SdfPath) :
    UsdGeomImageable.ComputePurposeInfo stage prim =
      if inheritableAncestorLoop stage prim = "" then
        ⟨_ComputeFallbackPurpose stage prim, false⟩
      else ⟨inheritableAncestorLoop stage prim, true⟩ := by
  unfold UsdGeomImageable.ComputePurposeInfo
  rw [inheritableAncestorLoop_eq]
  by_cases ha : _ComputeAuthoredPurpose stage prim = ""
  · simp only [ha, if_true, ne_eq, not_true_eq_false, if_false]
  · simp only [ha, if_false, ne_eq, not_false_eq_true, if_true]

/-- The authored purpose read off the stage, by cases. -/
theorem specAuthoredPurpose_eq (stage : UsdStage) (prim : SdfPath) :
    specAuthoredPurpose stage prim =
      if stage.isImageable prim = true then
        if stage.purposeAuthored prim = true then
          if (stage.purpose prim).getD "" = "" then none
          else some ((stage.purpose prim).getD "")
        else none
      else none := by
  unfold specAuthoredPurpose
  cases stage.isImageable prim <;> cases stage.purposeAuthored prim <;>
    cases stage.purpose prim <;> rfl

/-- The authored purpose the code computes is the one read off the stage, the
empty token standing for none. -/
theorem _ComputeAuthoredPurpose_spec (stage : UsdStage) (prim : SdfPath) :
    _ComputeAuthoredPurpose stage prim = (specAuthoredPurpose stage prim).getD "" := by
  rw [specAuthoredPurpose_eq]
  unfold _ComputeAuthoredPurpose
  by_cases hi : stage.isImageable prim = true
  · by_cases ha : stage.purposeAuthored prim = true
    · by_cases ht : (stage.purpose prim).getD "" = ""
      · simp only [hi, ha, ht, if_true, Option.getD_none]
      · simp only [hi, ha, ht, if_true, if_false, Option.getD_some]
    · simp only [hi, ha, if_true, if_false, Bool.false_eq_true, Option.getD_none]
  · simp only [hi, if_false, Bool.false_eq_true, Option.getD_none]

/-- An authored purpose read off the stage is not the empty token. -/
theorem specAuthoredPurpose_ne (stage : UsdStage) (prim : SdfPath) (t : TfToken)
    (h : specAuthoredPurpose stage prim = some t) : t ≠ "" := by
  rw [specAuthoredPurpose_eq] at h
  by_cases hi : stage.isImageable prim = true
  · by_cases ha : stage.purposeAuthored prim = true
    · by_cases ht : (stage.purpose prim).getD "" = ""
      · simp only [hi, ha, ht, if_true] at h
        exact Option.noConfusion h
      · simp only [hi, ha, ht, if_true, if_false, Option.some.injEq] at h
        exact h ▸ ht
    · simp only [hi, ha, if_true, if_false, Bool.false_eq_true] at h
      exact Option.noConfusion h
  · simp only [hi, if_false, Bool.false_eq_true] at h
    exact Option.noConfusion h

/-- The code finds an authored purpose on a prim exactly when the stage holds
one. -/
theorem _ComputeAuthoredPurpose_some (stage : UsdStage) (prim : SdfPath) (t : TfToken)
    (h : specAuthoredPurpose stage prim = some t) :
    _ComputeAuthoredPurpose stage prim = t ∧ _ComputeAuthoredPurpose stage prim ≠ "" := by
  rw [_ComputeAuthoredPurpose_spec, h]
  exact ⟨rfl, specAuthoredPurpose_ne stage prim t h⟩

theorem _ComputeAuthoredPurpose_none (stage : UsdStage) (prim : SdfPath)
    (h : specAuthoredPurpose stage prim = none) :
    _ComputeAuthoredPurpose stage prim = "" := by
  rw [_ComputeAuthoredPurpose_spec, h]
  rfl

/-- A prim that is not imageable has no authored purpose for the code,
whatever its attributes hold. -/
theorem _ComputeAuthoredPurpose_not_imageable (stage : UsdStage) (prim : SdfPath)
    (h : stage.isImageable prim = false) : _ComputeAuthoredPurpose stage prim = "" := by
  unfold _ComputeAuthoredPurpose
  rw [h]
  rfl

/-- C22: for every prim `P = name :: Q` with parent `Q`, imageable or not,
`ComputePurposeInfo(parentPurposeInfo)` on `P` with the `ComputePurposeInfo()`
of `Q` for `parentPurposeInfo` yields the purpose token and inheritable flag
that `ComputePurposeInfo()` yields on `P`, and that result is, in terms of what
the stage holds (an authored purpose being the authored, non-empty value of the
purpose attribute of an imageable prim): the authored purpose of `P` if it has
one (inheritable); else the authored purpose of the nearest ancestor that has
one (inheritable); else the fallback purpose of `P` (not inheritable), which is
what the purpose attribute of an imageable `P` resolves to and `default` for a
`P` that is not imageable or whose attribute yields no value.  A `P` that is
not imageable passes on what its parent can hand down and has `default`
otherwise, and a parent that is not imageable is passed over: `P` gets what it
would get from the parent of that parent. -/
theorem C22_purpose_info_from_parent (stage : UsdStage) (name : String) (Q : SdfPath) :
    UsdGeomImageable.ComputePurposeInfoFrom stage (name :: Q)
        (UsdGeomImageable.ComputePurposeInfo stage Q) =
      UsdGeomImageable.ComputePurposeInfo stage (name :: Q) ∧
    (∀ t, specAuthoredPurpose stage (name :: Q) = some t →
      UsdGeomImageable.ComputePurposeInfo stage (name :: Q) = ⟨t, true⟩) ∧
    (specAuthoredPurpose stage (name :: Q) = none →
      ∀ r t, r <:+ Q → specAuthoredPurpose stage r = some t →
        (∀ r', r' <:+ Q → r.length < r'.length → specAuthoredPurpose stage r' = none) →
        UsdGeomImageable.ComputePurposeInfo stage (name :: Q) = ⟨t, true⟩) ∧
    ((∀ r, r <:+ name :: Q → specAuthoredPurpose stage r = none) →
      (stage.isImageable (name :: Q) = false →
        UsdGeomImageable.ComputePurposeInfo stage (name :: Q) =
          ⟨UsdGeomTokens.default_, false⟩) ∧
      (stage.isImageable (name :: Q) = true → ∀ t, stage.purpose (name :: Q) = some t →
        UsdGeomImageable.ComputePurposeInfo stage (name :: Q) = ⟨t, false⟩) ∧
      (stage.isImageable (name :: Q) = true → stage.purpose (name :: Q) = none →
        UsdGeomImageable.ComputePurposeInfo stage (name :: Q) =
          ⟨UsdGeomTokens.default_, false⟩)) ∧
    (stage.isImageable (name :: Q) = false →
      UsdGeomImageable.ComputePurposeInfo stage (name :: Q) =
        if (UsdGeomImageable.ComputePurposeInfo stage Q).isInheritable = true then
          UsdGeomImageable.ComputePurposeInfo stage Q
        else ⟨UsdGeomTokens.default_, false⟩) ∧
    (∀ n Q', Q = n :: Q' → stage.isImageable Q = false →
      UsdGeomImageable.ComputePurposeInfo stage (name :: Q) =
        UsdGeomImageable.ComputePurposeInfoFrom stage (name :: Q)
          (UsdGeomImageable.ComputePurposeInfo stage Q')) := by
  have hanc : _ComputeInheritableAncestorPurpose stage (name :: Q) =
      inheritableAncestorLoop stage Q := rfl
  have hfrom : UsdGeomImageable.ComputePurposeInfoFrom stage (name :: Q)
        (UsdGeomImageable.ComputePurposeInfo stage Q) =
      UsdGeomImageable.ComputePurposeInfo stage (name :: Q) := by
    unfold UsdGeomImageable.ComputePurposeInfoFrom
    rw [ComputePurposeInfo_eq stage Q]
    unfold UsdGeomImageable.ComputePurposeInfo
    rw [hanc]
    by_cases ha : _ComputeAuthoredPurpose stage (name :: Q) = ""
    · by_cases hl : inheritableAncestorLoop stage Q = ""
      · simp only [ha, hl, if_true, Bool.false_eq_true, if_false]
      · simp only [ha, hl, if_true, if_false]
    · simp only [ha, if_false]
  have hfall : (∀ r, r <:+ name :: Q → specAuthoredPurpose stage r = none) →
      UsdGeomImageable.ComputePurposeInfo stage (name :: Q) =
        ⟨_ComputeFallbackPurpose stage (name :: Q), false⟩ := by
    intro hall
    unfold UsdGeomImageable.ComputePurposeInfo
    rw [hanc, inheritableAncestorLoop_none stage Q
      (fun r hr => _ComputeAuthoredPurpose_none stage r
        (hall r (hr.trans (List.suffix_cons _ _))))]
    simp only [_ComputeAuthoredPurpose_none stage _ (hall _ (List.suffix_refl _)), if_true]
  refine ⟨hfrom, ?_, ?_, ?_, ?_, ?_⟩
  · intro t ht
    obtain ⟨h1, h2⟩ := _ComputeAuthoredPurpose_some stage _ t ht
    unfold UsdGeomImageable.ComputePurposeInfo
    simp only [h2, if_false]
    rw [h1]
  · intro ha r t hr har hnear
    obtain ⟨h1, h2⟩ := _ComputeAuthoredPurpose_some stage r t har
    unfold UsdGeomImageable.ComputePurposeInfo
    rw [hanc, inheritableAncestorLoop_nearest stage Q r hr h2
      (fun r' hr' hlt => _ComputeAuthoredPurpose_none stage r' (hnear r' hr' hlt))]
    simp only [_ComputeAuthoredPurpose_none stage _ ha, h2, if_true, if_false]
    rw [h1]
  · intro hall
    refine ⟨?_, ?_, ?_⟩
    · intro hi
      rw [hfall hall]
      unfold _ComputeFallbackPurpose
      rw [hi]
      rfl
    · intro hi t hp
      rw [hfall hall]
      unfold _ComputeFallbackPurpose
      rw [hi, hp]
      rfl
    · intro hi hp
      rw [hfall hall]
      unfold _ComputeFallbackPurpose
      rw [hi, hp]
      rfl
  · intro hi
    rw [ComputePurposeInfo_eq stage Q]
    unfold UsdGeomImageable.ComputePurposeInfo
    rw [hanc, _ComputeAuthoredPurpose_not_imageable stage _ hi]
    unfold _ComputeFallbackPurpose
    rw [hi]
    by_cases hl : inheritableAncestorLoop stage Q = ""
    · simp only [hl, if_true, Bool.false_eq_true, if_false]
    · simp only [hl, if_true, if_false]
  · intro n Q' hQ hi
    subst hQ
    rw [← hfrom]
    unfold UsdGeomImageable.ComputePurposeInfoFrom
    by_cases ha : _ComputeAuthoredPurpose stage (name :: n :: Q') = ""
    · simp only [ha, if_true]
      rw [ComputePurposeInfo_eq stage Q']
      unfold UsdGeomImageable.ComputePurposeInfo
      have hanc2 : _ComputeInheritableAncestorPurpose stage (n :: Q') =
          inheritableAncestorLoop stage Q' := rfl
      rw [hanc2, _ComputeAuthoredPurpose_not_imageable stage _ hi]
      by_cases hl : inheritableAncestorLoop stage Q' = ""
      · simp only [hl, if_true, Bool.false_eq_true, if_false]
      · simp only [hl, if_true, if_false]
    · simp only [ha, if_false]

theorem C22_purpose_info_from_parent_witness :
    UsdGeomImageable.ComputePurposeInfo exampleStage ["World"] =
      ⟨UsdGeomTokens.render, true⟩ ∧
    UsdGeomImageable.ComputePurposeInfo exampleStage ["Mesh", "A", "World"] =
      ⟨UsdGeomTokens.render, true⟩ ∧
    UsdGeomImageable.ComputePurposeInfoFrom exampleStage ["Mesh", "A", "World"]
      (UsdGeomImageable.ComputePurposeInfo exampleStage ["A", "World"]) =
      ⟨UsdGeomTokens.render, true⟩ ∧
    UsdGeomImageable.ComputePurposeInfo purposeStage ["P", "G", "World"] =
      ⟨UsdGeomTokens.guide, false⟩ ∧
    UsdGeomImageable.ComputePurposeInfo purposeStage ["G", "World"] =
      ⟨UsdGeomTokens.default_, false⟩ ∧
    UsdGeomImageable.ComputePurposeInfoFrom purposeStage ["P", "G", "World"]
      (UsdGeomImageable.ComputePurposeInfo purposeStage ["World"]) =
      ⟨UsdGeomTokens.guide, false⟩ :=
  ⟨(C22_purpose_info_from_parent exampleStage "World" []).2.1 UsdGeomTokens.render
      (by decide),
   (C22_purpose_info_from_parent exampleStage "Mesh" ["A", "World"]).2.2.1 (by decide)
      ["World"] UsdGeomTokens.render (by decide) (by decide)
      (by
        intro r' h1 h2
        rcases List.suffix_cons_iff.mp h1 with rfl | h1
        · decide
        · rcases List.suffix_cons_iff.mp h1 with rfl | h1
          · exact absurd h2 (by decide)
          · rw [List.suffix_nil.mp h1] at h2
            exact absurd h2 (by decide)),
   (C22_purpose_info_from_parent exampleStage "Mesh" ["A", "World"]).1.trans (by decide),
   ((C22_purpose_info_from_parent purposeStage "P" ["G", "World"]).2.2.2.1
      (by
        intro r h1
        rcases List.suffix_cons_iff.mp h1 with rfl | h1
        · decide
        · rcases List.suffix_cons_iff.mp h1 with rfl | h1
          · decide
          · rcases List.suffix_cons_iff.mp h1 with rfl | h1
            · decide
            · rw [List.suffix_nil.mp h1]
              decide)).2.1 (by decide) UsdGeomTokens.guide (by decide),
   ((C22_purpose_info_from_parent purposeStage "G" ["World"]).2.2.2.2.1
      (by decide)).trans (by decide),
   ((C22_purpose_info_from_parent purposeStage "P" ["G", "World"]).2.2.2.2.2
      "G" ["World"] rfl (by decide)).symm.trans (by decide)⟩

theorem _ComputePurposeVisibility_nil (stage : UsdStage) (purpose : TfToken)
    (time : UsdTimeCode) :
    _ComputePurposeVisibility stage [] purpose time =
      match authoredPurposeVisibility stage [] purpose time with
      | some localVis => (localVis, [])
      | none =>
        if purpose = UsdGeomTokens.guide then (UsdGeomTokens.invisible, [])
        else if purpose = UsdGeomTokens.proxy ∨ purpose = UsdGeomTokens.render then
          (UsdGeomTokens.inherited, [])
        else
          (UsdGeomTokens.invisible,
            ["Unexpected purpose '" ++ purpose ++
              "' computing purpose visibility for </>."]) := rfl

theorem _ComputePurposeVisibility_cons (stage : UsdStage) (name : String) (parent : SdfPath)
    (purpose : TfToken) (time : UsdTimeCode) :
    _ComputePurposeVisibility stage (name :: parent) purpose time =
      match authoredPurposeVisibility stage (name :: parent) purpose time with
      | some localVis => (localVis, [])
      | none => _ComputePurposeVisibility stage parent purpose time := rfl

/-- The function `_ComputePurposeVisibility` yields the opinion of the nearest
prim, among the prim and its ancestors, that has one. -/
theorem _ComputePurposeVisibility_nearest (stage : UsdStage) (prim : SdfPath)
    (purpose : TfToken) (time : UsdTimeCode) (q : SdfPath) (v : TfToken)
    (hq : q <:+ prim) (hv : authoredPurposeVisibility stage q purpose time = some v)
    (hnear : ∀ r, r <:+ prim → q.length < r.length →
      authoredPurposeVisibility stage r purpose time = none) :
    _ComputePurposeVisibility stage prim purpose time = (v, []) := by
  induction prim with
  | nil =>
    have : q = [] := List.suffix_nil.mp hq
    subst this
    rw [_ComputePurposeVisibility_nil, hv]
  | cons name parent ih =>
    rcases List.suffix_cons_iff.mp hq with rfl | hq'
    · rw [_ComputePurposeVisibility_cons, hv]
    · have hlt : q.length < (name :: parent).length := by
        have := hq'.length_le
        simp; omega
      rw [_ComputePurposeVisibility_cons, hnear (name :: parent) (List.suffix_refl _) hlt]
      exact ih hq' (fun r h1 h2 => hnear r (h1.trans (List.suffix_cons _ _)) h2)

/-- Without an opinion on the prim or an ancestor `_ComputePurposeVisibility`
yields the fallback of the purpose, with an error for a purpose that has
none. -/
theorem _ComputePurposeVisibility_none (stage : UsdStage) (prim : SdfPath)
    (purpose : TfToken) (time : UsdTimeCode)
    (h : ∀ r, r <:+ prim → authoredPurposeVisibility stage r purpose time = none) :
    _ComputePurposeVisibility stage prim purpose time =
      if purpose = UsdGeomTokens.guide then (UsdGeomTokens.invisible, [])
      else if purpose = UsdGeomTokens.proxy ∨ purpose = UsdGeomTokens.render then
        (UsdGeomTokens.inherited, [])
      else
        (UsdGeomTokens.invisible,
          ["Unexpected purpose '" ++ purpose ++ "' computing purpose visibility for </>."]) := by
  induction prim with
  | nil =>
    rw [_ComputePurposeVisibility_nil, h [] (List.suffix_refl _)]
  | cons name parent ih =>
    rw [_ComputePurposeVisibility_cons, h _ (List.suffix_refl _)]
    exact ih (fun r hr => h r (hr.trans (List.suffix_cons _ _)))

/-- C24: `ComputeEffectiveVisibility(purpose, t)` yields invisible for every
purpose when `ComputeVisibility(t)` is invisible; otherwise visible for the
default purpose; otherwise the authored purpose visibility of the nearest
prim, among the prim and its ancestors, that has one (an imageable prim with
the visibility API applied whose attribute for the purpose has an authored
value), and when none has one invisible for guide, inherited for render and
proxy, and for any other purpose invisible together with a coding error. -/
theorem C24_effective_visibility (stage : UsdStage) (p : SdfPath) (purpose : TfToken)
    (time : UsdTimeCode) :
    (UsdGeomImageable.ComputeVisibility stage p time = UsdGeomTokens.invisible →
      UsdGeomImageable.ComputeEffectiveVisibility stage p purpose time =
        (UsdGeomTokens.invisible, [])) ∧
    (UsdGeomImageable.ComputeVisibility stage p time ≠ UsdGeomTokens.invisible →
      purpose = UsdGeomTokens.default_ →
      UsdGeomImageable.ComputeEffectiveVisibility stage p purpose time =
        (UsdGeomTokens.visible, [])) ∧
    (UsdGeomImageable.ComputeVisibility stage p time ≠ UsdGeomTokens.invisible →
      purpose ≠ UsdGeomTokens.default_ →
      (∀ q v, q <:+ p → authoredPurposeVisibility stage q purpose time = some v →
        (∀ r, r <:+ p → q.length < r.length →
          authoredPurposeVisibility stage r purpose time = none) →
        UsdGeomImageable.ComputeEffectiveVisibility stage p purpose time = (v, [])) ∧
      ((∀ r, r <:+ p → authoredPurposeVisibility stage r purpose time = none) →
        (purpose = UsdGeomTokens.guide →
          UsdGeomImageable.ComputeEffectiveVisibility stage p purpose time =
            (UsdGeomTokens.invisible, [])) ∧
        (purpose = UsdGeomTokens.render ∨ purpose = UsdGeomTokens.proxy →
          UsdGeomImageable.ComputeEffectiveVisibility stage p purpose time =
            (UsdGeomTokens.inherited, [])) ∧
        (purpose ≠ UsdGeomTokens.guide → purpose ≠ UsdGeomTokens.render →
          purpose ≠ UsdGeomTokens.proxy →
          UsdGeomImageable.ComputeEffectiveVisibility stage p purpose time =
            (UsdGeomTokens.invisible,
              ["Unexpected purpose '" ++ purpose ++
                "' computing purpose visibility for </>."])))) ∧
    (purpose ≠ UsdGeomTokens.default_ → ∀ q v,
      (authoredPurposeVisibility stage q purpose time = some v ↔
        stage.isImageable q = true ∧ stage.hasVisibilityAPI q = true ∧
          ∃ attr, stage.purposeVisibilityAttr q purpose = some attr ∧
            attr.hasAuthoredValue = true ∧ attr.value time = some v)) := by
  refine ⟨?_, ?_, ?_, ?_⟩
  · intro h
    unfold UsdGeomImageable.ComputeEffectiveVisibility
    rw [if_pos h]
  · intro h hd
    unfold UsdGeomImageable.ComputeEffectiveVisibility
    rw [if_neg h, if_pos hd]
  · intro h hd
    have he : UsdGeomImageable.ComputeEffectiveVisibility stage p purpose time =
        _ComputePurposeVisibility stage p purpose time := by
      unfold UsdGeomImageable.ComputeEffectiveVisibility
      rw [if_neg h, if_neg hd]
    rw [he]
    refine ⟨fun q v hq hv hnear =>
      _ComputePurposeVisibility_nearest stage p purpose time q v hq hv hnear, ?_⟩
    intro hnone
    rw [_ComputePurposeVisibility_none stage p purpose time hnone]
    refine ⟨fun hg => by rw [if_pos hg], ?_, ?_⟩
    · intro hrp
      have hg : purpose ≠ UsdGeomTokens.guide := by
        rcases hrp with rfl | rfl <;> decide
      rw [if_neg hg, if_pos (Or.symm hrp)]
    · intro hg hr hpx
      rw [if_neg hg, if_neg (by rintro (h1 | h1); exact hpx h1; exact hr h1)]
  · intro hd q v
    unfold authoredPurposeVisibility UsdGeomImageable.GetPurposeVisibilityAttr
    rw [if_neg hd]
    cases hi : stage.isImageable q <;> cases ha : stage.hasVisibilityAPI q <;>
      cases hatt : stage.purposeVisibilityAttr q purpose with
      | none => simp
      | some attr => cases hav : attr.hasAuthoredValue <;> simp [hav]

theorem C24_effective_visibility_witness :
    UsdGeomImageable.ComputeEffectiveVisibility exampleStage ["Mesh", "A", "World"]
      UsdGeomTokens.guide none = (UsdGeomTokens.invisible, []) ∧
    UsdGeomImageable.ComputeEffectiveVisibility
      (UsdGeomImageable.MakeVisible exampleStage ["Mesh", "A", "World"] none)
      ["Mesh", "A", "World"] UsdGeomTokens.guide none = (UsdGeomTokens.visible, []) ∧
    UsdGeomImageable.ComputeEffectiveVisibility
      (UsdGeomImageable.MakeVisible exampleStage ["Mesh", "A", "World"] none)
      ["Mesh", "A", "World"] UsdGeomTokens.default_ none = (UsdGeomTokens.visible, []) :=
  ⟨(C24_effective_visibility exampleStage ["Mesh", "A", "World"] UsdGeomTokens.guide none).1
      (by decide),
   ((C24_effective_visibility
      (UsdGeomImageable.MakeVisible exampleStage ["Mesh", "A", "World"] none)
      ["Mesh", "A", "World"] UsdGeomTokens.guide none).2.2.1 (by decide) (by decide)).1
      ["A", "World"] UsdGeomTokens.visible (by decide) (by decide)
      (by
        intro r h1 h2
        rcases List.suffix_cons_iff.mp h1 with rfl | h1
        · decide
        · rcases List.suffix_cons_iff.mp h1 with rfl | h1
          · exact absurd h2 (by decide)
          · rcases List.suffix_cons_iff.mp h1 with rfl | h1
            · exact absurd h2 (by decide)
            · rw [List.suffix_nil.mp h1] at h2
              exact absurd h2 (by decide)),
   (C24_effective_visibility
      (UsdGeomImageable.MakeVisible exampleStage ["Mesh", "A", "World"] none)
      ["Mesh", "A", "World"] UsdGeomTokens.default_ none).2.1 (by decide) rfl⟩

end UsdGeom

namespace UsdRi

/-- The algorithm `std::is_sorted` accepts exactly the lists in which no
element is greater than its successor. -/
theorem is_sorted_iff (l : List ℚ) : is_sorted l = true ↔ List.Chain' (· ≤ ·) l := by
  induction l with
  | nil => simp [is_sorted]
  | cons a l ih =>
    cases l with
    | nil => simp [is_sorted]
    | cons b rest =>
      rw [is_sorted, List.chain'_cons, Bool.and_eq_true, ih]
      simp

/-- The outcome of `Validate` by its first failing check. -/
theorem Validate_eq (api : UsdRiSplineAPI) (reason : String) :
    api.Validate reason =
      if api._splineName = "" then
        (false, reason ++ "SplineAPI is not correctly initialized")
      else if api._valuesTypeName ≠ SdfValueTypeNames.FloatArray ∧
          api._valuesTypeName ≠ SdfValueTypeNames.Color3fArray then
        (false, reason ++ ("SplineAPI is configured for an unsupported value type '" ++
          api._valuesTypeName ++ "'"))
      else if api.GetInterpolationAttr = none then
        (false, reason ++ "Could not get the interpolation attribute.")
      else if api.GetPositionsAttr = none then
        (false, reason ++ "Could not get the position attribute.")
      else if GetToken api.GetInterpolationAttr "" ∉
          [UsdRiTokens.constant, UsdRiTokens.linear, UsdRiTokens.catmullRom,
            UsdRiTokens.bspline] then
        (false, reason ++ ("Interpolation attribute has invalid value '" ++
          GetToken api.GetInterpolationAttr "" ++ "'"))
      else if GetTypeName api.GetPositionsAttr ≠ SdfValueTypeNames.FloatArray then
        (false, reason ++ ("Values attribute has incorrect type; found '" ++
          GetTypeName api.GetValuesAttr ++ "' but expected '" ++
          SdfValueTypeNames.FloatArray ++ "'"))
      else if is_sorted (GetFloatArray api.GetPositionsAttr []) = false then
        (false, reason ++ "Positions attribute must be sorted in increasing order")
      else if GetTypeName api.GetValuesAttr ≠ api._valuesTypeName then
        (false, reason ++ ("Values attribute has incorrect type; found '" ++
          GetTypeName api.GetValuesAttr ++ "' but expected '" ++ api._valuesTypeName ++ "'"))
      else if (GetFloatArray api.GetPositionsAttr []).length ≠ api.numValues then
        (false, reason ++
          "Values attribute and positions attribute must have the same number of entries")
      else (true, reason) := by
  unfold UsdRiSplineAPI.Validate UsdRiSplineAPI.numValues
  by_cases h1 : api._splineName = ""
  · simp only [h1, if_true]
  · simp only [h1, if_false]
    by_cases h2 : api._valuesTypeName ≠ SdfValueTypeNames.FloatArray ∧
        api._valuesTypeName ≠ SdfValueTypeNames.Color3fArray
    · rw [if_pos h2, if_pos h2]
    · rw [if_neg h2, if_neg h2]
      cases h3 : api.GetInterpolationAttr with
      | none => simp
      | some ia =>
        cases h4 : api.GetPositionsAttr with
        | none => simp
        | some pa =>
          simp only [Option.isNone_some, Bool.false_eq_true, if_false, reduceCtorEq]
          by_cases h5 : GetToken (some ia) "" ∉
              [UsdRiTokens.constant, UsdRiTokens.linear, UsdRiTokens.catmullRom,
                UsdRiTokens.bspline]
          · rw [if_pos h5, if_pos (by simpa using h5)]
          · rw [if_neg h5, if_neg (by simpa using h5)]
            by_cases h6 : GetTypeName (some pa) ≠ SdfValueTypeNames.FloatArray
            · rw [if_pos h6, if_pos h6]
            · rw [if_neg h6, if_neg h6]
              cases h7 : is_sorted (GetFloatArray (some pa) [])
              · simp
              · simp

/-- C25: `Validate` returns true exactly when the spline name is not empty,
the configured values type is FloatArray or Color3fArray, the interpolation
and positions attributes exist, the interpolation value is one of constant,
linear, catmullRom and bspline, the positions attribute has the type
FloatArray, no position is greater than its successor, the values attribute
has the configured type, and positions and values have the same number of
entries.  On a true return `reason` is unchanged; on a false return exactly
one of the messages of `Validate` has been appended to it. -/
theorem C25_validate (api : UsdRiSplineAPI) (reason : String) :
    ((api.Validate reason).1 = true ↔
      api._splineName ≠ "" ∧
      (api._valuesTypeName = SdfValueTypeNames.FloatArray ∨
        api._valuesTypeName = SdfValueTypeNames.Color3fArray) ∧
      api.GetInterpolationAttr ≠ none ∧
      api.GetPositionsAttr ≠ none ∧
      GetToken api.GetInterpolationAttr "" ∈
        [UsdRiTokens.constant, UsdRiTokens.linear, UsdRiTokens.catmullRom,
          UsdRiTokens.bspline] ∧
      GetTypeName api.GetPositionsAttr = SdfValueTypeNames.FloatArray ∧
      List.Chain' (· ≤ ·) (GetFloatArray api.GetPositionsAttr []) ∧
      GetTypeName api.GetValuesAttr = api._valuesTypeName ∧
      (GetFloatArray api.GetPositionsAttr []).length = api.numValues) ∧
    ((api.Validate reason).1 = true → (api.Validate reason).2 = reason) ∧
    ((api.Validate reason).1 = false →
      ∃ msg ∈ api.validateMessages, (api.Validate reason).2 = reason ++ msg) := by
  have hf : ∀ s : String, ¬ ((false, s) : Bool × String).1 = true :=
    fun _ h => Bool.noConfusion h
  have ht : ∀ s : String, ¬ ((true, s) : Bool × String).1 = false :=
    fun _ h => Bool.noConfusion h
  rw [Validate_eq]
  by_cases h1 : api._splineName = ""
  · rw [if_pos h1]
    exact ⟨⟨fun h => absurd h (hf _), fun h => absurd h1 h.1⟩,
      fun h => absurd h (hf _),
      fun _ => ⟨_, by simp [UsdRiSplineAPI.validateMessages], rfl⟩⟩
  rw [if_neg h1]
  by_cases h2 : api._valuesTypeName ≠ SdfValueTypeNames.FloatArray ∧
      api._valuesTypeName ≠ SdfValueTypeNames.Color3fArray
  · rw [if_pos h2]
    refine ⟨⟨fun h => absurd h (hf _), fun h => ?_⟩, fun h => absurd h (hf _),
      fun _ => ⟨_, by simp [UsdRiSplineAPI.validateMessages], rfl⟩⟩
    rcases h.2.1 with h' | h'
    · exact absurd h' h2.1
    · exact absurd h' h2.2
  rw [if_neg h2]
  have h2' : api._valuesTypeName = SdfValueTypeNames.FloatArray ∨
      api._valuesTypeName = SdfValueTypeNames.Color3fArray := by
    by_contra hc
    push_neg at hc
    exact h2 hc
  by_cases h3 : api.GetInterpolationAttr = none
  · rw [if_pos h3]
    exact ⟨⟨fun h => absurd h (hf _), fun h => absurd h3 h.2.2.1⟩,
      fun h => absurd h (hf _),
      fun _ => ⟨_, by simp [UsdRiSplineAPI.validateMessages], rfl⟩⟩
  rw [if_neg h3]
  by_cases h4 : api.GetPositionsAttr = none
  · rw [if_pos h4]
    exact ⟨⟨fun h => absurd h (hf _), fun h => absurd h4 h.2.2.2.1⟩,
      fun h => absurd h (hf _),
      fun _ => ⟨_, by simp [UsdRiSplineAPI.validateMessages], rfl⟩⟩
  rw [if_neg h4]
  by_cases h5 : GetToken api.GetInterpolationAttr "" ∉
      [UsdRiTokens.constant, UsdRiTokens.linear, UsdRiTokens.catmullRom, UsdRiTokens.bspline]
  · rw [if_pos h5]
    exact ⟨⟨fun h => absurd h (hf _), fun h => absurd h.2.2.2.2.1 h5⟩,
      fun h => absurd h (hf _),
      fun _ => ⟨_, by simp [UsdRiSplineAPI.validateMessages], rfl⟩⟩
  rw [if_neg h5]
  by_cases h6 : GetTypeName api.GetPositionsAttr ≠ SdfValueTypeNames.FloatArray
  · rw [if_pos h6]
    exact ⟨⟨fun h => absurd h (hf _), fun h => absurd h.2.2.2.2.2.1 h6⟩,
      fun h => absurd h (hf _),
      fun _ => ⟨_, by simp [UsdRiSplineAPI.validateMessages], rfl⟩⟩
  rw [if_neg h6]
  by_cases h7 : is_sorted (GetFloatArray api.GetPositionsAttr []) = false
  · rw [if_pos h7]
    refine ⟨⟨fun h => absurd h (hf _), fun h => ?_⟩, fun h => absurd h (hf _),
      fun _ => ⟨_, by simp [UsdRiSplineAPI.validateMessages], rfl⟩⟩
    rw [(is_sorted_iff _).mpr h.2.2.2.2.2.2.1] at h7
    exact absurd h7 (by decide)
  rw [if_neg h7]
  by_cases h8 : GetTypeName api.GetValuesAttr ≠ api._valuesTypeName
  · rw [if_pos h8]
    exact ⟨⟨fun h => absurd h (hf _), fun h => absurd h.2.2.2.2.2.2.2.1 h8⟩,
      fun h => absurd h (hf _),
      fun _ => ⟨_, by simp [UsdRiSplineAPI.validateMessages], rfl⟩⟩
  rw [if_neg h8]
  by_cases h9 : (GetFloatArray api.GetPositionsAttr []).length ≠ api.numValues
  · rw [if_pos h9]
    exact ⟨⟨fun h => absurd h (hf _), fun h => absurd h.2.2.2.2.2.2.2.2 h9⟩,
      fun h => absurd h (hf _),
      fun _ => ⟨_, by simp [UsdRiSplineAPI.validateMessages], rfl⟩⟩
  rw [if_neg h9]
  refine ⟨⟨fun _ => ⟨h1, h2', h3, h4, not_not.mp h5, not_not.mp h6, ?_, not_not.mp h8,
    not_not.mp h9⟩, fun _ => rfl⟩, fun _ => rfl, fun h => absurd h (ht _)⟩
  apply (is_sorted_iff _).mp
  cases hs : is_sorted (GetFloatArray api.GetPositionsAttr [])
  · exact absurd hs h7
  · rfl

theorem C25_validate_witness :
    rampSpline.Validate "" = (true, "") ∧
    unsortedSpline.Validate "" =
      (false, "Positions attribute must be sorted in increasing order") := by
  have h := C25_validate rampSpline ""
  have hv : (rampSpline.Validate "").1 = true := by
    apply h.1.mpr
    refine ⟨by decide, Or.inl rfl, by decide, by decide, by decide, by decide, ?_, by decide,
      by decide⟩
    show List.Chain' (· ≤ ·) ([0, 1 / 2, 1 / 2] : List ℚ)
    simp only [List.chain'_cons, List.chain'_singleton, and_true]
    norm_num
  refine ⟨Prod.ext hv (h.2.1 hv), ?_⟩
  rw [Validate_eq]
  simp [unsortedSpline, rampSpline, UsdRiSplineAPI.GetInterpolationAttr,
    UsdRiSplineAPI.GetPositionsAttr, UsdRiSplineAPI.GetValuesAttr,
    UsdRiSplineAPI._GetScopedPropertyName, JoinIdentifier, UsdRiTokens.spline,
    UsdRiTokens.interpolation, UsdRiTokens.positions, UsdRiTokens.values, GetToken,
    GetTypeName, GetFloatArray, SdfValueTypeNames.FloatArray, SdfValueTypeNames.Color3fArray,
    UsdRiTokens.linear, UsdRiTokens.constant, UsdRiTokens.catmullRom, UsdRiTokens.bspline,
    is_sorted]
  norm_num

end UsdRi
